import Mathlib

/-! TrinityCore: aura bookkeeping, temporary summons and phasing.

A shallow embedding of `SpellAuras.h`, `TemporarySummon.cpp` and
`PhasingHandler.cpp`.  Machine integers are `Nat`/`Int`; an `ASSERT` that fails and
a null pointer that is dereferenced are values of `Except Fault`.
-/

namespace TrinityCore

/-! ## Common vocabulary -/

/-- Object identifiers (`ObjectGuid`); `0` is `ObjectGuid::Empty`. -/
abbrev ObjectGuid := Nat

/-- The ways in which a member function can abort instead of returning. -/
inductive Fault where
  | assertFailed
  | nullDeref
  | invalidPointer
  | outOfFuel
deriving DecidableEq, Repr

/-- Modelled from the spec: the constant `MAX_SPELL_EFFECTS`, whose definition is
declared outside `SpellAuras.h`.  The header sizes the slot array as
`AuraEffect* m_effects[3]` and the spec speaks of slots `0..N-1` for a fixed small
`N`. -/
def MAX_SPELL_EFFECTS : Nat := 3

/-- Update interval of the target map, `#define UPDATE_TARGET_MAP_INTERVAL 500`. -/
def UPDATE_TARGET_MAP_INTERVAL : Int := 500

/-- Modelled from the spec: the enumerators of `AuraRemoveFlags`, declared in
`SpellAuraDefines.h`.  `ByDefault` is the default argument used throughout
`SpellAuras.h`; `Expired` is the removal reason the spec names; every other
enumerator is `Other`. -/
inductive AuraRemoveFlags where
  | ByDefault
  | Expired
  | Other (bits : Nat)
deriving DecidableEq, Repr

/-- Modelled from the spec: the three effect-index bits of the application flags
(`AFLAG_EFF_INDEX_0 | AFLAG_EFF_INDEX_1 | AFLAG_EFF_INDEX_2`), declared in
`SpellAuraDefines.h`.  `AuraApplication::HasEffect` tests bit `1 << effect` of the
same flags for `effect < 3`, so the three bits are `1`, `2` and `4`. -/
def AFLAG_EFF_INDEX_ALL : Nat := 7

/-! ## `AuraApplication` -/

/-- One `AuraApplication`: the binding of an aura to a target. -/
structure AuraApplication where
  target : ObjectGuid
  removeMode : Option AuraRemoveFlags
  slot : Nat
  flags : Nat
  effectsToApply : Nat
  needClientUpdate : Bool
deriving DecidableEq, Repr

/-- The accessor `AuraApplication::GetTarget`. -/
def AuraApplication.GetTarget (app : AuraApplication) : ObjectGuid := app.target

/-- The accessor `AuraApplication::GetEffectMask`:
`_flags & (AFLAG_EFF_INDEX_0 | AFLAG_EFF_INDEX_1 | AFLAG_EFF_INDEX_2)`. -/
def AuraApplication.GetEffectMask (app : AuraApplication) : Nat :=
  app.flags &&& AFLAG_EFF_INDEX_ALL

/-- The member `AuraApplication::HasEffect`:
`ASSERT(effect < MAX_SPELL_EFFECTS); return (_flags & (1 << effect)) != 0;`. -/
def AuraApplication.HasEffect (app : AuraApplication) (effect : Nat) : Except Fault Bool :=
  if effect < MAX_SPELL_EFFECTS then
    .ok ((app.flags &&& (1 <<< effect)) != 0)
  else
    .error Fault.assertFailed

/-! ## `std::map` -/

/-- An ordered map with unique keys, as `std::map<ObjectGuid, V>`: the entries in
increasing key order. -/
abbrev StdMap (V : Type) := List (ObjectGuid × V)

/-- The lookup `std::map::find`: the mapped value, or `none` for `end()`. -/
def StdMap.find {V : Type} : StdMap V → ObjectGuid → Option V
  | [], _ => none
  | (k, v) :: rest, key => if k = key then some v else StdMap.find rest key

/-- The insertion `std::map::emplace`: adds the entry at its place in key order
unless the key is already present. -/
def StdMap.emplace {V : Type} : StdMap V → ObjectGuid → V → StdMap V
  | [], key, val => [(key, val)]
  | (k, v) :: rest, key, val =>
    if key < k then (key, val) :: (k, v) :: rest
    else if key = k then (k, v) :: rest
    else (k, v) :: StdMap.emplace rest key val

/-- The assignment `m[key] = val`: inserts the entry or overwrites the mapped
value of the existing one. -/
def StdMap.assign {V : Type} : StdMap V → ObjectGuid → V → StdMap V
  | [], key, val => [(key, val)]
  | (k, v) :: rest, key, val =>
    if key < k then (key, val) :: (k, v) :: rest
    else if key = k then (k, val) :: rest
    else (k, v) :: StdMap.assign rest key val

/-- The removal `std::map::erase(key)`. -/
def StdMap.erase {V : Type} : StdMap V → ObjectGuid → StdMap V
  | [], _ => []
  | (k, v) :: rest, key => if k = key then rest else (k, v) :: StdMap.erase rest key

/-- The mutating members of `std::map` that an aura can use on its application
map. -/
inductive MapOp (V : Type) where
  | emplace (key : ObjectGuid) (val : V)
  | assign (key : ObjectGuid) (val : V)
  | erase (key : ObjectGuid)
  | clear

/-- One mutation of a map. -/
def StdMap.step {V : Type} (m : StdMap V) : MapOp V → StdMap V
  | .emplace key val => StdMap.emplace m key val
  | .assign key val => StdMap.assign m key val
  | .erase key => StdMap.erase m key
  | .clear => []

/-- How many entries of the map are bound to `key`. -/
def StdMap.countKey {V : Type} (m : StdMap V) (key : ObjectGuid) : Nat :=
  (m.filter (fun e => decide (e.1 = key))).length

/-! ## `Aura` -/

/-- An effect slot (`AuraEffect`); only its presence matters here. -/
structure AuraEffect where
  effIndex : Nat
  amount : Int
deriving DecidableEq, Repr

/-- What an aura did to the outside world, in order. -/
inductive AuraEvent where
  | applied (target : ObjectGuid) (effMask : Nat)
  | unapplied (target : ObjectGuid) (effMask : Nat)
  | removed (removeMode : AuraRemoveFlags)
deriving DecidableEq, Repr

/-- The data members of `Aura` (`ApplicationMap` is
`std::map<ObjectGuid, AuraApplication*>`), with the trace of what it did. -/
structure Aura where
  m_casterGuid : ObjectGuid
  m_maxDuration : Int
  m_duration : Int
  m_rolledOverDuration : Int
  m_timeCla : Int
  m_updateTargetMapInterval : Int
  m_casterLevel : Nat
  m_procCharges : Nat
  m_stackAmount : Nat
  m_effects : Fin 3 → Option AuraEffect
  m_applications : StdMap AuraApplication
  m_isRemoved : Bool
  m_isLimitedTarget : Bool
  m_isUsingCharges : Bool
  maxCharges : Nat
  trace : List AuraEvent

/-- The accessor `Aura::GetMaxDuration`. -/
def Aura.GetMaxDuration (a : Aura) : Int := a.m_maxDuration

/-- The mutator `Aura::SetMaxDuration`. -/
def Aura.SetMaxDuration (a : Aura) (duration : Int) : Aura :=
  { a with m_maxDuration := duration }

/-- The accessor `Aura::GetDuration`. -/
def Aura.GetDuration (a : Aura) : Int := a.m_duration

/-- The predicate `Aura::IsPermanent`: `GetMaxDuration() == -1`. -/
def Aura.IsPermanent (a : Aura) : Bool := a.GetMaxDuration == -1

/-- The accessor `Aura::GetCharges`. -/
def Aura.GetCharges (a : Aura) : Nat := a.m_procCharges

/-- The accessor `Aura::IsRemoved`. -/
def Aura.IsRemoved (a : Aura) : Bool := a.m_isRemoved

/-- The accessor `Aura::IsUsingCharges`. -/
def Aura.IsUsingCharges (a : Aura) : Bool := a.m_isUsingCharges

/-- The member `Aura::GetEffect`:
`ASSERT (effIndex < MAX_SPELL_EFFECTS); return m_effects[effIndex];`. -/
def Aura.GetEffect (a : Aura) (effIndex : Nat) : Except Fault (Option AuraEffect) :=
  if h : effIndex < MAX_SPELL_EFFECTS then
    .ok (a.m_effects ⟨effIndex, h⟩)
  else
    .error Fault.assertFailed

/-- The member `Aura::HasEffect`: `GetEffect(effIndex) != nullptr`. -/
def Aura.HasEffect (a : Aura) (effIndex : Nat) : Except Fault Bool :=
  match a.GetEffect effIndex with
  | .ok e => .ok e.isSome
  | .error f => .error f

/-- The member `Aura::GetEffectMask`:
`uint8 effMask = 0; for (uint8 i = 0; i < MAX_SPELL_EFFECTS; ++i) if (m_effects[i])
effMask |= 1<<i; return effMask;`. The mask is a `uint8`, so each assignment is taken
modulo `256`. -/
def Aura.GetEffectMask (a : Aura) : Nat :=
  (List.range MAX_SPELL_EFFECTS).foldl (fun effMask i =>
    if h : i < MAX_SPELL_EFFECTS then
      if (a.m_effects ⟨i, h⟩).isSome then (effMask ||| (1 <<< i)) % 256 else effMask
    else effMask) 0

/-- The accessor `Aura::GetApplicationOfTarget`: `m_applications.find(guid)`, the
application when the iterator is not `end()` and `nullptr` otherwise. -/
def Aura.GetApplicationOfTarget (a : Aura) (guid : ObjectGuid) : Option AuraApplication :=
  StdMap.find a.m_applications guid

/-- The predicate `Aura::IsAppliedOnTarget`. -/
def Aura.IsAppliedOnTarget (a : Aura) (guid : ObjectGuid) : Bool :=
  (StdMap.find a.m_applications guid).isSome

/-- A freshly constructed aura: the application map is default-constructed, that
is, empty. -/
def Aura.fresh (a : Aura) : Aura := { a with m_applications := [] }

/-- The aura after its application map went through the given mutations. -/
def Aura.mutateApplications (a : Aura) (ops : List (MapOp AuraApplication)) : Aura :=
  { a with m_applications := ops.foldl StdMap.step a.m_applications }

/-! ## Aura life cycle, modelled from the spec

The bodies of these members are in `SpellAuras.cpp`; the definitions below follow
sections 4.1 and 4.3 of the spec. -/

/-- Modelled from the spec: the body of `Aura::Remove` (defined in
`SpellAuras.cpp`).  "Idempotent guard on `removed`; unapplies from every current
target [...].  No further target-map mutation is permitted afterward." -/
def Aura.Remove (a : Aura) (removeMode : AuraRemoveFlags) : Aura :=
  if a.m_isRemoved then a
  else
    { a with
      m_isRemoved := true
      m_applications := []
      trace := a.trace
        ++ a.m_applications.map (fun e => AuraEvent.unapplied e.1 e.2.GetEffectMask)
        ++ [AuraEvent.removed removeMode] }

/-- The eligible effect mask of a target in the output of the target resolver
(`FillTargetMap`, a map from unit to mask); `0` when the target is absent. -/
def eligibleMask (newTargets : List (ObjectGuid × Nat)) (target : ObjectGuid) : Nat :=
  (newTargets.lookup target).getD 0

/-- The application with its three effect bits replaced by `effMask`. -/
def AuraApplication.withEffectMask (app : AuraApplication) (effMask : Nat) : AuraApplication :=
  { app with flags := app.flags / 8 * 8 + effMask % 8 }

/-- Modelled from the spec: the `Application` created for a newly eligible target
(the constructor is defined in `SpellAuras.cpp`).  The flags are computed once at
creation time: the effect mask in the three low bits, and the other flag bits
(positivity, self-cast) given by `otherFlags`. -/
def AuraApplication.create (otherFlags : ObjectGuid → Nat) (target : ObjectGuid) (effMask : Nat) :
    AuraApplication :=
  { target := target
    removeMode := none
    slot := 0
    flags := otherFlags target * 8 + effMask
    effectsToApply := effMask
    needClientUpdate := false }

/-- Modelled from the spec: the unapply half of the diff of section 4.3.  A
target of the live map that is absent from the new targets, or whose mask is now
empty, is unapplied in full; a target whose mask changed loses the bits that are
no longer eligible. -/
def unapplyOps (apps : StdMap AuraApplication) (newTargets : List (ObjectGuid × Nat)) :
    List AuraEvent :=
  apps.filterMap (fun e =>
    let old := e.2.GetEffectMask
    let new := eligibleMask newTargets e.1
    if new = 0 then some (AuraEvent.unapplied e.1 old)
    else if old = new then none
    else if old &&& (old ^^^ new) = 0 then none
    else some (AuraEvent.unapplied e.1 (old &&& (old ^^^ new))))

/-- Modelled from the spec: the apply half of the diff of section 4.3.  A newly
present target is applied with its mask; a target whose mask changed gains the
bits that were added. -/
def applyOps (apps : StdMap AuraApplication) (newTargets : List (ObjectGuid × Nat)) :
    List AuraEvent :=
  newTargets.filterMap (fun t =>
    if t.2 = 0 then none
    else
      match StdMap.find apps t.1 with
      | none => some (AuraEvent.applied t.1 t.2)
      | some app =>
        let old := app.GetEffectMask
        if old = t.2 then none
        else if t.2 &&& (t.2 ^^^ old) = 0 then none
        else some (AuraEvent.applied t.1 (t.2 &&& (t.2 ^^^ old))))

/-- Modelled from the spec: the live map after the diff of section 4.3 was
executed.  Applications of targets that are no longer eligible are gone, the
remaining ones carry the new mask, and every newly present target has a new
application. -/
def appliedMap (otherFlags : ObjectGuid → Nat) (apps : StdMap AuraApplication)
    (newTargets : List (ObjectGuid × Nat)) : StdMap AuraApplication :=
  let kept := apps.filterMap (fun e =>
    if eligibleMask newTargets e.1 = 0 then none
    else some (e.1, e.2.withEffectMask (eligibleMask newTargets e.1)))
  newTargets.foldl (fun m t =>
    if t.2 = 0 then m else StdMap.emplace m t.1 (AuraApplication.create otherFlags t.1 t.2)) kept

/-- Modelled from the spec: the operations of one Diff-Apply pass (the body of
`Aura::UpdateTargetMap` is defined in `SpellAuras.cpp`).  All unapplies come
before any apply; a removed aura skips the target computation and unapplies every
current target. -/
def Aura.diffOps (a : Aura) (newTargets : List (ObjectGuid × Nat)) : List AuraEvent :=
  if a.m_isRemoved then
    a.m_applications.map (fun e => AuraEvent.unapplied e.1 e.2.GetEffectMask)
  else
    unapplyOps a.m_applications newTargets ++ applyOps a.m_applications newTargets

/-- Modelled from the spec: one Diff-Apply pass, `Aura::UpdateTargetMap` (defined
in `SpellAuras.cpp`), run on the output `newTargets` of the target resolver. -/
def Aura.UpdateTargetMap (a : Aura) (otherFlags : ObjectGuid → Nat)
    (newTargets : List (ObjectGuid × Nat)) : Aura :=
  { a with
    m_applications :=
      if a.m_isRemoved then [] else appliedMap otherFlags a.m_applications newTargets
    trace := a.trace ++ a.diffOps newTargets }

/-- Modelled from the spec: the body of `Aura::Update` (defined in
`SpellAuras.cpp`).  "If not permanent, decrement duration; on `duration ≤ 0`, call
`Remove(Expired)` and stop further processing this tick.  Independently decrement a
periodic recompute timer; when it elapses, re-run TargetResolver + Diff-Apply and
reset the timer."  The arithmetic is the one of the spec, on integers without a
width; `newTargets` is what the target resolver returns at this tick. -/
def Aura.Update (a : Aura) (otherFlags : ObjectGuid → Nat) (diff : Nat)
    (newTargets : List (ObjectGuid × Nat)) : Aura :=
  let a1 := if a.IsPermanent then a else { a with m_duration := a.m_duration - diff }
  if !a.IsPermanent && decide (a1.m_duration ≤ 0) then
    a1.Remove AuraRemoveFlags.Expired
  else
    let a2 := { a1 with m_updateTargetMapInterval := a1.m_updateTargetMapInterval - diff }
    if a2.m_updateTargetMapInterval ≤ 0 then
      { a2.UpdateTargetMap otherFlags newTargets with
        m_updateTargetMapInterval := UPDATE_TARGET_MAP_INTERVAL }
    else a2

/-- A run of world ticks: each tick calls `Update` with its time step and the
targets that are eligible at that moment. -/
def Aura.runUpdates (a : Aura) (otherFlags : ObjectGuid → Nat)
    (ticks : List (Nat × List (ObjectGuid × Nat))) : Aura :=
  ticks.foldl (fun s t => s.Update otherFlags t.1 t.2) a

/-- Modelled from the spec: the body of `Aura::ModCharges` (defined in
`SpellAuras.cpp`).  "Adjusts charge count bounded to `[0, max]`; reaching zero
while `usingCharges` is true triggers removal." -/
def Aura.ModCharges (a : Aura) (num : Int) (removeMode : AuraRemoveFlags) : Aura :=
  let charges : Nat := (min (max ((a.m_procCharges : Int) + num) 0) (a.maxCharges : Int)).toNat
  let a1 := { a with m_procCharges := charges }
  if charges = 0 ∧ a.m_isUsingCharges = true then a1.Remove removeMode else a1

/-- The call `ModCharges(num)`: the declaration
`bool ModCharges(int32 num, AuraRemoveFlags removeMode = AuraRemoveFlags::ByDefault)`
supplies `ByDefault` for the omitted argument. -/
def Aura.ModChargesByDefault (a : Aura) (num : Int) : Aura :=
  a.ModCharges num AuraRemoveFlags.ByDefault

/-- The member `Aura::DropCharge`: `return ModCharges(-1, removeMode);`. -/
def Aura.DropCharge (a : Aura) (removeMode : AuraRemoveFlags) : Aura :=
  a.ModCharges (-1) removeMode

/-- The number of removals recorded in a trace. -/
def removalCount (tr : List AuraEvent) : Nat :=
  (tr.filter (fun e => match e with
    | AuraEvent.removed _ => true
    | _ => false)).length

/-- An aura for the examples: five seconds of lifetime, two charges, one application on target `7` with mask `{0,1}`. -/
def exampleAura : Aura :=
  { m_casterGuid := 1
    m_maxDuration := 5000
    m_duration := 5000
    m_rolledOverDuration := 0
    m_timeCla := 0
    m_updateTargetMapInterval := 500
    m_casterLevel := 80
    m_procCharges := 2
    m_stackAmount := 1
    m_effects := fun i => if i.val < 2 then some { effIndex := i.val, amount := 10 } else none
    m_applications := [(7, AuraApplication.create (fun _ => 0) 7 3)]
    m_isRemoved := false
    m_isLimitedTarget := false
    m_isUsingCharges := true
    maxCharges := 2
    trace := [] }

/-! ## `TempSummon` -/

/-- Dereferencing a pointer: a null pointer is a fault. -/
def deref {α : Type} : Option α → Except Fault α
  | some x => .ok x
  | none => .error Fault.nullDeref

/-- The object kinds that `GetTypeId()` tells apart in these sources. -/
inductive TypeID where
  | TYPEID_UNIT
  | TYPEID_PLAYER
  | TYPEID_GAMEOBJECT
deriving DecidableEq, Repr

/-- The despawn types named in `TempSummon::Update`; any other value of the
enumeration is `UNKNOWN`. -/
inductive TempSummonType where
  | TEMPSUMMON_MANUAL_DESPAWN
  | TEMPSUMMON_DEAD_DESPAWN
  | TEMPSUMMON_TIMED_DESPAWN
  | TEMPSUMMON_TIMED_DESPAWN_OUT_OF_COMBAT
  | TEMPSUMMON_CORPSE_TIMED_DESPAWN
  | TEMPSUMMON_CORPSE_DESPAWN
  | TEMPSUMMON_TIMED_OR_CORPSE_DESPAWN
  | TEMPSUMMON_TIMED_OR_DEAD_DESPAWN
  | UNKNOWN (value : Nat)
deriving DecidableEq, Repr

/-- The death states of a unit. -/
inductive DeathState where
  | ALIVE
  | JUST_DIED
  | CORPSE
  | DEAD
  | JUST_RESPAWNED
deriving DecidableEq, Repr

/-- What the summon code reads from a `SummonPropertiesEntry`. -/
structure SummonPropertiesEntry where
  UseSummonerFaction : Bool
  UseCreatureLevel : Bool
  Faction : Nat
  Slot : Int
deriving DecidableEq, Repr

/-- What the summon code reads from the summoner (`Unit* owner`). -/
structure SummonerUnit where
  guid : ObjectGuid
  typeId : TypeID
  IsAIEnabled : Bool
  faction : Nat
  level : Nat
  guildData : ObjectGuid
  m_SummonSlot : Nat → ObjectGuid

/-- The events a summon can put on its timeline. -/
inductive BasicEvent where
  | ForcedUnsummonDelayEvent
deriving DecidableEq, Repr

/-- What a summon did to the outside world, in order. -/
inductive SummonEffect where
  | PetRemove
  | JustSummoned (summoner : ObjectGuid)
  | IsSummonedBy (summoner : ObjectGuid)
  | SummonedCreatureDespawn (summoner : ObjectGuid)
  | AddObjectToRemoveList
  | SummonSlotClear (summoner : ObjectGuid) (slot : Int)
  | CreatureRemoveFromWorld
deriving DecidableEq, Repr

/-- The data members of `TempSummon` and of its base classes that the code reads or
writes, with the trace of what it did. -/
structure TempSummon where
  guid : ObjectGuid
  m_Properties : Option SummonPropertiesEntry
  m_type : TempSummonType
  m_timer : Nat
  m_lifetime : Nat
  m_summonerGUID : ObjectGuid
  m_deathState : DeathState
  inCombat : Bool
  isPet : Bool
  inWorld : Bool
  isTrigger : Bool
  spell0 : Nat
  m_ControlledByPlayer : Bool
  faction : Nat
  level : Nat
  guildData : ObjectGuid
  guildDataFlag : Nat
  IsAIEnabled : Bool
  m_Events : List (Nat × BasicEvent)
  eventTime : Nat
  effects : List SummonEffect
deriving DecidableEq, Repr

/-- The code outside `TemporarySummon.cpp` that the summon calls into. -/
structure SummonEnv where
  GetUnit : ObjectGuid → Option SummonerUnit
  PetRemove : TempSummon → TempSummon
  CreatureRemoveFromWorld : TempSummon → TempSummon

/-- Modelled from the spec: the default argument of `UnSummon`, declared in
`TemporarySummon.h`.  The spec has a delay only where one "was requested", and
`Update` calls `UnSummon()` to despawn at once, so the call without an argument
asks for no delay. -/
def UnSummonDefaultMsTime : Nat := 0

/-- Appends an effect to the trace of the summon. -/
def TempSummon.emit (s : TempSummon) (e : SummonEffect) : TempSummon :=
  { s with effects := s.effects ++ [e] }

/-- The member `TempSummon::GetSummoner`:
`m_summonerGUID ? ObjectAccessor::GetUnit(*this, m_summonerGUID) : nullptr`. -/
def TempSummon.GetSummoner (env : SummonEnv) (s : TempSummon) : Option SummonerUnit :=
  if s.m_summonerGUID ≠ 0 then env.GetUnit s.m_summonerGUID else none

/-- Modelled from the spec: `EventProcessor::CalculateTime`, called through
`m_Events`: the point of the "future-tick timeline" that lies `t_offset` after the
current time. -/
def TempSummon.CalculateTime (s : TempSummon) (t_offset : Nat) : Nat :=
  s.eventTime + t_offset

/-- Modelled from the spec: `EventProcessor::AddEvent`, called through `m_Events`,
which schedules the event on the timeline of the entity. -/
def TempSummon.AddEvent (s : TempSummon) (e : BasicEvent) (e_time : Nat) : TempSummon :=
  { s with m_Events := s.m_Events ++ [(e_time, e)] }

/-- The member `TempSummon::InitializeBeforeAddToMap`. -/
def TempSummon.InitializeBeforeAddToMap (env : SummonEnv) (s : TempSummon) (duration : Nat) :
    Except Fault TempSummon := do
  -- ASSERT(!IsPet());
  if s.isPet then throw Fault.assertFailed
  let s := { s with m_timer := duration, m_lifetime := duration }
  let s :=
    if s.m_type = TempSummonType.TEMPSUMMON_MANUAL_DESPAWN then
      { s with m_type := if duration = 0 then TempSummonType.TEMPSUMMON_DEAD_DESPAWN
                         else TempSummonType.TEMPSUMMON_TIMED_DESPAWN }
    else s
  let owner := s.GetSummoner env
  -- Possessed summons
  let s ←
    if owner.isSome && s.isTrigger && s.spell0 != 0 then do
      let o ← deref owner
      if o.typeId = TypeID.TYPEID_PLAYER then pure { s with m_ControlledByPlayer := true }
      else pure s
    else pure s
  match s.m_Properties with
  | none => pure s
  | some props =>
    -- Initialize faction
    let s ←
      if owner.isSome && props.UseSummonerFaction then do
        let o ← deref owner
        pure { s with faction := o.faction }
      else if props.Faction ≠ 0 then pure { s with faction := props.Faction }
      else pure s
    -- Initialize level
    let s ←
      if owner.isSome && !props.UseCreatureLevel then do
        let o ← deref owner
        pure { s with level := o.level }
      else pure s
    -- Summons inherit their guild guid from their summoner
    if owner.isSome then do
      let o ← deref owner
      if o.guildData ≠ 0 then
        let guildGUID := o.guildData
        if guildGUID ≠ 0 then pure { s with guildData := o.guildData, guildDataFlag := 1 }
        else pure s
      else pure s
    else pure s

/-- The member `TempSummon::InitializeAfterAddToMap`. -/
def TempSummon.InitializeAfterAddToMap (env : SummonEnv) (s : TempSummon) :
    Except Fault TempSummon := do
  let owner := s.GetSummoner env
  if owner.isSome then do
    let o ← deref owner
    let s :=
      if o.typeId = TypeID.TYPEID_UNIT ∧ o.IsAIEnabled = true then
        s.emit (SummonEffect.JustSummoned o.guid)
      else s
    if s.IsAIEnabled then pure (s.emit (SummonEffect.IsSummonedBy o.guid)) else pure s
  else pure s

/-- The member `TempSummon::SetTempSummonType`. -/
def TempSummon.SetTempSummonType (s : TempSummon) (type : TempSummonType) : TempSummon :=
  { s with m_type := type }

/-- The member `TempSummon::UnSummon`. -/
def TempSummon.UnSummon (env : SummonEnv) (s : TempSummon) (msTime : Nat) :
    Except Fault TempSummon := do
  if msTime ≠ 0 then
    pure (s.AddEvent BasicEvent.ForcedUnsummonDelayEvent (s.CalculateTime msTime))
  else if s.isPet then
    -- ((Pet*)this)->Remove(PET_SAVE_DISMISS); ASSERT(!IsInWorld());
    let s := env.PetRemove (s.emit SummonEffect.PetRemove)
    if s.inWorld then throw Fault.assertFailed else pure s
  else
    let owner := s.GetSummoner env
    let s ←
      if owner.isSome then do
        let o ← deref owner
        if o.typeId = TypeID.TYPEID_UNIT ∧ o.IsAIEnabled = true then
          pure (s.emit (SummonEffect.SummonedCreatureDespawn o.guid))
        else pure s
      else pure s
    pure (s.emit SummonEffect.AddObjectToRemoveList)

/-- The member `ForcedUnsummonDelayEvent::Execute`: `m_owner.UnSummon(); return true;`. -/
def ForcedUnsummonDelayEvent.Execute (env : SummonEnv) (m_owner : TempSummon) :
    Except Fault (TempSummon × Bool) := do
  let s ← m_owner.UnSummon env UnSummonDefaultMsTime
  pure (s, true)

/-- The member `TempSummon::RemoveFromWorld`. -/
def TempSummon.RemoveFromWorld (env : SummonEnv) (s : TempSummon) : Except Fault TempSummon := do
  if !s.inWorld then pure s
  else
    let s ←
      match s.m_Properties with
      | none => pure s
      | some props =>
        let slot := props.Slot
        if slot > 0 then
          let owner := s.GetSummoner env
          if owner.isSome then do
            let o ← deref owner
            if o.m_SummonSlot slot.toNat = s.guid then
              pure (s.emit (SummonEffect.SummonSlotClear o.guid slot))
            else pure s
          else pure s
        else pure s
    pure (env.CreatureRemoveFromWorld (s.emit SummonEffect.CreatureRemoveFromWorld))

/-- A summoner for the examples: a creature with an enabled AI. -/
def exampleSummoner : SummonerUnit :=
  { guid := 5, typeId := TypeID.TYPEID_UNIT, IsAIEnabled := true, faction := 14, level := 80,
    guildData := 0, m_SummonSlot := fun _ => 0 }

/-- An environment for the examples: only the unit `5` resolves; `Pet::Remove` and
`Creature::RemoveFromWorld` take the object out of the world. -/
def exampleSummonEnv : SummonEnv :=
  { GetUnit := fun g => if g = 5 then some exampleSummoner else none
    PetRemove := fun s => { s with inWorld := false }
    CreatureRemoveFromWorld := fun s => { s with inWorld := false } }

/-- A summon for the examples: in the world, summoned by the unit `9`, which no
longer resolves. -/
def exampleSummon : TempSummon :=
  { guid := 11
    m_Properties := some { UseSummonerFaction := true, UseCreatureLevel := false, Faction := 35,
                           Slot := 1 }
    m_type := TempSummonType.TEMPSUMMON_MANUAL_DESPAWN
    m_timer := 0
    m_lifetime := 0
    m_summonerGUID := 9
    m_deathState := DeathState.ALIVE
    inCombat := false
    isPet := false
    inWorld := true
    isTrigger := true
    spell0 := 1
    m_ControlledByPlayer := false
    faction := 0
    level := 1
    guildData := 0
    guildDataFlag := 0
    IsAIEnabled := true
    m_Events := []
    eventTime := 1000
    effects := [] }

/-- The summon of the examples with a summoner that resolves. -/
def exampleOwnedSummon : TempSummon := { exampleSummon with m_summonerGUID := 5 }

/-- The first stage of `InitializeBeforeAddToMap` after the timer and the type are
set: the block "Possessed summons". -/
def initPossessed (owner : Option SummonerUnit) (s : TempSummon) : Except Fault TempSummon :=
  if owner.isSome && s.isTrigger && s.spell0 != 0 then do
    let o ← deref owner
    if o.typeId = TypeID.TYPEID_PLAYER then pure { s with m_ControlledByPlayer := true }
    else pure s
  else pure s

/-- The stage "Initialize faction" of `InitializeBeforeAddToMap`. -/
def initFaction (owner : Option SummonerUnit) (props : SummonPropertiesEntry) (s : TempSummon) :
    Except Fault TempSummon :=
  if owner.isSome && props.UseSummonerFaction then do
    let o ← deref owner
    pure { s with faction := o.faction }
  else if props.Faction ≠ 0 then pure { s with faction := props.Faction }
  else pure s

/-- The stage "Initialize level" of `InitializeBeforeAddToMap`. -/
def initLevel (owner : Option SummonerUnit) (props : SummonPropertiesEntry) (s : TempSummon) :
    Except Fault TempSummon :=
  if owner.isSome && !props.UseCreatureLevel then do
    let o ← deref owner
    pure { s with level := o.level }
  else pure s

/-- The last stage of `InitializeBeforeAddToMap`: the guild data of the
summoner. -/
def initGuild (owner : Option SummonerUnit) (s : TempSummon) : Except Fault TempSummon :=
  if owner.isSome then do
    let o ← deref owner
    if o.guildData ≠ 0 then
      let guildGUID := o.guildData
      if guildGUID ≠ 0 then pure { s with guildData := o.guildData, guildDataFlag := 1 }
      else pure s
    else pure s
  else pure s

/-- The stages of `InitializeBeforeAddToMap` that follow the assertion and the
assignments to timer, lifetime and type, in the order of the source. -/
def initStages (owner : Option SummonerUnit) (s : TempSummon) : Except Fault TempSummon := do
  let s ← initPossessed owner s
  match s.m_Properties with
  | none => pure s
  | some props =>
    let s ← initFaction owner props s
    let s ← initLevel owner props s
    initGuild owner s

/-- The summon after the assignments `m_timer = duration; m_lifetime = duration;`
and the resolution of the default type in `InitializeBeforeAddToMap`. -/
def TempSummon.withDuration (s : TempSummon) (duration : Nat) : TempSummon :=
  if s.m_type = TempSummonType.TEMPSUMMON_MANUAL_DESPAWN then
    { s with
      m_timer := duration
      m_lifetime := duration
      m_type := if duration = 0 then TempSummonType.TEMPSUMMON_DEAD_DESPAWN
                else TempSummonType.TEMPSUMMON_TIMED_DESPAWN }
  else { s with m_timer := duration, m_lifetime := duration }

/-- Two states of a summon agree on what the despawn automaton reads and writes:
type, timer, lifetime, being a pet, the summoner, the properties, the trace and the
timeline. -/
def SameDespawnState (a b : TempSummon) : Prop :=
  a.m_type = b.m_type ∧ a.m_timer = b.m_timer ∧ a.m_lifetime = b.m_lifetime ∧
  a.isPet = b.isPet ∧ a.m_summonerGUID = b.m_summonerGUID ∧ a.m_Properties = b.m_Properties ∧
  a.effects = b.effects ∧ a.m_Events = b.m_Events

/-! ### The despawn automaton, `TempSummon::Update` -/

/-- The difference `a - b` of two `uint32` values, as `m_timer -= diff` computes it:
modulo `2^32`. -/
def uint32_sub (a b : Nat) : Nat := (a + 4294967296 - b % 4294967296) % 4294967296

/-- What the base-class call `Creature::Update(diff)` (defined in `Creature.cpp`)
leaves for `TempSummon::Update` to read: the death state, `IsInCombat()` and
`IsAlive()`.  The timer, the lifetime and the type are private to `TempSummon`. -/
structure CreatureTick where
  m_deathState : DeathState
  inCombat : Bool
  IsAlive : Bool
deriving DecidableEq, Repr

/-- The summon after the base-class call `Creature::Update(diff)`. -/
def TempSummon.afterCreatureUpdate (s : TempSummon) (base : CreatureTick) : TempSummon :=
  { s with m_deathState := base.m_deathState, inCombat := base.inCombat }

/-- The member `TempSummon::Update`; `base` is what `Creature::Update(diff)`
leaves. -/
def TempSummon.Update (env : SummonEnv) (s : TempSummon) (diff : Nat) (base : CreatureTick) :
    Except Fault TempSummon :=
  -- Creature::Update(diff);
  let s := s.afterCreatureUpdate base
  if s.m_deathState = DeathState.DEAD then
    s.UnSummon env UnSummonDefaultMsTime
  else
    match s.m_type with
    | TempSummonType.TEMPSUMMON_MANUAL_DESPAWN => pure s
    | TempSummonType.TEMPSUMMON_DEAD_DESPAWN => pure s
    | TempSummonType.TEMPSUMMON_TIMED_DESPAWN =>
      if s.m_timer ≤ diff then s.UnSummon env UnSummonDefaultMsTime
      else pure { s with m_timer := uint32_sub s.m_timer diff }
    | TempSummonType.TEMPSUMMON_TIMED_DESPAWN_OUT_OF_COMBAT =>
      if !s.inCombat then
        if s.m_timer ≤ diff then s.UnSummon env UnSummonDefaultMsTime
        else pure { s with m_timer := uint32_sub s.m_timer diff }
      else if s.m_timer ≠ s.m_lifetime then pure { s with m_timer := s.m_lifetime }
      else pure s
    | TempSummonType.TEMPSUMMON_CORPSE_TIMED_DESPAWN =>
      if s.m_deathState = DeathState.CORPSE then
        if s.m_timer ≤ diff then s.UnSummon env UnSummonDefaultMsTime
        else pure { s with m_timer := uint32_sub s.m_timer diff }
      else pure s
    | TempSummonType.TEMPSUMMON_CORPSE_DESPAWN =>
      -- if m_deathState is DEAD, CORPSE was skipped
      if s.m_deathState = DeathState.CORPSE then s.UnSummon env UnSummonDefaultMsTime
      else pure s
    | TempSummonType.TEMPSUMMON_TIMED_OR_CORPSE_DESPAWN =>
      if s.m_deathState = DeathState.CORPSE then s.UnSummon env UnSummonDefaultMsTime
      else if !s.inCombat then
        if s.m_timer ≤ diff then s.UnSummon env UnSummonDefaultMsTime
        else pure { s with m_timer := uint32_sub s.m_timer diff }
      else if s.m_timer ≠ s.m_lifetime then pure { s with m_timer := s.m_lifetime }
      else pure s
    | TempSummonType.TEMPSUMMON_TIMED_OR_DEAD_DESPAWN =>
      if !s.inCombat && base.IsAlive then
        if s.m_timer ≤ diff then s.UnSummon env UnSummonDefaultMsTime
        else pure { s with m_timer := uint32_sub s.m_timer diff }
      else if s.m_timer ≠ s.m_lifetime then pure { s with m_timer := s.m_lifetime }
      else pure s
    | TempSummonType.UNKNOWN _ =>
      -- default: UnSummon(); TC_LOG_ERROR(...)
      s.UnSummon env UnSummonDefaultMsTime

/-- A run of world ticks: each tick calls `Update` with its time step, after the
base class left the given death and combat state. -/
def TempSummon.runUpdates (env : SummonEnv) (s : TempSummon) (ticks : List (Nat × CreatureTick)) :
    Except Fault TempSummon :=
  ticks.foldlM (fun s t => s.Update env t.1 t.2) s

/-- The time steps of a run, added up. -/
def totalDiff (ticks : List (Nat × CreatureTick)) : Nat :=
  (ticks.map (fun t => t.1)).sum

/-- The time steps of the out-of-combat updates at the end of a run, added up: an
update in combat starts the count again. -/
def quietDiff (ticks : List (Nat × CreatureTick)) : Nat :=
  ticks.foldl (fun acc t => if t.2.inCombat then 0 else acc + t.1) 0

/-- A tick for the examples: the summon is alive and out of combat. -/
def quietTick : CreatureTick :=
  { m_deathState := DeathState.ALIVE, inCombat := false, IsAlive := true }

/-- A tick for the examples: the summon is alive and in combat. -/
def combatTick : CreatureTick :=
  { m_deathState := DeathState.ALIVE, inCombat := true, IsAlive := true }

/-- A tick for the examples: the summon is a corpse. -/
def corpseTick : CreatureTick :=
  { m_deathState := DeathState.CORPSE, inCombat := false, IsAlive := false }

/-- A tick for the examples: the summon is dead. -/
def deadTick : CreatureTick :=
  { m_deathState := DeathState.DEAD, inCombat := false, IsAlive := false }

/-- A summoner for the examples: a player. -/
def examplePlayerSummoner : SummonerUnit :=
  { guid := 6, typeId := TypeID.TYPEID_PLAYER, IsAIEnabled := false, faction := 1, level := 85,
    guildData := 0, m_SummonSlot := fun _ => 0 }

/-- An environment for the examples in which the creature `5` and the player `6`
resolve. -/
def examplePlayerEnv : SummonEnv :=
  { GetUnit := fun g =>
      if g = 5 then some exampleSummoner
      else if g = 6 then some examplePlayerSummoner
      else none
    PetRemove := fun s => { s with inWorld := false }
    CreatureRemoveFromWorld := fun s => { s with inWorld := false } }

/-- The summon of the examples, summoned by the player `6`. -/
def examplePlayerSummon : TempSummon := { exampleSummon with m_summonerGUID := 6 }

/-- A summon for the examples: of type `CORPSE_TIMED_DESPAWN`, with a lifetime of
1000 ms and a full timer. -/
def exampleCorpseTimedSummon : TempSummon :=
  { exampleOwnedSummon with
    m_type := TempSummonType.TEMPSUMMON_CORPSE_TIMED_DESPAWN, m_timer := 1000, m_lifetime := 1000 }

/-- A summon for the examples: of type `TIMED_OR_CORPSE_DESPAWN`, with a lifetime
of 1000 ms and a full timer. -/
def exampleTimedOrCorpseSummon : TempSummon :=
  { exampleOwnedSummon with
    m_type := TempSummonType.TEMPSUMMON_TIMED_OR_CORPSE_DESPAWN, m_timer := 1000,
    m_lifetime := 1000 }

/-- The summon of the examples after `InitializeBeforeAddToMap(1000)`: its type is
resolved to `TIMED_DESPAWN` and its faction is the one of its properties. -/
def exampleInitialisedSummon : TempSummon :=
  { exampleSummon with
    m_type := TempSummonType.TEMPSUMMON_TIMED_DESPAWN, m_timer := 1000, m_lifetime := 1000,
    faction := 35 }

/-- A summon for the examples that despawns on a timer while out of combat. -/
def exampleCombatSummon : TempSummon :=
  { exampleSummon with m_type := TempSummonType.TEMPSUMMON_TIMED_DESPAWN_OUT_OF_COMBAT }

/-- The out-of-combat summon of the examples after `InitializeBeforeAddToMap(1000)`. -/
def exampleCombatInitialised : TempSummon :=
  { exampleCombatSummon with m_timer := 1000, m_lifetime := 1000, faction := 35 }

/-! ## `PhasingHandler`

`PhaseShift` and the stores (`sPhaseStore`, `sDBCManager`) are defined outside
`PhasingHandler.cpp`: the phase shift is a type parameter `PS`, and its members and
the stores are fields of `PhaseEnv`. -/

/-- The flags of a `PhaseEntry` that `GetPhaseFlags` reads. -/
structure PhaseEntry where
  Cosmetic : Bool
  Personal : Bool
deriving DecidableEq, Repr

/-- The values of `PhaseFlags` that `GetPhaseFlags` returns. -/
inductive PhaseFlags where
  | None
  | Cosmetic
  | Personal
deriving DecidableEq, Repr

/-- What the phasing code reads from a `WorldObject`, and its phase shift. -/
structure PhaseObject (PS : Type) where
  typeId : TypeID
  inWorld : Bool
  phaseShift : PS
  m_Controlled : List ObjectGuid
  m_SummonSlot : List ObjectGuid

/-- The calls the phasing code makes on units, players and objects, in order. -/
inductive PhaseEvent where
  | OnPhaseChange (unit : ObjectGuid)
  | RemoveNotOwnLimitedTargetAuras (unit : ObjectGuid) (onPhaseChange : Bool)
  | SendToPlayer (player : ObjectGuid)
  | SendUpdateTransportVisibility (player : ObjectGuid)
  | UpdateObjectVisibility (object : ObjectGuid)
deriving DecidableEq, Repr

/-- The objects of a map, addressed by identifier, and the log of the calls made
so far. -/
structure PhaseWorld (PS : Type) where
  objects : ObjectGuid → Option (PhaseObject PS)
  log : List PhaseEvent

/-- The code outside `PhasingHandler.cpp` that the four phase mutators call:
`sPhaseStore.LookupEntry`, `sDBCManager.GetPhasesForGroup`,
`PhaseShift::AddPhase` (its result tells whether the phase was inserted) and
`PhaseShift::RemovePhase` (with the `Erased` member of its result). -/
structure PhaseEnv (PS : Type) where
  LookupEntry : Nat → Option PhaseEntry
  GetPhasesForGroup : Nat → Option (List Nat)
  AddPhase : PS → Nat → PhaseFlags → Option Nat → PS × Bool
  RemovePhase : PS → Nat → PS × Bool

/-- The function `GetPhaseFlags` of the anonymous namespace. -/
def GetPhaseFlags {PS : Type} (env : PhaseEnv PS) (phaseId : Nat) : PhaseFlags :=
  match env.LookupEntry phaseId with
  | some phase =>
    if phase.Cosmetic then PhaseFlags.Cosmetic
    else if phase.Personal then PhaseFlags.Personal
    else PhaseFlags.None
  | none => PhaseFlags.None

/-- Whether `ToUnit()` is not null: the object is a creature or a player. -/
def PhaseObject.IsUnit {PS : Type} (o : PhaseObject PS) : Bool :=
  o.typeId == TypeID.TYPEID_UNIT || o.typeId == TypeID.TYPEID_PLAYER

/-- Whether `ToPlayer()` is not null. -/
def PhaseObject.IsPlayer {PS : Type} (o : PhaseObject PS) : Bool :=
  o.typeId == TypeID.TYPEID_PLAYER

/-- Following an object pointer; a pointer to no object of the world is a
fault. -/
def PhaseWorld.get {PS : Type} (w : PhaseWorld PS) (object : ObjectGuid) :
    Except Fault (PhaseObject PS) :=
  match w.objects object with
  | some o => .ok o
  | none => .error Fault.invalidPointer

/-- The lookup `GetMap()->GetCreature(guid)`: the creature with that identifier,
if there is one. -/
def PhaseWorld.GetCreature {PS : Type} (w : PhaseWorld PS) (guid : ObjectGuid) :
    Option (PhaseObject PS) :=
  match w.objects guid with
  | some o => if o.typeId = TypeID.TYPEID_UNIT then some o else none
  | none => none

/-- Writes through `object->GetPhaseShift()`. -/
def PhaseWorld.setPhaseShift {PS : Type} (w : PhaseWorld PS) (object : ObjectGuid) (ps : PS) :
    PhaseWorld PS :=
  { w with objects := fun g =>
      if g = object then (w.objects g).map (fun o => { o with phaseShift := ps })
      else w.objects g }

/-- Appends a call to the log. -/
def PhaseWorld.emit {PS : Type} (w : PhaseWorld PS) (e : PhaseEvent) : PhaseWorld PS :=
  { w with log := w.log ++ [e] }

/-- The function template `ForAllControlled`: `func` on every controlled unit that
is not a player, then on every creature that a non-empty summon slot resolves
to. -/
def ForAllControlled {PS : Type} (w : PhaseWorld PS) (unit : ObjectGuid)
    (func : PhaseWorld PS → ObjectGuid → Except Fault (PhaseWorld PS)) :
    Except Fault (PhaseWorld PS) := do
  let u ← w.get unit
  let w ← u.m_Controlled.foldlM (fun w controlled => do
    let c ← w.get controlled
    if c.typeId ≠ TypeID.TYPEID_PLAYER then func w controlled else pure w) w
  u.m_SummonSlot.foldlM (fun w slot =>
    if slot ≠ 0 then
      match w.GetCreature slot with
      | some _ => func w slot
      | none => pure w
    else pure w) w

/-- The member `PhasingHandler::UpdateVisibilityIfNeeded`. -/
def PhasingHandler.UpdateVisibilityIfNeeded {PS : Type} (w : PhaseWorld PS) (object : ObjectGuid)
    (updateVisibility changed : Bool) : Except Fault (PhaseWorld PS) := do
  let o ← w.get object
  if changed && o.inWorld then
    let w := if o.IsPlayer then w.emit (PhaseEvent.SendToPlayer object) else w
    if updateVisibility then
      let w := if o.IsPlayer then w.emit (PhaseEvent.SendUpdateTransportVisibility object) else w
      pure (w.emit (PhaseEvent.UpdateObjectVisibility object))
    else pure w
  else pure w

/-- The member `PhasingHandler::AddPhase`; `fuel` bounds the depth of the
recursion through the controlled units. -/
def PhasingHandler.AddPhase {PS : Type} (env : PhaseEnv PS) :
    Nat → PhaseWorld PS → ObjectGuid → Nat → Bool → Except Fault (PhaseWorld PS)
  | 0, _, _, _, _ => .error Fault.outOfFuel
  | fuel + 1, w, object, phaseId, updateVisibility => do
    let o ← w.get object
    let r := env.AddPhase o.phaseShift phaseId (GetPhaseFlags env phaseId) none
    let w := w.setPhaseShift object r.1
    let w ←
      if o.IsUnit then do
        let w := w.emit (PhaseEvent.OnPhaseChange object)
        let w ← ForAllControlled w object (fun w controlled =>
          PhasingHandler.AddPhase env fuel w controlled phaseId updateVisibility)
        pure (w.emit (PhaseEvent.RemoveNotOwnLimitedTargetAuras object true))
      else pure w
    PhasingHandler.UpdateVisibilityIfNeeded w object updateVisibility r.2

/-- The member `PhasingHandler::RemovePhase`. -/
def PhasingHandler.RemovePhase {PS : Type} (env : PhaseEnv PS) :
    Nat → PhaseWorld PS → ObjectGuid → Nat → Bool → Except Fault (PhaseWorld PS)
  | 0, _, _, _, _ => .error Fault.outOfFuel
  | fuel + 1, w, object, phaseId, updateVisibility => do
    let o ← w.get object
    let r := env.RemovePhase o.phaseShift phaseId
    let w := w.setPhaseShift object r.1
    let w ←
      if o.IsUnit then do
        let w := w.emit (PhaseEvent.OnPhaseChange object)
        let w ← ForAllControlled w object (fun w controlled =>
          PhasingHandler.RemovePhase env fuel w controlled phaseId updateVisibility)
        pure (w.emit (PhaseEvent.RemoveNotOwnLimitedTargetAuras object true))
      else pure w
    PhasingHandler.UpdateVisibilityIfNeeded w object updateVisibility r.2

/-- The loop of `AddPhaseGroup`:
`changed = object->GetPhaseShift().AddPhase(phaseId, GetPhaseFlags(phaseId), nullptr) || changed`
for every phase of the group, starting from `changed = false`. -/
def addPhasesOfGroup {PS : Type} (env : PhaseEnv PS) (phasesInGroup : List Nat) (ps : PS) :
    PS × Bool :=
  phasesInGroup.foldl (fun acc phaseId =>
    let r := env.AddPhase acc.1 phaseId (GetPhaseFlags env phaseId) none
    (r.1, r.2 || acc.2)) (ps, false)

/-- The loop of `RemovePhaseGroup`:
`changed = object->GetPhaseShift().RemovePhase(phaseId).Erased || changed`. -/
def removePhasesOfGroup {PS : Type} (env : PhaseEnv PS) (phasesInGroup : List Nat) (ps : PS) :
    PS × Bool :=
  phasesInGroup.foldl (fun acc phaseId =>
    let r := env.RemovePhase acc.1 phaseId
    (r.1, r.2 || acc.2)) (ps, false)

/-- The member `PhasingHandler::AddPhaseGroup`. -/
def PhasingHandler.AddPhaseGroup {PS : Type} (env : PhaseEnv PS) :
    Nat → PhaseWorld PS → ObjectGuid → Nat → Bool → Except Fault (PhaseWorld PS)
  | 0, _, _, _, _ => .error Fault.outOfFuel
  | fuel + 1, w, object, phaseGroupId, updateVisibility =>
    match env.GetPhasesForGroup phaseGroupId with
    | none => pure w
    | some phasesInGroup => do
      let o ← w.get object
      let r := addPhasesOfGroup env phasesInGroup o.phaseShift
      let w := w.setPhaseShift object r.1
      let w ←
        if o.IsUnit then do
          let w := w.emit (PhaseEvent.OnPhaseChange object)
          let w ← ForAllControlled w object (fun w controlled =>
            PhasingHandler.AddPhaseGroup env fuel w controlled phaseGroupId updateVisibility)
          pure (w.emit (PhaseEvent.RemoveNotOwnLimitedTargetAuras object true))
        else pure w
      PhasingHandler.UpdateVisibilityIfNeeded w object updateVisibility r.2

/-- The member `PhasingHandler::RemovePhaseGroup`. -/
def PhasingHandler.RemovePhaseGroup {PS : Type} (env : PhaseEnv PS) :
    Nat → PhaseWorld PS → ObjectGuid → Nat → Bool → Except Fault (PhaseWorld PS)
  | 0, _, _, _, _ => .error Fault.outOfFuel
  | fuel + 1, w, object, phaseGroupId, updateVisibility =>
    match env.GetPhasesForGroup phaseGroupId with
    | none => pure w
    | some phasesInGroup => do
      let o ← w.get object
      let r := removePhasesOfGroup env phasesInGroup o.phaseShift
      let w := w.setPhaseShift object r.1
      let w ←
        if o.IsUnit then do
          let w := w.emit (PhaseEvent.OnPhaseChange object)
          let w ← ForAllControlled w object (fun w controlled =>
            PhasingHandler.RemovePhaseGroup env fuel w controlled phaseGroupId updateVisibility)
          pure (w.emit (PhaseEvent.RemoveNotOwnLimitedTargetAuras object true))
        else pure w
      PhasingHandler.UpdateVisibilityIfNeeded w object updateVisibility r.2

/-- The body that the four phase mutators share: `mutate` is what the call does
to the phase shift of the object, `recurse` is the call on a controlled unit. -/
def phaseMutatorBody {PS : Type} (mutate : PS → PS × Bool)
    (recurse : PhaseWorld PS → ObjectGuid → Except Fault (PhaseWorld PS))
    (w : PhaseWorld PS) (object : ObjectGuid) (updateVisibility : Bool) :
    Except Fault (PhaseWorld PS) := do
  let o ← w.get object
  let r := mutate o.phaseShift
  let w := w.setPhaseShift object r.1
  let w ←
    if o.IsUnit then do
      let w := w.emit (PhaseEvent.OnPhaseChange object)
      let w ← ForAllControlled w object recurse
      pure (w.emit (PhaseEvent.RemoveNotOwnLimitedTargetAuras object true))
    else pure w
  PhasingHandler.UpdateVisibilityIfNeeded w object updateVisibility r.2

/-- What the phase mutators leave alone in an object: its kind, whether it is in
the world, its controlled units and its summon slots. -/
def PhaseObject.shape {PS : Type} (o : PhaseObject PS) :
    TypeID × Bool × List ObjectGuid × List ObjectGuid :=
  (o.typeId, o.inWorld, o.m_Controlled, o.m_SummonSlot)

/-- The shape of every object of the world. -/
def PhaseWorld.shape {PS : Type} (w : PhaseWorld PS) (g : ObjectGuid) :
    Option (TypeID × Bool × List ObjectGuid × List ObjectGuid) :=
  (w.objects g).map PhaseObject.shape

/-- The control hierarchy is well founded: every controlled unit is an object of
the world, and controlled units and summons rank below the unit that holds them. -/
def Ranked (sh : ObjectGuid → Option (TypeID × Bool × List ObjectGuid × List ObjectGuid))
    (rank : ObjectGuid → Nat) : Prop :=
  ∀ g s, sh g = some s →
    (∀ c ∈ s.2.2.1, (sh c).isSome = true ∧ rank c < rank g) ∧
    (∀ c ∈ s.2.2.2, (sh c).isSome = true → rank c < rank g)

/-- A call on a controlled unit that returns, keeps the shape of the world and
only appends to the log, for every unit that ranks below `n`. -/
def GoodCall {PS : Type}
    (sh : ObjectGuid → Option (TypeID × Bool × List ObjectGuid × List ObjectGuid))
    (rank : ObjectGuid → Nat)
    (func : PhaseWorld PS → ObjectGuid → Except Fault (PhaseWorld PS)) (n : Nat) : Prop :=
  ∀ w g, w.shape = sh → (sh g).isSome = true → rank g < n →
    ∃ w', func w g = .ok w' ∧ w'.shape = sh ∧ ∃ ext, w'.log = w.log ++ ext

/-- The log `after` extends the log `before` by: `OnPhaseChange` on the unit, then
some calls `mid`, then `RemoveNotOwnLimitedTargetAuras(true)` on the unit, then
visibility updates of the unit only. -/
def RevalidatesUnit (before after : List PhaseEvent) (unit : ObjectGuid) : Prop :=
  ∃ mid vis, after = before ++ [PhaseEvent.OnPhaseChange unit] ++ mid
      ++ [PhaseEvent.RemoveNotOwnLimitedTargetAuras unit true] ++ vis ∧
    ∀ e ∈ vis, e = PhaseEvent.SendToPlayer unit ∨
      e = PhaseEvent.SendUpdateTransportVisibility unit ∨
      e = PhaseEvent.UpdateObjectVisibility unit

/-- A phase shift for the examples: the list of phase identifiers. -/
def examplePhaseEnv : PhaseEnv (List Nat) :=
  { LookupEntry := fun _ => none
    GetPhasesForGroup := fun g => if g = 1 then some [169, 170] else none
    AddPhase := fun ps phaseId _ _ => if phaseId ∈ ps then (ps, false) else (phaseId :: ps, true)
    RemovePhase := fun ps phaseId => (ps.erase phaseId, decide (phaseId ∈ ps)) }

/-- A world for the examples: the player `1` controls the creature `2` and has the
creature `3` in a summon slot; `4` is a game object. -/
def examplePhaseWorld : PhaseWorld (List Nat) :=
  { objects := fun g =>
      if g = 1 then
        some { typeId := TypeID.TYPEID_PLAYER, inWorld := true, phaseShift := [169],
               m_Controlled := [2], m_SummonSlot := [0, 3, 0] }
      else if g = 2 then
        some { typeId := TypeID.TYPEID_UNIT, inWorld := true, phaseShift := [],
               m_Controlled := [], m_SummonSlot := [0, 0, 0] }
      else if g = 3 then
        some { typeId := TypeID.TYPEID_UNIT, inWorld := true, phaseShift := [169],
               m_Controlled := [], m_SummonSlot := [0, 0, 0] }
      else if g = 4 then
        some { typeId := TypeID.TYPEID_GAMEOBJECT, inWorld := true, phaseShift := [],
               m_Controlled := [], m_SummonSlot := [] }
      else none
    log := [] }

/-- The ranks of the example world: the player above its creatures. -/
def exampleRank (g : ObjectGuid) : Nat := if g = 1 then 1 else 0

/-! ## `PhasingHandler::OnAreaChange`

An object has two phase shifts, `GetPhaseShift()` and `GetSuppressedPhaseShift()`.
The area store, the phases of an area, the condition check and the aura effects of a
unit are defined outside `PhasingHandler.cpp` and are fields of `AreaEnv`. -/

/-- The two phase shifts of a `WorldObject`: `GetPhaseShift()` and
`GetSuppressedPhaseShift()`. -/
structure PhaseShifts (PS : Type) where
  active : PS
  suppressed : PS

/-- What `OnAreaChange` reads from an `AreaTableEntry`. -/
structure AreaTableEntry where
  ID : Nat
  ParentAreaID : Nat
deriving DecidableEq, Repr

/-- What `OnAreaChange` reads from a `PhaseAreaInfo`: `PhaseInfo->Id`, the
`SubAreaExclusions` and a handle on the `Conditions`. -/
structure PhaseAreaInfo where
  PhaseId : Nat
  SubAreaExclusions : List Nat
  Conditions : Nat
deriving DecidableEq, Repr

/-- The two aura types that `OnAreaChange` asks for. -/
inductive AuraType where
  | SPELL_AURA_PHASE
  | SPELL_AURA_PHASE_GROUP
deriving DecidableEq, Repr

/-- The code outside `PhasingHandler.cpp` that `OnAreaChange` calls besides that of
`PhaseEnv`: `PhaseShift::ClearPhases`, the identifiers of the container
`PhaseShift::Phases` in key order (two containers are compared through them),
`WorldObject::GetAreaId`, `sAreaTableStore.LookupEntry`,
`sObjectMgr->GetPhasesForArea`, `sConditionMgr->IsObjectMeetToConditions` and
`Unit::GetAuraEffectsByType` (the `GetMiscValueB()` of every effect, an `int32`). -/
structure AreaEnv (PS : Type) where
  ClearPhases : PS → PS
  Phases : PS → List Nat
  GetAreaId : ObjectGuid → Nat
  LookupArea : Nat → Option AreaTableEntry
  GetPhasesForArea : Nat → Option (List PhaseAreaInfo)
  IsObjectMeetToConditions : ObjectGuid → Nat → Bool
  GetAuraEffectsByType : ObjectGuid → AuraType → List Int

/-- The conversion `uint32(v)` of an `int32`. -/
def uint32_of_int32 (v : Int) : Nat := (v % 4294967296).toNat

/-- The member `PhasingHandler::InheritPhaseShift`: the target takes both phase
shifts of the source. -/
def PhasingHandler.InheritPhaseShift {PS : Type} (w : PhaseWorld (PhaseShifts PS))
    (target source : ObjectGuid) : Except Fault (PhaseWorld (PhaseShifts PS)) := do
  let s ← w.get source
  let _ ← w.get target
  pure (w.setPhaseShift target s.phaseShift)

/-- The `for` loop over the phases of one area in `OnAreaChange`: a phase whose
sub-area exclusions hold `areaId` is skipped; the others go to the phase shift when
the object meets their conditions and to the suppressed phase shift otherwise. -/
def addPhasesOfArea {PS : Type} (env : PhaseEnv PS) (aenv : AreaEnv PS) (object : ObjectGuid)
    (areaId : Nat) (newAreaPhases : List PhaseAreaInfo) (acc : PS × PS) : PS × PS :=
  newAreaPhases.foldl (fun acc phaseArea =>
    if areaId ∈ phaseArea.SubAreaExclusions then acc
    else
      let phaseId := phaseArea.PhaseId
      if aenv.IsObjectMeetToConditions object phaseArea.Conditions then
        ((env.AddPhase acc.1 phaseId (GetPhaseFlags env phaseId) (some phaseArea.Conditions)).1,
          acc.2)
      else
        (acc.1,
          (env.AddPhase acc.2 phaseId (GetPhaseFlags env phaseId)
            (some phaseArea.Conditions)).1)) acc

/-- The loop `while (areaEntry)` of `OnAreaChange` over the area and its parents;
`fuel` bounds the number of iterations. -/
def PhasingHandler.addAreaPhases {PS : Type} (env : PhaseEnv PS) (aenv : AreaEnv PS)
    (object : ObjectGuid) (areaId : Nat) :
    Nat → Option AreaTableEntry → PS × PS → Except Fault (PS × PS)
  | _, none, acc => pure acc
  | 0, some _, _ => .error Fault.outOfFuel
  | fuel + 1, some areaEntry, acc =>
    let acc :=
      match aenv.GetPhasesForArea areaEntry.ID with
      | some newAreaPhases => addPhasesOfArea env aenv object areaId newAreaPhases acc
      | none => acc
    PhasingHandler.addAreaPhases env aenv object areaId fuel
      (aenv.LookupArea areaEntry.ParentAreaID) acc

/-- The loop over the `SPELL_AURA_PHASE` effects in `OnAreaChange`:
`changed = phaseShift.AddPhase(phaseId, GetPhaseFlags(phaseId), nullptr) || changed`. -/
def addPhasesKeeping {PS : Type} (env : PhaseEnv PS) (phaseIds : List Nat) (acc : PS × Bool) :
    PS × Bool :=
  phaseIds.foldl (fun acc phaseId =>
    let r := env.AddPhase acc.1 phaseId (GetPhaseFlags env phaseId) none
    (r.1, r.2 || acc.2)) acc

/-- The loop over the `SPELL_AURA_PHASE_GROUP` effects in `OnAreaChange`: the
phases of every group that `GetPhasesForGroup` knows are added in the same way. -/
def addPhaseGroupsKeeping {PS : Type} (env : PhaseEnv PS) (groupIds : List Nat)
    (acc : PS × Bool) : PS × Bool :=
  groupIds.foldl (fun acc groupId =>
    match env.GetPhasesForGroup groupId with
    | some phasesInGroup => addPhasesKeeping env phasesInGroup acc
    | none => acc) acc

/-- The member `PhasingHandler::OnAreaChange`. -/
def PhasingHandler.OnAreaChange {PS : Type} (env : PhaseEnv PS) (aenv : AreaEnv PS) (fuel : Nat)
    (w : PhaseWorld (PhaseShifts PS)) (object : ObjectGuid) :
    Except Fault (PhaseWorld (PhaseShifts PS)) := do
  let o ← w.get object
  let oldPhases := aenv.Phases o.phaseShift.active
  let areaId := aenv.GetAreaId object
  let r ← PhasingHandler.addAreaPhases env aenv object areaId fuel (aenv.LookupArea areaId)
    (aenv.ClearPhases o.phaseShift.active, aenv.ClearPhases o.phaseShift.suppressed)
  let changed := decide (aenv.Phases r.1 ≠ oldPhases)
  if o.IsUnit then
    let a := addPhasesKeeping env
      ((aenv.GetAuraEffectsByType object AuraType.SPELL_AURA_PHASE).map uint32_of_int32)
      (r.1, changed)
    let a := addPhaseGroupsKeeping env
      ((aenv.GetAuraEffectsByType object AuraType.SPELL_AURA_PHASE_GROUP).map uint32_of_int32) a
    let w := w.setPhaseShift object { active := a.1, suppressed := r.2 }
    let w := if a.2 then w.emit (PhaseEvent.OnPhaseChange object) else w
    let w ← ForAllControlled w object (fun w controlled =>
      PhasingHandler.InheritPhaseShift w controlled object)
    let w := if a.2 then w.emit (PhaseEvent.RemoveNotOwnLimitedTargetAuras object true) else w
    PhasingHandler.UpdateVisibilityIfNeeded w object true a.2
  else
    PhasingHandler.UpdateVisibilityIfNeeded
      (w.setPhaseShift object { active := r.1, suppressed := r.2 }) object true changed

/-- What the phasing code reads from a `TerrainSwapInfo`. -/
structure TerrainSwapInfo where
  Id : Nat
  UiMapPhaseIDs : List Nat
deriving DecidableEq, Repr

/-- What the phasing code reads from a `PhaseShift::PhaseRef`; `AreaConditions` is
a pointer, `none` when null, otherwise a handle on the condition list. -/
structure PhaseRef where
  Id : Nat
  Flags : PhaseFlags
  References : Int
  AreaConditions : Option Nat
deriving DecidableEq, Repr

/-- What the phasing code reads from a `PhaseShift::VisibleMapIdRef`;
`VisibleMapInfo` is a pointer, `none` when null. -/
structure VisibleMapIdRef where
  References : Int
  VisibleMapInfo : Option TerrainSwapInfo
deriving DecidableEq, Repr

/-- The value of an `EnumFlag<PhaseShiftFlags>`, flag by flag, for the flags that
`InitDbPhaseShift` uses; `PhaseShiftFlags::None` has them all off. -/
structure PhaseShiftFlagSet where
  AlwaysVisible : Bool
  Inverse : Bool
  InverseUnphased : Bool
  Unphased : Bool
deriving DecidableEq, Repr

/-- The code outside `PhasingHandler.cpp` that the handlers below call: the
containers `Phases` and `VisibleMapIds` of a phase shift in key order, its members
`IsDbPhaseShift` and `Flags`, a default-constructed phase shift (`Empty`),
`PhaseShift::Clear`, `ClearPhases`, `HasPhase`, `AddPhase` with its `references`
argument, `ModifyPhasesReferences` and `Phases.erase` on the element with a given id,
`RemovePhase` (new phase shift, whether `Iterator` is not `Phases.end()`, and
`Erased`), `AddVisibleMapId`, `RemoveVisibleMapId` (with `Erased`),
`VisibleMapIds.erase`, `AddUiMapPhaseId`, `RemoveUiMapPhaseId` (with `Erased`),
`sObjectMgr->GetTerrainSwapInfo`,
`sConditionMgr->IsObjectMeetingNotGroupedConditions` for terrain swaps, and the
constants `DEFAULT_PHASE`, `PHASE_USE_FLAGS_ALWAYS_VISIBLE` and
`PHASE_USE_FLAGS_INVERSE`. -/
structure ShiftEnv (PS : Type) where
  PhaseRefs : PS → List PhaseRef
  VisibleMapIds : PS → List (Nat × VisibleMapIdRef)
  IsDbPhaseShift : PS → Bool
  Flags : PS → PhaseShiftFlagSet
  SetIsDbPhaseShift : PS → Bool → PS
  SetFlags : PS → PhaseShiftFlagSet → PS
  Empty : PS
  Clear : PS → PS
  ClearPhases : PS → PS
  HasPhase : PS → Nat → Bool
  AddPhaseRefs : PS → Nat → PhaseFlags → Option Nat → Int → PS × Bool
  ModifyPhasesReferences : PS → Nat → Int → PS
  PhasesErase : PS → Nat → PS
  RemovePhaseResult : PS → Nat → PS × Bool × Bool
  AddVisibleMapId : PS → Nat → Option TerrainSwapInfo → Int → PS × Bool
  RemoveVisibleMapId : PS → Nat → PS × Bool
  VisibleMapIdsErase : PS → Nat → PS
  AddUiMapPhaseId : PS → Nat → PS × Bool
  RemoveUiMapPhaseId : PS → Nat → PS × Bool
  GetTerrainSwapInfo : Nat → Option TerrainSwapInfo
  IsObjectMeetingNotGroupedConditions : ObjectGuid → Nat → Bool
  DEFAULT_PHASE : Nat
  PHASE_USE_FLAGS_ALWAYS_VISIBLE : Nat
  PHASE_USE_FLAGS_INVERSE : Nat

/-! ## `PhasingHandler::GetTerrainMapId` -/

/-- What `GetTerrainMapId` reads from a `Map`: `GetId()` and
`HasChildMapGridFile(mapId, gx, gy)`. -/
structure TerrainMap where
  GetId : Nat
  HasChildMapGridFile : Nat → Int → Int → Bool

/-- The grid code outside `PhasingHandler.cpp`: the constant `MAX_NUMBER_OF_GRIDS`
and `Trinity::ComputeGridCoord`, from two coordinates of type `F` (`float`) to the
`x_coord` and `y_coord` of a `GridCoord` (`uint32`). -/
structure GridEnv (F : Type) where
  MAX_NUMBER_OF_GRIDS : Nat
  ComputeGridCoord : F → F → Nat × Nat

/-- The value an `int32` holds after an assignment of the integer `z`: the one of
`z` modulo `2^32` that lies in `[-2^31, 2^31)`. -/
def int32_wrap (z : Int) : Int := (z + 2147483648) % 4294967296 - 2147483648

/-- The expression `(MAX_NUMBER_OF_GRIDS - 1) - coord` assigned to an `int32`; the
subtraction is done on `uint32`, so the value is exact modulo `2^32`. -/
def mirroredGridCoord (maxGrids coord : Nat) : Int :=
  int32_wrap ((maxGrids : Int) - 1 - (coord : Int))

/-- The loop of `GetTerrainMapId` over the visible map ids: the first one with a
child-map grid file at `(gx, gy)` is returned. -/
def firstChildMapGrid (map : TerrainMap) (gx gy : Int) :
    List (Nat × VisibleMapIdRef) → Option Nat
  | [] => none
  | visibleMap :: rest =>
    if map.HasChildMapGridFile visibleMap.1 gx gy then some visibleMap.1
    else firstChildMapGrid map gx gy rest

/-- The member `PhasingHandler::GetTerrainMapId`. -/
def PhasingHandler.GetTerrainMapId {PS F : Type} (senv : ShiftEnv PS) (genv : GridEnv F)
    (phaseShift : PS) (map : TerrainMap) (x y : F) : Nat :=
  match senv.VisibleMapIds phaseShift with
  | [] => map.GetId
  | [single] => single.1
  | visibleMapIds =>
    let gridCoord := genv.ComputeGridCoord x y
    let gx := mirroredGridCoord genv.MAX_NUMBER_OF_GRIDS gridCoord.1
    let gy := mirroredGridCoord genv.MAX_NUMBER_OF_GRIDS gridCoord.2
    match firstChildMapGrid map gx gy visibleMapIds with
    | some id => id
    | none => map.GetId

/-! ## `PhasingHandler::AddVisibleMapId` and `RemoveVisibleMapId` -/

/-- The loop of `AddVisibleMapId`:
`changed = object->GetPhaseShift().AddUiMapPhaseId(uiMapPhaseId) || changed`. -/
def addUiMapPhaseIds {PS : Type} (senv : ShiftEnv PS) (uiMapPhaseIDs : List Nat)
    (acc : PS × Bool) : PS × Bool :=
  uiMapPhaseIDs.foldl (fun acc uiMapPhaseId =>
    let r := senv.AddUiMapPhaseId acc.1 uiMapPhaseId
    (r.1, r.2 || acc.2)) acc

/-- The loop of `RemoveVisibleMapId`:
`changed = object->GetPhaseShift().RemoveUiMapPhaseId(id).Erased || changed`. -/
def removeUiMapPhaseIds {PS : Type} (senv : ShiftEnv PS) (uiMapPhaseIDs : List Nat)
    (acc : PS × Bool) : PS × Bool :=
  uiMapPhaseIDs.foldl (fun acc uiMapPhaseId =>
    let r := senv.RemoveUiMapPhaseId acc.1 uiMapPhaseId
    (r.1, r.2 || acc.2)) acc

/-- The member `PhasingHandler::AddVisibleMapId`; `terrainSwapInfo` is the pointer
that `GetTerrainSwapInfo` returns, and `terrainSwapInfo->UiMapPhaseIDs` follows it.
`fuel` bounds the depth of the recursion through the controlled units. -/
def PhasingHandler.AddVisibleMapId {PS : Type} (senv : ShiftEnv PS) :
    Nat → PhaseWorld PS → ObjectGuid → Nat → Except Fault (PhaseWorld PS)
  | 0, _, _, _ => .error Fault.outOfFuel
  | fuel + 1, w, object, visibleMapId => do
    let o ← w.get object
    let terrainSwapInfo := senv.GetTerrainSwapInfo visibleMapId
    let r := senv.AddVisibleMapId o.phaseShift visibleMapId terrainSwapInfo 1
    let info ← deref terrainSwapInfo
    let r := addUiMapPhaseIds senv info.UiMapPhaseIDs r
    let w := w.setPhaseShift object r.1
    let w ←
      if o.IsUnit then
        ForAllControlled w object (fun w controlled =>
          PhasingHandler.AddVisibleMapId senv fuel w controlled visibleMapId)
      else pure w
    PhasingHandler.UpdateVisibilityIfNeeded w object false r.2

/-- The member `PhasingHandler::RemoveVisibleMapId`. -/
def PhasingHandler.RemoveVisibleMapId {PS : Type} (senv : ShiftEnv PS) :
    Nat → PhaseWorld PS → ObjectGuid → Nat → Except Fault (PhaseWorld PS)
  | 0, _, _, _ => .error Fault.outOfFuel
  | fuel + 1, w, object, visibleMapId => do
    let o ← w.get object
    let terrainSwapInfo := senv.GetTerrainSwapInfo visibleMapId
    let r := senv.RemoveVisibleMapId o.phaseShift visibleMapId
    let info ← deref terrainSwapInfo
    let r := removeUiMapPhaseIds senv info.UiMapPhaseIDs r
    let w := w.setPhaseShift object r.1
    let w ←
      if o.IsUnit then
        ForAllControlled w object (fun w controlled =>
          PhasingHandler.RemoveVisibleMapId senv fuel w controlled visibleMapId)
      else pure w
    PhasingHandler.UpdateVisibilityIfNeeded w object false r.2

/-! ## `PhasingHandler::InitDbPhaseShift` -/

/-- The value `PhaseShiftFlags::None`. -/
def PhaseShiftFlagSet.None : PhaseShiftFlagSet :=
  { AlwaysVisible := false, Inverse := false, InverseUnphased := false, Unphased := false }

/-- The member `PhasingHandler::InitDbPhaseShift`; `phaseUseFlags` is a `uint8`,
`phaseId` a `uint16` and `phaseGroupId` a `uint32`. -/
def PhasingHandler.InitDbPhaseShift {PS : Type} (env : PhaseEnv PS) (senv : ShiftEnv PS)
    (phaseShift : PS) (phaseUseFlags phaseId phaseGroupId : Nat) : PS :=
  let phaseShift := senv.ClearPhases phaseShift
  let phaseShift := senv.SetIsDbPhaseShift phaseShift true
  let flags := PhaseShiftFlagSet.None
  let flags :=
    if phaseUseFlags &&& senv.PHASE_USE_FLAGS_ALWAYS_VISIBLE ≠ 0 then
      { flags with AlwaysVisible := true, Unphased := true }
    else flags
  let flags :=
    if phaseUseFlags &&& senv.PHASE_USE_FLAGS_INVERSE ≠ 0 then { flags with Inverse := true }
    else flags
  let phaseShift :=
    if phaseId ≠ 0 then (env.AddPhase phaseShift phaseId (GetPhaseFlags env phaseId) none).1
    else
      match env.GetPhasesForGroup phaseGroupId with
      | some phasesInGroup =>
        phasesInGroup.foldl (fun ps phaseInGroup =>
          (env.AddPhase ps phaseInGroup (GetPhaseFlags env phaseInGroup) none).1) phaseShift
      | none => phaseShift
  let flags :=
    if (senv.PhaseRefs phaseShift).isEmpty || senv.HasPhase phaseShift senv.DEFAULT_PHASE then
      if flags.Inverse then { flags with InverseUnphased := true }
      else { flags with Unphased := true }
    else flags
  senv.SetFlags phaseShift flags

/-- The identifiers of the container `Phases` of a phase shift, in key order. -/
def phaseIds {PS : Type} (senv : ShiftEnv PS) (ps : PS) : List Nat :=
  (senv.PhaseRefs ps).map (fun r => r.Id)

/-- What `InitDbPhaseShift` needs of the members of `PhaseShift` it calls:
`ClearPhases` empties the container `Phases`; `AddPhase` makes the container hold
the phase added and the phases it held; `HasPhase` tells whether the container holds
a phase; the assignments to `IsDbPhaseShift` and `Flags` set the member and leave the
container alone, and `IsDbPhaseShift` is left alone by `AddPhase` and by the
assignment to `Flags`. -/
structure DbShiftLaws {PS : Type} (env : PhaseEnv PS) (senv : ShiftEnv PS) : Prop where
  clearPhases : ∀ ps, senv.PhaseRefs (senv.ClearPhases ps) = []
  addPhase_ids : ∀ ps id f c i,
    i ∈ phaseIds senv (env.AddPhase ps id f c).1 ↔ i = id ∨ i ∈ phaseIds senv ps
  hasPhase : ∀ ps id, senv.HasPhase ps id = true ↔ id ∈ phaseIds senv ps
  setIsDb_refs : ∀ ps b, senv.PhaseRefs (senv.SetIsDbPhaseShift ps b) = senv.PhaseRefs ps
  setFlags_refs : ∀ ps f, senv.PhaseRefs (senv.SetFlags ps f) = senv.PhaseRefs ps
  flags_setFlags : ∀ ps f, senv.Flags (senv.SetFlags ps f) = f
  isDb_setIsDb : ∀ ps b, senv.IsDbPhaseShift (senv.SetIsDbPhaseShift ps b) = b
  isDb_addPhase : ∀ ps id f c,
    senv.IsDbPhaseShift (env.AddPhase ps id f c).1 = senv.IsDbPhaseShift ps
  isDb_setFlags : ∀ ps f, senv.IsDbPhaseShift (senv.SetFlags ps f) = senv.IsDbPhaseShift ps

/-- The phases that `InitDbPhaseShift` is asked for: `phaseId` alone when it is not
`0`, otherwise the phases of the group, none when the group is unknown. -/
def dbPhases {PS : Type} (env : PhaseEnv PS) (phaseId phaseGroupId : Nat) : List Nat :=
  if phaseId ≠ 0 then [phaseId]
  else
    match env.GetPhasesForGroup phaseGroupId with
    | some phasesInGroup => phasesInGroup
    | none => []

/-! ## `PhasingHandler::OnConditionChange` and `ResetPhaseShift` -/

/-- The member `PhasingHandler::ResetPhaseShift`. -/
def PhasingHandler.ResetPhaseShift {PS : Type} (senv : ShiftEnv PS)
    (w : PhaseWorld (PhaseShifts PS)) (object : ObjectGuid) :
    Except Fault (PhaseWorld (PhaseShifts PS)) := do
  let o ← w.get object
  pure (w.setPhaseShift object
    { active := senv.Clear o.phaseShift.active, suppressed := senv.Clear o.phaseShift.suppressed })

/-- The locals of `OnConditionChange` that its loops write: the two phase shifts of
the object, `newSuppressions` and `changed`. -/
structure ConditionState (PS : Type) where
  phaseShift : PS
  suppressedPhaseShift : PS
  newSuppressions : PS
  changed : Bool

/-- The body of the first loop of `OnConditionChange`, on the element `itr` of
`phaseShift.Phases`: a phase whose area conditions are not met goes to
`newSuppressions` and is erased. -/
def suppressFailedPhase {PS : Type} (aenv : AreaEnv PS) (senv : ShiftEnv PS) (object : ObjectGuid)
    (st : ConditionState PS) (itr : PhaseRef) : ConditionState PS :=
  match itr.AreaConditions with
  | some conds =>
    if !aenv.IsObjectMeetToConditions object conds then
      { st with
        newSuppressions :=
          (senv.AddPhaseRefs st.newSuppressions itr.Id itr.Flags itr.AreaConditions
            itr.References).1
        phaseShift :=
          senv.PhasesErase (senv.ModifyPhasesReferences st.phaseShift itr.Id (-itr.References))
            itr.Id }
    else st
  | none => st

/-- The body of the second loop, on the element `itr` of
`suppressedPhaseShift.Phases`: `ASSERT_NOTNULL(itr->AreaConditions)`, and a phase
whose conditions are met goes back to the phase shift. -/
def restoreMetPhase {PS : Type} (aenv : AreaEnv PS) (senv : ShiftEnv PS) (object : ObjectGuid)
    (st : ConditionState PS) (itr : PhaseRef) : Except Fault (ConditionState PS) :=
  match itr.AreaConditions with
  | none => .error Fault.assertFailed
  | some conds =>
    if aenv.IsObjectMeetToConditions object conds then
      let r := senv.AddPhaseRefs st.phaseShift itr.Id itr.Flags itr.AreaConditions itr.References
      .ok { st with
        phaseShift := r.1
        changed := r.2 || st.changed
        suppressedPhaseShift :=
          senv.PhasesErase
            (senv.ModifyPhasesReferences st.suppressedPhaseShift itr.Id (-itr.References))
            itr.Id }
    else .ok st

/-- The body of the third loop, on the element `itr` of `phaseShift.VisibleMapIds`:
a visible map whose terrain swap conditions are not met goes to `newSuppressions`,
its UI map phases are removed, and it is erased. -/
def suppressFailedMap {PS : Type} (senv : ShiftEnv PS) (object : ObjectGuid)
    (st : ConditionState PS) (itr : Nat × VisibleMapIdRef) : Except Fault (ConditionState PS) :=
  if !senv.IsObjectMeetingNotGroupedConditions object itr.1 then do
    let newSuppressions :=
      (senv.AddVisibleMapId st.newSuppressions itr.1 itr.2.VisibleMapInfo itr.2.References).1
    let info ← deref itr.2.VisibleMapInfo
    let r := removeUiMapPhaseIds senv info.UiMapPhaseIDs (st.phaseShift, st.changed)
    pure { st with
      newSuppressions := newSuppressions
      phaseShift := senv.VisibleMapIdsErase r.1 itr.1
      changed := r.2 }
  else pure st

/-- The body of the fourth loop, on the element `itr` of
`suppressedPhaseShift.VisibleMapIds`: a visible map whose conditions are met goes
back to the phase shift with its UI map phases. -/
def restoreMetMap {PS : Type} (senv : ShiftEnv PS) (object : ObjectGuid)
    (st : ConditionState PS) (itr : Nat × VisibleMapIdRef) : Except Fault (ConditionState PS) :=
  if senv.IsObjectMeetingNotGroupedConditions object itr.1 then do
    let a := senv.AddVisibleMapId st.phaseShift itr.1 itr.2.VisibleMapInfo itr.2.References
    let info ← deref itr.2.VisibleMapInfo
    let r := addUiMapPhaseIds senv info.UiMapPhaseIDs (a.1, a.2 || st.changed)
    pure { st with
      phaseShift := r.1
      changed := r.2
      suppressedPhaseShift := senv.VisibleMapIdsErase st.suppressedPhaseShift itr.1 }
  else pure st

/-- The body of the loops over the aura phases: the phase is removed from
`newSuppressions`, and added to the phase shift when it was found there. -/
def readdAuraPhase {PS : Type} (env : PhaseEnv PS) (senv : ShiftEnv PS)
    (st : ConditionState PS) (phaseId : Nat) : ConditionState PS :=
  let eraseResult := senv.RemovePhaseResult st.newSuppressions phaseId
  if eraseResult.2.1 || eraseResult.2.2 then
    { st with
      newSuppressions := eraseResult.1
      phaseShift := (env.AddPhase st.phaseShift phaseId (GetPhaseFlags env phaseId) none).1 }
  else { st with newSuppressions := eraseResult.1 }

/-- The loop over the `SPELL_AURA_PHASE` effects in `OnConditionChange`. -/
def readdAuraPhases {PS : Type} (env : PhaseEnv PS) (senv : ShiftEnv PS) (phases : List Nat)
    (st : ConditionState PS) : ConditionState PS :=
  phases.foldl (readdAuraPhase env senv) st

/-- The loop over the `SPELL_AURA_PHASE_GROUP` effects in `OnConditionChange`. -/
def readdAuraPhaseGroups {PS : Type} (env : PhaseEnv PS) (senv : ShiftEnv PS)
    (groupIds : List Nat) (st : ConditionState PS) : ConditionState PS :=
  groupIds.foldl (fun st groupId =>
    match env.GetPhasesForGroup groupId with
    | some phasesInGroup => readdAuraPhases env senv phasesInGroup st
    | none => st) st

/-- The two last loops of `OnConditionChange`: the phases and the visible maps of
`newSuppressions` are added to the suppressed phase shift. -/
def moveNewSuppressions {PS : Type} (senv : ShiftEnv PS) (st : ConditionState PS) : PS :=
  (senv.VisibleMapIds st.newSuppressions).foldl (fun sup itr =>
      (senv.AddVisibleMapId sup itr.1 itr.2.VisibleMapInfo itr.2.References).1)
    ((senv.PhaseRefs st.newSuppressions).foldl (fun sup itr =>
        (senv.AddPhaseRefs sup itr.Id itr.Flags itr.AreaConditions itr.References).1)
      st.suppressedPhaseShift)

/-- The part of `OnConditionChange` that computes the phase shifts and `changed`,
up to the two last loops. -/
def conditionPass {PS : Type} (env : PhaseEnv PS) (aenv : AreaEnv PS) (senv : ShiftEnv PS)
    (object : ObjectGuid) (o : PhaseObject (PhaseShifts PS)) :
    Except Fault (ConditionState PS) := do
  let st : ConditionState PS :=
    { phaseShift := o.phaseShift.active, suppressedPhaseShift := o.phaseShift.suppressed,
      newSuppressions := senv.Empty, changed := false }
  let st := (senv.PhaseRefs st.phaseShift).foldl (suppressFailedPhase aenv senv object) st
  let st ← (senv.PhaseRefs st.suppressedPhaseShift).foldlM (restoreMetPhase aenv senv object) st
  let st ← (senv.VisibleMapIds st.phaseShift).foldlM (suppressFailedMap senv object) st
  let st ← (senv.VisibleMapIds st.suppressedPhaseShift).foldlM (restoreMetMap senv object) st
  let st :=
    if o.IsUnit then
      readdAuraPhaseGroups env senv
        ((aenv.GetAuraEffectsByType object AuraType.SPELL_AURA_PHASE_GROUP).map uint32_of_int32)
        (readdAuraPhases env senv
          ((aenv.GetAuraEffectsByType object AuraType.SPELL_AURA_PHASE).map uint32_of_int32) st)
    else st
  pure { st with
    changed := st.changed || !(senv.PhaseRefs st.newSuppressions).isEmpty ||
      !(senv.VisibleMapIds st.newSuppressions).isEmpty }

/-- The end of `OnConditionChange`, which is also the end of `OnAreaChange`: the
phase shifts are those computed, a unit is notified when `changed` is set, its
controlled units inherit its phase shifts, and the visibility is updated. -/
def applyShiftChange {PS : Type} (w : PhaseWorld (PhaseShifts PS)) (object : ObjectGuid)
    (o : PhaseObject (PhaseShifts PS)) (shifts : PhaseShifts PS) (changed : Bool) :
    Except Fault (PhaseWorld (PhaseShifts PS)) := do
  let w := w.setPhaseShift object shifts
  if o.IsUnit then
    let w := if changed then w.emit (PhaseEvent.OnPhaseChange object) else w
    let w ← ForAllControlled w object (fun w controlled =>
      PhasingHandler.InheritPhaseShift w controlled object)
    let w := if changed then w.emit (PhaseEvent.RemoveNotOwnLimitedTargetAuras object true) else w
    PhasingHandler.UpdateVisibilityIfNeeded w object true changed
  else
    PhasingHandler.UpdateVisibilityIfNeeded w object true changed

/-- The member `PhasingHandler::OnConditionChange`. -/
def PhasingHandler.OnConditionChange {PS : Type} (env : PhaseEnv PS) (aenv : AreaEnv PS)
    (senv : ShiftEnv PS) (w : PhaseWorld (PhaseShifts PS)) (object : ObjectGuid) :
    Except Fault (PhaseWorld (PhaseShifts PS)) := do
  let o ← w.get object
  let st ← conditionPass env aenv senv object o
  applyShiftChange w object o
    { active := st.phaseShift, suppressed := moveNewSuppressions senv st } st.changed

/-- The identifier and the area conditions of a phase reference. -/
def PhaseRef.key (r : PhaseRef) : Nat × Option Nat := (r.Id, r.AreaConditions)

/-- The identifiers and area conditions held by the container `Phases` of a phase
shift. -/
def refKeys {PS : Type} (senv : ShiftEnv PS) (ps : PS) : List (Nat × Option Nat) :=
  (senv.PhaseRefs ps).map PhaseRef.key

/-- What `OnConditionChange`, `OnAreaChange` and `ResetPhaseShift` need of the
members of `PhaseShift` they call, in terms of the identifiers and area conditions
that the container `Phases` holds.
A default-constructed, a cleared phase shift and one after `ClearPhases` hold no
phase.  `Phases.erase` removes the phases with the identifier;
`ModifyPhasesReferences` changes neither identifiers nor conditions.  After
`AddPhase` every phase is the one added, with the conditions passed, or one that was
held, and the identifiers are the one added and those held.  After `RemovePhase`
every phase is one that was held, only the identifier asked for can be gone, and it
is reported found only if it was held.  The members for visible maps and UI map
phases leave the container `Phases` alone, and the members for phases leave the
container `VisibleMapIds` alone. -/
structure ConditionLaws {PS : Type} (env : PhaseEnv PS) (aenv : AreaEnv PS)
    (senv : ShiftEnv PS) : Prop where
  empty : senv.PhaseRefs senv.Empty = []
  clear : ∀ ps, senv.PhaseRefs (senv.Clear ps) = []
  clearPhases : ∀ ps, senv.PhaseRefs (aenv.ClearPhases ps) = []
  erase : ∀ ps id,
    refKeys senv (senv.PhasesErase ps id) = (refKeys senv ps).filter (fun k => k.1 ≠ id)
  modify : ∀ ps id d, refKeys senv (senv.ModifyPhasesReferences ps id d) = refKeys senv ps
  addRefs_keys : ∀ ps id f c n k,
    k ∈ refKeys senv (senv.AddPhaseRefs ps id f c n).1 → k = (id, c) ∨ k ∈ refKeys senv ps
  addRefs_ids : ∀ ps id f c n i,
    i ∈ phaseIds senv (senv.AddPhaseRefs ps id f c n).1 ↔ i = id ∨ i ∈ phaseIds senv ps
  add_keys : ∀ ps id f c k,
    k ∈ refKeys senv (env.AddPhase ps id f c).1 → k = (id, c) ∨ k ∈ refKeys senv ps
  add_ids : ∀ ps id f c i,
    i ∈ phaseIds senv (env.AddPhase ps id f c).1 ↔ i = id ∨ i ∈ phaseIds senv ps
  remove_keys : ∀ ps id k,
    k ∈ refKeys senv (senv.RemovePhaseResult ps id).1 → k ∈ refKeys senv ps
  remove_ids : ∀ ps id i, i ∈ phaseIds senv ps →
    i ∈ phaseIds senv (senv.RemovePhaseResult ps id).1 ∨
      (i = id ∧
        ((senv.RemovePhaseResult ps id).2.1 || (senv.RemovePhaseResult ps id).2.2) = true)
  remove_found : ∀ ps id,
    ((senv.RemovePhaseResult ps id).2.1 || (senv.RemovePhaseResult ps id).2.2) = true →
    id ∈ phaseIds senv ps
  addVisible_refs : ∀ ps id info n,
    senv.PhaseRefs (senv.AddVisibleMapId ps id info n).1 = senv.PhaseRefs ps
  eraseVisible_refs : ∀ ps id, senv.PhaseRefs (senv.VisibleMapIdsErase ps id) = senv.PhaseRefs ps
  addUi_refs : ∀ ps id, senv.PhaseRefs (senv.AddUiMapPhaseId ps id).1 = senv.PhaseRefs ps
  removeUi_refs : ∀ ps id, senv.PhaseRefs (senv.RemoveUiMapPhaseId ps id).1 = senv.PhaseRefs ps
  erase_visible : ∀ ps id, senv.VisibleMapIds (senv.PhasesErase ps id) = senv.VisibleMapIds ps
  modify_visible : ∀ ps id d,
    senv.VisibleMapIds (senv.ModifyPhasesReferences ps id d) = senv.VisibleMapIds ps
  addRefs_visible : ∀ ps id f c n,
    senv.VisibleMapIds (senv.AddPhaseRefs ps id f c n).1 = senv.VisibleMapIds ps

/-- Every phase of every suppressed phase shift of the world carries area
conditions: `AreaConditions` is not null. -/
def SuppressedCarryConditions {PS : Type} (senv : ShiftEnv PS)
    (w : PhaseWorld (PhaseShifts PS)) : Prop :=
  ∀ g o, w.objects g = some o →
    ∀ k ∈ refKeys senv o.phaseShift.suppressed, k.2.isSome = true

/-- The states produced by `OnAreaChange`, `OnConditionChange`, `InheritPhaseShift`
and `ResetPhaseShift`, from a world in which no suppressed phase shift holds a
phase. -/
inductive Produced {PS : Type} (env : PhaseEnv PS) (aenv : AreaEnv PS) (senv : ShiftEnv PS) :
    PhaseWorld (PhaseShifts PS) → Prop where
  | start (w : PhaseWorld (PhaseShifts PS))
      (h : ∀ g o, w.objects g = some o → senv.PhaseRefs o.phaseShift.suppressed = []) :
      Produced env aenv senv w
  | onAreaChange (w w' : PhaseWorld (PhaseShifts PS)) (fuel : Nat) (object : ObjectGuid)
      (hw : Produced env aenv senv w)
      (h : PhasingHandler.OnAreaChange env aenv fuel w object = .ok w') :
      Produced env aenv senv w'
  | onConditionChange (w w' : PhaseWorld (PhaseShifts PS)) (object : ObjectGuid)
      (hw : Produced env aenv senv w)
      (h : PhasingHandler.OnConditionChange env aenv senv w object = .ok w') :
      Produced env aenv senv w'
  | inheritPhaseShift (w w' : PhaseWorld (PhaseShifts PS)) (target source : ObjectGuid)
      (hw : Produced env aenv senv w)
      (h : PhasingHandler.InheritPhaseShift w target source = .ok w') :
      Produced env aenv senv w'
  | resetPhaseShift (w w' : PhaseWorld (PhaseShifts PS)) (object : ObjectGuid)
      (hw : Produced env aenv senv w)
      (h : PhasingHandler.ResetPhaseShift senv w object = .ok w') :
      Produced env aenv senv w'

/-- Every phase of the phase shift that carries area conditions meets them, for the
object. -/
def ActiveMeets {PS : Type} (aenv : AreaEnv PS) (senv : ShiftEnv PS) (object : ObjectGuid)
    (ps : PS) : Prop :=
  ∀ k ∈ refKeys senv ps, ∀ c, k.2 = some c → aenv.IsObjectMeetToConditions object c = true

/-- Every phase of the phase shift carries area conditions that the object does not
meet. -/
def SuppressedFails {PS : Type} (aenv : AreaEnv PS) (senv : ShiftEnv PS) (object : ObjectGuid)
    (ps : PS) : Prop :=
  ∀ k ∈ refKeys senv ps, ∃ c, k.2 = some c ∧ aenv.IsObjectMeetToConditions object c = false

/-- The visible maps that `OnConditionChange` moves hold their terrain swap info:
`VisibleMapInfo` is not null on every visible map of the phase shift whose terrain
swap conditions the object does not meet, and on every visible map of the suppressed
phase shift whose conditions it meets.  These are the visible maps whose
`VisibleMapInfo->UiMapPhaseIDs` the two loops over `VisibleMapIds` read. -/
def MovedMapsHoldInfo {PS : Type} (senv : ShiftEnv PS) (object : ObjectGuid)
    (shifts : PhaseShifts PS) : Prop :=
  (∀ e ∈ senv.VisibleMapIds shifts.active,
    senv.IsObjectMeetingNotGroupedConditions object e.1 = false →
      e.2.VisibleMapInfo.isSome = true) ∧
  (∀ e ∈ senv.VisibleMapIds shifts.suppressed,
    senv.IsObjectMeetingNotGroupedConditions object e.1 = true →
      e.2.VisibleMapInfo.isSome = true)

/-! ## A phase shift for the examples -/

/-- A phase shift for the examples: its containers in key order, its flags and
`IsDbPhaseShift`. -/
structure ExamplePhaseShift where
  Phases : List PhaseRef
  VisibleMapIds : List (Nat × VisibleMapIdRef)
  UiMapPhaseIds : List Nat
  Flags : PhaseShiftFlagSet
  IsDbPhaseShift : Bool
deriving DecidableEq, Repr

/-- The example phase shift without phases, visible maps and flags. -/
def ExamplePhaseShift.empty : ExamplePhaseShift :=
  { Phases := [], VisibleMapIds := [], UiMapPhaseIds := [], Flags := PhaseShiftFlagSet.None,
    IsDbPhaseShift := false }

/-- Adding a phase to the example phase shift: a phase that is held gets the
references, and the conditions when they are not null; a new phase is inserted in
key order. The result tells whether the phase was inserted. -/
def ExamplePhaseShift.addPhase (ps : ExamplePhaseShift) (id : Nat) (flags : PhaseFlags)
    (conds : Option Nat) (references : Int) : ExamplePhaseShift × Bool :=
  if id ∈ ps.Phases.map (fun r => r.Id) then
    ({ ps with Phases := ps.Phases.map (fun r =>
        if r.Id = id then
          { r with References := r.References + references,
                   AreaConditions := if conds.isSome then conds else r.AreaConditions }
        else r) }, false)
  else
    let ref : PhaseRef :=
      { Id := id, Flags := flags, References := references, AreaConditions := conds }
    ({ ps with Phases := ps.Phases.orderedInsert (fun a b => a.Id ≤ b.Id) ref }, true)

/-- Changing the references of the phase `id` of the example phase shift. -/
def ExamplePhaseShift.modifyReferences (ps : ExamplePhaseShift) (id : Nat) (delta : Int) :
    ExamplePhaseShift :=
  { ps with Phases := ps.Phases.map (fun r =>
      if r.Id = id then { r with References := r.References + delta } else r) }

/-- Erasing the phase `id` from the example phase shift. -/
def ExamplePhaseShift.erasePhase (ps : ExamplePhaseShift) (id : Nat) : ExamplePhaseShift :=
  { ps with Phases := ps.Phases.filter (fun r => r.Id ≠ id) }

/-- Removing one reference to the phase `id` of the example phase shift: the phase
is erased when it has no reference left. The result tells whether the iterator
returned is not the end of the container, and whether the phase was erased. -/
def ExamplePhaseShift.removePhase (ps : ExamplePhaseShift) (id : Nat) :
    ExamplePhaseShift × Bool × Bool :=
  if id ∈ ps.Phases.map (fun r => r.Id) then
    if (ps.modifyReferences id (-1)).Phases.any (fun r => r.Id = id ∧ r.References = 0) then
      (((ps.modifyReferences id (-1)).erasePhase id),
        ps.Phases.any (fun r => id < r.Id), true)
    else (ps.modifyReferences id (-1), true, false)
  else (ps, false, false)

/-- Adding a visible map to the example phase shift. -/
def ExamplePhaseShift.addVisibleMapId (ps : ExamplePhaseShift) (id : Nat)
    (info : Option TerrainSwapInfo) (references : Int) : ExamplePhaseShift × Bool :=
  if id ∈ ps.VisibleMapIds.map (fun e => e.1) then
    ({ ps with VisibleMapIds := ps.VisibleMapIds.map (fun e =>
        if e.1 = id then (e.1, { e.2 with References := e.2.References + references })
        else e) }, false)
  else
    let ref : VisibleMapIdRef := { References := references, VisibleMapInfo := info }
    ({ ps with VisibleMapIds := ps.VisibleMapIds.orderedInsert (fun a b => a.1 ≤ b.1) (id, ref) },
      true)

/-- The members of `PhaseShift` for the example phase shift; the terrain swap `638`
is the only one registered, the terrain swap conditions hold for every map but
`640`, `DEFAULT_PHASE` is `169`, and the use flags are `1` and `2`. -/
def exampleShiftEnv : ShiftEnv ExamplePhaseShift :=
  { PhaseRefs := fun ps => ps.Phases
    VisibleMapIds := fun ps => ps.VisibleMapIds
    IsDbPhaseShift := fun ps => ps.IsDbPhaseShift
    Flags := fun ps => ps.Flags
    SetIsDbPhaseShift := fun ps b => { ps with IsDbPhaseShift := b }
    SetFlags := fun ps f => { ps with Flags := f }
    Empty := ExamplePhaseShift.empty
    Clear := fun _ => ExamplePhaseShift.empty
    ClearPhases := fun ps => { ps with Phases := [] }
    HasPhase := fun ps id => decide (id ∈ ps.Phases.map (fun r => r.Id))
    AddPhaseRefs := fun ps id f c n => ps.addPhase id f c n
    ModifyPhasesReferences := fun ps id d => ps.modifyReferences id d
    PhasesErase := fun ps id => ps.erasePhase id
    RemovePhaseResult := fun ps id => ps.removePhase id
    AddVisibleMapId := fun ps id info n => ps.addVisibleMapId id info n
    RemoveVisibleMapId := fun ps id =>
      ({ ps with VisibleMapIds := ps.VisibleMapIds.filter (fun e => e.1 ≠ id) },
        decide (id ∈ ps.VisibleMapIds.map (fun e => e.1)))
    VisibleMapIdsErase := fun ps id =>
      { ps with VisibleMapIds := ps.VisibleMapIds.filter (fun e => e.1 ≠ id) }
    AddUiMapPhaseId := fun ps id =>
      if id ∈ ps.UiMapPhaseIds then (ps, false)
      else ({ ps with UiMapPhaseIds := ps.UiMapPhaseIds.orderedInsert (fun a b => a ≤ b) id },
        true)
    RemoveUiMapPhaseId := fun ps id =>
      ({ ps with UiMapPhaseIds := ps.UiMapPhaseIds.filter (fun u => u ≠ id) },
        decide (id ∈ ps.UiMapPhaseIds))
    GetTerrainSwapInfo := fun id =>
      if id = 638 then some { Id := 638, UiMapPhaseIDs := [5] } else none
    IsObjectMeetingNotGroupedConditions := fun _ id => decide (id ≠ 640)
    DEFAULT_PHASE := 169
    PHASE_USE_FLAGS_ALWAYS_VISIBLE := 1
    PHASE_USE_FLAGS_INVERSE := 2 }

/-- The stores and `PhaseShift::AddPhase`, `RemovePhase` for the example phase
shift; the group `1` holds the phases `169` and `170`. -/
def exampleShiftPhaseEnv : PhaseEnv ExamplePhaseShift :=
  { LookupEntry := fun _ => none
    GetPhasesForGroup := fun g => if g = 1 then some [169, 170] else none
    AddPhase := fun ps id f c => ps.addPhase id f c 1
    RemovePhase := fun ps id => ((ps.removePhase id).1, (ps.removePhase id).2.2) }

/-- The area side for the example phase shift: no area has phases, the object
meets exactly the conditions with the handle `1`, and the creature `1` carries one
`SPELL_AURA_PHASE` effect for the phase `170`. -/
def exampleShiftAreaEnv : AreaEnv ExamplePhaseShift :=
  { ClearPhases := fun ps => { ps with Phases := [] }
    Phases := fun ps => ps.Phases.map (fun r => r.Id)
    GetAreaId := fun _ => 10
    LookupArea := fun _ => none
    GetPhasesForArea := fun _ => none
    IsObjectMeetToConditions := fun _ conds => decide (conds = 1)
    GetAuraEffectsByType := fun g t =>
      if g = 1 ∧ t = AuraType.SPELL_AURA_PHASE then [170] else [] }

/-- The creature `1` of the example: in its phase shift the phase `170`, held twice,
has conditions that are not met, the phase `171` has conditions that are met, and
the phase `172` has none; it sees the visible map `638` with its terrain swap info
and the visible map `641`, for which no terrain swap info is registered; its
suppressed phase shift is empty. -/
def exampleConditionUnit : PhaseObject (PhaseShifts ExamplePhaseShift) :=
  { typeId := TypeID.TYPEID_UNIT, inWorld := true,
    phaseShift :=
      { active :=
          { ExamplePhaseShift.empty with
            Phases :=
              [{ Id := 170, Flags := PhaseFlags.None, References := 2, AreaConditions := some 2 },
               { Id := 171, Flags := PhaseFlags.None, References := 1, AreaConditions := some 1 },
               { Id := 172, Flags := PhaseFlags.None, References := 1, AreaConditions := none }]
            VisibleMapIds :=
              [(638, { References := 1,
                       VisibleMapInfo := some { Id := 638, UiMapPhaseIDs := [5] } }),
               (641, { References := 1, VisibleMapInfo := none })] }
        suppressed := ExamplePhaseShift.empty },
    m_Controlled := [], m_SummonSlot := [] }

/-- A world for the example: the creature `1` alone. -/
def exampleConditionWorld : PhaseWorld (PhaseShifts ExamplePhaseShift) :=
  { objects := fun g => if g = 1 then some exampleConditionUnit else none
    log := [] }

/-- The creature `1` of the example with the visible map `640` instead: its terrain
swap conditions are not met, and no terrain swap info is registered for it. -/
def exampleSwapUnit : PhaseObject (PhaseShifts ExamplePhaseShift) :=
  { exampleConditionUnit with
    phaseShift :=
      { active :=
          { exampleConditionUnit.phaseShift.active with
            VisibleMapIds := [(640, { References := 1, VisibleMapInfo := none })] }
        suppressed := ExamplePhaseShift.empty } }

/-- A world for the example: the creature `1` with the visible map `640`. -/
def exampleSwapWorld : PhaseWorld (PhaseShifts ExamplePhaseShift) :=
  { objects := fun g => if g = 1 then some exampleSwapUnit else none
    log := [] }

/-- A world for the examples of the visible maps: the game object `4` with an
empty phase shift. -/
def exampleVisibleWorld : PhaseWorld ExamplePhaseShift :=
  { objects := fun g =>
      if g = 4 then
        some { typeId := TypeID.TYPEID_GAMEOBJECT, inWorld := true,
               phaseShift := ExamplePhaseShift.empty, m_Controlled := [], m_SummonSlot := [] }
      else none
    log := [] }

/-! # Theorems -/

/-! ## The ordered map keeps its keys unique -/

theorem mem_emplace_fst {V : Type} (m : StdMap V) (key : ObjectGuid) (val : V) (e : ObjectGuid × V)
    (h : e ∈ StdMap.emplace m key val) : (∃ e' ∈ m, e'.1 = e.1) ∨ e.1 = key := by
  induction m with
  | nil =>
    simp [StdMap.emplace] at h
    right; rw [h]
  | cons hd tl ih =>
    obtain ⟨k, v⟩ := hd
    simp only [StdMap.emplace] at h
    split_ifs at h with h1 h2
    · rcases List.mem_cons.1 h with h | h
      · right; rw [h]
      · left; exact ⟨e, h, rfl⟩
    · left; exact ⟨e, h, rfl⟩
    · rcases List.mem_cons.1 h with h | h
      · left; exact ⟨(k, v), List.mem_cons_self _ _, by rw [h]⟩
      · rcases ih h with ⟨e', he', hk⟩ | hk
        · left; exact ⟨e', List.mem_cons_of_mem _ he', hk⟩
        · right; exact hk

theorem mem_assign_fst {V : Type} (m : StdMap V) (key : ObjectGuid) (val : V) (e : ObjectGuid × V)
    (h : e ∈ StdMap.assign m key val) : (∃ e' ∈ m, e'.1 = e.1) ∨ e.1 = key := by
  induction m with
  | nil =>
    simp [StdMap.assign] at h
    right; rw [h]
  | cons hd tl ih =>
    obtain ⟨k, v⟩ := hd
    simp only [StdMap.assign] at h
    split_ifs at h with h1 h2
    · rcases List.mem_cons.1 h with h | h
      · right; rw [h]
      · left; exact ⟨e, h, rfl⟩
    · rcases List.mem_cons.1 h with h | h
      · right; rw [h]; exact h2.symm
      · left; exact ⟨e, List.mem_cons_of_mem _ h, rfl⟩
    · rcases List.mem_cons.1 h with h | h
      · left; exact ⟨(k, v), List.mem_cons_self _ _, by rw [h]⟩
      · rcases ih h with ⟨e', he', hk⟩ | hk
        · left; exact ⟨e', List.mem_cons_of_mem _ he', hk⟩
        · right; exact hk

theorem emplace_sorted {V : Type} (m : StdMap V) (key : ObjectGuid) (val : V)
    (h : m.Pairwise (fun x y => x.1 < y.1)) :
    (StdMap.emplace m key val).Pairwise (fun x y => x.1 < y.1) := by
  induction m with
  | nil => simp [StdMap.emplace]
  | cons hd tl ih =>
    obtain ⟨k, v⟩ := hd
    rw [List.pairwise_cons] at h
    simp only [StdMap.emplace]
    split_ifs with h1 h2
    · refine List.pairwise_cons.2 ⟨?_, List.pairwise_cons.2 h⟩
      intro e he
      rcases List.mem_cons.1 he with he | he
      · rw [he]; exact h1
      · exact lt_trans h1 (h.1 e he)
    · exact List.pairwise_cons.2 h
    · refine List.pairwise_cons.2 ⟨?_, ih h.2⟩
      intro e he
      rcases mem_emplace_fst tl key val e he with ⟨e', he', hk⟩ | hk
      · rw [← hk]; exact h.1 e' he'
      · rw [hk]; exact lt_of_le_of_ne (not_lt.1 h1) (Ne.symm h2)

theorem assign_sorted {V : Type} (m : StdMap V) (key : ObjectGuid) (val : V)
    (h : m.Pairwise (fun x y => x.1 < y.1)) :
    (StdMap.assign m key val).Pairwise (fun x y => x.1 < y.1) := by
  induction m with
  | nil => simp [StdMap.assign]
  | cons hd tl ih =>
    obtain ⟨k, v⟩ := hd
    rw [List.pairwise_cons] at h
    simp only [StdMap.assign]
    split_ifs with h1 h2
    · refine List.pairwise_cons.2 ⟨?_, List.pairwise_cons.2 h⟩
      intro e he
      rcases List.mem_cons.1 he with he | he
      · rw [he]; exact h1
      · exact lt_trans h1 (h.1 e he)
    · exact List.pairwise_cons.2 ⟨fun e he => h.1 e he, h.2⟩
    · refine List.pairwise_cons.2 ⟨?_, ih h.2⟩
      intro e he
      rcases mem_assign_fst tl key val e he with ⟨e', he', hk⟩ | hk
      · rw [← hk]; exact h.1 e' he'
      · rw [hk]; exact lt_of_le_of_ne (not_lt.1 h1) (Ne.symm h2)

theorem erase_sublist {V : Type} (m : StdMap V) (key : ObjectGuid) :
    List.Sublist (StdMap.erase m key) m := by
  induction m with
  | nil => simp [StdMap.erase]
  | cons hd tl ih =>
    obtain ⟨k, v⟩ := hd
    simp only [StdMap.erase]
    split_ifs with h1
    · exact List.sublist_cons_self _ _
    · exact List.Sublist.cons₂ _ ih

theorem step_sorted {V : Type} (m : StdMap V) (op : MapOp V)
    (h : m.Pairwise (fun x y => x.1 < y.1)) :
    (StdMap.step m op).Pairwise (fun x y => x.1 < y.1) := by
  cases op with
  | emplace key val => exact emplace_sorted m key val h
  | assign key val => exact assign_sorted m key val h
  | erase key => exact List.Pairwise.sublist (erase_sublist m key) h
  | clear => exact List.Pairwise.nil

theorem foldl_step_sorted {V : Type} (ops : List (MapOp V)) (m : StdMap V)
    (h : m.Pairwise (fun x y => x.1 < y.1)) :
    (ops.foldl StdMap.step m).Pairwise (fun x y => x.1 < y.1) := by
  induction ops generalizing m with
  | nil => exact h
  | cons op rest ih => exact ih _ (step_sorted m op h)

theorem countKey_le_one_of_sorted {V : Type} (m : StdMap V) (key : ObjectGuid)
    (h : m.Pairwise (fun x y => x.1 < y.1)) : StdMap.countKey m key ≤ 1 := by
  induction m with
  | nil => simp [StdMap.countKey]
  | cons hd tl ih =>
    rw [List.pairwise_cons] at h
    have ih' := ih h.2
    unfold StdMap.countKey at ih' ⊢
    by_cases hk : hd.1 = key
    · have hnil : tl.filter (fun e => decide (e.1 = key)) = [] := by
        rw [List.filter_eq_nil_iff]
        intro e he
        have hlt := h.1 e he
        simp only [decide_eq_true_eq]
        intro heq
        rw [hk, heq] at hlt
        exact lt_irrefl _ hlt
      simp [List.filter_cons, hk, hnil]
    · simpa [List.filter_cons, hk] using ih'

theorem find_eq_some_iff_of_sorted {V : Type} (m : StdMap V) (key : ObjectGuid) (val : V)
    (h : m.Pairwise (fun x y => x.1 < y.1)) :
    StdMap.find m key = some val ↔ (key, val) ∈ m := by
  induction m with
  | nil => simp [StdMap.find]
  | cons hd tl ih =>
    obtain ⟨k, v⟩ := hd
    rw [List.pairwise_cons] at h
    simp only [StdMap.find]
    split_ifs with h1
    · subst h1
      constructor
      · intro hv
        have hv' : v = val := Option.some.inj hv
        rw [hv']; exact List.mem_cons_self _ _
      · intro hm
        rcases List.mem_cons.1 hm with hm | hm
        · have : val = v := (Prod.mk.inj hm).2
          rw [this]
        · exact absurd (h.1 _ hm) (lt_irrefl _)
    · rw [ih h.2]
      constructor
      · intro hm; exact List.mem_cons_of_mem _ hm
      · intro hm
        rcases List.mem_cons.1 hm with hm | hm
        · exact absurd (Prod.mk.inj hm).1.symm h1
        · exact hm

/-- C1: starting from a freshly constructed aura, whatever sequence of map
mutations the aura performs on its application map, the map binds every target
identifier at most once, and `GetApplicationOfTarget(guid)` returns an application
exactly when it is the one entry bound to `guid`. -/
theorem application_map_one_per_target (a : Aura) (ops : List (MapOp AuraApplication))
    (guid : ObjectGuid) :
    StdMap.countKey (a.fresh.mutateApplications ops).m_applications guid ≤ 1 ∧
    ∀ app : AuraApplication,
      (a.fresh.mutateApplications ops).GetApplicationOfTarget guid = some app ↔
        (guid, app) ∈ (a.fresh.mutateApplications ops).m_applications := by
  have hs : ((a.fresh.mutateApplications ops).m_applications).Pairwise (fun x y => x.1 < y.1) := by
    unfold Aura.mutateApplications Aura.fresh
    exact foldl_step_sorted ops [] List.Pairwise.nil
  exact ⟨countKey_le_one_of_sorted _ guid hs,
    fun app => find_eq_some_iff_of_sorted _ guid app hs⟩

/-- C6: an aura is permanent exactly when its max duration is `-1`, and after
`SetMaxDuration(d)` the aura is permanent exactly when `d` is `-1`. -/
theorem permanent_iff_sentinel (a : Aura) (d : Int) :
    (a.IsPermanent = true ↔ a.GetMaxDuration = -1) ∧
    (a.SetMaxDuration d).IsPermanent = decide (d = -1) := by
  constructor
  · simp [Aura.IsPermanent]
  · by_cases h : d = -1 <;> simp [Aura.IsPermanent, Aura.SetMaxDuration, Aura.GetMaxDuration, h]

/-- C7: `Aura::GetEffect`, `Aura::HasEffect` and `AuraApplication::HasEffect` fail
their assertion exactly for the indices `i >= MAX_SPELL_EFFECTS` and return a value
exactly for the indices `i < MAX_SPELL_EFFECTS`. -/
theorem effect_index_assert (a : Aura) (app : AuraApplication) (i : Nat) :
    (a.GetEffect i = .error Fault.assertFailed ↔ MAX_SPELL_EFFECTS ≤ i) ∧
    (a.HasEffect i = .error Fault.assertFailed ↔ MAX_SPELL_EFFECTS ≤ i) ∧
    (app.HasEffect i = .error Fault.assertFailed ↔ MAX_SPELL_EFFECTS ≤ i) ∧
    ((∃ e, a.GetEffect i = .ok e) ↔ i < MAX_SPELL_EFFECTS) ∧
    ((∃ b, a.HasEffect i = .ok b) ↔ i < MAX_SPELL_EFFECTS) ∧
    ((∃ b, app.HasEffect i = .ok b) ↔ i < MAX_SPELL_EFFECTS) := by
  by_cases h : i < MAX_SPELL_EFFECTS
  · have h' : ¬ MAX_SPELL_EFFECTS ≤ i := by omega
    simp [Aura.GetEffect, Aura.HasEffect, AuraApplication.HasEffect, h, h']
  · have h' : MAX_SPELL_EFFECTS ≤ i := by omega
    simp [Aura.GetEffect, Aura.HasEffect, AuraApplication.HasEffect, h, h']


/-! ## The Diff-Apply pass -/

theorem mem_emplace {V : Type} (m : StdMap V) (key : ObjectGuid) (val : V) (e : ObjectGuid × V)
    (h : e ∈ StdMap.emplace m key val) : e ∈ m ∨ e = (key, val) := by
  induction m with
  | nil =>
    simp [StdMap.emplace] at h
    right; exact h
  | cons hd tl ih =>
    obtain ⟨k, v⟩ := hd
    simp only [StdMap.emplace] at h
    split_ifs at h with h1 h2
    · rcases List.mem_cons.1 h with h | h
      · right; exact h
      · left; exact h
    · left; exact h
    · rcases List.mem_cons.1 h with h | h
      · left; rw [h]; exact List.mem_cons_self _ _
      · rcases ih h with h | h
        · left; exact List.mem_cons_of_mem _ h
        · right; exact h

theorem find_emplace_self {V : Type} (m : StdMap V) (key : ObjectGuid) (val : V) :
    (StdMap.find (StdMap.emplace m key val) key).isSome = true := by
  induction m with
  | nil => simp [StdMap.emplace, StdMap.find]
  | cons hd tl ih =>
    obtain ⟨k, v⟩ := hd
    simp only [StdMap.emplace]
    split_ifs with h1 h2
    · simp [StdMap.find]
    · simp [StdMap.find, h2]
    · have h3 : ¬ k = key := fun h => h2 h.symm
      simp only [StdMap.find, h3, if_false]
      exact ih

theorem find_emplace_mono {V : Type} (m : StdMap V) (key : ObjectGuid) (val : V) (g : ObjectGuid)
    (h : (StdMap.find m g).isSome = true) :
    (StdMap.find (StdMap.emplace m key val) g).isSome = true := by
  induction m with
  | nil => simp [StdMap.find] at h
  | cons hd tl ih =>
    obtain ⟨k, v⟩ := hd
    simp only [StdMap.emplace]
    split_ifs with h1 h2
    · by_cases hg : key = g
      · simp [StdMap.find, hg]
      · simp only [StdMap.find, hg, if_false]
        simpa [StdMap.find] using h
    · exact h
    · simp only [StdMap.find] at h ⊢
      split_ifs with h3
      · rfl
      · rw [if_neg h3] at h
        exact ih h

theorem mem_of_find_eq_some {V : Type} (m : StdMap V) (key : ObjectGuid) (val : V)
    (h : StdMap.find m key = some val) : (key, val) ∈ m := by
  induction m with
  | nil => simp [StdMap.find] at h
  | cons hd tl ih =>
    obtain ⟨k, v⟩ := hd
    simp only [StdMap.find] at h
    split_ifs at h with h1
    · have hv : v = val := Option.some.inj h
      rw [h1, hv]; exact List.mem_cons_self _ _
    · exact List.mem_cons_of_mem _ (ih h)

theorem mem_of_lookup_eq_some (T : List (ObjectGuid × Nat)) (g : ObjectGuid) (m : Nat)
    (h : T.lookup g = some m) : (g, m) ∈ T := by
  induction T with
  | nil => simp at h
  | cons hd tl ih =>
    obtain ⟨k, v⟩ := hd
    rw [List.lookup_cons] at h
    by_cases hk : g = k
    · subst hk
      simp at h
      rw [h]; exact List.mem_cons_self _ _
    · have hb : (g == k) = false := by simpa using hk
      rw [hb] at h
      exact List.mem_cons_of_mem _ (ih h)

theorem lookup_eq_some_of_mem (T : List (ObjectGuid × Nat)) (g : ObjectGuid) (m : Nat)
    (hk : (T.map Prod.fst).Nodup) (h : (g, m) ∈ T) : T.lookup g = some m := by
  induction T with
  | nil => simp at h
  | cons hd tl ih =>
    obtain ⟨k, v⟩ := hd
    rw [List.map_cons, List.nodup_cons] at hk
    rw [List.lookup_cons]
    rcases List.mem_cons.1 h with h | h
    · have h1 : g = k := (Prod.mk.inj h).1
      have h2 : m = v := (Prod.mk.inj h).2
      subst h1; subst h2
      simp
    · have hne : g ≠ k := by
        intro heq
        apply hk.1
        rw [← heq]
        exact List.mem_map.2 ⟨(g, m), h, rfl⟩
      have hb : (g == k) = false := by simpa using hne
      rw [hb]
      exact ih hk.2 h

theorem eligibleMask_lt (T : List (ObjectGuid × Nat)) (g : ObjectGuid)
    (hm : ∀ t ∈ T, t.2 < 8) : eligibleMask T g < 8 := by
  unfold eligibleMask
  cases hl : T.lookup g with
  | none => simp
  | some m => exact hm _ (mem_of_lookup_eq_some T g m hl)

theorem eligibleMask_of_mem (T : List (ObjectGuid × Nat)) (t : ObjectGuid × Nat)
    (hk : (T.map Prod.fst).Nodup) (h : t ∈ T) : eligibleMask T t.1 = t.2 := by
  unfold eligibleMask
  rw [lookup_eq_some_of_mem T t.1 t.2 hk h]
  rfl

theorem getEffectMask_eq_mod (app : AuraApplication) : app.GetEffectMask = app.flags % 8 := by
  unfold AuraApplication.GetEffectMask AFLAG_EFF_INDEX_ALL
  exact Nat.and_pow_two_sub_one_eq_mod app.flags 3

theorem getEffectMask_withEffectMask (app : AuraApplication) (m : Nat) (h : m < 8) :
    (app.withEffectMask m).GetEffectMask = m := by
  rw [getEffectMask_eq_mod]
  unfold AuraApplication.withEffectMask
  simp only
  omega

theorem getEffectMask_create (f : ObjectGuid → Nat) (g : ObjectGuid) (m : Nat) (h : m < 8) :
    (AuraApplication.create f g m).GetEffectMask = m := by
  rw [getEffectMask_eq_mod]
  unfold AuraApplication.create
  simp only
  omega

theorem foldl_emplace_mem (f : ObjectGuid → Nat) (T : List (ObjectGuid × Nat))
    (m : StdMap AuraApplication) (e : ObjectGuid × AuraApplication)
    (h : e ∈ T.foldl (fun m t =>
      if t.2 = 0 then m else StdMap.emplace m t.1 (AuraApplication.create f t.1 t.2)) m) :
    e ∈ m ∨ ∃ t ∈ T, t.2 ≠ 0 ∧ e = (t.1, AuraApplication.create f t.1 t.2) := by
  induction T generalizing m with
  | nil => left; exact h
  | cons hd tl ih =>
    rw [List.foldl_cons] at h
    rcases ih _ h with h1 | ⟨t, ht, h0, he⟩
    · by_cases hz : hd.2 = 0
      · rw [if_pos hz] at h1
        left; exact h1
      · rw [if_neg hz] at h1
        rcases mem_emplace _ _ _ _ h1 with h2 | h2
        · left; exact h2
        · right; exact ⟨hd, List.mem_cons_self _ _, hz, h2⟩
    · right; exact ⟨t, List.mem_cons_of_mem _ ht, h0, he⟩

theorem foldl_emplace_find_mono (f : ObjectGuid → Nat) (T : List (ObjectGuid × Nat))
    (m : StdMap AuraApplication) (g : ObjectGuid) (h : (StdMap.find m g).isSome = true) :
    (StdMap.find (T.foldl (fun m t =>
      if t.2 = 0 then m else StdMap.emplace m t.1 (AuraApplication.create f t.1 t.2)) m) g).isSome
      = true := by
  induction T generalizing m with
  | nil => exact h
  | cons hd tl ih =>
    rw [List.foldl_cons]
    apply ih
    by_cases hz : hd.2 = 0
    · rw [if_pos hz]; exact h
    · rw [if_neg hz]; exact find_emplace_mono _ _ _ _ h

theorem foldl_emplace_find (f : ObjectGuid → Nat) (T : List (ObjectGuid × Nat))
    (m : StdMap AuraApplication) (t : ObjectGuid × Nat) (ht : t ∈ T) (h0 : t.2 ≠ 0) :
    (StdMap.find (T.foldl (fun m t =>
      if t.2 = 0 then m else StdMap.emplace m t.1 (AuraApplication.create f t.1 t.2)) m) t.1).isSome
      = true := by
  induction T generalizing m with
  | nil => simp at ht
  | cons hd tl ih =>
    rw [List.foldl_cons]
    rcases List.mem_cons.1 ht with ht | ht
    · apply foldl_emplace_find_mono
      rw [← ht, if_neg h0]
      exact find_emplace_self _ _ _
    · exact ih _ ht

theorem appliedMap_entries (f : ObjectGuid → Nat) (apps : StdMap AuraApplication)
    (T : List (ObjectGuid × Nat)) (hk : (T.map Prod.fst).Nodup) (hm : ∀ t ∈ T, t.2 < 8)
    (e : ObjectGuid × AuraApplication) (h : e ∈ appliedMap f apps T) :
    eligibleMask T e.1 ≠ 0 ∧ e.2.GetEffectMask = eligibleMask T e.1 := by
  unfold appliedMap at h
  rcases foldl_emplace_mem f T _ e h with h1 | ⟨t, ht, h0, he⟩
  · rw [List.mem_filterMap] at h1
    obtain ⟨e0, _, h2⟩ := h1
    by_cases hz : eligibleMask T e0.1 = 0
    · rw [if_pos hz] at h2; exact absurd h2 (by simp)
    · rw [if_neg hz] at h2
      have h3 := Option.some.inj h2
      rw [← h3]
      exact ⟨hz, getEffectMask_withEffectMask _ _ (eligibleMask_lt T e0.1 hm)⟩
  · rw [he]
    have h1 := eligibleMask_of_mem T t hk ht
    simp only
    rw [h1]
    exact ⟨h0, getEffectMask_create f t.1 t.2 (hm t ht)⟩

theorem unapplyOps_appliedMap (f : ObjectGuid → Nat) (apps : StdMap AuraApplication)
    (T : List (ObjectGuid × Nat)) (hk : (T.map Prod.fst).Nodup) (hm : ∀ t ∈ T, t.2 < 8) :
    unapplyOps (appliedMap f apps T) T = [] := by
  unfold unapplyOps
  rw [List.filterMap_eq_nil_iff]
  intro e he
  obtain ⟨h0, h1⟩ := appliedMap_entries f apps T hk hm e he
  simp only
  rw [if_neg h0, if_pos h1]

theorem applyOps_appliedMap (f : ObjectGuid → Nat) (apps : StdMap AuraApplication)
    (T : List (ObjectGuid × Nat)) (hk : (T.map Prod.fst).Nodup) (hm : ∀ t ∈ T, t.2 < 8) :
    applyOps (appliedMap f apps T) T = [] := by
  unfold applyOps
  rw [List.filterMap_eq_nil_iff]
  intro t ht
  by_cases hz : t.2 = 0
  · rw [if_pos hz]
  · rw [if_neg hz]
    have hs : (StdMap.find (appliedMap f apps T) t.1).isSome = true := by
      unfold appliedMap
      exact foldl_emplace_find f T _ t ht hz
    cases hf : StdMap.find (appliedMap f apps T) t.1 with
    | none => rw [hf] at hs; simp at hs
    | some app =>
      have hmem := mem_of_find_eq_some _ _ _ hf
      obtain ⟨_, h1⟩ := appliedMap_entries f apps T hk hm _ hmem
      have h2 : app.GetEffectMask = t.2 := by
        rw [h1]; exact eligibleMask_of_mem T t hk ht
      simp only
      rw [if_pos h2]

/-- C2: two Diff-Apply passes in a row over the same eligible targets (a map
from target to a mask over the three effect slots): the second pass performs no
apply and no unapply operation, so it leaves the trace as the first pass left
it. -/
theorem diff_apply_idempotent (a : Aura) (f : ObjectGuid → Nat) (T : List (ObjectGuid × Nat))
    (hk : (T.map Prod.fst).Nodup) (hm : ∀ t ∈ T, t.2 < 8) :
    (a.UpdateTargetMap f T).diffOps T = [] ∧
    ((a.UpdateTargetMap f T).UpdateTargetMap f T).trace = (a.UpdateTargetMap f T).trace := by
  have h1 : (a.UpdateTargetMap f T).diffOps T = [] := by
    unfold Aura.diffOps Aura.UpdateTargetMap
    by_cases hr : a.m_isRemoved = true
    · simp [hr]
    · simp only [hr, if_false, Bool.false_eq_true]
      rw [unapplyOps_appliedMap f _ T hk hm, applyOps_appliedMap f _ T hk hm]
      rfl
  refine ⟨h1, ?_⟩
  show (a.UpdateTargetMap f T).trace ++ (a.UpdateTargetMap f T).diffOps T = _
  rw [h1, List.append_nil]

/-- Witness for C2: target `7` is eligible with mask `{0,1}` in both passes. -/
theorem diff_apply_idempotent_witness :
    (exampleAura.UpdateTargetMap (fun _ => 0) [(7, 3)]).diffOps [(7, 3)] = [] ∧
    ((exampleAura.UpdateTargetMap (fun _ => 0) [(7, 3)]).UpdateTargetMap (fun _ => 0) [(7, 3)]).trace
      = (exampleAura.UpdateTargetMap (fun _ => 0) [(7, 3)]).trace :=
  diff_apply_idempotent exampleAura (fun _ => 0) [(7, 3)] (by decide) (by decide)


/-! ## Duration and charges -/

theorem remove_live (a : Aura) (r : AuraRemoveFlags) (h : a.m_isRemoved = false) :
    (a.Remove r).m_isRemoved = true ∧
    (a.Remove r).m_applications = [] ∧
    (a.Remove r).trace = a.trace
      ++ a.m_applications.map (fun e => AuraEvent.unapplied e.1 e.2.GetEffectMask)
      ++ [AuraEvent.removed r] ∧
    (a.Remove r).m_updateTargetMapInterval = a.m_updateTargetMapInterval ∧
    (a.Remove r).m_procCharges = a.m_procCharges := by
  unfold Aura.Remove
  simp [h]

theorem removalCount_append (xs ys : List AuraEvent) :
    removalCount (xs ++ ys) = removalCount xs + removalCount ys := by
  unfold removalCount
  rw [List.filter_append, List.length_append]

theorem removalCount_unapplied (apps : StdMap AuraApplication) :
    removalCount (apps.map (fun e => AuraEvent.unapplied e.1 e.2.GetEffectMask)) = 0 := by
  unfold removalCount
  rw [List.length_eq_zero, List.filter_eq_nil_iff]
  intro e he
  obtain ⟨x, _, hx⟩ := List.mem_map.1 he
  rw [← hx]
  simp

theorem diffOps_no_removal (a : Aura) (T : List (ObjectGuid × Nat)) (e : AuraEvent)
    (he : e ∈ a.diffOps T) (r : AuraRemoveFlags) : e ≠ AuraEvent.removed r := by
  unfold Aura.diffOps at he
  intro heq
  subst heq
  split_ifs at he
  · obtain ⟨x, _, hx⟩ := List.mem_map.1 he
    exact AuraEvent.noConfusion hx
  · rcases List.mem_append.1 he with he | he
    · unfold unapplyOps at he
      obtain ⟨x, _, hx⟩ := List.mem_filterMap.1 he
      simp only at hx
      split_ifs at hx <;> simp at hx
    · unfold applyOps at he
      obtain ⟨x, _, hx⟩ := List.mem_filterMap.1 he
      revert hx
      cases StdMap.find a.m_applications x.1 with
      | none =>
        simp only
        split_ifs <;> simp
      | some app =>
        simp only
        split_ifs <;> simp

theorem update_permanent (a : Aura) (f : ObjectGuid → Nat) (diff : Nat)
    (T : List (ObjectGuid × Nat)) (hp : a.IsPermanent = true) :
    (a.Update f diff T).IsPermanent = true ∧
    (a.Update f diff T).m_isRemoved = a.m_isRemoved ∧
    (a.Update f diff T).m_duration = a.m_duration ∧
    ∃ extra : List AuraEvent, (a.Update f diff T).trace = a.trace ++ extra ∧
      ∀ r : AuraRemoveFlags, AuraEvent.removed r ∉ extra := by
  unfold Aura.Update
  simp only [hp, if_true, Bool.not_true, Bool.false_and, Bool.false_eq_true, if_false]
  split_ifs with ht
  · refine ⟨hp, rfl, rfl, ?_⟩
    refine ⟨Aura.diffOps { a with m_updateTargetMapInterval := a.m_updateTargetMapInterval - diff } T,
      rfl, ?_⟩
    intro r hmem
    exact diffOps_no_removal _ T _ hmem r rfl
  · exact ⟨hp, rfl, rfl, [], by simp, by simp⟩

/-- C3: a live, non-permanent aura whose remaining duration is at most `diff` is
removed by a single `Update(diff)` with reason `Expired`: it unapplies its current
targets, records exactly that removal last, and does nothing else in that tick
(the recompute timer is not touched and no Diff-Apply pass runs). -/
theorem update_expires (a : Aura) (f : ObjectGuid → Nat) (diff : Nat)
    (T : List (ObjectGuid × Nat)) (hp : a.IsPermanent = false) (hl : a.IsRemoved = false)
    (hd : a.GetDuration ≤ diff) :
    (a.Update f diff T).IsRemoved = true ∧
    (a.Update f diff T).trace = a.trace
      ++ a.m_applications.map (fun e => AuraEvent.unapplied e.1 e.2.GetEffectMask)
      ++ [AuraEvent.removed AuraRemoveFlags.Expired] ∧
    (a.Update f diff T).m_applications = [] ∧
    (a.Update f diff T).m_updateTargetMapInterval = a.m_updateTargetMapInterval := by
  have hd' : a.m_duration - (diff : Int) ≤ 0 := by
    unfold Aura.GetDuration at hd; omega
  have hu : a.Update f diff T
      = Aura.Remove { a with m_duration := a.m_duration - diff } AuraRemoveFlags.Expired := by
    unfold Aura.Update
    simp [hp, hd']
  rw [hu]
  have hr := remove_live { a with m_duration := a.m_duration - diff } AuraRemoveFlags.Expired hl
  exact ⟨hr.1, hr.2.2.1, hr.2.1, hr.2.2.2.1⟩

/-- Witness for C3: `maxDuration = duration = 5000`, then `Update(6000)`. -/
theorem update_expires_witness :
    (exampleAura.Update (fun _ => 0) 6000 []).IsRemoved = true ∧
    (exampleAura.Update (fun _ => 0) 6000 []).trace = exampleAura.trace
      ++ exampleAura.m_applications.map (fun e => AuraEvent.unapplied e.1 e.2.GetEffectMask)
      ++ [AuraEvent.removed AuraRemoveFlags.Expired] ∧
    (exampleAura.Update (fun _ => 0) 6000 []).m_applications = [] ∧
    (exampleAura.Update (fun _ => 0) 6000 []).m_updateTargetMapInterval
      = exampleAura.m_updateTargetMapInterval :=
  update_expires exampleAura (fun _ => 0) 6000 [] (by decide) (by decide) (by decide)

/-- C4: a permanent aura is never expired by `Update`: after any sequence of
`Update` calls, with any time steps and any eligible targets, the aura is still
permanent, its removed flag and its duration are what they were, and the events
the calls added to the trace contain no removal, of reason `Expired` or any
other. -/
theorem permanent_never_expires (a : Aura) (f : ObjectGuid → Nat)
    (ticks : List (Nat × List (ObjectGuid × Nat))) (hp : a.IsPermanent = true) :
    (a.runUpdates f ticks).IsPermanent = true ∧
    (a.runUpdates f ticks).IsRemoved = a.IsRemoved ∧
    (a.runUpdates f ticks).GetDuration = a.GetDuration ∧
    ∃ extra : List AuraEvent, (a.runUpdates f ticks).trace = a.trace ++ extra ∧
      ∀ r : AuraRemoveFlags, AuraEvent.removed r ∉ extra := by
  induction ticks generalizing a with
  | nil => exact ⟨hp, rfl, rfl, [], by simp [Aura.runUpdates], by simp⟩
  | cons t rest ih =>
    obtain ⟨h1, h2, h3, e1, h4, h5⟩ := update_permanent a f t.1 t.2 hp
    obtain ⟨k1, k2, k3, e2, k4, k5⟩ := ih (a.Update f t.1 t.2) h1
    have hrun : a.runUpdates f (t :: rest) = (a.Update f t.1 t.2).runUpdates f rest := by
      unfold Aura.runUpdates
      rw [List.foldl_cons]
    rw [hrun]
    refine ⟨k1, ?_, ?_, e1 ++ e2, ?_, ?_⟩
    · rw [k2]; exact h2
    · rw [k3]; exact h3
    · rw [k4, h4, List.append_assoc]
    · intro r hmem
      rcases List.mem_append.1 hmem with hmem | hmem
      · exact h5 r hmem
      · exact k5 r hmem

/-- Witness for C4: a permanent aura goes through three ticks of 10 minutes. -/
theorem permanent_never_expires_witness :
    ((exampleAura.SetMaxDuration (-1)).runUpdates (fun _ => 0)
        [(600000, [(7, 3)]), (600000, []), (600000, [(8, 1)])]).IsPermanent = true ∧
    ((exampleAura.SetMaxDuration (-1)).runUpdates (fun _ => 0)
        [(600000, [(7, 3)]), (600000, []), (600000, [(8, 1)])]).IsRemoved
      = (exampleAura.SetMaxDuration (-1)).IsRemoved ∧
    ((exampleAura.SetMaxDuration (-1)).runUpdates (fun _ => 0)
        [(600000, [(7, 3)]), (600000, []), (600000, [(8, 1)])]).GetDuration
      = (exampleAura.SetMaxDuration (-1)).GetDuration ∧
    ∃ extra : List AuraEvent,
      ((exampleAura.SetMaxDuration (-1)).runUpdates (fun _ => 0)
        [(600000, [(7, 3)]), (600000, []), (600000, [(8, 1)])]).trace
        = (exampleAura.SetMaxDuration (-1)).trace ++ extra ∧
      ∀ r : AuraRemoveFlags, AuraEvent.removed r ∉ extra :=
  permanent_never_expires (exampleAura.SetMaxDuration (-1)) (fun _ => 0)
    [(600000, [(7, 3)]), (600000, []), (600000, [(8, 1)])] (by decide)

theorem modCharges_keep (a : Aura) (num : Int) (r : AuraRemoveFlags)
    (hpos : 0 < (a.m_procCharges : Int) + num) (hmax : (a.m_procCharges : Int) + num ≤ a.maxCharges) :
    a.ModCharges num r = { a with m_procCharges := ((a.m_procCharges : Int) + num).toNat } := by
  have hc : (min (max ((a.m_procCharges : Int) + num) 0) (a.maxCharges : Int)).toNat
      = ((a.m_procCharges : Int) + num).toNat := by
    rw [max_eq_left (le_of_lt hpos), min_eq_left hmax]
  have hne : ¬ ((min (max ((a.m_procCharges : Int) + num) 0) (a.maxCharges : Int)).toNat = 0
      ∧ a.m_isUsingCharges = true) := by
    rw [hc]
    intro h
    have := h.1
    omega
  unfold Aura.ModCharges
  simp only []
  rw [if_neg hne, hc]

theorem modCharges_exhaust (a : Aura) (num : Int) (r : AuraRemoveFlags)
    (hu : a.m_isUsingCharges = true) (hz : (a.m_procCharges : Int) + num ≤ 0) :
    a.ModCharges num r = Aura.Remove { a with m_procCharges := 0 } r := by
  have hc : (min (max ((a.m_procCharges : Int) + num) 0) (a.maxCharges : Int)).toNat = 0 := by
    rw [max_eq_right hz, min_eq_left (by omega)]
    rfl
  unfold Aura.ModCharges
  simp only []
  rw [if_pos ⟨hc, hu⟩, hc]

/-- C5 as stated fails: two calls `ModCharges(-1)` on a live aura with two charges
that uses charges remove it, but the recorded removal reason is `ByDefault`, the
default argument of the declaration, and no removal with reason `Expired` is
recorded. -/
theorem modCharges_default_reason_is_not_expired :
    ((exampleAura.ModChargesByDefault (-1)).ModChargesByDefault (-1)).IsRemoved = true ∧
    ((exampleAura.ModChargesByDefault (-1)).ModChargesByDefault (-1)).trace
      = [AuraEvent.unapplied 7 3, AuraEvent.removed AuraRemoveFlags.ByDefault] ∧
    AuraEvent.removed AuraRemoveFlags.Expired
      ∉ ((exampleAura.ModChargesByDefault (-1)).ModChargesByDefault (-1)).trace := by
  decide

/-- C5, amended: on a live aura `a` that uses charges and has two of them,
`ModCharges(-1, r)` leaves one charge and does not remove the aura, and a second
`ModCharges(-1, r)` brings the charges to zero and removes the aura with the reason
`r` that was passed (`ByDefault` when the argument is omitted, `Expired` only when
the caller passes it).  In general, on a live aura `b` that uses charges, a
`ModCharges(num, r)` that reaches zero charges records exactly one removal, with
reason `r`. -/
theorem modCharges_removes_once_with_given_reason (a b : Aura) (r : AuraRemoveFlags) (num : Int)
    (hau : a.IsUsingCharges = true) (hal : a.IsRemoved = false) (hac : a.GetCharges = 2)
    (ham : 2 ≤ a.maxCharges)
    (hbu : b.IsUsingCharges = true) (hbl : b.IsRemoved = false)
    (hbz : (b.GetCharges : Int) + num ≤ 0) :
    ((a.ModCharges (-1) r).GetCharges = 1 ∧
      (a.ModCharges (-1) r).IsRemoved = false ∧
      (a.ModCharges (-1) r).trace = a.trace) ∧
    (((a.ModCharges (-1) r).ModCharges (-1) r).GetCharges = 0 ∧
      ((a.ModCharges (-1) r).ModCharges (-1) r).IsRemoved = true ∧
      ((a.ModCharges (-1) r).ModCharges (-1) r).trace = a.trace
        ++ a.m_applications.map (fun e => AuraEvent.unapplied e.1 e.2.GetEffectMask)
        ++ [AuraEvent.removed r]) ∧
    ((b.ModCharges num r).GetCharges = 0 ∧
      (b.ModCharges num r).IsRemoved = true ∧
      (b.ModCharges num r).trace = b.trace
        ++ b.m_applications.map (fun e => AuraEvent.unapplied e.1 e.2.GetEffectMask)
        ++ [AuraEvent.removed r] ∧
      removalCount (b.ModCharges num r).trace = removalCount b.trace + 1) := by
  unfold Aura.IsUsingCharges at hau hbu
  unfold Aura.IsRemoved at hal hbl
  unfold Aura.GetCharges at hac hbz
  have h1 := modCharges_keep a (-1) r (by omega) (by omega)
  have hone : ((a.m_procCharges : Int) + -1).toNat = 1 := by rw [hac]; rfl
  rw [hone] at h1
  have h2 := modCharges_exhaust { a with m_procCharges := 1 } (-1) r hau (by simp)
  have h3 := modCharges_exhaust b num r hbu hbz
  have hr2 := remove_live { a with m_procCharges := 0 } r hal
  have hr3 := remove_live { b with m_procCharges := 0 } r hbl
  unfold Aura.GetCharges Aura.IsRemoved
  rw [h1, h2, h3]
  refine ⟨⟨rfl, hal, rfl⟩, ⟨hr2.2.2.2.2, hr2.1, hr2.2.2.1⟩, hr3.2.2.2.2, hr3.1, hr3.2.2.1, ?_⟩
  · rw [hr3.2.2.1, removalCount_append, removalCount_append, removalCount_unapplied]
    rfl

/-- Witness for C5, amended: the aura of the scenario, with `Expired` passed as
the reason. -/
theorem modCharges_removes_once_with_given_reason_witness :
    ((exampleAura.ModCharges (-1) AuraRemoveFlags.Expired).GetCharges = 1 ∧
      (exampleAura.ModCharges (-1) AuraRemoveFlags.Expired).IsRemoved = false ∧
      (exampleAura.ModCharges (-1) AuraRemoveFlags.Expired).trace = exampleAura.trace) ∧
    (((exampleAura.ModCharges (-1) AuraRemoveFlags.Expired).ModCharges (-1)
        AuraRemoveFlags.Expired).GetCharges = 0 ∧
      ((exampleAura.ModCharges (-1) AuraRemoveFlags.Expired).ModCharges (-1)
        AuraRemoveFlags.Expired).IsRemoved = true ∧
      ((exampleAura.ModCharges (-1) AuraRemoveFlags.Expired).ModCharges (-1)
        AuraRemoveFlags.Expired).trace = exampleAura.trace
        ++ exampleAura.m_applications.map (fun e => AuraEvent.unapplied e.1 e.2.GetEffectMask)
        ++ [AuraEvent.removed AuraRemoveFlags.Expired]) ∧
    ((exampleAura.ModCharges (-2) AuraRemoveFlags.Expired).GetCharges = 0 ∧
      (exampleAura.ModCharges (-2) AuraRemoveFlags.Expired).IsRemoved = true ∧
      (exampleAura.ModCharges (-2) AuraRemoveFlags.Expired).trace = exampleAura.trace
        ++ exampleAura.m_applications.map (fun e => AuraEvent.unapplied e.1 e.2.GetEffectMask)
        ++ [AuraEvent.removed AuraRemoveFlags.Expired] ∧
      removalCount (exampleAura.ModCharges (-2) AuraRemoveFlags.Expired).trace
        = removalCount exampleAura.trace + 1) :=
  modCharges_removes_once_with_given_reason exampleAura exampleAura AuraRemoveFlags.Expired (-2)
    (by decide) (by decide) (by decide) (by decide) (by decide) (by decide) (by decide)


/-! ## Temporary summons -/

theorem getSummoner_unresolved (env : SummonEnv) (s : TempSummon)
    (h : s.m_summonerGUID = 0 ∨ env.GetUnit s.m_summonerGUID = none) :
    s.GetSummoner env = none := by
  unfold TempSummon.GetSummoner
  rcases h with h | h
  · simp [h]
  · simp [h]

theorem unSummon_delayed (env : SummonEnv) (s : TempSummon) (msTime : Nat) (h : msTime ≠ 0) :
    s.UnSummon env msTime
      = .ok { s with m_Events := s.m_Events
                ++ [(s.eventTime + msTime, BasicEvent.ForcedUnsummonDelayEvent)] } := by
  unfold TempSummon.UnSummon
  simp [h, TempSummon.AddEvent, TempSummon.CalculateTime, pure, Except.pure]

theorem unSummon_now_not_pet (env : SummonEnv) (t : TempSummon) (hp : t.isPet = false) :
    ∃ notes : List SummonEffect,
      t.UnSummon env 0
        = .ok { t with effects := t.effects ++ notes ++ [SummonEffect.AddObjectToRemoveList] } ∧
      (notes = [] ∨ ∃ g, notes = [SummonEffect.SummonedCreatureDespawn g]) := by
  unfold TempSummon.UnSummon
  cases ho : t.GetSummoner env with
  | none =>
    refine ⟨[], ?_, Or.inl rfl⟩
    simp [hp, ho, TempSummon.emit, pure, Except.pure, bind, Except.bind]
  | some o =>
    by_cases hc : o.typeId = TypeID.TYPEID_UNIT ∧ o.IsAIEnabled = true
    · refine ⟨[SummonEffect.SummonedCreatureDespawn o.guid], ?_, Or.inr ⟨o.guid, rfl⟩⟩
      simp [hp, ho, hc, deref, TempSummon.emit, pure, Except.pure, bind, Except.bind]
    · refine ⟨[], ?_, Or.inl rfl⟩
      simp only [not_and, Bool.not_eq_true] at hc
      by_cases h1 : o.typeId = TypeID.TYPEID_UNIT
      · simp [hp, ho, h1, hc h1, deref, TempSummon.emit, pure, Except.pure, bind, Except.bind]
      · simp [hp, ho, h1, deref, TempSummon.emit, pure, Except.pure, bind, Except.bind]

theorem unSummon_now_pet (env : SummonEnv) (t : TempSummon) (hp : t.isPet = true) :
    t.UnSummon env 0
      = (if (env.PetRemove (t.emit SummonEffect.PetRemove)).inWorld then
          .error Fault.assertFailed
         else .ok (env.PetRemove (t.emit SummonEffect.PetRemove))) := by
  unfold TempSummon.UnSummon
  by_cases hw : (env.PetRemove (t.emit SummonEffect.PetRemove)).inWorld = true
  · simp [hp, hw, throw, throwThe, MonadExceptOf.throw, bind, Except.bind]
  · simp [hp, hw, pure, Except.pure, bind, Except.bind]

/-- C8: for a non-zero delay, `UnSummon(delay)` returns the summon with exactly
one `ForcedUnsummonDelayEvent` added to its timeline, at the current time plus the
delay, and with everything else untouched: no pet removal, no notification of the
summoner, no queuing for removal.  When the event executes, on the summon `t` as
it is by then, it performs the immediate `UnSummon` and returns `true`: a summon
that is not a pet is queued for removal once, after at most one notification of
the summoner, and its timeline is left as it was (the event is not scheduled
again); a pet is handed to `Pet::Remove`, after which it must be out of the
world. -/
theorem unSummon_delay_schedules_event (env : SummonEnv) (s t : TempSummon) (msTime : Nat)
    (h : msTime ≠ 0) :
    s.UnSummon env msTime
      = .ok { s with m_Events := s.m_Events
                ++ [(s.eventTime + msTime, BasicEvent.ForcedUnsummonDelayEvent)] } ∧
    ∃ notes : List SummonEffect,
      (notes = [] ∨ ∃ g, notes = [SummonEffect.SummonedCreatureDespawn g]) ∧
      ForcedUnsummonDelayEvent.Execute env t
        = (if t.isPet then
            (if (env.PetRemove (t.emit SummonEffect.PetRemove)).inWorld then
              .error Fault.assertFailed
             else .ok (env.PetRemove (t.emit SummonEffect.PetRemove), true))
           else
            .ok ({ t with effects := t.effects ++ notes
                    ++ [SummonEffect.AddObjectToRemoveList] }, true)) := by
  refine ⟨unSummon_delayed env s msTime h, ?_⟩
  by_cases hp : t.isPet = true
  · refine ⟨[], Or.inl rfl, ?_⟩
    unfold ForcedUnsummonDelayEvent.Execute UnSummonDefaultMsTime
    rw [unSummon_now_pet env t hp, if_pos hp]
    split_ifs <;> rfl
  · simp only [Bool.not_eq_true] at hp
    obtain ⟨notes, h1, h2⟩ := unSummon_now_not_pet env t hp
    refine ⟨notes, h2, ?_⟩
    unfold ForcedUnsummonDelayEvent.Execute UnSummonDefaultMsTime
    rw [h1, hp]
    rfl

/-- Witness for C8: a delay of 3000 ms is requested; later the event executes. -/
theorem unSummon_delay_schedules_event_witness :
    exampleSummon.UnSummon exampleSummonEnv 3000
      = .ok { exampleSummon with m_Events := exampleSummon.m_Events
                ++ [(exampleSummon.eventTime + 3000, BasicEvent.ForcedUnsummonDelayEvent)] } ∧
    ∃ notes : List SummonEffect,
      (notes = [] ∨ ∃ g, notes = [SummonEffect.SummonedCreatureDespawn g]) ∧
      ForcedUnsummonDelayEvent.Execute exampleSummonEnv exampleOwnedSummon
        = (if exampleOwnedSummon.isPet then
            (if (exampleSummonEnv.PetRemove
                  (exampleOwnedSummon.emit SummonEffect.PetRemove)).inWorld then
              .error Fault.assertFailed
             else .ok (exampleSummonEnv.PetRemove
                  (exampleOwnedSummon.emit SummonEffect.PetRemove), true))
           else
            .ok ({ exampleOwnedSummon with effects := exampleOwnedSummon.effects ++ notes
                    ++ [SummonEffect.AddObjectToRemoveList] }, true)) :=
  unSummon_delay_schedules_event exampleSummonEnv exampleSummon exampleOwnedSummon 3000
    (by decide)

/-- C10: for a temporary summon whose summoner identifier is empty or does not
resolve, `GetSummoner` yields no unit, and none of `InitializeBeforeAddToMap`,
`InitializeAfterAddToMap`, `UnSummon` and `RemoveFromWorld` follows the missing
summoner, whatever the summon.  `InitializeBeforeAddToMap` completes on every summon
it accepts (its first statement is `ASSERT(!IsPet())`): timer, lifetime and type are
set, the faction falls back to the one of the summon properties, and nothing is
taken from a summoner.  `InitializeAfterAddToMap` completes and changes nothing.
`UnSummon` completes: with a delay the event is scheduled; without one a summon that
is not a pet is queued for removal and nobody is notified, while a pet is handed to
`Pet::Remove` before the summoner is looked at, and the call ends as `Pet::Remove`
and the assertion on its effect decide.  `RemoveFromWorld` completes without
touching a summon slot. -/
theorem unresolved_summoner_is_unknown (env : SummonEnv) (s : TempSummon) (duration msTime : Nat)
    (h : s.m_summonerGUID = 0 ∨ env.GetUnit s.m_summonerGUID = none) :
    s.GetSummoner env = none ∧
    (s.isPet = false →
      s.InitializeBeforeAddToMap env duration
        = .ok { s with
            m_timer := duration
            m_lifetime := duration
            m_type :=
              if s.m_type = TempSummonType.TEMPSUMMON_MANUAL_DESPAWN then
                (if duration = 0 then TempSummonType.TEMPSUMMON_DEAD_DESPAWN
                 else TempSummonType.TEMPSUMMON_TIMED_DESPAWN)
              else s.m_type
            faction :=
              match s.m_Properties with
              | some props => if props.Faction ≠ 0 then props.Faction else s.faction
              | none => s.faction }) ∧
    s.InitializeAfterAddToMap env = .ok s ∧
    s.UnSummon env msTime
      = (if msTime ≠ 0 then
          .ok { s with m_Events := s.m_Events
                  ++ [(s.eventTime + msTime, BasicEvent.ForcedUnsummonDelayEvent)] }
         else if s.isPet then
          (if (env.PetRemove (s.emit SummonEffect.PetRemove)).inWorld then
            .error Fault.assertFailed
           else .ok (env.PetRemove (s.emit SummonEffect.PetRemove)))
         else .ok (s.emit SummonEffect.AddObjectToRemoveList)) ∧
    s.RemoveFromWorld env
      = .ok (if s.inWorld then
              env.CreatureRemoveFromWorld (s.emit SummonEffect.CreatureRemoveFromWorld)
             else s) ∧
    s.InitializeBeforeAddToMap env duration ≠ .error Fault.nullDeref ∧
    s.InitializeAfterAddToMap env ≠ .error Fault.nullDeref ∧
    s.UnSummon env msTime ≠ .error Fault.nullDeref ∧
    s.RemoveFromWorld env ≠ .error Fault.nullDeref := by
  have ho := getSummoner_unresolved env s h
  have hb : s.InitializeBeforeAddToMap env duration
      = (if s.isPet then .error Fault.assertFailed
         else
          .ok { s with
            m_timer := duration
            m_lifetime := duration
            m_type :=
              if s.m_type = TempSummonType.TEMPSUMMON_MANUAL_DESPAWN then
                (if duration = 0 then TempSummonType.TEMPSUMMON_DEAD_DESPAWN
                 else TempSummonType.TEMPSUMMON_TIMED_DESPAWN)
              else s.m_type
            faction :=
              match s.m_Properties with
              | some props => if props.Faction ≠ 0 then props.Faction else s.faction
              | none => s.faction }) := by
    unfold TempSummon.InitializeBeforeAddToMap
    by_cases hpet : s.isPet = true
    · simp [hpet, throw, throwThe, MonadExceptOf.throw, bind, Except.bind]
    · simp only [Bool.not_eq_true] at hpet
      by_cases hm : s.m_type = TempSummonType.TEMPSUMMON_MANUAL_DESPAWN
      · cases hprops : s.m_Properties with
        | none =>
          rcases h with h | h <;>
            simp [hpet, hm, hprops, h, TempSummon.GetSummoner, pure, Except.pure, bind, Except.bind]
        | some props =>
          by_cases hf : props.Faction = 0
          · rcases h with h | h <;>
              simp [hpet, hm, hprops, h, hf, TempSummon.GetSummoner, pure, Except.pure, bind,
                Except.bind]
          · rcases h with h | h <;>
              simp [hpet, hm, hprops, h, hf, TempSummon.GetSummoner, pure, Except.pure, bind,
                Except.bind]
      · cases hprops : s.m_Properties with
        | none =>
          rcases h with h | h <;>
            simp [hpet, hm, hprops, h, TempSummon.GetSummoner, pure, Except.pure, bind, Except.bind]
        | some props =>
          by_cases hf : props.Faction = 0
          · rcases h with h | h <;>
              simp [hpet, hm, hprops, h, hf, TempSummon.GetSummoner, pure, Except.pure, bind,
                Except.bind]
          · rcases h with h | h <;>
              simp [hpet, hm, hprops, h, hf, TempSummon.GetSummoner, pure, Except.pure, bind,
                Except.bind]
  have ha : s.InitializeAfterAddToMap env = .ok s := by
    unfold TempSummon.InitializeAfterAddToMap
    simp [ho, pure, Except.pure]
  have hu : s.UnSummon env msTime
      = (if msTime ≠ 0 then
          .ok { s with m_Events := s.m_Events
                  ++ [(s.eventTime + msTime, BasicEvent.ForcedUnsummonDelayEvent)] }
         else if s.isPet then
          (if (env.PetRemove (s.emit SummonEffect.PetRemove)).inWorld then
            .error Fault.assertFailed
           else .ok (env.PetRemove (s.emit SummonEffect.PetRemove)))
         else .ok (s.emit SummonEffect.AddObjectToRemoveList)) := by
    unfold TempSummon.UnSummon
    by_cases hms : msTime = 0
    · by_cases hpet : s.isPet = true
      · by_cases hw : (env.PetRemove (s.emit SummonEffect.PetRemove)).inWorld = true
        · simp [hms, hpet, hw, throw, throwThe, MonadExceptOf.throw, bind, Except.bind]
        · simp [hms, hpet, hw, pure, Except.pure, bind, Except.bind]
      · simp [hms, hpet, ho, pure, Except.pure, bind, Except.bind]
    · simp [hms, TempSummon.AddEvent, TempSummon.CalculateTime, pure, Except.pure]
  have hr : s.RemoveFromWorld env
      = .ok (if s.inWorld then
              env.CreatureRemoveFromWorld (s.emit SummonEffect.CreatureRemoveFromWorld)
             else s) := by
    unfold TempSummon.RemoveFromWorld
    by_cases hw : s.inWorld = true
    · cases hprops : s.m_Properties with
      | none => simp [hw, pure, Except.pure, bind, Except.bind]
      | some props =>
        by_cases hs : props.Slot > 0
        · simp [hw, hs, ho, pure, Except.pure, bind, Except.bind]
        · simp [hw, hs, pure, Except.pure, bind, Except.bind]
    · simp [hw, pure, Except.pure]
  refine ⟨ho, ?_, ha, hu, hr, ?_, ?_, ?_, ?_⟩
  · intro hp
    rw [hb, hp]
    rfl
  · rw [hb]; split_ifs <;> simp
  · rw [ha]; simp
  · rw [hu]; split_ifs <;> simp
  · rw [hr]; simp


/-- Witness for C10: the summoner `9` of the example summon, which is not a pet,
does not resolve. -/
theorem unresolved_summoner_is_unknown_witness :
    exampleSummon.GetSummoner exampleSummonEnv = none ∧
    exampleSummon.InitializeBeforeAddToMap exampleSummonEnv 1000
      = .ok { exampleSummon with
          m_timer := 1000
          m_lifetime := 1000
          m_type := TempSummonType.TEMPSUMMON_TIMED_DESPAWN
          faction := 35 } ∧
    exampleSummon.InitializeAfterAddToMap exampleSummonEnv = .ok exampleSummon ∧
    exampleSummon.UnSummon exampleSummonEnv 0
      = .ok (exampleSummon.emit SummonEffect.AddObjectToRemoveList) ∧
    exampleSummon.RemoveFromWorld exampleSummonEnv
      = .ok (exampleSummonEnv.CreatureRemoveFromWorld
          (exampleSummon.emit SummonEffect.CreatureRemoveFromWorld)) ∧
    exampleSummon.InitializeBeforeAddToMap exampleSummonEnv 1000 ≠ .error Fault.nullDeref ∧
    exampleSummon.InitializeAfterAddToMap exampleSummonEnv ≠ .error Fault.nullDeref ∧
    exampleSummon.UnSummon exampleSummonEnv 0 ≠ .error Fault.nullDeref ∧
    exampleSummon.RemoveFromWorld exampleSummonEnv ≠ .error Fault.nullDeref :=
  have t := unresolved_summoner_is_unknown exampleSummonEnv exampleSummon 1000 0 (Or.inr rfl)
  ⟨t.1, t.2.1 rfl, t.2.2.1, t.2.2.2.1, t.2.2.2.2.1, t.2.2.2.2.2⟩


/-! ## Phase mutators -/

theorem shape_setPhaseShift {PS : Type} (w : PhaseWorld PS) (g : ObjectGuid) (ps : PS) :
    (w.setPhaseShift g ps).shape = w.shape := by
  funext x
  unfold PhaseWorld.shape PhaseWorld.setPhaseShift
  by_cases hx : x = g
  · simp only [hx, if_true]
    cases w.objects g <;> rfl
  · simp only [hx, if_false]

theorem shape_emit {PS : Type} (w : PhaseWorld PS) (e : PhaseEvent) :
    (w.emit e).shape = w.shape := rfl

theorem get_of_shape {PS : Type} (w : PhaseWorld PS) (g : ObjectGuid)
    (h : (w.shape g).isSome = true) :
    ∃ o, w.objects g = some o ∧ w.get g = .ok o ∧ w.shape g = some o.shape := by
  unfold PhaseWorld.shape at h ⊢
  unfold PhaseWorld.get
  cases ho : w.objects g with
  | none => rw [ho] at h; simp at h
  | some o => exact ⟨o, rfl, rfl, rfl⟩

theorem foldlM_ok {PS : Type}
    (sh : ObjectGuid → Option (TypeID × Bool × List ObjectGuid × List ObjectGuid))
    (step : PhaseWorld PS → ObjectGuid → Except Fault (PhaseWorld PS)) (l : List ObjectGuid)
    (hstep : ∀ w c, c ∈ l → w.shape = sh →
      ∃ w', step w c = .ok w' ∧ w'.shape = sh ∧ ∃ ext, w'.log = w.log ++ ext)
    (w : PhaseWorld PS) (hw : w.shape = sh) :
    ∃ w', l.foldlM step w = .ok w' ∧ w'.shape = sh ∧ ∃ ext, w'.log = w.log ++ ext := by
  induction l generalizing w with
  | nil => exact ⟨w, rfl, hw, [], by simp⟩
  | cons c rest ih =>
    obtain ⟨w1, h1, hs1, e1, hl1⟩ := hstep w c (List.mem_cons_self _ _) hw
    obtain ⟨w2, h2, hs2, e2, hl2⟩ :=
      ih (fun w c hc hw => hstep w c (List.mem_cons_of_mem _ hc) hw) w1 hs1
    refine ⟨w2, ?_, hs2, e1 ++ e2, ?_⟩
    · rw [List.foldlM_cons, h1]
      exact h2
    · rw [hl2, hl1, List.append_assoc]

theorem forAllControlled_ok {PS : Type}
    (sh : ObjectGuid → Option (TypeID × Bool × List ObjectGuid × List ObjectGuid))
    (rank : ObjectGuid → Nat) (hr : Ranked sh rank)
    (func : PhaseWorld PS → ObjectGuid → Except Fault (PhaseWorld PS)) (n : Nat)
    (hgood : GoodCall sh rank func n) (w : PhaseWorld PS) (unit : ObjectGuid)
    (hw : w.shape = sh) (hu : (sh unit).isSome = true) (hn : rank unit ≤ n) :
    ∃ w', ForAllControlled w unit func = .ok w' ∧ w'.shape = sh ∧
      ∃ ext, w'.log = w.log ++ ext := by
  obtain ⟨u, _, hget, hshape⟩ := get_of_shape w unit (by rw [hw]; exact hu)
  rw [hw] at hshape
  obtain ⟨hc, hs⟩ := hr unit u.shape hshape
  have h1 := foldlM_ok sh (fun w controlled => do
      let c ← w.get controlled
      if c.typeId ≠ TypeID.TYPEID_PLAYER then func w controlled else pure w) u.m_Controlled
    (by
      intro w0 c hmem hw0
      obtain ⟨hcs, hcr⟩ := hc c hmem
      obtain ⟨co, _, hcget, _⟩ := get_of_shape w0 c (by rw [hw0]; exact hcs)
      by_cases hp : co.typeId = TypeID.TYPEID_PLAYER
      · refine ⟨w0, ?_, hw0, [], by simp⟩
        simp [hcget, hp, bind, Except.bind, pure, Except.pure]
      · obtain ⟨w', hf, hs', hl'⟩ := hgood w0 c hw0 hcs (by omega)
        refine ⟨w', ?_, hs', hl'⟩
        simp [hcget, hp, bind, Except.bind, hf])
    w hw
  obtain ⟨w1, hf1, hs1, e1, hl1⟩ := h1
  have h2 := foldlM_ok sh (fun w slot =>
      if slot ≠ 0 then
        match w.GetCreature slot with
        | some _ => func w slot
        | none => pure w
      else pure w) u.m_SummonSlot
    (by
      intro w0 c hmem hw0
      by_cases hz : c = 0
      · refine ⟨w0, ?_, hw0, [], by simp⟩
        simp [hz, pure, Except.pure]
      · cases hcr : w0.GetCreature c with
        | none =>
          refine ⟨w0, ?_, hw0, [], by simp⟩
          simp [hz, hcr, pure, Except.pure]
        | some co =>
          have hsome : (sh c).isSome = true := by
            rw [← hw0]
            unfold PhaseWorld.shape
            unfold PhaseWorld.GetCreature at hcr
            cases hobj : w0.objects c with
            | none => rw [hobj] at hcr; simp at hcr
            | some x => rfl
          obtain ⟨w', hf, hs', hl'⟩ := hgood w0 c hw0 hsome (by have := hs c hmem hsome; omega)
          refine ⟨w', ?_, hs', hl'⟩
          simp [hz, hcr, hf])
    w1 hs1
  obtain ⟨w2, hf2, hs2, e2, hl2⟩ := h2
  refine ⟨w2, ?_, hs2, e1 ++ e2, ?_⟩
  · unfold ForAllControlled
    simp only [hget, bind, Except.bind]
    simp only [bind, Except.bind] at hf1 hf2
    rw [hf1]
    exact hf2
  · rw [hl2, hl1, List.append_assoc]

theorem updateVisibilityIfNeeded_ok {PS : Type} (w : PhaseWorld PS) (object : ObjectGuid)
    (updateVisibility changed : Bool) (h : (w.shape object).isSome = true) :
    ∃ w', PhasingHandler.UpdateVisibilityIfNeeded w object updateVisibility changed = .ok w' ∧
      w'.shape = w.shape ∧
      ∃ vis, w'.log = w.log ++ vis ∧
        ∀ e ∈ vis, e = PhaseEvent.SendToPlayer object ∨
          e = PhaseEvent.SendUpdateTransportVisibility object ∨
          e = PhaseEvent.UpdateObjectVisibility object := by
  obtain ⟨o, _, hget, _⟩ := get_of_shape w object h
  unfold PhasingHandler.UpdateVisibilityIfNeeded
  simp only [hget, bind, Except.bind]
  by_cases hc : (changed && o.inWorld) = true
  · rw [if_pos hc]
    by_cases hp : o.IsPlayer = true
    · by_cases hv : updateVisibility = true
      · refine ⟨((w.emit (PhaseEvent.SendToPlayer object)).emit
            (PhaseEvent.SendUpdateTransportVisibility object)).emit
            (PhaseEvent.UpdateObjectVisibility object), ?_, rfl,
          [PhaseEvent.SendToPlayer object, PhaseEvent.SendUpdateTransportVisibility object,
            PhaseEvent.UpdateObjectVisibility object], by simp [PhaseWorld.emit], by simp⟩
        simp only [hp, hv, if_true]
        rfl
      · refine ⟨w.emit (PhaseEvent.SendToPlayer object), ?_, rfl,
          [PhaseEvent.SendToPlayer object], by simp [PhaseWorld.emit], by simp⟩
        simp only [hp, hv, if_true, if_false, Bool.false_eq_true]
        rfl
    · by_cases hv : updateVisibility = true
      · refine ⟨w.emit (PhaseEvent.UpdateObjectVisibility object), ?_, rfl,
          [PhaseEvent.UpdateObjectVisibility object], by simp [PhaseWorld.emit], by simp⟩
        simp only [hp, hv, if_true, if_false, Bool.false_eq_true]
        rfl
      · refine ⟨w, ?_, rfl, [], by simp, by simp⟩
        simp only [hp, hv, if_false, Bool.false_eq_true]
        rfl
  · rw [if_neg hc]
    exact ⟨w, rfl, rfl, [], by simp, by simp⟩

theorem phaseMutatorBody_ok {PS : Type}
    (sh : ObjectGuid → Option (TypeID × Bool × List ObjectGuid × List ObjectGuid))
    (rank : ObjectGuid → Nat) (hr : Ranked sh rank) (mutate : PS → PS × Bool)
    (recurse : PhaseWorld PS → ObjectGuid → Except Fault (PhaseWorld PS)) (n : Nat)
    (hgood : GoodCall sh rank recurse n) (w : PhaseWorld PS) (object : ObjectGuid)
    (updateVisibility : Bool)
    (hw : w.shape = sh) (hu : (sh object).isSome = true) (hn : rank object ≤ n) :
    ∃ w', phaseMutatorBody mutate recurse w object updateVisibility = .ok w' ∧ w'.shape = sh ∧
      (∃ ext, w'.log = w.log ++ ext) ∧
      ((∃ s, sh object = some s ∧ s.1 ≠ TypeID.TYPEID_GAMEOBJECT) →
        ∃ mid vis, w'.log = w.log ++ [PhaseEvent.OnPhaseChange object] ++ mid
            ++ [PhaseEvent.RemoveNotOwnLimitedTargetAuras object true] ++ vis ∧
          ∀ e ∈ vis, e = PhaseEvent.SendToPlayer object ∨
            e = PhaseEvent.SendUpdateTransportVisibility object ∨
            e = PhaseEvent.UpdateObjectVisibility object) := by
  obtain ⟨o, _, hget, hshape⟩ := get_of_shape w object (by rw [hw]; exact hu)
  rw [hw] at hshape
  unfold phaseMutatorBody
  simp only [hget, bind, Except.bind]
  have hs0 : (w.setPhaseShift object (mutate o.phaseShift).1).shape = sh := by
    rw [shape_setPhaseShift]; exact hw
  by_cases hunit : o.IsUnit = true
  · rw [if_pos hunit]
    obtain ⟨w1, hf1, hs1, e1, hl1⟩ := forAllControlled_ok sh rank hr recurse n hgood
      ((w.setPhaseShift object (mutate o.phaseShift).1).emit (PhaseEvent.OnPhaseChange object))
      object (by rw [shape_emit]; exact hs0) hu hn
    rw [hf1]
    obtain ⟨w2, hf2, hs2, vis, hl2, hvis⟩ := updateVisibilityIfNeeded_ok
      (w1.emit (PhaseEvent.RemoveNotOwnLimitedTargetAuras object true)) object updateVisibility
      (mutate o.phaseShift).2 (by rw [shape_emit, hs1]; exact hu)
    have hlog : w2.log = w.log ++ [PhaseEvent.OnPhaseChange object] ++ e1
        ++ [PhaseEvent.RemoveNotOwnLimitedTargetAuras object true] ++ vis := by
      rw [hl2]
      show (w1.log ++ _) ++ vis = _
      rw [hl1]
      rfl
    refine ⟨w2, hf2, ?_,
      ⟨[PhaseEvent.OnPhaseChange object] ++ e1
          ++ [PhaseEvent.RemoveNotOwnLimitedTargetAuras object true] ++ vis,
        by rw [hlog]; simp only [List.append_assoc]⟩,
      fun _ => ⟨e1, vis, hlog, hvis⟩⟩
    rw [hs2, shape_emit, hs1]
  · rw [if_neg hunit]
    obtain ⟨w2, hf2, hs2, vis, hl2, _⟩ := updateVisibilityIfNeeded_ok
      (w.setPhaseShift object (mutate o.phaseShift).1) object updateVisibility
      (mutate o.phaseShift).2 (by rw [hs0]; exact hu)
    refine ⟨w2, hf2, by rw [hs2, hs0], ⟨vis, hl2⟩, ?_⟩
    rintro ⟨s, hs, hne⟩
    exfalso
    rw [hshape] at hs
    have hty : o.typeId = s.1 := by
      have := Option.some.inj hs
      rw [← this]; rfl
    unfold PhaseObject.IsUnit at hunit
    rw [← hty] at hne
    cases hcase : o.typeId <;> simp [hcase] at hunit hne


theorem addPhase_succ {PS : Type} (env : PhaseEnv PS) (fuel : Nat) (w : PhaseWorld PS)
    (object : ObjectGuid) (phaseId : Nat) (updateVisibility : Bool) :
    PhasingHandler.AddPhase env (fuel + 1) w object phaseId updateVisibility
      = phaseMutatorBody (fun ps => env.AddPhase ps phaseId (GetPhaseFlags env phaseId) none)
          (fun w controlled => PhasingHandler.AddPhase env fuel w controlled phaseId updateVisibility)
          w object updateVisibility := rfl

theorem removePhase_succ {PS : Type} (env : PhaseEnv PS) (fuel : Nat) (w : PhaseWorld PS)
    (object : ObjectGuid) (phaseId : Nat) (updateVisibility : Bool) :
    PhasingHandler.RemovePhase env (fuel + 1) w object phaseId updateVisibility
      = phaseMutatorBody (fun ps => env.RemovePhase ps phaseId)
          (fun w controlled =>
            PhasingHandler.RemovePhase env fuel w controlled phaseId updateVisibility)
          w object updateVisibility := rfl

theorem addPhaseGroup_succ {PS : Type} (env : PhaseEnv PS) (fuel : Nat) (w : PhaseWorld PS)
    (object : ObjectGuid) (phaseGroupId : Nat) (updateVisibility : Bool) (phases : List Nat)
    (hgrp : env.GetPhasesForGroup phaseGroupId = some phases) :
    PhasingHandler.AddPhaseGroup env (fuel + 1) w object phaseGroupId updateVisibility
      = phaseMutatorBody (addPhasesOfGroup env phases)
          (fun w controlled =>
            PhasingHandler.AddPhaseGroup env fuel w controlled phaseGroupId updateVisibility)
          w object updateVisibility := by
  conv_lhs => unfold PhasingHandler.AddPhaseGroup
  simp only [hgrp]
  rfl

theorem removePhaseGroup_succ {PS : Type} (env : PhaseEnv PS) (fuel : Nat) (w : PhaseWorld PS)
    (object : ObjectGuid) (phaseGroupId : Nat) (updateVisibility : Bool) (phases : List Nat)
    (hgrp : env.GetPhasesForGroup phaseGroupId = some phases) :
    PhasingHandler.RemovePhaseGroup env (fuel + 1) w object phaseGroupId updateVisibility
      = phaseMutatorBody (removePhasesOfGroup env phases)
          (fun w controlled =>
            PhasingHandler.RemovePhaseGroup env fuel w controlled phaseGroupId updateVisibility)
          w object updateVisibility := by
  conv_lhs => unfold PhasingHandler.RemovePhaseGroup
  simp only [hgrp]
  rfl

theorem addPhase_good {PS : Type} (env : PhaseEnv PS)
    (sh : ObjectGuid → Option (TypeID × Bool × List ObjectGuid × List ObjectGuid))
    (rank : ObjectGuid → Nat) (hr : Ranked sh rank) (phaseId : Nat) (updateVisibility : Bool)
    (fuel : Nat) :
    GoodCall sh rank
      (fun w g => PhasingHandler.AddPhase env fuel w g phaseId updateVisibility) fuel := by
  induction fuel with
  | zero => intro w g _ _ hlt; omega
  | succ n ih =>
    intro w g hw hu hlt
    obtain ⟨w', h1, h2, h3, _⟩ := phaseMutatorBody_ok sh rank hr
      (fun ps => env.AddPhase ps phaseId (GetPhaseFlags env phaseId) none) _ n ih w g
      updateVisibility hw hu (by omega)
    have h0 : PhasingHandler.AddPhase env (n + 1) w g phaseId updateVisibility = .ok w' := by
      rw [addPhase_succ]; exact h1
    exact ⟨w', h0, h2, h3⟩

theorem removePhase_good {PS : Type} (env : PhaseEnv PS)
    (sh : ObjectGuid → Option (TypeID × Bool × List ObjectGuid × List ObjectGuid))
    (rank : ObjectGuid → Nat) (hr : Ranked sh rank) (phaseId : Nat) (updateVisibility : Bool)
    (fuel : Nat) :
    GoodCall sh rank
      (fun w g => PhasingHandler.RemovePhase env fuel w g phaseId updateVisibility) fuel := by
  induction fuel with
  | zero => intro w g _ _ hlt; omega
  | succ n ih =>
    intro w g hw hu hlt
    obtain ⟨w', h1, h2, h3, _⟩ := phaseMutatorBody_ok sh rank hr
      (fun ps => env.RemovePhase ps phaseId) _ n ih w g updateVisibility hw hu (by omega)
    have h0 : PhasingHandler.RemovePhase env (n + 1) w g phaseId updateVisibility = .ok w' := by
      rw [removePhase_succ]; exact h1
    exact ⟨w', h0, h2, h3⟩

theorem addPhaseGroup_good {PS : Type} (env : PhaseEnv PS)
    (sh : ObjectGuid → Option (TypeID × Bool × List ObjectGuid × List ObjectGuid))
    (rank : ObjectGuid → Nat) (hr : Ranked sh rank) (phaseGroupId : Nat) (updateVisibility : Bool)
    (phases : List Nat) (hgrp : env.GetPhasesForGroup phaseGroupId = some phases) (fuel : Nat) :
    GoodCall sh rank
      (fun w g => PhasingHandler.AddPhaseGroup env fuel w g phaseGroupId updateVisibility)
      fuel := by
  induction fuel with
  | zero => intro w g _ _ hlt; omega
  | succ n ih =>
    intro w g hw hu hlt
    obtain ⟨w', h1, h2, h3, _⟩ := phaseMutatorBody_ok sh rank hr
      (addPhasesOfGroup env phases) _ n ih w g updateVisibility hw hu (by omega)
    have h0 : PhasingHandler.AddPhaseGroup env (n + 1) w g phaseGroupId updateVisibility
        = .ok w' := by
      rw [addPhaseGroup_succ env n w g phaseGroupId updateVisibility phases hgrp]; exact h1
    exact ⟨w', h0, h2, h3⟩

theorem removePhaseGroup_good {PS : Type} (env : PhaseEnv PS)
    (sh : ObjectGuid → Option (TypeID × Bool × List ObjectGuid × List ObjectGuid))
    (rank : ObjectGuid → Nat) (hr : Ranked sh rank) (phaseGroupId : Nat) (updateVisibility : Bool)
    (phases : List Nat) (hgrp : env.GetPhasesForGroup phaseGroupId = some phases) (fuel : Nat) :
    GoodCall sh rank
      (fun w g => PhasingHandler.RemovePhaseGroup env fuel w g phaseGroupId updateVisibility)
      fuel := by
  induction fuel with
  | zero => intro w g _ _ hlt; omega
  | succ n ih =>
    intro w g hw hu hlt
    obtain ⟨w', h1, h2, h3, _⟩ := phaseMutatorBody_ok sh rank hr
      (removePhasesOfGroup env phases) _ n ih w g updateVisibility hw hu (by omega)
    have h0 : PhasingHandler.RemovePhaseGroup env (n + 1) w g phaseGroupId updateVisibility
        = .ok w' := by
      rw [removePhaseGroup_succ env n w g phaseGroupId updateVisibility phases hgrp]; exact h1
    exact ⟨w', h0, h2, h3⟩

theorem unit_shape {PS : Type} (w : PhaseWorld PS) (unit : ObjectGuid) (o : PhaseObject PS)
    (ho : w.objects unit = some o) (hunit : o.IsUnit = true) :
    (w.shape unit).isSome = true ∧
    ∃ s, w.shape unit = some s ∧ s.1 ≠ TypeID.TYPEID_GAMEOBJECT := by
  unfold PhaseWorld.shape
  rw [ho]
  refine ⟨rfl, o.shape, rfl, ?_⟩
  unfold PhaseObject.IsUnit at hunit
  show o.typeId ≠ TypeID.TYPEID_GAMEOBJECT
  intro h
  rw [h] at hunit
  simp at hunit

/-- C9: in a world whose control hierarchy is well founded, each of `AddPhase`,
`RemovePhase`, `AddPhaseGroup` and `RemovePhaseGroup` (for a known phase group),
called on a unit with enough fuel for the depth of the hierarchy, returns, and the
calls it logged are: `OnPhaseChange` on the unit, then the calls made for the
controlled units, then `RemoveNotOwnLimitedTargetAuras(true)` on the unit, then the
visibility updates.  This holds for every behaviour of the phase shift, so whether
or not the phase set of the unit changed. -/
theorem phase_mutators_revalidate_auras {PS : Type} (env : PhaseEnv PS) (w : PhaseWorld PS)
    (rank : ObjectGuid → Nat) (unit : ObjectGuid) (o : PhaseObject PS)
    (phaseId phaseGroupId : Nat) (phases : List Nat) (updateVisibility : Bool) (fuel : Nat)
    (hr : Ranked w.shape rank) (ho : w.objects unit = some o) (hunit : o.IsUnit = true)
    (hfuel : rank unit < fuel) (hgrp : env.GetPhasesForGroup phaseGroupId = some phases) :
    (∃ w', PhasingHandler.AddPhase env fuel w unit phaseId updateVisibility = .ok w' ∧
      RevalidatesUnit w.log w'.log unit) ∧
    (∃ w', PhasingHandler.RemovePhase env fuel w unit phaseId updateVisibility = .ok w' ∧
      RevalidatesUnit w.log w'.log unit) ∧
    (∃ w', PhasingHandler.AddPhaseGroup env fuel w unit phaseGroupId updateVisibility = .ok w' ∧
      RevalidatesUnit w.log w'.log unit) ∧
    (∃ w', PhasingHandler.RemovePhaseGroup env fuel w unit phaseGroupId updateVisibility
        = .ok w' ∧
      RevalidatesUnit w.log w'.log unit) := by
  obtain ⟨hu, hs⟩ := unit_shape w unit o ho hunit
  cases fuel with
  | zero => omega
  | succ n =>
    have hn : rank unit ≤ n := by omega
    obtain ⟨w1, h1, _, _, k1⟩ := phaseMutatorBody_ok w.shape rank hr
      (fun ps => env.AddPhase ps phaseId (GetPhaseFlags env phaseId) none) _ n
      (addPhase_good env w.shape rank hr phaseId updateVisibility n) w unit updateVisibility rfl hu hn
    obtain ⟨w2, h2, _, _, k2⟩ := phaseMutatorBody_ok w.shape rank hr
      (fun ps => env.RemovePhase ps phaseId) _ n
      (removePhase_good env w.shape rank hr phaseId updateVisibility n) w unit updateVisibility
      rfl hu hn
    obtain ⟨w3, h3, _, _, k3⟩ := phaseMutatorBody_ok w.shape rank hr
      (addPhasesOfGroup env phases) _ n
      (addPhaseGroup_good env w.shape rank hr phaseGroupId updateVisibility phases hgrp n) w unit
      updateVisibility rfl hu hn
    obtain ⟨w4, h4, _, _, k4⟩ := phaseMutatorBody_ok w.shape rank hr
      (removePhasesOfGroup env phases) _ n
      (removePhaseGroup_good env w.shape rank hr phaseGroupId updateVisibility phases hgrp n) w
      unit updateVisibility rfl hu hn
    refine ⟨⟨w1, ?_, k1 hs⟩, ⟨w2, ?_, k2 hs⟩, ⟨w3, ?_, k3 hs⟩, ⟨w4, ?_, k4 hs⟩⟩
    · rw [addPhase_succ]; exact h1
    · rw [removePhase_succ]; exact h2
    · rw [addPhaseGroup_succ env n w unit phaseGroupId updateVisibility phases hgrp]; exact h3
    · rw [removePhaseGroup_succ env n w unit phaseGroupId updateVisibility phases hgrp]; exact h4

theorem examplePhaseWorld_ranked : Ranked examplePhaseWorld.shape exampleRank := by
  intro g s hs
  unfold PhaseWorld.shape examplePhaseWorld at hs
  simp only at hs
  by_cases h1 : g = 1
  · subst h1
    simp only [if_true, Option.map_some', Option.some.injEq] at hs
    subst hs
    simp [PhaseObject.shape, PhaseWorld.shape, examplePhaseWorld, exampleRank]
  · by_cases h2 : g = 2
    · subst h2
      simp [PhaseObject.shape] at hs
      subst hs
      simp [PhaseWorld.shape, examplePhaseWorld]
    · by_cases h3 : g = 3
      · subst h3
        simp [PhaseObject.shape] at hs
        subst hs
        simp [PhaseWorld.shape, examplePhaseWorld]
      · by_cases h4 : g = 4
        · subst h4
          simp [PhaseObject.shape] at hs
          subst hs
          simp [PhaseWorld.shape, examplePhaseWorld]
        · simp [h1, h2, h3, h4] at hs

/-- Witness for C9: the player `1` of the example world already has phase `169`,
so `AddPhase` changes nothing in its phase shift. -/
theorem phase_mutators_revalidate_auras_witness :
    (∃ w', PhasingHandler.AddPhase examplePhaseEnv 2 examplePhaseWorld 1 169 true = .ok w' ∧
      RevalidatesUnit examplePhaseWorld.log w'.log 1) ∧
    (∃ w', PhasingHandler.RemovePhase examplePhaseEnv 2 examplePhaseWorld 1 169 true = .ok w' ∧
      RevalidatesUnit examplePhaseWorld.log w'.log 1) ∧
    (∃ w', PhasingHandler.AddPhaseGroup examplePhaseEnv 2 examplePhaseWorld 1 1 true = .ok w' ∧
      RevalidatesUnit examplePhaseWorld.log w'.log 1) ∧
    (∃ w', PhasingHandler.RemovePhaseGroup examplePhaseEnv 2 examplePhaseWorld 1 1 true = .ok w' ∧
      RevalidatesUnit examplePhaseWorld.log w'.log 1) :=
  phase_mutators_revalidate_auras examplePhaseEnv examplePhaseWorld exampleRank 1
    { typeId := TypeID.TYPEID_PLAYER, inWorld := true, phaseShift := [169],
      m_Controlled := [2], m_SummonSlot := [0, 3, 0] }
    169 1 [169, 170] true 2 examplePhaseWorld_ranked rfl rfl (by decide) rfl


/-! ## The despawn automaton -/

theorem unSummon_now_resolved (env : SummonEnv) (s : TempSummon) (o : SummonerUnit)
    (hp : s.isPet = false) (ho : s.GetSummoner env = some o) :
    s.UnSummon env 0
      = .ok { s with effects := s.effects
          ++ (if o.typeId = TypeID.TYPEID_UNIT ∧ o.IsAIEnabled = true then
                [SummonEffect.SummonedCreatureDespawn o.guid] else [])
          ++ [SummonEffect.AddObjectToRemoveList] } := by
  unfold TempSummon.UnSummon
  by_cases hc : o.typeId = TypeID.TYPEID_UNIT ∧ o.IsAIEnabled = true
  · simp [hp, ho, hc, deref, TempSummon.emit, pure, Except.pure, bind, Except.bind]
  · rw [if_neg hc]
    simp only [not_and, Bool.not_eq_true] at hc
    by_cases h1 : o.typeId = TypeID.TYPEID_UNIT
    · simp [hp, ho, h1, hc h1, deref, TempSummon.emit, pure, Except.pure, bind, Except.bind]
    · simp [hp, ho, h1, deref, TempSummon.emit, pure, Except.pure, bind, Except.bind]

/-- C11 as stated fails: a summon that is not a pet and whose summoner resolves,
to a player, is queued for removal by the immediate `UnSummon` without any
`SummonedCreatureDespawn` notification. -/
theorem unSummon_player_summoner_not_notified :
    examplePlayerSummon.isPet = false ∧
    (examplePlayerSummon.GetSummoner examplePlayerEnv).isSome = true ∧
    examplePlayerSummon.UnSummon examplePlayerEnv 0
      = .ok { examplePlayerSummon with effects := [SummonEffect.AddObjectToRemoveList] } ∧
    SummonEffect.SummonedCreatureDespawn 6 ∉ [SummonEffect.AddObjectToRemoveList] :=
  ⟨rfl, rfl, rfl, by decide⟩

/-- C11, amended: the immediate `UnSummon` of a summon that is not a pet and whose
summoner resolves to the unit `o` always queues the summon for removal, as its last
effect; before that it delivers `SummonedCreatureDespawn` to the summoner exactly
when the summoner is a creature (`TYPEID_UNIT`) with an enabled AI, and nothing
otherwise. -/
theorem unSummon_notifies_creature_summoner (env : SummonEnv) (s : TempSummon) (o : SummonerUnit)
    (hp : s.isPet = false) (ho : s.GetSummoner env = some o) :
    s.UnSummon env 0
      = .ok { s with effects := s.effects
          ++ (if o.typeId = TypeID.TYPEID_UNIT ∧ o.IsAIEnabled = true then
                [SummonEffect.SummonedCreatureDespawn o.guid] else [])
          ++ [SummonEffect.AddObjectToRemoveList] } :=
  unSummon_now_resolved env s o hp ho

/-- Witness for C11, amended: the summoner `5` is a creature with an enabled AI. -/
theorem unSummon_notifies_creature_summoner_witness :
    exampleOwnedSummon.UnSummon exampleSummonEnv 0
      = .ok { exampleOwnedSummon with effects := exampleOwnedSummon.effects
          ++ (if exampleSummoner.typeId = TypeID.TYPEID_UNIT ∧ exampleSummoner.IsAIEnabled = true
              then [SummonEffect.SummonedCreatureDespawn exampleSummoner.guid] else [])
          ++ [SummonEffect.AddObjectToRemoveList] } :=
  unSummon_notifies_creature_summoner exampleSummonEnv exampleOwnedSummon exampleSummoner rfl rfl

theorem update_dead (env : SummonEnv) (s : TempSummon) (diff : Nat) (base : CreatureTick)
    (h : base.m_deathState = DeathState.DEAD) :
    s.Update env diff base = (s.afterCreatureUpdate base).UnSummon env UnSummonDefaultMsTime := by
  unfold TempSummon.Update
  have h1 : (s.afterCreatureUpdate base).m_deathState = DeathState.DEAD := h
  simp only [h1, if_true]

theorem update_not_dead (env : SummonEnv) (s : TempSummon) (diff : Nat) (base : CreatureTick)
    (h : base.m_deathState ≠ DeathState.DEAD) :
    s.Update env diff base
      = (match (s.afterCreatureUpdate base).m_type with
        | TempSummonType.TEMPSUMMON_MANUAL_DESPAWN => pure (s.afterCreatureUpdate base)
        | TempSummonType.TEMPSUMMON_DEAD_DESPAWN => pure (s.afterCreatureUpdate base)
        | TempSummonType.TEMPSUMMON_TIMED_DESPAWN =>
          if (s.afterCreatureUpdate base).m_timer ≤ diff then
            (s.afterCreatureUpdate base).UnSummon env UnSummonDefaultMsTime
          else pure { s.afterCreatureUpdate base with
            m_timer := uint32_sub (s.afterCreatureUpdate base).m_timer diff }
        | TempSummonType.TEMPSUMMON_TIMED_DESPAWN_OUT_OF_COMBAT =>
          if !(s.afterCreatureUpdate base).inCombat then
            if (s.afterCreatureUpdate base).m_timer ≤ diff then
              (s.afterCreatureUpdate base).UnSummon env UnSummonDefaultMsTime
            else pure { s.afterCreatureUpdate base with
              m_timer := uint32_sub (s.afterCreatureUpdate base).m_timer diff }
          else if (s.afterCreatureUpdate base).m_timer ≠ (s.afterCreatureUpdate base).m_lifetime then
            pure { s.afterCreatureUpdate base with
              m_timer := (s.afterCreatureUpdate base).m_lifetime }
          else pure (s.afterCreatureUpdate base)
        | TempSummonType.TEMPSUMMON_CORPSE_TIMED_DESPAWN =>
          if (s.afterCreatureUpdate base).m_deathState = DeathState.CORPSE then
            if (s.afterCreatureUpdate base).m_timer ≤ diff then
              (s.afterCreatureUpdate base).UnSummon env UnSummonDefaultMsTime
            else pure { s.afterCreatureUpdate base with
              m_timer := uint32_sub (s.afterCreatureUpdate base).m_timer diff }
          else pure (s.afterCreatureUpdate base)
        | TempSummonType.TEMPSUMMON_CORPSE_DESPAWN =>
          if (s.afterCreatureUpdate base).m_deathState = DeathState.CORPSE then
            (s.afterCreatureUpdate base).UnSummon env UnSummonDefaultMsTime
          else pure (s.afterCreatureUpdate base)
        | TempSummonType.TEMPSUMMON_TIMED_OR_CORPSE_DESPAWN =>
          if (s.afterCreatureUpdate base).m_deathState = DeathState.CORPSE then
            (s.afterCreatureUpdate base).UnSummon env UnSummonDefaultMsTime
          else if !(s.afterCreatureUpdate base).inCombat then
            if (s.afterCreatureUpdate base).m_timer ≤ diff then
              (s.afterCreatureUpdate base).UnSummon env UnSummonDefaultMsTime
            else pure { s.afterCreatureUpdate base with
              m_timer := uint32_sub (s.afterCreatureUpdate base).m_timer diff }
          else if (s.afterCreatureUpdate base).m_timer ≠ (s.afterCreatureUpdate base).m_lifetime then
            pure { s.afterCreatureUpdate base with
              m_timer := (s.afterCreatureUpdate base).m_lifetime }
          else pure (s.afterCreatureUpdate base)
        | TempSummonType.TEMPSUMMON_TIMED_OR_DEAD_DESPAWN =>
          if !(s.afterCreatureUpdate base).inCombat && base.IsAlive then
            if (s.afterCreatureUpdate base).m_timer ≤ diff then
              (s.afterCreatureUpdate base).UnSummon env UnSummonDefaultMsTime
            else pure { s.afterCreatureUpdate base with
              m_timer := uint32_sub (s.afterCreatureUpdate base).m_timer diff }
          else if (s.afterCreatureUpdate base).m_timer ≠ (s.afterCreatureUpdate base).m_lifetime then
            pure { s.afterCreatureUpdate base with
              m_timer := (s.afterCreatureUpdate base).m_lifetime }
          else pure (s.afterCreatureUpdate base)
        | TempSummonType.UNKNOWN _ =>
          (s.afterCreatureUpdate base).UnSummon env UnSummonDefaultMsTime) := by
  unfold TempSummon.Update
  have h1 : ¬ (s.afterCreatureUpdate base).m_deathState = DeathState.DEAD := h
  simp only [h1, if_false]


theorem uint32_sub_of_lt (a b : Nat) (hb : b < a) (ha : a < 4294967296) :
    uint32_sub a b = a - b := by
  unfold uint32_sub
  omega

/-- C14: a summon that is in death state `DEAD` after the base-class update is
unsummoned by `Update`, whatever its despawn type: the call is the immediate
`UnSummon`.  For a summon that is not a pet the result has the timer, the lifetime
and the type it had, and is queued for removal after at most one notification of
the summoner; a pet is handed to `Pet::Remove`, `Update` itself writing none of the
three. -/
theorem update_dead_unsummons (env : SummonEnv) (s : TempSummon) (diff : Nat) (base : CreatureTick)
    (h : base.m_deathState = DeathState.DEAD) :
    s.Update env diff base = (s.afterCreatureUpdate base).UnSummon env UnSummonDefaultMsTime ∧
    ∃ (notes : List SummonEffect) (s' : TempSummon),
      (notes = [] ∨ ∃ g, notes = [SummonEffect.SummonedCreatureDespawn g]) ∧
      s' = { s.afterCreatureUpdate base with
              effects := s.effects ++ notes ++ [SummonEffect.AddObjectToRemoveList] } ∧
      s'.m_timer = s.m_timer ∧ s'.m_lifetime = s.m_lifetime ∧ s'.m_type = s.m_type ∧
      s.Update env diff base
        = (if s.isPet then
            (if (env.PetRemove
                  ((s.afterCreatureUpdate base).emit SummonEffect.PetRemove)).inWorld then
              .error Fault.assertFailed
             else .ok (env.PetRemove ((s.afterCreatureUpdate base).emit SummonEffect.PetRemove)))
           else .ok s') := by
  have hu := update_dead env s diff base h
  refine ⟨hu, ?_⟩
  by_cases hp : s.isPet = true
  · refine ⟨[], _, Or.inl rfl, rfl, rfl, rfl, rfl, ?_⟩
    rw [hu, if_pos hp]
    exact unSummon_now_pet env (s.afterCreatureUpdate base) hp
  · simp only [Bool.not_eq_true] at hp
    obtain ⟨notes, h1, h2⟩ := unSummon_now_not_pet env (s.afterCreatureUpdate base) hp
    refine ⟨notes, _, h2, rfl, rfl, rfl, rfl, ?_⟩
    rw [hu, hp]
    exact h1

/-- Witness for C14: a dead summon of type `MANUAL_DESPAWN`. -/
theorem update_dead_unsummons_witness :
    exampleSummon.Update exampleSummonEnv 100 deadTick
      = (exampleSummon.afterCreatureUpdate deadTick).UnSummon exampleSummonEnv
          UnSummonDefaultMsTime ∧
    ∃ (notes : List SummonEffect) (s' : TempSummon),
      (notes = [] ∨ ∃ g, notes = [SummonEffect.SummonedCreatureDespawn g]) ∧
      s' = { exampleSummon.afterCreatureUpdate deadTick with
              effects := exampleSummon.effects ++ notes
                ++ [SummonEffect.AddObjectToRemoveList] } ∧
      s'.m_timer = exampleSummon.m_timer ∧ s'.m_lifetime = exampleSummon.m_lifetime ∧
      s'.m_type = exampleSummon.m_type ∧
      exampleSummon.Update exampleSummonEnv 100 deadTick
        = (if exampleSummon.isPet then
            (if (exampleSummonEnv.PetRemove
                  ((exampleSummon.afterCreatureUpdate deadTick).emit
                    SummonEffect.PetRemove)).inWorld then
              .error Fault.assertFailed
             else .ok (exampleSummonEnv.PetRemove
                  ((exampleSummon.afterCreatureUpdate deadTick).emit SummonEffect.PetRemove)))
           else .ok s') :=
  update_dead_unsummons exampleSummonEnv exampleSummon 100 deadTick rfl

/-- C15: for type `MANUAL_DESPAWN` or `DEAD_DESPAWN`, an `Update` that does not
find the summon in death state `DEAD` returns the summon as the base-class update
left it, for every time step and combat state: no `UnSummon`, so no effect and no
event is added, and the timer is what it was. -/
theorem update_manual_never_times_out (env : SummonEnv) (s : TempSummon) (diff : Nat)
    (base : CreatureTick)
    (ht : s.m_type = TempSummonType.TEMPSUMMON_MANUAL_DESPAWN ∨
          s.m_type = TempSummonType.TEMPSUMMON_DEAD_DESPAWN)
    (hnd : base.m_deathState ≠ DeathState.DEAD) :
    s.Update env diff base = .ok (s.afterCreatureUpdate base) ∧
    (s.afterCreatureUpdate base).m_timer = s.m_timer ∧
    (s.afterCreatureUpdate base).effects = s.effects ∧
    (s.afterCreatureUpdate base).m_Events = s.m_Events := by
  refine ⟨?_, rfl, rfl, rfl⟩
  rw [update_not_dead env s diff base hnd]
  have hty : (s.afterCreatureUpdate base).m_type = s.m_type := rfl
  rcases ht with h | h
  · simp only [hty, h]; rfl
  · simp only [hty, h]; rfl

/-- Witness for C15: a manual-despawn summon in combat, after an hour. -/
theorem update_manual_never_times_out_witness :
    exampleSummon.Update exampleSummonEnv 3600000 combatTick
      = .ok (exampleSummon.afterCreatureUpdate combatTick) ∧
    (exampleSummon.afterCreatureUpdate combatTick).m_timer = exampleSummon.m_timer ∧
    (exampleSummon.afterCreatureUpdate combatTick).effects = exampleSummon.effects ∧
    (exampleSummon.afterCreatureUpdate combatTick).m_Events = exampleSummon.m_Events :=
  update_manual_never_times_out exampleSummonEnv exampleSummon 3600000 combatTick
    (Or.inl rfl) (by decide)

/-- C16: for type `CORPSE_TIMED_DESPAWN`, an `Update` that finds the summon
neither `CORPSE` nor `DEAD` (tick `live`) returns it as the base-class update left
it, timer included, without `UnSummon`; an `Update` that finds it `CORPSE` (tick
`corpse`) is the immediate `UnSummon` when `timer <= diff`, and otherwise only
lowers the timer by exactly `diff`. -/
theorem update_corpse_timed (env : SummonEnv) (s : TempSummon) (diff : Nat)
    (live corpse : CreatureTick)
    (ht : s.m_type = TempSummonType.TEMPSUMMON_CORPSE_TIMED_DESPAWN)
    (hb : s.m_timer < 4294967296)
    (hl1 : live.m_deathState ≠ DeathState.CORPSE) (hl2 : live.m_deathState ≠ DeathState.DEAD)
    (hc : corpse.m_deathState = DeathState.CORPSE) :
    (s.Update env diff live = .ok (s.afterCreatureUpdate live) ∧
      (s.afterCreatureUpdate live).m_timer = s.m_timer ∧
      (s.afterCreatureUpdate live).effects = s.effects) ∧
    s.Update env diff corpse
      = (if s.m_timer ≤ diff then
          (s.afterCreatureUpdate corpse).UnSummon env UnSummonDefaultMsTime
         else .ok { s.afterCreatureUpdate corpse with m_timer := s.m_timer - diff }) := by
  have hty (b : CreatureTick) : (s.afterCreatureUpdate b).m_type = s.m_type := rfl
  have htm (b : CreatureTick) : (s.afterCreatureUpdate b).m_timer = s.m_timer := rfl
  have hds (b : CreatureTick) : (s.afterCreatureUpdate b).m_deathState = b.m_deathState := rfl
  refine ⟨⟨?_, rfl, rfl⟩, ?_⟩
  · rw [update_not_dead env s diff live hl2]
    simp only [hty, ht, hds, hl1, if_false]
    rfl
  · have hnd : corpse.m_deathState ≠ DeathState.DEAD := by rw [hc]; decide
    rw [update_not_dead env s diff corpse hnd]
    simp only [hty, ht, hds, hc, htm, if_true]
    by_cases hle : s.m_timer ≤ diff
    · simp only [hle, if_true]
    · simp only [hle, if_false]
      rw [uint32_sub_of_lt s.m_timer diff (by omega) hb]
      rfl

/-- Witness for C16: a corpse-timed summon with 1000 ms on its timer and a step
of 400 ms. -/
theorem update_corpse_timed_witness :
    ((exampleCorpseTimedSummon.Update exampleSummonEnv 400 quietTick
        = .ok (exampleCorpseTimedSummon.afterCreatureUpdate quietTick) ∧
      (exampleCorpseTimedSummon.afterCreatureUpdate quietTick).m_timer
        = exampleCorpseTimedSummon.m_timer ∧
      (exampleCorpseTimedSummon.afterCreatureUpdate quietTick).effects
        = exampleCorpseTimedSummon.effects) ∧
    exampleCorpseTimedSummon.Update exampleSummonEnv 400 corpseTick
      = (if exampleCorpseTimedSummon.m_timer ≤ 400 then
          (exampleCorpseTimedSummon.afterCreatureUpdate corpseTick).UnSummon exampleSummonEnv
            UnSummonDefaultMsTime
         else .ok { exampleCorpseTimedSummon.afterCreatureUpdate corpseTick with
                    m_timer := exampleCorpseTimedSummon.m_timer - 400 })) :=
  update_corpse_timed exampleSummonEnv exampleCorpseTimedSummon 400 quietTick corpseTick rfl
    (by decide) (by decide) (by decide) rfl

/-- C17: for the types `CORPSE_DESPAWN` and `TIMED_OR_CORPSE_DESPAWN`, an `Update`
that finds the summon in `CORPSE` state is the immediate `UnSummon`, for every
timer value, time step and combat state. -/
theorem update_corpse_unsummons (env : SummonEnv) (s : TempSummon) (diff : Nat)
    (base : CreatureTick)
    (ht : s.m_type = TempSummonType.TEMPSUMMON_CORPSE_DESPAWN ∨
          s.m_type = TempSummonType.TEMPSUMMON_TIMED_OR_CORPSE_DESPAWN)
    (hc : base.m_deathState = DeathState.CORPSE) :
    s.Update env diff base = (s.afterCreatureUpdate base).UnSummon env UnSummonDefaultMsTime ∧
    ∃ notes : List SummonEffect,
      (notes = [] ∨ ∃ g, notes = [SummonEffect.SummonedCreatureDespawn g]) ∧
      s.Update env diff base
        = (if s.isPet then
            (if (env.PetRemove
                  ((s.afterCreatureUpdate base).emit SummonEffect.PetRemove)).inWorld then
              .error Fault.assertFailed
             else .ok (env.PetRemove ((s.afterCreatureUpdate base).emit SummonEffect.PetRemove)))
           else
            .ok { s.afterCreatureUpdate base with
                  effects := s.effects ++ notes ++ [SummonEffect.AddObjectToRemoveList] }) := by
  have hty : (s.afterCreatureUpdate base).m_type = s.m_type := rfl
  have hds : (s.afterCreatureUpdate base).m_deathState = base.m_deathState := rfl
  have hnd : base.m_deathState ≠ DeathState.DEAD := by rw [hc]; decide
  have hu : s.Update env diff base
      = (s.afterCreatureUpdate base).UnSummon env UnSummonDefaultMsTime := by
    rw [update_not_dead env s diff base hnd]
    rcases ht with h | h
    · simp only [hty, h, hds, hc, if_true]
    · simp only [hty, h, hds, hc, if_true]
  refine ⟨hu, ?_⟩
  by_cases hp : s.isPet = true
  · refine ⟨[], Or.inl rfl, ?_⟩
    rw [hu, if_pos hp]
    exact unSummon_now_pet env (s.afterCreatureUpdate base) hp
  · simp only [Bool.not_eq_true] at hp
    obtain ⟨notes, h1, h2⟩ := unSummon_now_not_pet env (s.afterCreatureUpdate base) hp
    refine ⟨notes, h2, ?_⟩
    rw [hu, hp]
    exact h1

/-- Witness for C17: a timed-or-corpse summon in combat with a full timer becomes
a corpse. -/
theorem update_corpse_unsummons_witness :
    exampleTimedOrCorpseSummon.Update exampleSummonEnv 1
        { m_deathState := DeathState.CORPSE, inCombat := true, IsAlive := false }
      = (exampleTimedOrCorpseSummon.afterCreatureUpdate
          { m_deathState := DeathState.CORPSE, inCombat := true, IsAlive := false }).UnSummon
          exampleSummonEnv UnSummonDefaultMsTime ∧
    ∃ notes : List SummonEffect,
      (notes = [] ∨ ∃ g, notes = [SummonEffect.SummonedCreatureDespawn g]) ∧
      exampleTimedOrCorpseSummon.Update exampleSummonEnv 1
          { m_deathState := DeathState.CORPSE, inCombat := true, IsAlive := false }
        = (if exampleTimedOrCorpseSummon.isPet then
            (if (exampleSummonEnv.PetRemove
                  ((exampleTimedOrCorpseSummon.afterCreatureUpdate
                      { m_deathState := DeathState.CORPSE, inCombat := true,
                        IsAlive := false }).emit SummonEffect.PetRemove)).inWorld then
              .error Fault.assertFailed
             else .ok (exampleSummonEnv.PetRemove
                  ((exampleTimedOrCorpseSummon.afterCreatureUpdate
                      { m_deathState := DeathState.CORPSE, inCombat := true,
                        IsAlive := false }).emit SummonEffect.PetRemove)))
           else
            .ok { exampleTimedOrCorpseSummon.afterCreatureUpdate
                    { m_deathState := DeathState.CORPSE, inCombat := true, IsAlive := false } with
                  effects := exampleTimedOrCorpseSummon.effects ++ notes
                    ++ [SummonEffect.AddObjectToRemoveList] }) :=
  update_corpse_unsummons exampleSummonEnv exampleTimedOrCorpseSummon 1
    { m_deathState := DeathState.CORPSE, inCombat := true, IsAlive := false } (Or.inr rfl) rfl


theorem initStages_eq (owner : Option SummonerUnit) (s : TempSummon) :
    (do
      let s ←
        if owner.isSome && s.isTrigger && s.spell0 != 0 then do
          let o ← deref owner
          if o.typeId = TypeID.TYPEID_PLAYER then pure { s with m_ControlledByPlayer := true }
          else pure s
        else pure s
      match s.m_Properties with
      | none => pure s
      | some props =>
        let s ←
          if owner.isSome && props.UseSummonerFaction then do
            let o ← deref owner
            pure { s with faction := o.faction }
          else if props.Faction ≠ 0 then pure { s with faction := props.Faction }
          else pure s
        let s ←
          if owner.isSome && !props.UseCreatureLevel then do
            let o ← deref owner
            pure { s with level := o.level }
          else pure s
        if owner.isSome then do
          let o ← deref owner
          if o.guildData ≠ 0 then
            let guildGUID := o.guildData
            if guildGUID ≠ 0 then pure { s with guildData := o.guildData, guildDataFlag := 1 }
            else pure s
          else pure s
        else pure s : Except Fault TempSummon)
      = initStages owner s := by
  unfold initStages initPossessed initFaction initLevel initGuild
  cases owner with
  | none =>
    cases hprops : s.m_Properties with
    | none => simp [hprops, bind, Except.bind, pure, Except.pure]
    | some props =>
      simp only [Option.isSome_none, Bool.false_and, Bool.false_eq_true, if_false, bind,
        Except.bind, pure, Except.pure, hprops]
      split_ifs <;> rfl
  | some o =>
    simp only [Option.isSome_some, Bool.true_and, deref, bind, Except.bind, pure, Except.pure,
      if_true]
    by_cases h1 : (s.isTrigger && s.spell0 != 0) = true
    · by_cases h2 : o.typeId = TypeID.TYPEID_PLAYER
      · simp only [h1, h2, if_true]
        cases hprops : s.m_Properties with
        | none => rfl
        | some props =>
          dsimp only
          split_ifs <;> rfl
      · simp only [h1, h2, if_true, if_false]
        cases hprops : s.m_Properties with
        | none => rfl
        | some props =>
          dsimp only
          split_ifs <;> first | rfl | simp [hprops]
    · simp only [h1, if_false, Bool.false_eq_true]
      cases hprops : s.m_Properties with
      | none => rfl
      | some props =>
        dsimp only
        split_ifs <;> first | rfl | simp [hprops]

theorem initializeBeforeAddToMap_stages (env : SummonEnv) (s0 : TempSummon) (duration : Nat) :
    s0.InitializeBeforeAddToMap env duration
      = (if s0.isPet then .error Fault.assertFailed
         else initStages ((s0.withDuration duration).GetSummoner env) (s0.withDuration duration)) := by
  by_cases hpet : s0.isPet = true
  · rw [if_pos hpet]
    unfold TempSummon.InitializeBeforeAddToMap
    rw [if_pos hpet]
    rfl
  · rw [if_neg hpet, ← initStages_eq]
    unfold TempSummon.InitializeBeforeAddToMap
    rw [if_neg hpet]
    rfl


theorem sameDespawnState_refl (s : TempSummon) : SameDespawnState s s :=
  ⟨rfl, rfl, rfl, rfl, rfl, rfl, rfl, rfl⟩

theorem sameDespawnState_trans (a b c : TempSummon) (h1 : SameDespawnState a b)
    (h2 : SameDespawnState b c) : SameDespawnState a c := by
  obtain ⟨a1, a2, a3, a4, a5, a6, a7, a8⟩ := h1
  obtain ⟨b1, b2, b3, b4, b5, b6, b7, b8⟩ := h2
  exact ⟨a1.trans b1, a2.trans b2, a3.trans b3, a4.trans b4, a5.trans b5, a6.trans b6,
    a7.trans b7, a8.trans b8⟩

theorem initPossessed_same (owner : Option SummonerUnit) (s t : TempSummon)
    (h : initPossessed owner s = .ok t) : SameDespawnState t s := by
  unfold initPossessed at h
  cases owner with
  | none =>
    simp [pure, Except.pure] at h
    subst h
    exact sameDespawnState_refl _
  | some o =>
    simp only [deref, bind, Except.bind, pure, Except.pure] at h
    split_ifs at h <;>
      (simp only [Except.ok.injEq] at h; subst h; exact ⟨rfl, rfl, rfl, rfl, rfl, rfl, rfl, rfl⟩)

theorem initFaction_same (owner : Option SummonerUnit) (props : SummonPropertiesEntry)
    (s t : TempSummon) (h : initFaction owner props s = .ok t) : SameDespawnState t s := by
  unfold initFaction at h
  cases owner with
  | none =>
    simp only [Option.isSome_none, Bool.false_and, Bool.false_eq_true, if_false, pure,
      Except.pure] at h
    split_ifs at h <;>
      (simp only [Except.ok.injEq] at h; subst h; exact ⟨rfl, rfl, rfl, rfl, rfl, rfl, rfl, rfl⟩)
  | some o =>
    simp only [deref, bind, Except.bind, pure, Except.pure] at h
    split_ifs at h <;>
      (simp only [Except.ok.injEq] at h; subst h; exact ⟨rfl, rfl, rfl, rfl, rfl, rfl, rfl, rfl⟩)

theorem initLevel_same (owner : Option SummonerUnit) (props : SummonPropertiesEntry)
    (s t : TempSummon) (h : initLevel owner props s = .ok t) : SameDespawnState t s := by
  unfold initLevel at h
  cases owner with
  | none =>
    simp [pure, Except.pure] at h
    subst h
    exact sameDespawnState_refl _
  | some o =>
    simp only [deref, bind, Except.bind, pure, Except.pure] at h
    split_ifs at h <;>
      (simp only [Except.ok.injEq] at h; subst h; exact ⟨rfl, rfl, rfl, rfl, rfl, rfl, rfl, rfl⟩)

theorem initGuild_same (owner : Option SummonerUnit) (s t : TempSummon)
    (h : initGuild owner s = .ok t) : SameDespawnState t s := by
  unfold initGuild at h
  cases owner with
  | none =>
    simp [pure, Except.pure] at h
    subst h
    exact sameDespawnState_refl _
  | some o =>
    simp only [deref, bind, Except.bind, pure, Except.pure] at h
    split_ifs at h <;>
      (simp only [Except.ok.injEq] at h; subst h; exact ⟨rfl, rfl, rfl, rfl, rfl, rfl, rfl, rfl⟩)

theorem initStages_same (owner : Option SummonerUnit) (s t : TempSummon)
    (h : initStages owner s = .ok t) : SameDespawnState t s := by
  unfold initStages at h
  simp only [bind, Except.bind] at h
  cases h1 : initPossessed owner s with
  | error e => rw [h1] at h; cases h
  | ok s1 =>
    rw [h1] at h
    have k1 := initPossessed_same owner s s1 h1
    simp only at h
    cases hprops : s1.m_Properties with
    | none =>
      rw [hprops] at h
      simp only [pure, Except.pure, Except.ok.injEq] at h
      subst h
      exact k1
    | some props =>
      rw [hprops] at h
      simp only at h
      cases h2 : initFaction owner props s1 with
      | error e => rw [h2] at h; cases h
      | ok s2 =>
        rw [h2] at h
        simp only at h
        cases h3 : initLevel owner props s2 with
        | error e => rw [h3] at h; cases h
        | ok s3 =>
          rw [h3] at h
          simp only at h
          exact sameDespawnState_trans _ _ _ (initGuild_same owner s3 t h)
            (sameDespawnState_trans _ _ _ (initLevel_same owner props s2 s3 h3)
              (sameDespawnState_trans _ _ _ (initFaction_same owner props s1 s2 h2) k1))

theorem initializeBeforeAddToMap_fields (env : SummonEnv) (s0 s : TempSummon) (duration : Nat)
    (h : s0.InitializeBeforeAddToMap env duration = .ok s) :
    s.isPet = false ∧ s.m_timer = duration ∧ s.m_lifetime = duration ∧
    s.m_type = (if s0.m_type = TempSummonType.TEMPSUMMON_MANUAL_DESPAWN then
        (if duration = 0 then TempSummonType.TEMPSUMMON_DEAD_DESPAWN
         else TempSummonType.TEMPSUMMON_TIMED_DESPAWN)
      else s0.m_type) ∧
    s.effects = s0.effects ∧ s.m_Events = s0.m_Events := by
  rw [initializeBeforeAddToMap_stages] at h
  by_cases hpet : s0.isPet = true
  · rw [if_pos hpet] at h; cases h
  · rw [if_neg hpet] at h
    obtain ⟨a1, a2, a3, a4, _, _, a7, a8⟩ := initStages_same _ _ _ h
    simp only [Bool.not_eq_true] at hpet
    unfold TempSummon.withDuration at a1 a2 a3 a4 a7 a8
    by_cases hm : s0.m_type = TempSummonType.TEMPSUMMON_MANUAL_DESPAWN
    · simp only [hm, if_true] at a1 a2 a3 a4 a7 a8 ⊢
      exact ⟨a4.trans hpet, a2, a3, a1, a7, a8⟩
    · simp only [hm, if_false] at a1 a2 a3 a4 a7 a8 ⊢
      exact ⟨a4.trans hpet, a2, a3, a1, a7, a8⟩


theorem unSummon_not_pet_fields (env : SummonEnv) (t : TempSummon) (hp : t.isPet = false) :
    ∃ t', t.UnSummon env UnSummonDefaultMsTime = .ok t' ∧ t'.isPet = false ∧
      t'.m_type = t.m_type ∧ t'.m_lifetime = t.m_lifetime ∧ t'.m_timer = t.m_timer := by
  obtain ⟨notes, h1, _⟩ := unSummon_now_not_pet env t hp
  exact ⟨_, h1, hp, rfl, rfl, rfl⟩

theorem update_step_not_pet (env : SummonEnv) (s : TempSummon) (diff : Nat) (base : CreatureTick)
    (hp : s.isPet = false) (hb : s.m_timer < 4294967296) :
    ∃ s', s.Update env diff base = .ok s' ∧ s'.isPet = false ∧ s'.m_type = s.m_type ∧
      s'.m_lifetime = s.m_lifetime ∧
      (s'.m_timer = s.m_timer ∨ s'.m_timer = s.m_lifetime ∨
        (diff < s.m_timer ∧ s'.m_timer = s.m_timer - diff)) := by
  obtain ⟨u, hu, u1, u2, u3, u4⟩ := unSummon_not_pet_fields env (s.afterCreatureUpdate base) hp
  have hU : ∃ s', (s.afterCreatureUpdate base).UnSummon env UnSummonDefaultMsTime = .ok s' ∧
      s'.isPet = false ∧ s'.m_type = s.m_type ∧ s'.m_lifetime = s.m_lifetime ∧
      (s'.m_timer = s.m_timer ∨ s'.m_timer = s.m_lifetime ∨
        (diff < s.m_timer ∧ s'.m_timer = s.m_timer - diff)) :=
    ⟨u, hu, u1, u2, u3, Or.inl u4⟩
  have hK : ∃ s', (pure (s.afterCreatureUpdate base) : Except Fault TempSummon) = .ok s' ∧
      s'.isPet = false ∧ s'.m_type = s.m_type ∧ s'.m_lifetime = s.m_lifetime ∧
      (s'.m_timer = s.m_timer ∨ s'.m_timer = s.m_lifetime ∨
        (diff < s.m_timer ∧ s'.m_timer = s.m_timer - diff)) :=
    ⟨_, rfl, hp, rfl, rfl, Or.inl rfl⟩
  have hR : ∃ s', (pure { s.afterCreatureUpdate base with
        m_timer := (s.afterCreatureUpdate base).m_lifetime } : Except Fault TempSummon) = .ok s' ∧
      s'.isPet = false ∧ s'.m_type = s.m_type ∧ s'.m_lifetime = s.m_lifetime ∧
      (s'.m_timer = s.m_timer ∨ s'.m_timer = s.m_lifetime ∨
        (diff < s.m_timer ∧ s'.m_timer = s.m_timer - diff)) :=
    ⟨_, rfl, hp, rfl, rfl, Or.inr (Or.inl rfl)⟩
  have hS : ¬ (s.afterCreatureUpdate base).m_timer ≤ diff →
      ∃ s', (pure { s.afterCreatureUpdate base with
        m_timer := uint32_sub (s.afterCreatureUpdate base).m_timer diff } :
          Except Fault TempSummon) = .ok s' ∧
      s'.isPet = false ∧ s'.m_type = s.m_type ∧ s'.m_lifetime = s.m_lifetime ∧
      (s'.m_timer = s.m_timer ∨ s'.m_timer = s.m_lifetime ∨
        (diff < s.m_timer ∧ s'.m_timer = s.m_timer - diff)) := by
    intro hlt
    have hlt' : diff < s.m_timer := Nat.lt_of_not_le hlt
    exact ⟨_, rfl, hp, rfl, rfl, Or.inr (Or.inr ⟨hlt', uint32_sub_of_lt s.m_timer diff hlt' hb⟩)⟩
  by_cases hd : base.m_deathState = DeathState.DEAD
  · rw [update_dead env s diff base hd]
    exact hU
  · rw [update_not_dead env s diff base hd]
    have hty : (s.afterCreatureUpdate base).m_type = s.m_type := rfl
    cases htype : s.m_type <;> simp only [hty, htype] at hU hK hR hS ⊢ <;> (try split_ifs) <;>
      first
      | exact hU
      | exact hK
      | exact hR
      | (apply hS; assumption)

theorem runUpdates_nil (env : SummonEnv) (s : TempSummon) :
    s.runUpdates env [] = .ok s := rfl

theorem runUpdates_cons (env : SummonEnv) (s s1 : TempSummon) (t : Nat × CreatureTick)
    (ts : List (Nat × CreatureTick)) (h : s.Update env t.1 t.2 = .ok s1) :
    s.runUpdates env (t :: ts) = s1.runUpdates env ts := by
  unfold TempSummon.runUpdates
  rw [List.foldlM_cons, h]
  rfl

theorem runUpdates_invariant (env : SummonEnv) (ticks : List (Nat × CreatureTick))
    (s : TempSummon) (hp : s.isPet = false) (hle : s.m_timer ≤ s.m_lifetime)
    (hb : s.m_lifetime < 4294967296) :
    ∃ s', s.runUpdates env ticks = .ok s' ∧ s'.isPet = false ∧ s'.m_type = s.m_type ∧
      s'.m_lifetime = s.m_lifetime ∧ s'.m_timer ≤ s'.m_lifetime := by
  induction ticks generalizing s with
  | nil => exact ⟨s, rfl, hp, rfl, rfl, hle⟩
  | cons t ts ih =>
    obtain ⟨s1, h1, p1, t1, l1, tm1⟩ := update_step_not_pet env s t.1 t.2 hp (by omega)
    have hle1 : s1.m_timer ≤ s1.m_lifetime := by
      rcases tm1 with h | h | ⟨_, h⟩ <;> omega
    obtain ⟨s', h2, p2, t2, l2, tm2⟩ := ih s1 p1 hle1 (by omega)
    exact ⟨s', by rw [runUpdates_cons env s s1 t ts h1]; exact h2, p2, t2.trans t1,
      l2.trans l1, tm2⟩

/-- C20: after `InitializeBeforeAddToMap(duration)` the timer and the lifetime are
`duration`; every run of `Update` calls, for every despawn type, death state and
combat state, returns with the lifetime unchanged and `timer <= lifetime`; and one
more `Update(diff)` leaves the timer as it was, or sets it to the lifetime, or
lowers it by `diff` with `diff < timer`, so that the `uint32` subtraction never
wraps around. -/
theorem timer_stays_below_lifetime (env : SummonEnv) (s0 s : TempSummon) (duration : Nat)
    (ticks : List (Nat × CreatureTick)) (diff : Nat) (base : CreatureTick)
    (hinit : s0.InitializeBeforeAddToMap env duration = .ok s) (hd : duration < 4294967296) :
    s.m_timer = duration ∧ s.m_lifetime = duration ∧
    ∃ s' s'', s.runUpdates env ticks = .ok s' ∧
      s'.m_lifetime = duration ∧ s'.m_timer ≤ s'.m_lifetime ∧
      s'.Update env diff base = .ok s'' ∧
      s''.m_lifetime = duration ∧ s''.m_timer ≤ s''.m_lifetime ∧
      (s''.m_timer = s'.m_timer ∨ s''.m_timer = s'.m_lifetime ∨
        (diff < s'.m_timer ∧ s''.m_timer = s'.m_timer - diff)) := by
  obtain ⟨hp, htm, hlt, _, _, _⟩ := initializeBeforeAddToMap_fields env s0 s duration hinit
  refine ⟨htm, hlt, ?_⟩
  obtain ⟨s', h1, p1, _, l1, tm1⟩ := runUpdates_invariant env ticks s hp (by omega) (by omega)
  obtain ⟨s'', h2, _, _, l2, tm2⟩ := update_step_not_pet env s' diff base p1 (by omega)
  refine ⟨s', s'', h1, by omega, tm1, h2, by omega, ?_, tm2⟩
  rcases tm2 with h | h | ⟨_, h⟩ <;> omega

/-- Witness for C20: a summon initialised with 1000 ms goes through a quiet, a
combat and a quiet update, then one of 400 ms. -/
theorem timer_stays_below_lifetime_witness :
    exampleInitialisedSummon.m_timer = 1000 ∧
    exampleInitialisedSummon.m_lifetime = 1000 ∧
    ∃ s' s'', exampleInitialisedSummon.runUpdates exampleSummonEnv
        [(300, quietTick), (300, combatTick), (399, quietTick)] = .ok s' ∧
      s'.m_lifetime = 1000 ∧ s'.m_timer ≤ s'.m_lifetime ∧
      s'.Update exampleSummonEnv 400 quietTick = .ok s'' ∧
      s''.m_lifetime = 1000 ∧ s''.m_timer ≤ s''.m_lifetime ∧
      (s''.m_timer = s'.m_timer ∨ s''.m_timer = s'.m_lifetime ∨
        (400 < s'.m_timer ∧ s''.m_timer = s'.m_timer - 400)) :=
  timer_stays_below_lifetime exampleSummonEnv exampleSummon exampleInitialisedSummon 1000
    [(300, quietTick), (300, combatTick), (399, quietTick)] 400 quietTick rfl (by decide)


theorem totalDiff_cons (t : Nat × CreatureTick) (ts : List (Nat × CreatureTick)) :
    totalDiff (t :: ts) = t.1 + totalDiff ts := by
  simp [totalDiff]

theorem update_timed (env : SummonEnv) (s : TempSummon) (diff : Nat) (base : CreatureTick)
    (hty : s.m_type = TempSummonType.TEMPSUMMON_TIMED_DESPAWN)
    (hnd : base.m_deathState ≠ DeathState.DEAD) (hb : s.m_timer < 4294967296) :
    s.Update env diff base
      = (if s.m_timer ≤ diff then (s.afterCreatureUpdate base).UnSummon env UnSummonDefaultMsTime
         else .ok { s.afterCreatureUpdate base with m_timer := s.m_timer - diff }) := by
  rw [update_not_dead env s diff base hnd]
  have h1 : (s.afterCreatureUpdate base).m_type = s.m_type := rfl
  have h2 : (s.afterCreatureUpdate base).m_timer = s.m_timer := rfl
  simp only [h1, hty, h2]
  by_cases hle : s.m_timer ≤ diff
  · simp only [hle, if_true]
  · simp only [hle, if_false]
    rw [uint32_sub_of_lt s.m_timer diff (by omega) hb]
    rfl

theorem runUpdates_timed (env : SummonEnv) (ticks : List (Nat × CreatureTick)) (s : TempSummon)
    (hty : s.m_type = TempSummonType.TEMPSUMMON_TIMED_DESPAWN) (hb : s.m_timer < 4294967296)
    (hnd : ∀ t ∈ ticks, t.2.m_deathState ≠ DeathState.DEAD)
    (hsum : totalDiff ticks < s.m_timer ∨ ticks = []) :
    ∃ s', s.runUpdates env ticks = .ok s' ∧ s'.m_timer = s.m_timer - totalDiff ticks ∧
      s'.m_type = s.m_type ∧ s'.isPet = s.isPet ∧ s'.m_lifetime = s.m_lifetime ∧
      s'.effects = s.effects ∧ s'.m_Events = s.m_Events := by
  induction ticks generalizing s with
  | nil => exact ⟨s, rfl, by simp [totalDiff], rfl, rfl, rfl, rfl, rfl⟩
  | cons t ts ih =>
    have hlt : t.1 + totalDiff ts < s.m_timer := by
      rcases hsum with h | h
      · rw [totalDiff_cons] at h; exact h
      · cases h
    have h1 : s.Update env t.1 t.2
        = .ok { s.afterCreatureUpdate t.2 with m_timer := s.m_timer - t.1 } := by
      rw [update_timed env s t.1 t.2 hty (hnd t (List.mem_cons_self _ _)) hb,
        if_neg (by omega)]
    obtain ⟨s', h2, k1, k2, k3, k4, k5, k6⟩ :=
      ih { s.afterCreatureUpdate t.2 with m_timer := s.m_timer - t.1 } hty
        (by show s.m_timer - t.1 < 4294967296; omega)
        (fun x hx => hnd x (List.mem_cons_of_mem _ hx))
        (Or.inl (by show totalDiff ts < s.m_timer - t.1; omega))
    refine ⟨s', by rw [runUpdates_cons env s _ t ts h1]; exact h2, ?_, k2, k3, k4, k5, k6⟩
    rw [k1, totalDiff_cons]
    show s.m_timer - t.1 - totalDiff ts = s.m_timer - (t.1 + totalDiff ts)
    omega

/-- C12: a summon that `InitializeBeforeAddToMap(d)` left with type
`TIMED_DESPAWN` goes through updates that never find it `DEAD`.  After any calls
whose time steps add up to less than `d`, the timer is `d` minus that sum (each
call lowered it by exactly its `diff`) and no `UnSummon` took place: trace and
timeline are unchanged.  The next call is the immediate `UnSummon`, which queues
the summon for removal, exactly when the sum of the time steps, its own included,
reaches `d`; otherwise it lowers the timer by its `diff` again. -/
theorem timed_despawn_fires_when_lifetime_is_used_up (env : SummonEnv) (s0 s : TempSummon)
    (d : Nat) (ticks : List (Nat × CreatureTick)) (diff : Nat) (base : CreatureTick)
    (hinit : s0.InitializeBeforeAddToMap env d = .ok s)
    (hty : s.m_type = TempSummonType.TEMPSUMMON_TIMED_DESPAWN) (hd : d < 4294967296)
    (hnd : ∀ t ∈ ticks, t.2.m_deathState ≠ DeathState.DEAD)
    (hbase : base.m_deathState ≠ DeathState.DEAD)
    (hsum : totalDiff ticks < d ∨ ticks = []) :
    ∃ (s' : TempSummon) (notes : List SummonEffect),
      s.runUpdates env ticks = .ok s' ∧
      s'.m_timer = d - totalDiff ticks ∧ s'.effects = s.effects ∧ s'.m_Events = s.m_Events ∧
      s'.Update env diff base
        = (if d ≤ totalDiff ticks + diff then
            (s'.afterCreatureUpdate base).UnSummon env UnSummonDefaultMsTime
           else .ok { s'.afterCreatureUpdate base with m_timer := d - totalDiff ticks - diff }) ∧
      (s'.afterCreatureUpdate base).UnSummon env UnSummonDefaultMsTime
        = .ok { s'.afterCreatureUpdate base with
                effects := s.effects ++ notes ++ [SummonEffect.AddObjectToRemoveList] } := by
  obtain ⟨hp, htm, _, _, _, _⟩ := initializeBeforeAddToMap_fields env s0 s d hinit
  obtain ⟨s', h1, k1, k2, k3, _, k5, k6⟩ := runUpdates_timed env ticks s hty (by omega) hnd
    (by rw [htm]; exact hsum)
  have hp' : (s'.afterCreatureUpdate base).isPet = false := k3.trans hp
  obtain ⟨notes, hu, _⟩ := unSummon_now_not_pet env (s'.afterCreatureUpdate base) hp'
  have htot : totalDiff ticks < d ∨ totalDiff ticks = 0 := by
    rcases hsum with h | h
    · exact Or.inl h
    · right; rw [h]; rfl
  refine ⟨s', notes, h1, by rw [k1, htm], k5, k6, ?_, ?_⟩
  · rw [update_timed env s' diff base (k2.trans hty) hbase (by omega), k1, htm]
    by_cases hle : d ≤ totalDiff ticks + diff
    · rw [if_pos hle, if_pos (by omega)]
    · rw [if_neg hle, if_neg (by omega)]
  · have he : (s'.afterCreatureUpdate base).effects = s.effects := k5
    rw [he] at hu
    exact hu

/-- Witness for C12: 1000 ms of lifetime, updates of 300, 300 and 399 ms, then one
of 1 ms. -/
theorem timed_despawn_fires_when_lifetime_is_used_up_witness :
    ∃ (s' : TempSummon) (notes : List SummonEffect),
      exampleInitialisedSummon.runUpdates exampleSummonEnv
        [(300, quietTick), (300, combatTick), (399, quietTick)] = .ok s' ∧
      s'.m_timer = 1000 - totalDiff [(300, quietTick), (300, combatTick), (399, quietTick)] ∧
      s'.effects = exampleInitialisedSummon.effects ∧
      s'.m_Events = exampleInitialisedSummon.m_Events ∧
      s'.Update exampleSummonEnv 1 quietTick
        = (if 1000 ≤ totalDiff [(300, quietTick), (300, combatTick), (399, quietTick)] + 1 then
            (s'.afterCreatureUpdate quietTick).UnSummon exampleSummonEnv UnSummonDefaultMsTime
           else .ok { s'.afterCreatureUpdate quietTick with
                      m_timer := 1000
                        - totalDiff [(300, quietTick), (300, combatTick), (399, quietTick)] - 1 }) ∧
      (s'.afterCreatureUpdate quietTick).UnSummon exampleSummonEnv UnSummonDefaultMsTime
        = .ok { s'.afterCreatureUpdate quietTick with
                effects := exampleInitialisedSummon.effects ++ notes
                  ++ [SummonEffect.AddObjectToRemoveList] } :=
  timed_despawn_fires_when_lifetime_is_used_up exampleSummonEnv exampleSummon
    exampleInitialisedSummon 1000 [(300, quietTick), (300, combatTick), (399, quietTick)] 1
    quietTick rfl rfl (by decide) (by decide) (by decide) (Or.inl (by decide))


theorem with_timer_self (s : TempSummon) (h : s.m_timer = s.m_lifetime) :
    ({ s with m_timer := s.m_lifetime } : TempSummon) = s := by
  cases s
  simp only at h
  simp [h]

theorem update_in_combat (env : SummonEnv) (s : TempSummon) (diff : Nat) (base : CreatureTick)
    (hty : s.m_type = TempSummonType.TEMPSUMMON_TIMED_DESPAWN_OUT_OF_COMBAT ∨
           s.m_type = TempSummonType.TEMPSUMMON_TIMED_OR_CORPSE_DESPAWN ∨
           s.m_type = TempSummonType.TEMPSUMMON_TIMED_OR_DEAD_DESPAWN)
    (hc : base.inCombat = true) (hnd : base.m_deathState ≠ DeathState.DEAD)
    (hnc : s.m_type = TempSummonType.TEMPSUMMON_TIMED_OR_CORPSE_DESPAWN →
           base.m_deathState ≠ DeathState.CORPSE) :
    s.Update env diff base = .ok { s.afterCreatureUpdate base with m_timer := s.m_lifetime } := by
  rw [update_not_dead env s diff base hnd]
  have h1 : (s.afterCreatureUpdate base).m_type = s.m_type := rfl
  have h2 : (s.afterCreatureUpdate base).inCombat = true := hc
  have h3 : (s.afterCreatureUpdate base).m_deathState = base.m_deathState := rfl
  have hfin : (if (s.afterCreatureUpdate base).m_timer ≠ (s.afterCreatureUpdate base).m_lifetime
      then (pure { s.afterCreatureUpdate base with
              m_timer := (s.afterCreatureUpdate base).m_lifetime } : Except Fault TempSummon)
      else pure (s.afterCreatureUpdate base))
      = .ok { s.afterCreatureUpdate base with m_timer := s.m_lifetime } := by
    by_cases he : (s.afterCreatureUpdate base).m_timer = (s.afterCreatureUpdate base).m_lifetime
    · rw [if_neg (not_not.2 he)]
      have := with_timer_self (s.afterCreatureUpdate base) he
      exact congrArg Except.ok this.symm
    · rw [if_pos he]
      rfl
  rcases hty with h | h | h
  · simp only [h1, h, h2, Bool.not_true, Bool.false_eq_true, if_false] at hfin ⊢
    exact hfin
  · have hcorpse := hnc h
    simp only [h1, h, h2, h3, hcorpse, Bool.not_true, Bool.false_eq_true, if_false] at hfin ⊢
    exact hfin
  · simp only [h1, h, h2, Bool.not_true, Bool.false_and, Bool.false_eq_true, if_false] at hfin ⊢
    exact hfin

theorem update_out_of_combat (env : SummonEnv) (s : TempSummon) (diff : Nat) (base : CreatureTick)
    (hty : s.m_type = TempSummonType.TEMPSUMMON_TIMED_DESPAWN_OUT_OF_COMBAT ∨
           s.m_type = TempSummonType.TEMPSUMMON_TIMED_OR_CORPSE_DESPAWN ∨
           s.m_type = TempSummonType.TEMPSUMMON_TIMED_OR_DEAD_DESPAWN)
    (hc : base.inCombat = false) (hnd : base.m_deathState ≠ DeathState.DEAD)
    (hnc : s.m_type = TempSummonType.TEMPSUMMON_TIMED_OR_CORPSE_DESPAWN →
           base.m_deathState ≠ DeathState.CORPSE)
    (hb : s.m_timer < 4294967296) :
    s.Update env diff base
      = (if s.m_type = TempSummonType.TEMPSUMMON_TIMED_OR_DEAD_DESPAWN ∧ base.IsAlive = false then
          .ok { s.afterCreatureUpdate base with m_timer := s.m_lifetime }
         else if s.m_timer ≤ diff then
          (s.afterCreatureUpdate base).UnSummon env UnSummonDefaultMsTime
         else .ok { s.afterCreatureUpdate base with m_timer := s.m_timer - diff }) := by
  rw [update_not_dead env s diff base hnd]
  have h1 : (s.afterCreatureUpdate base).m_type = s.m_type := rfl
  have h2 : (s.afterCreatureUpdate base).inCombat = false := hc
  have h3 : (s.afterCreatureUpdate base).m_deathState = base.m_deathState := rfl
  have h4 : (s.afterCreatureUpdate base).m_timer = s.m_timer := rfl
  have hcount : (if (s.afterCreatureUpdate base).m_timer ≤ diff then
        (s.afterCreatureUpdate base).UnSummon env UnSummonDefaultMsTime
      else (pure { s.afterCreatureUpdate base with
              m_timer := uint32_sub (s.afterCreatureUpdate base).m_timer diff } :
            Except Fault TempSummon))
      = (if s.m_timer ≤ diff then (s.afterCreatureUpdate base).UnSummon env UnSummonDefaultMsTime
         else .ok { s.afterCreatureUpdate base with m_timer := s.m_timer - diff }) := by
    rw [h4]
    by_cases hle : s.m_timer ≤ diff
    · rw [if_pos hle, if_pos hle]
    · rw [if_neg hle, if_neg hle, uint32_sub_of_lt s.m_timer diff (by omega) hb]
      rfl
  have hfin : (if (s.afterCreatureUpdate base).m_timer ≠ (s.afterCreatureUpdate base).m_lifetime
      then (pure { s.afterCreatureUpdate base with
              m_timer := (s.afterCreatureUpdate base).m_lifetime } : Except Fault TempSummon)
      else pure (s.afterCreatureUpdate base))
      = .ok { s.afterCreatureUpdate base with m_timer := s.m_lifetime } := by
    by_cases he : (s.afterCreatureUpdate base).m_timer = (s.afterCreatureUpdate base).m_lifetime
    · rw [if_neg (not_not.2 he)]
      have := with_timer_self (s.afterCreatureUpdate base) he
      exact congrArg Except.ok this.symm
    · rw [if_pos he]
      rfl
  rcases hty with h | h | h
  · have hne : ¬ (s.m_type = TempSummonType.TEMPSUMMON_TIMED_OR_DEAD_DESPAWN ∧
        base.IsAlive = false) := by rw [h]; simp
    rw [if_neg hne]
    simp only [h1, h, h2, Bool.not_false, if_true] at hcount ⊢
    exact hcount
  · have hne : ¬ (s.m_type = TempSummonType.TEMPSUMMON_TIMED_OR_DEAD_DESPAWN ∧
        base.IsAlive = false) := by rw [h]; simp
    have hcorpse := hnc h
    rw [if_neg hne]
    simp only [h1, h, h2, h3, hcorpse, Bool.not_false, if_true, if_false] at hcount ⊢
    exact hcount
  · by_cases ha : base.IsAlive = true
    · have hne : ¬ (s.m_type = TempSummonType.TEMPSUMMON_TIMED_OR_DEAD_DESPAWN ∧
          base.IsAlive = false) := by rw [ha]; simp
      rw [if_neg hne]
      simp only [h1, h, h2, ha, Bool.not_false, Bool.and_self, if_true] at hcount ⊢
      exact hcount
    · simp only [Bool.not_eq_true] at ha
      have hpos : s.m_type = TempSummonType.TEMPSUMMON_TIMED_OR_DEAD_DESPAWN ∧
          base.IsAlive = false := ⟨h, ha⟩
      rw [if_pos hpos]
      simp only [h1, h, h2, ha, Bool.not_false, Bool.and_false, Bool.false_eq_true,
        if_false] at hfin ⊢
      exact hfin


theorem update_step_combat_types (env : SummonEnv) (s : TempSummon) (diff : Nat)
    (base : CreatureTick) (hp : s.isPet = false) (hb : s.m_timer < 4294967296)
    (hty : s.m_type = TempSummonType.TEMPSUMMON_TIMED_DESPAWN_OUT_OF_COMBAT ∨
           s.m_type = TempSummonType.TEMPSUMMON_TIMED_OR_CORPSE_DESPAWN ∨
           s.m_type = TempSummonType.TEMPSUMMON_TIMED_OR_DEAD_DESPAWN)
    (hnd : base.m_deathState ≠ DeathState.DEAD)
    (hnc : s.m_type = TempSummonType.TEMPSUMMON_TIMED_OR_CORPSE_DESPAWN →
           base.m_deathState ≠ DeathState.CORPSE) :
    ∃ s', s.Update env diff base = .ok s' ∧ s'.isPet = false ∧ s'.m_type = s.m_type ∧
      s'.m_lifetime = s.m_lifetime ∧
      (s'.m_timer = s.m_lifetime ∨
        (base.inCombat = false ∧ s.m_timer ≤ s'.m_timer + diff ∧ s'.m_timer ≤ s.m_timer)) := by
  by_cases hc : base.inCombat = true
  · rw [update_in_combat env s diff base hty hc hnd hnc]
    exact ⟨_, rfl, hp, rfl, rfl, Or.inl rfl⟩
  · simp only [Bool.not_eq_true] at hc
    rw [update_out_of_combat env s diff base hty hc hnd hnc hb]
    by_cases h1 : s.m_type = TempSummonType.TEMPSUMMON_TIMED_OR_DEAD_DESPAWN ∧
        base.IsAlive = false
    · rw [if_pos h1]
      exact ⟨_, rfl, hp, rfl, rfl, Or.inl rfl⟩
    · rw [if_neg h1]
      by_cases h2 : s.m_timer ≤ diff
      · rw [if_pos h2]
        obtain ⟨u, hu, u1, u2, u3, u4⟩ :=
          unSummon_not_pet_fields env (s.afterCreatureUpdate base) hp
        have u5 : u.m_timer = s.m_timer := u4
        exact ⟨u, hu, u1, u2, u3, Or.inr ⟨hc, by omega, by omega⟩⟩
      · rw [if_neg h2]
        have h3 : s.m_timer ≤ s.m_timer - diff + diff ∧ s.m_timer - diff ≤ s.m_timer := by
          omega
        exact ⟨_, rfl, hp, rfl, rfl, Or.inr ⟨hc, h3.1, h3.2⟩⟩

theorem runUpdates_combat_invariant (env : SummonEnv) (ticks : List (Nat × CreatureTick))
    (s : TempSummon) (q0 : Nat) (hp : s.isPet = false) (hle : s.m_timer ≤ s.m_lifetime)
    (hb : s.m_lifetime < 4294967296)
    (hty : s.m_type = TempSummonType.TEMPSUMMON_TIMED_DESPAWN_OUT_OF_COMBAT ∨
           s.m_type = TempSummonType.TEMPSUMMON_TIMED_OR_CORPSE_DESPAWN ∨
           s.m_type = TempSummonType.TEMPSUMMON_TIMED_OR_DEAD_DESPAWN)
    (hticks : ∀ t ∈ ticks, t.2.m_deathState ≠ DeathState.DEAD ∧
        (s.m_type = TempSummonType.TEMPSUMMON_TIMED_OR_CORPSE_DESPAWN →
          t.2.m_deathState ≠ DeathState.CORPSE))
    (hq : s.m_lifetime ≤ s.m_timer + q0) :
    ∃ s', s.runUpdates env ticks = .ok s' ∧ s'.isPet = false ∧ s'.m_type = s.m_type ∧
      s'.m_lifetime = s.m_lifetime ∧ s'.m_timer ≤ s'.m_lifetime ∧
      s'.m_lifetime ≤ s'.m_timer +
        ticks.foldl (fun acc t => if t.2.inCombat then 0 else acc + t.1) q0 := by
  induction ticks generalizing s q0 with
  | nil => exact ⟨s, rfl, hp, rfl, rfl, hle, hq⟩
  | cons t ts ih =>
    have ht := hticks t (List.mem_cons_self t ts)
    obtain ⟨s1, h1, p1, t1, l1, tm1⟩ :=
      update_step_combat_types env s t.1 t.2 hp (by omega) hty ht.1 ht.2
    have hle1 : s1.m_timer ≤ s1.m_lifetime := by
      rcases tm1 with h | ⟨_, _, h⟩ <;> omega
    have hq1 : s1.m_lifetime ≤ s1.m_timer + (if t.2.inCombat then 0 else q0 + t.1) := by
      rcases tm1 with h | ⟨hc, h, _⟩
      · omega
      · rw [hc]
        simp only [Bool.false_eq_true, if_false]
        omega
    have hticks1 : ∀ t' ∈ ts, t'.2.m_deathState ≠ DeathState.DEAD ∧
        (s1.m_type = TempSummonType.TEMPSUMMON_TIMED_OR_CORPSE_DESPAWN →
          t'.2.m_deathState ≠ DeathState.CORPSE) := by
      intro t' hm
      rw [t1]
      exact hticks t' (List.mem_cons_of_mem t hm)
    obtain ⟨s', h2, p2, t2, l2, tm2, q2⟩ :=
      ih s1 (if t.2.inCombat then 0 else q0 + t.1) p1 hle1 (by omega) (by rw [t1]; exact hty)
        hticks1 hq1
    exact ⟨s', by rw [runUpdates_cons env s s1 t ts h1]; exact h2, p2, t2.trans t1,
      l2.trans l1, tm2, q2⟩

theorem quietDiff_append_one (ticks : List (Nat × CreatureTick)) (diff : Nat)
    (base : CreatureTick) :
    quietDiff (ticks ++ [(diff, base)])
      = (if base.inCombat then 0 else quietDiff ticks + diff) := by
  simp [quietDiff, List.foldl_append]


/-- C13: for a summon of type `TIMED_DESPAWN_OUT_OF_COMBAT`, `TIMED_OR_CORPSE_DESPAWN`
(not a corpse) or `TIMED_OR_DEAD_DESPAWN`, after `InitializeBeforeAddToMap(d)` and any
run of updates in which it is never `DEAD`: an `Update` in combat returns the state
with the timer set to the lifetime and nothing else changed (no unsummon effect);
an `Update` out of combat unsummons only through the test `timer <= diff`; and when
that test succeeds, the diffs of the out-of-combat updates since the last update in
combat, this one included, add up to at least the lifetime. -/
theorem combat_holds_timer_full (env : SummonEnv) (s0 s : TempSummon) (d : Nat)
    (ticks : List (Nat × CreatureTick)) (diffC diffQ : Nat) (baseC baseQ : CreatureTick)
    (hinit : s0.InitializeBeforeAddToMap env d = .ok s) (hd : d < 4294967296)
    (hty : s.m_type = TempSummonType.TEMPSUMMON_TIMED_DESPAWN_OUT_OF_COMBAT ∨
           s.m_type = TempSummonType.TEMPSUMMON_TIMED_OR_CORPSE_DESPAWN ∨
           s.m_type = TempSummonType.TEMPSUMMON_TIMED_OR_DEAD_DESPAWN)
    (hticks : ∀ t ∈ ticks, t.2.m_deathState ≠ DeathState.DEAD ∧
        (s.m_type = TempSummonType.TEMPSUMMON_TIMED_OR_CORPSE_DESPAWN →
          t.2.m_deathState ≠ DeathState.CORPSE))
    (hC : baseC.inCombat = true ∧ baseC.m_deathState ≠ DeathState.DEAD ∧
        (s.m_type = TempSummonType.TEMPSUMMON_TIMED_OR_CORPSE_DESPAWN →
          baseC.m_deathState ≠ DeathState.CORPSE))
    (hQ : baseQ.inCombat = false ∧ baseQ.m_deathState ≠ DeathState.DEAD ∧
        (s.m_type = TempSummonType.TEMPSUMMON_TIMED_OR_CORPSE_DESPAWN →
          baseQ.m_deathState ≠ DeathState.CORPSE)) :
    ∃ s', s.runUpdates env ticks = .ok s' ∧ s'.m_type = s.m_type ∧ s'.m_lifetime = d ∧
      s'.Update env diffC baseC
        = .ok { s'.afterCreatureUpdate baseC with m_timer := s'.m_lifetime } ∧
      s'.Update env diffQ baseQ
        = (if s'.m_type = TempSummonType.TEMPSUMMON_TIMED_OR_DEAD_DESPAWN ∧
              baseQ.IsAlive = false then
            .ok { s'.afterCreatureUpdate baseQ with m_timer := s'.m_lifetime }
           else if s'.m_timer ≤ diffQ then
            (s'.afterCreatureUpdate baseQ).UnSummon env UnSummonDefaultMsTime
           else .ok { s'.afterCreatureUpdate baseQ with m_timer := s'.m_timer - diffQ }) ∧
      (s'.m_timer ≤ diffQ → s'.m_lifetime ≤ quietDiff (ticks ++ [(diffQ, baseQ)])) := by
  obtain ⟨hp, htm, hlt, _, _, _⟩ := initializeBeforeAddToMap_fields env s0 s d hinit
  obtain ⟨s', hrun, p', ty', l', tm', q'⟩ :=
    runUpdates_combat_invariant env ticks s 0 hp (by omega) (by omega) hty hticks (by omega)
  have hty' : s'.m_type = TempSummonType.TEMPSUMMON_TIMED_DESPAWN_OUT_OF_COMBAT ∨
      s'.m_type = TempSummonType.TEMPSUMMON_TIMED_OR_CORPSE_DESPAWN ∨
      s'.m_type = TempSummonType.TEMPSUMMON_TIMED_OR_DEAD_DESPAWN := by rw [ty']; exact hty
  have hCc : s'.m_type = TempSummonType.TEMPSUMMON_TIMED_OR_CORPSE_DESPAWN →
      baseC.m_deathState ≠ DeathState.CORPSE := by rw [ty']; exact hC.2.2
  have hQc : s'.m_type = TempSummonType.TEMPSUMMON_TIMED_OR_CORPSE_DESPAWN →
      baseQ.m_deathState ≠ DeathState.CORPSE := by rw [ty']; exact hQ.2.2
  refine ⟨s', hrun, ty', l'.trans hlt,
    update_in_combat env s' diffC baseC hty' hC.1 hC.2.1 hCc,
    update_out_of_combat env s' diffQ baseQ hty' hQ.1 hQ.2.1 hQc (by omega), ?_⟩
  intro hfire
  rw [quietDiff_append_one, hQ.1]
  simp only [Bool.false_eq_true, if_false]
  have hq : s'.m_lifetime ≤ s'.m_timer + quietDiff ticks := q'
  omega

/-- Witness for C13: 1000 ms of lifetime; a quiet update of 600 ms, one in combat, a
quiet one of 700 ms, then the two updates under test. -/
theorem combat_holds_timer_full_witness :
    ∃ s', exampleCombatInitialised.runUpdates exampleSummonEnv
        [(600, quietTick), (300, combatTick), (700, quietTick)] = .ok s' ∧
      s'.m_type = exampleCombatInitialised.m_type ∧ s'.m_lifetime = 1000 ∧
      s'.Update exampleSummonEnv 250 combatTick
        = .ok { s'.afterCreatureUpdate combatTick with m_timer := s'.m_lifetime } ∧
      s'.Update exampleSummonEnv 300 quietTick
        = (if s'.m_type = TempSummonType.TEMPSUMMON_TIMED_OR_DEAD_DESPAWN ∧
              quietTick.IsAlive = false then
            .ok { s'.afterCreatureUpdate quietTick with m_timer := s'.m_lifetime }
           else if s'.m_timer ≤ 300 then
            (s'.afterCreatureUpdate quietTick).UnSummon exampleSummonEnv UnSummonDefaultMsTime
           else .ok { s'.afterCreatureUpdate quietTick with m_timer := s'.m_timer - 300 }) ∧
      (s'.m_timer ≤ 300 → s'.m_lifetime ≤
        quietDiff ([(600, quietTick), (300, combatTick), (700, quietTick)] ++
          [(300, quietTick)])) :=
  combat_holds_timer_full exampleSummonEnv exampleCombatSummon exampleCombatInitialised 1000
    [(600, quietTick), (300, combatTick), (700, quietTick)] 250 300 combatTick quietTick
    rfl (by decide) (Or.inl rfl) (by decide) (by decide) (by decide)


/-! ## The effect mask -/

theorem getEffectMask_eq (a : Aura) :
    a.GetEffectMask
      = (if (a.m_effects ⟨0, by decide⟩).isSome then 1 else 0) +
        (if (a.m_effects ⟨1, by decide⟩).isSome then 2 else 0) +
        (if (a.m_effects ⟨2, by decide⟩).isSome then 4 else 0) := by
  have e : a.GetEffectMask
      = (fun m2 : Nat => if (a.m_effects ⟨2, by decide⟩).isSome then (m2 ||| (1 <<< 2)) % 256
          else m2)
        ((fun m1 : Nat => if (a.m_effects ⟨1, by decide⟩).isSome then (m1 ||| (1 <<< 1)) % 256
          else m1)
        ((fun m0 : Nat => if (a.m_effects ⟨0, by decide⟩).isSome then (m0 ||| (1 <<< 0)) % 256
          else m0) 0)) := rfl
  rw [e]
  cases (a.m_effects ⟨0, by decide⟩).isSome <;> cases (a.m_effects ⟨1, by decide⟩).isSome <;>
    cases (a.m_effects ⟨2, by decide⟩).isSome <;> rfl

theorem hasEffect_of_lt (a : Aura) (i : Nat) (h : i < MAX_SPELL_EFFECTS) :
    a.HasEffect i = .ok (a.m_effects ⟨i, h⟩).isSome := by
  unfold Aura.HasEffect Aura.GetEffect
  rw [dif_pos h]

/-- C19: for every Aura and every index `i < MAX_SPELL_EFFECTS`, `HasEffect(i)` returns
exactly bit `i` of `GetEffectMask()`, so it holds if and only if that bit is set; and
`GetEffectMask()` is below `2 ^ MAX_SPELL_EFFECTS = 8`, with no bit set at position
`MAX_SPELL_EFFECTS` or above. -/
theorem effect_mask_is_present_slots (a : Aura) (i : Nat) (hi : i < MAX_SPELL_EFFECTS) :
    a.HasEffect i = .ok (a.GetEffectMask.testBit i) ∧
    (a.HasEffect i = .ok true ↔ a.GetEffectMask.testBit i = true) ∧
    a.GetEffectMask < 2 ^ MAX_SPELL_EFFECTS ∧
    ∀ j, MAX_SPELL_EFFECTS ≤ j → a.GetEffectMask.testBit j = false := by
  have hbit : (a.m_effects ⟨i, hi⟩).isSome = a.GetEffectMask.testBit i := by
    rw [getEffectMask_eq]
    have h3 : i < 3 := hi
    interval_cases i <;>
      cases (a.m_effects ⟨0, by decide⟩).isSome <;>
      cases (a.m_effects ⟨1, by decide⟩).isSome <;>
      cases (a.m_effects ⟨2, by decide⟩).isSome <;> rfl
  have hlt : a.GetEffectMask < 2 ^ MAX_SPELL_EFFECTS := by
    rw [getEffectMask_eq]
    cases (a.m_effects ⟨0, by decide⟩).isSome <;>
      cases (a.m_effects ⟨1, by decide⟩).isSome <;>
      cases (a.m_effects ⟨2, by decide⟩).isSome <;> decide
  refine ⟨?_, ?_, hlt, ?_⟩
  · rw [hasEffect_of_lt a i hi, hbit]
  · rw [hasEffect_of_lt a i hi, hbit]
    constructor
    · intro h
      injection h
    · intro h
      rw [h]
  · intro j hj
    apply Nat.testBit_lt_two_pow
    calc a.GetEffectMask < 2 ^ MAX_SPELL_EFFECTS := hlt
      _ ≤ 2 ^ j := Nat.pow_le_pow_right (by decide) hj

/-- Witness for C19: the slot `0` of the example aura, whose slots `0` and `1` are
present. -/
theorem effect_mask_is_present_slots_witness :
    exampleAura.HasEffect 0 = .ok (exampleAura.GetEffectMask.testBit 0) ∧
    (exampleAura.HasEffect 0 = .ok true ↔ exampleAura.GetEffectMask.testBit 0 = true) ∧
    exampleAura.GetEffectMask < 2 ^ MAX_SPELL_EFFECTS ∧
    ∀ j, MAX_SPELL_EFFECTS ≤ j → exampleAura.GetEffectMask.testBit j = false :=
  effect_mask_is_present_slots exampleAura 0 (by decide)


/-! ## The notification of `OnAreaChange` -/

theorem updateVisibilityIfNeeded_objects {PS : Type} (w : PhaseWorld PS) (object : ObjectGuid)
    (o : PhaseObject PS) (updateVisibility changed : Bool) (hget : w.get object = .ok o) :
    ∃ w', PhasingHandler.UpdateVisibilityIfNeeded w object updateVisibility changed = .ok w' ∧
      w'.objects = w.objects ∧
      ∃ vis, w'.log = w.log ++ vis ∧
        ∀ e ∈ vis, e = PhaseEvent.SendToPlayer object ∨
          e = PhaseEvent.SendUpdateTransportVisibility object ∨
          e = PhaseEvent.UpdateObjectVisibility object := by
  unfold PhasingHandler.UpdateVisibilityIfNeeded
  simp only [hget, bind, Except.bind]
  by_cases hc : (changed && o.inWorld) = true
  · rw [if_pos hc]
    by_cases hp : o.IsPlayer = true
    · by_cases hv : updateVisibility = true
      · refine ⟨((w.emit (PhaseEvent.SendToPlayer object)).emit
            (PhaseEvent.SendUpdateTransportVisibility object)).emit
            (PhaseEvent.UpdateObjectVisibility object), ?_, rfl,
          [PhaseEvent.SendToPlayer object, PhaseEvent.SendUpdateTransportVisibility object,
            PhaseEvent.UpdateObjectVisibility object], by simp [PhaseWorld.emit], by simp⟩
        simp only [hp, hv, if_true]
        rfl
      · refine ⟨w.emit (PhaseEvent.SendToPlayer object), ?_, rfl,
          [PhaseEvent.SendToPlayer object], by simp [PhaseWorld.emit], by simp⟩
        simp only [hp, hv, if_true, if_false, Bool.false_eq_true]
        rfl
    · by_cases hv : updateVisibility = true
      · refine ⟨w.emit (PhaseEvent.UpdateObjectVisibility object), ?_, rfl,
          [PhaseEvent.UpdateObjectVisibility object], by simp [PhaseWorld.emit], by simp⟩
        simp only [hp, hv, if_true, if_false, Bool.false_eq_true]
        rfl
      · refine ⟨w, ?_, rfl, [], by simp, by simp⟩
        simp only [hp, hv, if_false, Bool.false_eq_true]
        rfl
  · rw [if_neg hc]
    exact ⟨w, rfl, rfl, [], by simp, by simp⟩

theorem foldlM_inv {α β : Type} (Inv : α → Prop) (step : α → β → Except Fault α) (l : List β)
    (hstep : ∀ a b, b ∈ l → Inv a → ∃ a', step a b = .ok a' ∧ Inv a')
    (a : α) (ha : Inv a) : ∃ a', l.foldlM step a = .ok a' ∧ Inv a' := by
  induction l generalizing a with
  | nil => exact ⟨a, rfl, ha⟩
  | cons b rest ih =>
    obtain ⟨a1, h1, hi1⟩ := hstep a b (List.mem_cons_self _ _) ha
    obtain ⟨a2, h2, hi2⟩ := ih (fun a b hb => hstep a b (List.mem_cons_of_mem _ hb)) a1 hi1
    refine ⟨a2, ?_, hi2⟩
    rw [List.foldlM_cons]
    simp only [h1, bind, Except.bind]
    exact h2


theorem get_of_objects {PS : Type} (w : PhaseWorld PS) (g : ObjectGuid) (o : PhaseObject PS)
    (h : w.objects g = some o) : w.get g = .ok o := by
  unfold PhaseWorld.get
  rw [h]

theorem inheritPhaseShift_inv {PS : Type}
    (sh : ObjectGuid → Option (TypeID × Bool × List ObjectGuid × List ObjectGuid))
    (log : List PhaseEvent) (P : PhaseShifts PS) (source : ObjectGuid)
    (w : PhaseWorld (PhaseShifts PS)) (target : ObjectGuid)
    (hw : w.shape = sh ∧ w.log = log ∧ ∃ o, w.objects source = some o ∧ o.phaseShift = P)
    (ht : (sh target).isSome = true) :
    ∃ w', PhasingHandler.InheritPhaseShift w target source = .ok w' ∧
      (w'.shape = sh ∧ w'.log = log ∧ ∃ o, w'.objects source = some o ∧ o.phaseShift = P) := by
  obtain ⟨hs, hl, o, ho, hP⟩ := hw
  obtain ⟨t, _, hgt, _⟩ := get_of_shape w target (by rw [hs]; exact ht)
  have hgs := get_of_objects w source o ho
  refine ⟨w.setPhaseShift target o.phaseShift, ?_, ?_, hl, ?_⟩
  · unfold PhasingHandler.InheritPhaseShift
    simp only [hgs, hgt, bind, Except.bind]
    rfl
  · rw [shape_setPhaseShift]
    exact hs
  · unfold PhaseWorld.setPhaseShift
    by_cases he : source = target
    · refine ⟨{ o with phaseShift := o.phaseShift }, ?_, hP⟩
      simp only [he, if_true]
      rw [← he, ho]
      rfl
    · refine ⟨o, ?_, hP⟩
      simp only [he, if_false]
      exact ho

theorem forAllControlled_inherit {PS : Type} (w : PhaseWorld (PhaseShifts PS))
    (unit : ObjectGuid) (o : PhaseObject (PhaseShifts PS)) (ho : w.objects unit = some o)
    (hctl : ∀ c ∈ o.m_Controlled, (w.objects c).isSome = true) :
    ∃ w', ForAllControlled w unit (fun w controlled =>
        PhasingHandler.InheritPhaseShift w controlled unit) = .ok w' ∧
      w'.shape = w.shape ∧ w'.log = w.log ∧
      ∃ o', w'.objects unit = some o' ∧ o'.phaseShift = o.phaseShift := by
  have hInv : w.shape = w.shape ∧ w.log = w.log ∧
      ∃ o', w.objects unit = some o' ∧ o'.phaseShift = o.phaseShift := ⟨rfl, rfl, o, ho, rfl⟩
  have hshape : ∀ c, (w.objects c).isSome = true → (w.shape c).isSome = true := by
    intro c hc
    unfold PhaseWorld.shape
    cases hcc : w.objects c with
    | none => rw [hcc] at hc; simp at hc
    | some x => rfl
  obtain ⟨w1, h1, hi1⟩ := foldlM_inv
    (fun w' : PhaseWorld (PhaseShifts PS) => w'.shape = w.shape ∧ w'.log = w.log ∧
      ∃ o', w'.objects unit = some o' ∧ o'.phaseShift = o.phaseShift)
    (fun (w : PhaseWorld (PhaseShifts PS)) (controlled : ObjectGuid) => do
      let c ← w.get controlled
      if c.typeId ≠ TypeID.TYPEID_PLAYER then
        PhasingHandler.InheritPhaseShift w controlled unit
      else pure w) o.m_Controlled
    (by
      intro w0 c hmem hw0
      have hcs := hshape c (hctl c hmem)
      obtain ⟨co, _, hcget, _⟩ := get_of_shape w0 c (by rw [hw0.1]; exact hcs)
      by_cases hp : co.typeId = TypeID.TYPEID_PLAYER
      · refine ⟨w0, ?_, hw0⟩
        simp [hcget, hp, bind, Except.bind, pure, Except.pure]
      · obtain ⟨w', hf, hi⟩ := inheritPhaseShift_inv w.shape w.log o.phaseShift unit w0 c hw0 hcs
        refine ⟨w', ?_, hi⟩
        simp [hcget, hp, bind, Except.bind, hf])
    w hInv
  obtain ⟨w2, h2, hi2⟩ := foldlM_inv
    (fun w' : PhaseWorld (PhaseShifts PS) => w'.shape = w.shape ∧ w'.log = w.log ∧
      ∃ o', w'.objects unit = some o' ∧ o'.phaseShift = o.phaseShift)
    (fun (w : PhaseWorld (PhaseShifts PS)) (slot : ObjectGuid) =>
      if slot ≠ 0 then
        match w.GetCreature slot with
        | some _ => PhasingHandler.InheritPhaseShift w slot unit
        | none => pure w
      else pure w) o.m_SummonSlot
    (by
      intro w0 c _ hw0
      by_cases hz : c = 0
      · refine ⟨w0, ?_, hw0⟩
        simp [hz, pure, Except.pure]
      · cases hcr : w0.GetCreature c with
        | none =>
          refine ⟨w0, ?_, hw0⟩
          simp [hz, hcr, pure, Except.pure]
        | some co =>
          have hcs : (w.shape c).isSome = true := by
            rw [← hw0.1]
            unfold PhaseWorld.GetCreature at hcr
            unfold PhaseWorld.shape
            cases hcc : w0.objects c with
            | none => rw [hcc] at hcr; simp at hcr
            | some x => rfl
          obtain ⟨w', hf, hi⟩ :=
            inheritPhaseShift_inv w.shape w.log o.phaseShift unit w0 c hw0 hcs
          refine ⟨w', ?_, hi⟩
          simp [hz, hcr, hf])
    w1 hi1
  refine ⟨w2, ?_, hi2⟩
  unfold ForAllControlled
  simp only [get_of_objects w unit o ho, bind, Except.bind]
  simp only [bind, Except.bind] at h1 h2
  rw [h1]
  convert h2 using 8
  funext motive x h_some h_none
  cases x <;> rfl


theorem objects_setPhaseShift_self {PS : Type} (w : PhaseWorld PS) (g : ObjectGuid)
    (o : PhaseObject PS) (ps : PS) (h : w.objects g = some o) :
    (w.setPhaseShift g ps).objects g = some { o with phaseShift := ps } := by
  unfold PhaseWorld.setPhaseShift
  simp only [if_true]
  rw [h]
  rfl

theorem objects_setPhaseShift_isSome {PS : Type} (w : PhaseWorld PS) (g c : ObjectGuid)
    (ps : PS) (h : (w.objects c).isSome = true) :
    ((w.setPhaseShift g ps).objects c).isSome = true := by
  unfold PhaseWorld.setPhaseShift
  by_cases hc : c = g
  · simp only [hc, if_true]
    rw [hc] at h
    cases hw : w.objects g with
    | none => rw [hw] at h; simp at h
    | some x => rfl
  · simp only [hc, if_false]
    exact h

theorem initPossessed_ok (owner : Option SummonerUnit) (s : TempSummon) :
    ∃ t, initPossessed owner s = .ok t := by
  unfold initPossessed
  cases owner with
  | none => exact ⟨s, by simp [pure, Except.pure]⟩
  | some o =>
    simp only [deref, bind, Except.bind, pure, Except.pure]
    split_ifs <;> exact ⟨_, rfl⟩

theorem initFaction_ok (owner : Option SummonerUnit) (props : SummonPropertiesEntry)
    (s : TempSummon) : ∃ t, initFaction owner props s = .ok t := by
  unfold initFaction
  cases owner with
  | none =>
    simp only [Option.isSome_none, Bool.false_and, Bool.false_eq_true, if_false, pure,
      Except.pure]
    split_ifs <;> exact ⟨_, rfl⟩
  | some o =>
    simp only [deref, bind, Except.bind, pure, Except.pure]
    split_ifs <;> exact ⟨_, rfl⟩

theorem initLevel_ok (owner : Option SummonerUnit) (props : SummonPropertiesEntry)
    (s : TempSummon) : ∃ t, initLevel owner props s = .ok t := by
  unfold initLevel
  cases owner with
  | none => exact ⟨s, by simp [pure, Except.pure]⟩
  | some o =>
    simp only [deref, bind, Except.bind, pure, Except.pure]
    split_ifs <;> exact ⟨_, rfl⟩

theorem initGuild_ok (owner : Option SummonerUnit) (s : TempSummon) :
    ∃ t, initGuild owner s = .ok t := by
  unfold initGuild
  cases owner with
  | none => exact ⟨s, by simp [pure, Except.pure]⟩
  | some o =>
    simp only [deref, bind, Except.bind, pure, Except.pure]
    split_ifs <;> exact ⟨_, rfl⟩

theorem initStages_ok (owner : Option SummonerUnit) (s : TempSummon) :
    ∃ t, initStages owner s = .ok t := by
  unfold initStages
  obtain ⟨s1, h1⟩ := initPossessed_ok owner s
  simp only [h1, bind, Except.bind]
  cases hprops : s1.m_Properties with
  | none => exact ⟨s1, rfl⟩
  | some props =>
    obtain ⟨s2, h2⟩ := initFaction_ok owner props s1
    obtain ⟨s3, h3⟩ := initLevel_ok owner props s2
    obtain ⟨s4, h4⟩ := initGuild_ok owner s3
    refine ⟨s4, ?_⟩
    simp only [h2, h3, h4]

/-- C21: on a summon that is not a pet, `InitializeBeforeAddToMap(duration)` returns,
for every type the summon has at the call (in particular one set just before through
`SetTempSummonType`): the type `MANUAL_DESPAWN` becomes `DEAD_DESPAWN` when
`duration == 0` and `TIMED_DESPAWN` otherwise, every other type is left as it is, and
the timer and the lifetime are both `duration`. -/
theorem initializeBeforeAddToMap_resolves_default_type (env : SummonEnv) (s : TempSummon)
    (type : TempSummonType) (duration : Nat) (hp : s.isPet = false) :
    (∃ s', s.InitializeBeforeAddToMap env duration = .ok s' ∧
      s'.m_type = (if s.m_type = TempSummonType.TEMPSUMMON_MANUAL_DESPAWN then
          (if duration = 0 then TempSummonType.TEMPSUMMON_DEAD_DESPAWN
           else TempSummonType.TEMPSUMMON_TIMED_DESPAWN)
        else s.m_type) ∧
      s'.m_timer = duration ∧ s'.m_lifetime = duration) ∧
    (∃ s', (s.SetTempSummonType type).InitializeBeforeAddToMap env duration = .ok s' ∧
      s'.m_type = (if type = TempSummonType.TEMPSUMMON_MANUAL_DESPAWN then
          (if duration = 0 then TempSummonType.TEMPSUMMON_DEAD_DESPAWN
           else TempSummonType.TEMPSUMMON_TIMED_DESPAWN)
        else type) ∧
      s'.m_timer = duration ∧ s'.m_lifetime = duration) := by
  have key : ∀ t : TempSummon, t.isPet = false →
      ∃ s', t.InitializeBeforeAddToMap env duration = .ok s' ∧
        s'.m_type = (if t.m_type = TempSummonType.TEMPSUMMON_MANUAL_DESPAWN then
            (if duration = 0 then TempSummonType.TEMPSUMMON_DEAD_DESPAWN
             else TempSummonType.TEMPSUMMON_TIMED_DESPAWN)
          else t.m_type) ∧
        s'.m_timer = duration ∧ s'.m_lifetime = duration := by
    intro t ht
    have hst := initializeBeforeAddToMap_stages env t duration
    rw [if_neg (by rw [ht]; simp)] at hst
    obtain ⟨s', hs'⟩ := initStages_ok ((t.withDuration duration).GetSummoner env)
      (t.withDuration duration)
    rw [hs'] at hst
    obtain ⟨_, a2, a3, a4, _, _⟩ := initializeBeforeAddToMap_fields env t s' duration hst
    exact ⟨s', hst, a4, a2, a3⟩
  exact ⟨key s hp, key (s.SetTempSummonType type) hp⟩

/-- Witness for C21: the example summon, set to `CORPSE_DESPAWN` beforehand. -/
theorem initializeBeforeAddToMap_resolves_default_type_witness :
    (∃ s', exampleSummon.InitializeBeforeAddToMap exampleSummonEnv 0 = .ok s' ∧
      s'.m_type = (if exampleSummon.m_type = TempSummonType.TEMPSUMMON_MANUAL_DESPAWN then
          (if 0 = 0 then TempSummonType.TEMPSUMMON_DEAD_DESPAWN
           else TempSummonType.TEMPSUMMON_TIMED_DESPAWN)
        else exampleSummon.m_type) ∧
      s'.m_timer = 0 ∧ s'.m_lifetime = 0) ∧
    (∃ s', (exampleSummon.SetTempSummonType
          TempSummonType.TEMPSUMMON_CORPSE_DESPAWN).InitializeBeforeAddToMap exampleSummonEnv 0
        = .ok s' ∧
      s'.m_type = (if TempSummonType.TEMPSUMMON_CORPSE_DESPAWN
            = TempSummonType.TEMPSUMMON_MANUAL_DESPAWN then
          (if 0 = 0 then TempSummonType.TEMPSUMMON_DEAD_DESPAWN
           else TempSummonType.TEMPSUMMON_TIMED_DESPAWN)
        else TempSummonType.TEMPSUMMON_CORPSE_DESPAWN) ∧
      s'.m_timer = 0 ∧ s'.m_lifetime = 0) :=
  initializeBeforeAddToMap_resolves_default_type exampleSummonEnv exampleSummon
    TempSummonType.TEMPSUMMON_CORPSE_DESPAWN 0 rfl

/-! ## The terrain map of a position -/

theorem firstChildMapGrid_mem (map : TerrainMap) (gx gy : Int)
    (l : List (Nat × VisibleMapIdRef)) (v : Nat) (h : firstChildMapGrid map gx gy l = some v) :
    ∃ pre post, l.map Prod.fst = pre ++ v :: post ∧
      (∀ u ∈ pre, map.HasChildMapGridFile u gx gy = false) ∧
      map.HasChildMapGridFile v gx gy = true := by
  induction l with
  | nil => simp [firstChildMapGrid] at h
  | cons a rest ih =>
    unfold firstChildMapGrid at h
    by_cases ha : map.HasChildMapGridFile a.1 gx gy = true
    · rw [if_pos ha] at h
      injection h with h
      subst h
      exact ⟨[], rest.map Prod.fst, rfl, by simp, ha⟩
    · rw [if_neg ha] at h
      obtain ⟨pre, post, h1, h2, h3⟩ := ih h
      refine ⟨a.1 :: pre, post, by simp [h1], ?_, h3⟩
      intro u hu
      rcases List.mem_cons.1 hu with hu | hu
      · rw [hu]; simpa using ha
      · exact h2 u hu

theorem firstChildMapGrid_none (map : TerrainMap) (gx gy : Int)
    (l : List (Nat × VisibleMapIdRef)) (h : firstChildMapGrid map gx gy l = none) :
    ∀ u ∈ l.map Prod.fst, map.HasChildMapGridFile u gx gy = false := by
  induction l with
  | nil => simp
  | cons a rest ih =>
    unfold firstChildMapGrid at h
    by_cases ha : map.HasChildMapGridFile a.1 gx gy = true
    · rw [if_pos ha] at h
      cases h
    · rw [if_neg ha] at h
      intro u hu
      simp only [List.map_cons, List.mem_cons] at hu
      rcases hu with hu | hu
      · rw [hu]; simpa using ha
      · exact ih h u hu

theorem firstChildMapGrid_of_split (map : TerrainMap) (gx gy : Int)
    (l : List (Nat × VisibleMapIdRef)) (pre : List Nat) (v : Nat) (post : List Nat)
    (h : l.map Prod.fst = pre ++ v :: post)
    (hpre : ∀ u ∈ pre, map.HasChildMapGridFile u gx gy = false)
    (hv : map.HasChildMapGridFile v gx gy = true) :
    firstChildMapGrid map gx gy l = some v := by
  induction pre generalizing l with
  | nil =>
    cases l with
    | nil => simp at h
    | cons a rest =>
      simp only [List.map_cons, List.nil_append, List.cons.injEq] at h
      unfold firstChildMapGrid
      rw [h.1, if_pos hv]
  | cons p pre ih =>
    cases l with
    | nil => simp at h
    | cons a rest =>
      simp only [List.map_cons, List.cons_append, List.cons.injEq] at h
      unfold firstChildMapGrid
      have hp : map.HasChildMapGridFile a.1 gx gy = false := by
        rw [h.1]; exact hpre p (List.mem_cons_self _ _)
      rw [hp]
      simp only [Bool.false_eq_true, if_false]
      exact ih rest h.2 (fun u hu => hpre u (List.mem_cons_of_mem _ hu))

theorem getTerrainMapId_many {PS F : Type} (senv : ShiftEnv PS) (genv : GridEnv F)
    (phaseShift : PS) (map : TerrainMap) (x y : F) (a b : Nat × VisibleMapIdRef)
    (rest : List (Nat × VisibleMapIdRef))
    (h : senv.VisibleMapIds phaseShift = a :: b :: rest) :
    PhasingHandler.GetTerrainMapId senv genv phaseShift map x y
      = (firstChildMapGrid map
          (mirroredGridCoord genv.MAX_NUMBER_OF_GRIDS (genv.ComputeGridCoord x y).1)
          (mirroredGridCoord genv.MAX_NUMBER_OF_GRIDS (genv.ComputeGridCoord x y).2)
          (a :: b :: rest)).getD map.GetId := by
  unfold PhasingHandler.GetTerrainMapId
  rw [h]
  simp only
  cases firstChildMapGrid map
      (mirroredGridCoord genv.MAX_NUMBER_OF_GRIDS (genv.ComputeGridCoord x y).1)
      (mirroredGridCoord genv.MAX_NUMBER_OF_GRIDS (genv.ComputeGridCoord x y).2)
      (a :: b :: rest) <;> rfl

theorem mirroredGridCoord_of_lt (maxGrids coord : Nat) (h : coord < maxGrids)
    (hmax : maxGrids ≤ 2147483648) :
    mirroredGridCoord maxGrids coord = (maxGrids : Int) - 1 - (coord : Int) := by
  unfold mirroredGridCoord int32_wrap
  omega

/-- C25: `GetTerrainMapId` returns the id of the map or one of the visible map ids of
the phase shift: the id of the map when there is no visible map id; the visible map id
when there is exactly one, whatever the grid files are; with two or more, the first
visible map id in key order for which `HasChildMapGridFile` holds at the coordinates
`gx`, `gy`, and the id of the map when it holds for none.  The coordinates are
`(MAX_NUMBER_OF_GRIDS - 1) - coord` as an `int32`, which is that difference itself for
every grid coordinate below `MAX_NUMBER_OF_GRIDS`. -/
theorem getTerrainMapId_spec {PS F : Type} (senv : ShiftEnv PS) (genv : GridEnv F)
    (phaseShift : PS) (map : TerrainMap) (x y : F) :
    (PhasingHandler.GetTerrainMapId senv genv phaseShift map x y = map.GetId ∨
      PhasingHandler.GetTerrainMapId senv genv phaseShift map x y
        ∈ (senv.VisibleMapIds phaseShift).map Prod.fst) ∧
    ((senv.VisibleMapIds phaseShift).map Prod.fst = [] →
      PhasingHandler.GetTerrainMapId senv genv phaseShift map x y = map.GetId) ∧
    (∀ v, (senv.VisibleMapIds phaseShift).map Prod.fst = [v] →
      ∀ files : Nat → Int → Int → Bool,
        PhasingHandler.GetTerrainMapId senv genv phaseShift
          { map with HasChildMapGridFile := files } x y = v) ∧
    (2 ≤ ((senv.VisibleMapIds phaseShift).map Prod.fst).length →
      (∀ pre v post, (senv.VisibleMapIds phaseShift).map Prod.fst = pre ++ v :: post →
        (∀ u ∈ pre, map.HasChildMapGridFile u
          (mirroredGridCoord genv.MAX_NUMBER_OF_GRIDS (genv.ComputeGridCoord x y).1)
          (mirroredGridCoord genv.MAX_NUMBER_OF_GRIDS (genv.ComputeGridCoord x y).2) = false) →
        map.HasChildMapGridFile v
          (mirroredGridCoord genv.MAX_NUMBER_OF_GRIDS (genv.ComputeGridCoord x y).1)
          (mirroredGridCoord genv.MAX_NUMBER_OF_GRIDS (genv.ComputeGridCoord x y).2) = true →
        PhasingHandler.GetTerrainMapId senv genv phaseShift map x y = v) ∧
      ((∀ u ∈ (senv.VisibleMapIds phaseShift).map Prod.fst, map.HasChildMapGridFile u
          (mirroredGridCoord genv.MAX_NUMBER_OF_GRIDS (genv.ComputeGridCoord x y).1)
          (mirroredGridCoord genv.MAX_NUMBER_OF_GRIDS (genv.ComputeGridCoord x y).2) = false) →
        PhasingHandler.GetTerrainMapId senv genv phaseShift map x y = map.GetId)) ∧
    (∀ coord, coord < genv.MAX_NUMBER_OF_GRIDS → genv.MAX_NUMBER_OF_GRIDS ≤ 2147483648 →
      mirroredGridCoord genv.MAX_NUMBER_OF_GRIDS coord
        = (genv.MAX_NUMBER_OF_GRIDS : Int) - 1 - (coord : Int)) := by
  cases hl : senv.VisibleMapIds phaseShift with
  | nil =>
    have e : ∀ m : TerrainMap, PhasingHandler.GetTerrainMapId senv genv phaseShift m x y
        = m.GetId := by
      intro m
      unfold PhasingHandler.GetTerrainMapId
      rw [hl]
    refine ⟨Or.inl (e map), fun _ => e map, ?_, ?_, mirroredGridCoord_of_lt _⟩
    · intro v hv
      simp at hv
    · intro h2
      simp at h2
  | cons a tail =>
    cases tail with
    | nil =>
      have e : ∀ m : TerrainMap, PhasingHandler.GetTerrainMapId senv genv phaseShift m x y
          = a.1 := by
        intro m
        unfold PhasingHandler.GetTerrainMapId
        rw [hl]
      refine ⟨Or.inr (by rw [e map]; simp), ?_, ?_, ?_, mirroredGridCoord_of_lt _⟩
      · intro h0
        simp at h0
      · intro v hv files
        simp only [List.map_cons, List.map_nil, List.cons.injEq, and_true] at hv
        rw [e, hv]
      · intro h2
        simp at h2
    | cons b rest =>
      have e := getTerrainMapId_many senv genv phaseShift map x y a b rest hl
      refine ⟨?_, ?_, ?_, ?_, mirroredGridCoord_of_lt _⟩
      · rw [e]
        cases hf : firstChildMapGrid map
            (mirroredGridCoord genv.MAX_NUMBER_OF_GRIDS (genv.ComputeGridCoord x y).1)
            (mirroredGridCoord genv.MAX_NUMBER_OF_GRIDS (genv.ComputeGridCoord x y).2)
            (a :: b :: rest) with
        | none => exact Or.inl rfl
        | some v =>
          obtain ⟨pre, post, h1, _, _⟩ := firstChildMapGrid_mem map _ _ _ v hf
          right
          rw [h1]
          simp
      · intro h0
        simp at h0
      · intro v hv
        simp at hv
      · intro _
        constructor
        · intro pre v post hsplit hpre hv
          rw [e, firstChildMapGrid_of_split map _ _ _ pre v post hsplit hpre hv]
          rfl
        · intro hnone
          rw [e]
          cases hf : firstChildMapGrid map
              (mirroredGridCoord genv.MAX_NUMBER_OF_GRIDS (genv.ComputeGridCoord x y).1)
              (mirroredGridCoord genv.MAX_NUMBER_OF_GRIDS (genv.ComputeGridCoord x y).2)
              (a :: b :: rest) with
          | none => rfl
          | some v =>
            obtain ⟨pre, post, h1, _, h3⟩ := firstChildMapGrid_mem map _ _ _ v hf
            have := hnone v (by rw [h1]; simp)
            rw [this] at h3
            cases h3

/-! ## The phase shift of a database row -/

theorem addPhases_fold_ids {PS : Type} (env : PhaseEnv PS) (senv : ShiftEnv PS)
    (h : DbShiftLaws env senv) (l : List Nat) (ps : PS) (i : Nat) :
    i ∈ phaseIds senv (l.foldl (fun ps p => (env.AddPhase ps p (GetPhaseFlags env p) none).1) ps)
      ↔ i ∈ l ∨ i ∈ phaseIds senv ps := by
  induction l generalizing ps with
  | nil => simp
  | cons p rest ih =>
    rw [List.foldl_cons, ih, h.addPhase_ids]
    simp only [List.mem_cons]
    tauto

theorem addPhases_fold_isDb {PS : Type} (env : PhaseEnv PS) (senv : ShiftEnv PS)
    (h : DbShiftLaws env senv) (l : List Nat) (ps : PS) :
    senv.IsDbPhaseShift
        (l.foldl (fun ps p => (env.AddPhase ps p (GetPhaseFlags env p) none).1) ps)
      = senv.IsDbPhaseShift ps := by
  induction l generalizing ps with
  | nil => rfl
  | cons p rest ih => rw [List.foldl_cons, ih, h.isDb_addPhase]

/-- The phase shift of `InitDbPhaseShift` before the flags are assigned. -/
theorem initDbPhaseShift_filled {PS : Type} (env : PhaseEnv PS) (senv : ShiftEnv PS)
    (h : DbShiftLaws env senv) (ps : PS) (phaseId phaseGroupId : Nat) :
    ∃ filled : PS,
      (∀ flags, PhasingHandler.InitDbPhaseShift env senv ps flags phaseId phaseGroupId
        = senv.SetFlags filled
            (if (senv.PhaseRefs filled).isEmpty || senv.HasPhase filled senv.DEFAULT_PHASE then
              (if flags &&& senv.PHASE_USE_FLAGS_INVERSE ≠ 0 then
                { AlwaysVisible := decide (flags &&& senv.PHASE_USE_FLAGS_ALWAYS_VISIBLE ≠ 0),
                  Inverse := true, InverseUnphased := true,
                  Unphased := decide (flags &&& senv.PHASE_USE_FLAGS_ALWAYS_VISIBLE ≠ 0) }
               else
                { AlwaysVisible := decide (flags &&& senv.PHASE_USE_FLAGS_ALWAYS_VISIBLE ≠ 0),
                  Inverse := false, InverseUnphased := false, Unphased := true })
             else
              { AlwaysVisible := decide (flags &&& senv.PHASE_USE_FLAGS_ALWAYS_VISIBLE ≠ 0),
                Inverse := decide (flags &&& senv.PHASE_USE_FLAGS_INVERSE ≠ 0),
                InverseUnphased := false,
                Unphased := decide (flags &&& senv.PHASE_USE_FLAGS_ALWAYS_VISIBLE ≠ 0) })) ∧
      (∀ i, i ∈ phaseIds senv filled ↔ i ∈ dbPhases env phaseId phaseGroupId) ∧
      senv.IsDbPhaseShift filled = true := by
  have hbase : phaseIds senv (senv.SetIsDbPhaseShift (senv.ClearPhases ps) true) = [] := by
    unfold phaseIds
    rw [h.setIsDb_refs, h.clearPhases]
    rfl
  have hbaseDb : senv.IsDbPhaseShift (senv.SetIsDbPhaseShift (senv.ClearPhases ps) true)
      = true := h.isDb_setIsDb _ _
  refine ⟨(if phaseId ≠ 0 then
      (env.AddPhase (senv.SetIsDbPhaseShift (senv.ClearPhases ps) true) phaseId
        (GetPhaseFlags env phaseId) none).1
    else
      match env.GetPhasesForGroup phaseGroupId with
      | some phasesInGroup =>
        phasesInGroup.foldl (fun ps phaseInGroup =>
          (env.AddPhase ps phaseInGroup (GetPhaseFlags env phaseInGroup) none).1)
          (senv.SetIsDbPhaseShift (senv.ClearPhases ps) true)
      | none => senv.SetIsDbPhaseShift (senv.ClearPhases ps) true), ?_, ?_, ?_⟩
  · intro flags
    unfold PhasingHandler.InitDbPhaseShift
    by_cases ha : flags &&& senv.PHASE_USE_FLAGS_ALWAYS_VISIBLE ≠ 0 <;>
      by_cases hi : flags &&& senv.PHASE_USE_FLAGS_INVERSE ≠ 0 <;>
      simp only [ha, hi, if_true, if_false, not_true_eq_false, not_false_eq_true,
        decide_True, decide_False, PhaseShiftFlagSet.None, ne_eq] <;>
      split_ifs <;> first | rfl | contradiction
  · intro i
    unfold dbPhases
    by_cases hp : phaseId ≠ 0
    · rw [if_pos hp, if_pos hp, h.addPhase_ids, hbase]
      simp
    · rw [if_neg hp, if_neg hp]
      cases env.GetPhasesForGroup phaseGroupId with
      | none => simp only [hbase]
      | some l =>
        simp only
        rw [addPhases_fold_ids env senv h, hbase]
        simp
  · by_cases hp : phaseId ≠ 0
    · rw [if_pos hp, h.isDb_addPhase, hbaseDb]
    · rw [if_neg hp]
      cases env.GetPhasesForGroup phaseGroupId with
      | none => exact hbaseDb
      | some l =>
        simp only
        rw [addPhases_fold_isDb env senv h, hbaseDb]

theorem list_eq_nil_of_mem_iff {l m : List Nat} (h : ∀ i, i ∈ l ↔ i ∈ m) : l = [] ↔ m = [] := by
  constructor
  · intro hl
    apply List.eq_nil_iff_forall_not_mem.2
    intro i hi
    have := (h i).2 hi
    rw [hl] at this
    cases this
  · intro hm
    apply List.eq_nil_iff_forall_not_mem.2
    intro i hi
    have := (h i).1 hi
    rw [hm] at this
    cases this

/-- C22: with members of `PhaseShift` that behave as `DbShiftLaws` says, for every
phase shift, `phaseUseFlags`, `phaseId` and `phaseGroupId`: after `InitDbPhaseShift`
the container holds exactly `phaseId` when `phaseId != 0` and otherwise exactly the
phases of the group (none for an unknown group); `IsDbPhaseShift` is set; and the
flags are `AlwaysVisible` iff `ALWAYS_VISIBLE` was requested, `Inverse` iff `INVERSE`
was requested, `InverseUnphased` iff `INVERSE` was requested and the phase set is
empty or holds `DEFAULT_PHASE`, and `Unphased` iff `ALWAYS_VISIBLE` was requested or
(`INVERSE` was not and the phase set is empty or holds `DEFAULT_PHASE`).  So
`InverseUnphased` is never set without `Inverse`. -/
theorem initDbPhaseShift_spec {PS : Type} (env : PhaseEnv PS) (senv : ShiftEnv PS)
    (h : DbShiftLaws env senv) (ps : PS) (phaseUseFlags phaseId phaseGroupId : Nat) :
    (∀ i, i ∈ phaseIds senv
        (PhasingHandler.InitDbPhaseShift env senv ps phaseUseFlags phaseId phaseGroupId)
      ↔ i ∈ dbPhases env phaseId phaseGroupId) ∧
    senv.IsDbPhaseShift
      (PhasingHandler.InitDbPhaseShift env senv ps phaseUseFlags phaseId phaseGroupId) = true ∧
    senv.Flags (PhasingHandler.InitDbPhaseShift env senv ps phaseUseFlags phaseId phaseGroupId)
      = { AlwaysVisible := decide (phaseUseFlags &&& senv.PHASE_USE_FLAGS_ALWAYS_VISIBLE ≠ 0)
          Inverse := decide (phaseUseFlags &&& senv.PHASE_USE_FLAGS_INVERSE ≠ 0)
          InverseUnphased :=
            decide (phaseUseFlags &&& senv.PHASE_USE_FLAGS_INVERSE ≠ 0) &&
            decide (dbPhases env phaseId phaseGroupId = [] ∨
              senv.DEFAULT_PHASE ∈ dbPhases env phaseId phaseGroupId)
          Unphased :=
            decide (phaseUseFlags &&& senv.PHASE_USE_FLAGS_ALWAYS_VISIBLE ≠ 0) ||
            (!decide (phaseUseFlags &&& senv.PHASE_USE_FLAGS_INVERSE ≠ 0) &&
              decide (dbPhases env phaseId phaseGroupId = [] ∨
                senv.DEFAULT_PHASE ∈ dbPhases env phaseId phaseGroupId)) } ∧
    ((senv.Flags (PhasingHandler.InitDbPhaseShift env senv ps phaseUseFlags phaseId
        phaseGroupId)).InverseUnphased = true →
      (senv.Flags (PhasingHandler.InitDbPhaseShift env senv ps phaseUseFlags phaseId
        phaseGroupId)).Inverse = true) := by
  obtain ⟨filled, heq, hids, hdb⟩ := initDbPhaseShift_filled env senv h ps phaseId phaseGroupId
  have hcond : ((senv.PhaseRefs filled).isEmpty || senv.HasPhase filled senv.DEFAULT_PHASE)
      = decide (dbPhases env phaseId phaseGroupId = [] ∨
          senv.DEFAULT_PHASE ∈ dbPhases env phaseId phaseGroupId) := by
    have h1 : (senv.PhaseRefs filled).isEmpty = decide (dbPhases env phaseId phaseGroupId = [])
        := by
      have hnil := list_eq_nil_of_mem_iff hids
      unfold phaseIds at hnil
      rw [List.map_eq_nil_iff] at hnil
      rw [Bool.eq_iff_iff, List.isEmpty_iff, decide_eq_true_iff]
      exact hnil
    have h2 : senv.HasPhase filled senv.DEFAULT_PHASE
        = decide (senv.DEFAULT_PHASE ∈ dbPhases env phaseId phaseGroupId) := by
      rw [Bool.eq_iff_iff, h.hasPhase, decide_eq_true_iff]
      exact hids _
    rw [h1, h2, Bool.eq_iff_iff]
    simp only [Bool.or_eq_true, decide_eq_true_eq]
  have hflags : senv.Flags
      (PhasingHandler.InitDbPhaseShift env senv ps phaseUseFlags phaseId phaseGroupId)
      = { AlwaysVisible := decide (phaseUseFlags &&& senv.PHASE_USE_FLAGS_ALWAYS_VISIBLE ≠ 0)
          Inverse := decide (phaseUseFlags &&& senv.PHASE_USE_FLAGS_INVERSE ≠ 0)
          InverseUnphased :=
            decide (phaseUseFlags &&& senv.PHASE_USE_FLAGS_INVERSE ≠ 0) &&
            decide (dbPhases env phaseId phaseGroupId = [] ∨
              senv.DEFAULT_PHASE ∈ dbPhases env phaseId phaseGroupId)
          Unphased :=
            decide (phaseUseFlags &&& senv.PHASE_USE_FLAGS_ALWAYS_VISIBLE ≠ 0) ||
            (!decide (phaseUseFlags &&& senv.PHASE_USE_FLAGS_INVERSE ≠ 0) &&
              decide (dbPhases env phaseId phaseGroupId = [] ∨
                senv.DEFAULT_PHASE ∈ dbPhases env phaseId phaseGroupId)) } := by
    rw [heq, h.flags_setFlags, hcond]
    by_cases hE : dbPhases env phaseId phaseGroupId = [] ∨
        senv.DEFAULT_PHASE ∈ dbPhases env phaseId phaseGroupId <;>
      by_cases hi : phaseUseFlags &&& senv.PHASE_USE_FLAGS_INVERSE ≠ 0 <;>
      simp [hE, hi]
  refine ⟨?_, ?_, hflags, ?_⟩
  · intro i
    rw [heq]
    unfold phaseIds
    rw [h.setFlags_refs]
    exact hids i
  · rw [heq, h.isDb_setFlags]
    exact hdb
  · rw [hflags]
    simp only [Bool.and_eq_true, decide_eq_true_eq]
    intro hx
    exact hx.1

/-! ## `OnConditionChange` re-partitions the phases -/

theorem mem_phaseIds_iff {PS : Type} (senv : ShiftEnv PS) (ps : PS) (i : Nat) :
    i ∈ phaseIds senv ps ↔ ∃ k ∈ refKeys senv ps, k.1 = i := by
  unfold phaseIds refKeys PhaseRef.key
  simp only [List.mem_map]
  constructor
  · rintro ⟨r, hr, rfl⟩
    exact ⟨(r.Id, r.AreaConditions), ⟨r, hr, rfl⟩, rfl⟩
  · rintro ⟨k, ⟨r, hr, rfl⟩, rfl⟩
    exact ⟨r, hr, rfl⟩

theorem mem_refKeys_of_mem {PS : Type} (senv : ShiftEnv PS) (ps : PS) (y : PhaseRef)
    (h : y ∈ senv.PhaseRefs ps) : y.key ∈ refKeys senv ps :=
  List.mem_map_of_mem _ h

theorem mem_phaseIds_of_mem {PS : Type} (senv : ShiftEnv PS) (ps : PS) (y : PhaseRef)
    (h : y ∈ senv.PhaseRefs ps) : y.Id ∈ phaseIds senv ps :=
  List.mem_map_of_mem (fun r => r.Id) h

theorem mem_keys_erased {PS : Type} {env : PhaseEnv PS} {aenv : AreaEnv PS}
    {senv : ShiftEnv PS} (h : ConditionLaws env aenv senv) (ps : PS) (id : Nat) (d : Int)
    (k : Nat × Option Nat) :
    k ∈ refKeys senv (senv.PhasesErase (senv.ModifyPhasesReferences ps id d) id)
      ↔ k ∈ refKeys senv ps ∧ k.1 ≠ id := by
  rw [h.erase, h.modify, List.mem_filter]
  simp

theorem mem_ids_erased {PS : Type} {env : PhaseEnv PS} {aenv : AreaEnv PS}
    {senv : ShiftEnv PS} (h : ConditionLaws env aenv senv) (ps : PS) (id : Nat) (d : Int)
    (i : Nat) :
    i ∈ phaseIds senv (senv.PhasesErase (senv.ModifyPhasesReferences ps id d) id)
      ↔ i ∈ phaseIds senv ps ∧ i ≠ id := by
  rw [mem_phaseIds_iff, mem_phaseIds_iff]
  constructor
  · rintro ⟨k, hk, rfl⟩
    rw [mem_keys_erased h] at hk
    exact ⟨⟨k, hk.1, rfl⟩, hk.2⟩
  · rintro ⟨⟨k, hk, rfl⟩, hne⟩
    exact ⟨k, (mem_keys_erased h _ _ _ _).2 ⟨hk, hne⟩, rfl⟩

theorem visible_erased {PS : Type} {env : PhaseEnv PS} {aenv : AreaEnv PS}
    {senv : ShiftEnv PS} (h : ConditionLaws env aenv senv) (ps : PS) (id : Nat) (d : Int) :
    senv.VisibleMapIds (senv.PhasesErase (senv.ModifyPhasesReferences ps id d) id)
      = senv.VisibleMapIds ps := by
  rw [h.erase_visible, h.modify_visible]

/-- A phase reference whose area conditions the object does not meet. -/
theorem suppressFailedPhase_failing {PS : Type} (aenv : AreaEnv PS) (senv : ShiftEnv PS)
    (object : ObjectGuid) (st : ConditionState PS) (y : PhaseRef) (c : Nat)
    (hc : y.AreaConditions = some c) (hm : aenv.IsObjectMeetToConditions object c = false) :
    suppressFailedPhase aenv senv object st y
      = { st with
          newSuppressions :=
            (senv.AddPhaseRefs st.newSuppressions y.Id y.Flags y.AreaConditions y.References).1
          phaseShift :=
            senv.PhasesErase (senv.ModifyPhasesReferences st.phaseShift y.Id (-y.References))
              y.Id } := by
  unfold suppressFailedPhase
  rw [hc]
  simp only [hm, Bool.not_false, if_true]

theorem suppressFailedPhase_passing {PS : Type} (aenv : AreaEnv PS) (senv : ShiftEnv PS)
    (object : ObjectGuid) (st : ConditionState PS) (y : PhaseRef)
    (h : ∀ c, y.AreaConditions = some c → aenv.IsObjectMeetToConditions object c = true) :
    suppressFailedPhase aenv senv object st y = st := by
  unfold suppressFailedPhase
  cases hc : y.AreaConditions with
  | none => rfl
  | some c =>
    simp only [h c hc, Bool.not_true, Bool.false_eq_true, if_false]

theorem suppressFailedPhases_spec {PS : Type} {env : PhaseEnv PS} {aenv : AreaEnv PS}
    {senv : ShiftEnv PS} (h : ConditionLaws env aenv senv) (object : ObjectGuid)
    (l : List PhaseRef) (st : ConditionState PS) :
    (l.foldl (suppressFailedPhase aenv senv object) st).suppressedPhaseShift
        = st.suppressedPhaseShift ∧
    (l.foldl (suppressFailedPhase aenv senv object) st).changed = st.changed ∧
    senv.VisibleMapIds (l.foldl (suppressFailedPhase aenv senv object) st).phaseShift
        = senv.VisibleMapIds st.phaseShift ∧
    (∀ k ∈ refKeys senv (l.foldl (suppressFailedPhase aenv senv object) st).phaseShift,
      k ∈ refKeys senv st.phaseShift ∧
      ∀ y ∈ l, ∀ c, y.AreaConditions = some c →
        aenv.IsObjectMeetToConditions object c = false → k.1 ≠ y.Id) ∧
    (∀ k ∈ refKeys senv (l.foldl (suppressFailedPhase aenv senv object) st).newSuppressions,
      k ∈ refKeys senv st.newSuppressions ∨
      ∃ y ∈ l, ∃ c, y.AreaConditions = some c ∧
        aenv.IsObjectMeetToConditions object c = false ∧ k = y.key) ∧
    ((∀ y ∈ l, y.Id ∈ phaseIds senv st.phaseShift ∨ y.Id ∈ phaseIds senv st.newSuppressions) →
      ∀ i, (i ∈ phaseIds senv (l.foldl (suppressFailedPhase aenv senv object) st).phaseShift ∨
          i ∈ phaseIds senv (l.foldl (suppressFailedPhase aenv senv object) st).newSuppressions)
        ↔ (i ∈ phaseIds senv st.phaseShift ∨ i ∈ phaseIds senv st.newSuppressions)) := by
  induction l generalizing st with
  | nil =>
    refine ⟨rfl, rfl, rfl, fun k hk => ⟨hk, by simp⟩, fun k hk => Or.inl hk, fun _ i => Iff.rfl⟩
  | cons y rest ih =>
    rw [List.foldl_cons]
    by_cases hf : ∃ c, y.AreaConditions = some c ∧
        aenv.IsObjectMeetToConditions object c = false
    · obtain ⟨c, hc, hm⟩ := hf
      have hstep := suppressFailedPhase_failing aenv senv object st y c hc hm
      obtain ⟨i1, i2, i3, i4, i5, i6⟩ := ih (suppressFailedPhase aenv senv object st y)
      rw [hstep] at i1 i2 i3 i4 i5 i6 ⊢
      refine ⟨i1, i2, ?_, ?_, ?_, ?_⟩
      · rw [i3]
        exact visible_erased h _ _ _
      · intro k hk
        obtain ⟨k1, k2⟩ := i4 k hk
        have k1' := (mem_keys_erased h _ _ _ _).1 k1
        refine ⟨k1'.1, ?_⟩
        intro z hz c' hc' hm'
        rcases List.mem_cons.1 hz with hz | hz
        · rw [hz]; exact k1'.2
        · exact k2 z hz c' hc' hm'
      · intro k hk
        rcases i5 k hk with hk | ⟨z, hz, c', hc', hm', hkz⟩
        · rcases h.addRefs_keys _ _ _ _ _ _ hk with hk | hk
          · exact Or.inr ⟨y, List.mem_cons_self _ _, c, hc, hm, hk⟩
          · exact Or.inl hk
        · exact Or.inr ⟨z, List.mem_cons_of_mem _ hz, c', hc', hm', hkz⟩
      · intro hall i
        have hy := hall y (List.mem_cons_self _ _)
        have hrest : ∀ z ∈ rest,
            z.Id ∈ phaseIds senv
                (senv.PhasesErase
                  (senv.ModifyPhasesReferences st.phaseShift y.Id (-y.References)) y.Id) ∨
            z.Id ∈ phaseIds senv
                (senv.AddPhaseRefs st.newSuppressions y.Id y.Flags y.AreaConditions
                  y.References).1 := by
          intro z hz
          rw [mem_ids_erased h, h.addRefs_ids]
          have := hall z (List.mem_cons_of_mem _ hz)
          by_cases hzy : z.Id = y.Id
          · exact Or.inr (Or.inl hzy)
          · tauto
        rw [i6 hrest i, mem_ids_erased h, h.addRefs_ids]
        by_cases hiy : i = y.Id
        · rw [hiy]; tauto
        · tauto
    · have hpass : ∀ c, y.AreaConditions = some c →
          aenv.IsObjectMeetToConditions object c = true := by
        intro c hc
        by_contra hm
        exact hf ⟨c, hc, by simpa using hm⟩
      have hstep := suppressFailedPhase_passing aenv senv object st y hpass
      obtain ⟨i1, i2, i3, i4, i5, i6⟩ := ih (suppressFailedPhase aenv senv object st y)
      rw [hstep] at i1 i2 i3 i4 i5 i6 ⊢
      refine ⟨i1, i2, i3, ?_, ?_, ?_⟩
      · intro k hk
        obtain ⟨k1, k2⟩ := i4 k hk
        refine ⟨k1, ?_⟩
        intro z hz c' hc' hm'
        rcases List.mem_cons.1 hz with hz | hz
        · exfalso
          rw [hz] at hc'
          rw [hpass c' hc'] at hm'
          cases hm'
        · exact k2 z hz c' hc' hm'
      · intro k hk
        rcases i5 k hk with hk | ⟨z, hz, c', hc', hm', hkz⟩
        · exact Or.inl hk
        · exact Or.inr ⟨z, List.mem_cons_of_mem _ hz, c', hc', hm', hkz⟩
      · intro hall i
        exact i6 (fun z hz => hall z (List.mem_cons_of_mem _ hz)) i

theorem restoreMetPhase_met {PS : Type} (aenv : AreaEnv PS) (senv : ShiftEnv PS)
    (object : ObjectGuid) (st : ConditionState PS) (y : PhaseRef) (c : Nat)
    (hc : y.AreaConditions = some c) (hm : aenv.IsObjectMeetToConditions object c = true) :
    restoreMetPhase aenv senv object st y
      = .ok { st with
          phaseShift :=
            (senv.AddPhaseRefs st.phaseShift y.Id y.Flags y.AreaConditions y.References).1
          changed :=
            (senv.AddPhaseRefs st.phaseShift y.Id y.Flags y.AreaConditions y.References).2
              || st.changed
          suppressedPhaseShift :=
            senv.PhasesErase
              (senv.ModifyPhasesReferences st.suppressedPhaseShift y.Id (-y.References))
              y.Id } := by
  unfold restoreMetPhase
  rw [hc]
  simp only [hm, if_true]

theorem restoreMetPhase_unmet {PS : Type} (aenv : AreaEnv PS) (senv : ShiftEnv PS)
    (object : ObjectGuid) (st : ConditionState PS) (y : PhaseRef) (c : Nat)
    (hc : y.AreaConditions = some c) (hm : aenv.IsObjectMeetToConditions object c = false) :
    restoreMetPhase aenv senv object st y = .ok st := by
  unfold restoreMetPhase
  rw [hc]
  simp only [hm, Bool.false_eq_true, if_false]

theorem foldlM_cons_ok {α β : Type} (step : α → β → Except Fault α) (a a1 : α) (b : β)
    (rest : List β) (h : step a b = .ok a1) :
    (b :: rest).foldlM step a = rest.foldlM step a1 := by
  rw [List.foldlM_cons]
  simp only [h, bind, Except.bind]

theorem restoreMetPhases_spec {PS : Type} {env : PhaseEnv PS} {aenv : AreaEnv PS}
    {senv : ShiftEnv PS} (h : ConditionLaws env aenv senv) (object : ObjectGuid)
    (l : List PhaseRef) (st : ConditionState PS)
    (hwf : ∀ y ∈ l, y.AreaConditions.isSome = true) :
    ∃ res, l.foldlM (restoreMetPhase aenv senv object) st = .ok res ∧
      res.newSuppressions = st.newSuppressions ∧
      senv.VisibleMapIds res.phaseShift = senv.VisibleMapIds st.phaseShift ∧
      senv.VisibleMapIds res.suppressedPhaseShift
        = senv.VisibleMapIds st.suppressedPhaseShift ∧
      (∀ k ∈ refKeys senv res.suppressedPhaseShift,
        k ∈ refKeys senv st.suppressedPhaseShift ∧
        ∀ y ∈ l, ∀ c, y.AreaConditions = some c →
          aenv.IsObjectMeetToConditions object c = true → k.1 ≠ y.Id) ∧
      (∀ k ∈ refKeys senv res.phaseShift,
        k ∈ refKeys senv st.phaseShift ∨
        ∃ y ∈ l, ∃ c, y.AreaConditions = some c ∧
          aenv.IsObjectMeetToConditions object c = true ∧ k = y.key) ∧
      ((∀ y ∈ l, y.Id ∈ phaseIds senv st.suppressedPhaseShift ∨
          y.Id ∈ phaseIds senv st.phaseShift) →
        ∀ i, (i ∈ phaseIds senv res.suppressedPhaseShift ∨ i ∈ phaseIds senv res.phaseShift)
          ↔ (i ∈ phaseIds senv st.suppressedPhaseShift ∨ i ∈ phaseIds senv st.phaseShift)) := by
  induction l generalizing st with
  | nil =>
    exact ⟨st, rfl, rfl, rfl, rfl, fun k hk => ⟨hk, by simp⟩, fun k hk => Or.inl hk,
      fun _ i => Iff.rfl⟩
  | cons y rest ih =>
    have hy := hwf y (List.mem_cons_self _ _)
    obtain ⟨c, hc⟩ := Option.isSome_iff_exists.1 hy
    have hwf' : ∀ z ∈ rest, z.AreaConditions.isSome = true :=
      fun z hz => hwf z (List.mem_cons_of_mem _ hz)
    by_cases hm : aenv.IsObjectMeetToConditions object c = true
    · have hstep := restoreMetPhase_met aenv senv object st y c hc hm
      obtain ⟨res, i0, i1, i2, i3, i4, i5, i6⟩ := ih _ hwf'
      rw [← foldlM_cons_ok _ _ _ _ _ hstep] at i0
      refine ⟨res, i0, i1, ?_, ?_, ?_, ?_, ?_⟩
      · rw [i2]
        exact h.addRefs_visible _ _ _ _ _
      · rw [i3]
        exact visible_erased h _ _ _
      · intro k hk
        obtain ⟨k1, k2⟩ := i4 k hk
        have k1' := (mem_keys_erased h _ _ _ _).1 k1
        refine ⟨k1'.1, ?_⟩
        intro z hz c' hc' hm'
        rcases List.mem_cons.1 hz with hz | hz
        · rw [hz]; exact k1'.2
        · exact k2 z hz c' hc' hm'
      · intro k hk
        rcases i5 k hk with hk | ⟨z, hz, c', hc', hm', hkz⟩
        · rcases h.addRefs_keys _ _ _ _ _ _ hk with hk | hk
          · exact Or.inr ⟨y, List.mem_cons_self _ _, c, hc, hm, hk⟩
          · exact Or.inl hk
        · exact Or.inr ⟨z, List.mem_cons_of_mem _ hz, c', hc', hm', hkz⟩
      · intro hall i
        have hyy := hall y (List.mem_cons_self _ _)
        have hrest : ∀ z ∈ rest,
            z.Id ∈ phaseIds senv
                (senv.PhasesErase
                  (senv.ModifyPhasesReferences st.suppressedPhaseShift y.Id (-y.References))
                  y.Id) ∨
            z.Id ∈ phaseIds senv
                (senv.AddPhaseRefs st.phaseShift y.Id y.Flags y.AreaConditions
                  y.References).1 := by
          intro z hz
          rw [mem_ids_erased h, h.addRefs_ids]
          have := hall z (List.mem_cons_of_mem _ hz)
          by_cases hzy : z.Id = y.Id
          · exact Or.inr (Or.inl hzy)
          · tauto
        rw [i6 hrest i, mem_ids_erased h, h.addRefs_ids]
        by_cases hiy : i = y.Id
        · rw [hiy]; tauto
        · tauto
    · simp only [Bool.not_eq_true] at hm
      have hstep := restoreMetPhase_unmet aenv senv object st y c hc hm
      obtain ⟨res, i0, i1, i2, i3, i4, i5, i6⟩ := ih st hwf'
      rw [← foldlM_cons_ok _ _ _ _ _ hstep] at i0
      refine ⟨res, i0, i1, i2, i3, ?_, ?_, ?_⟩
      · intro k hk
        obtain ⟨k1, k2⟩ := i4 k hk
        refine ⟨k1, ?_⟩
        intro z hz c' hc' hm'
        rcases List.mem_cons.1 hz with hz | hz
        · exfalso
          rw [hz, hc] at hc'
          injection hc' with hc'
          rw [← hc', hm] at hm'
          cases hm'
        · exact k2 z hz c' hc' hm'
      · intro k hk
        rcases i5 k hk with hk | ⟨z, hz, c', hc', hm', hkz⟩
        · exact Or.inl hk
        · exact Or.inr ⟨z, List.mem_cons_of_mem _ hz, c', hc', hm', hkz⟩
      · intro hall i
        exact i6 (fun z hz => hall z (List.mem_cons_of_mem _ hz)) i

theorem bind_ok_elim {α β : Type} {x : Except Fault α} {f : α → Except Fault β} {b : β}
    (h : (x >>= f) = .ok b) : ∃ a, x = .ok a ∧ f a = .ok b := by
  cases x with
  | error e => cases h
  | ok a => exact ⟨a, rfl, h⟩

theorem foldlM_preserves {α β : Type} (Inv : α → Prop) (step : α → β → Except Fault α)
    (l : List β) (hstep : ∀ a b a', Inv a → step a b = .ok a' → Inv a')
    (a a' : α) (ha : Inv a) (h : l.foldlM step a = .ok a') : Inv a' := by
  induction l generalizing a with
  | nil =>
    simp only [List.foldlM_nil, pure, Except.pure, Except.ok.injEq] at h
    rw [← h]
    exact ha
  | cons b rest ih =>
    cases hb : step a b with
    | error e =>
      rw [List.foldlM_cons] at h
      simp only [hb, bind, Except.bind] at h
      cases h
    | ok a1 =>
      rw [foldlM_cons_ok step a a1 b rest hb] at h
      exact ih a1 (hstep a b a1 ha hb) h

theorem removeUiMapPhaseIds_refs {PS : Type} {env : PhaseEnv PS} {aenv : AreaEnv PS}
    {senv : ShiftEnv PS} (h : ConditionLaws env aenv senv) (l : List Nat) (acc : PS × Bool) :
    senv.PhaseRefs (removeUiMapPhaseIds senv l acc).1 = senv.PhaseRefs acc.1 := by
  induction l generalizing acc with
  | nil => rfl
  | cons u rest ih =>
    unfold removeUiMapPhaseIds
    rw [List.foldl_cons]
    have := ih ((senv.RemoveUiMapPhaseId acc.1 u).1, ((senv.RemoveUiMapPhaseId acc.1 u).2 || acc.2))
    unfold removeUiMapPhaseIds at this
    rw [this]
    exact h.removeUi_refs _ _

theorem addUiMapPhaseIds_refs {PS : Type} {env : PhaseEnv PS} {aenv : AreaEnv PS}
    {senv : ShiftEnv PS} (h : ConditionLaws env aenv senv) (l : List Nat) (acc : PS × Bool) :
    senv.PhaseRefs (addUiMapPhaseIds senv l acc).1 = senv.PhaseRefs acc.1 := by
  induction l generalizing acc with
  | nil => rfl
  | cons u rest ih =>
    unfold addUiMapPhaseIds
    rw [List.foldl_cons]
    have := ih ((senv.AddUiMapPhaseId acc.1 u).1, ((senv.AddUiMapPhaseId acc.1 u).2 || acc.2))
    unfold addUiMapPhaseIds at this
    rw [this]
    exact h.addUi_refs _ _

theorem suppressFailedMaps_spec {PS : Type} {env : PhaseEnv PS} {aenv : AreaEnv PS}
    {senv : ShiftEnv PS} (h : ConditionLaws env aenv senv) (object : ObjectGuid)
    (l : List (Nat × VisibleMapIdRef)) (st : ConditionState PS)
    (hinfo : ∀ e ∈ l, senv.IsObjectMeetingNotGroupedConditions object e.1 = false →
      e.2.VisibleMapInfo.isSome = true) :
    ∃ res, l.foldlM (suppressFailedMap senv object) st = .ok res ∧
      senv.PhaseRefs res.phaseShift = senv.PhaseRefs st.phaseShift ∧
      senv.PhaseRefs res.newSuppressions = senv.PhaseRefs st.newSuppressions ∧
      res.suppressedPhaseShift = st.suppressedPhaseShift :=
  foldlM_inv
    (fun res : ConditionState PS =>
      senv.PhaseRefs res.phaseShift = senv.PhaseRefs st.phaseShift ∧
      senv.PhaseRefs res.newSuppressions = senv.PhaseRefs st.newSuppressions ∧
      res.suppressedPhaseShift = st.suppressedPhaseShift)
    (suppressFailedMap senv object) l
    (by
      intro a e he ⟨a1, a2, a3⟩
      unfold suppressFailedMap
      by_cases hm : senv.IsObjectMeetingNotGroupedConditions object e.1 = true
      · refine ⟨a, ?_, a1, a2, a3⟩
        simp [hm, pure, Except.pure]
      · simp only [Bool.not_eq_true] at hm
        obtain ⟨info, hi⟩ := Option.isSome_iff_exists.1 (hinfo e he hm)
        refine ⟨{ a with
            newSuppressions :=
              (senv.AddVisibleMapId a.newSuppressions e.1 (some info) e.2.References).1
            phaseShift := senv.VisibleMapIdsErase
              (removeUiMapPhaseIds senv info.UiMapPhaseIDs (a.phaseShift, a.changed)).1 e.1
            changed :=
              (removeUiMapPhaseIds senv info.UiMapPhaseIDs (a.phaseShift, a.changed)).2 },
          ?_, ?_, ?_, a3⟩
        · simp only [hm, Bool.not_false, if_true, hi, deref, bind, Except.bind, pure,
            Except.pure]
        · show senv.PhaseRefs (senv.VisibleMapIdsErase
            (removeUiMapPhaseIds senv info.UiMapPhaseIDs (a.phaseShift, a.changed)).1 e.1) = _
          rw [h.eraseVisible_refs, removeUiMapPhaseIds_refs h, a1]
        · show senv.PhaseRefs (senv.AddVisibleMapId a.newSuppressions e.1
            (some info) e.2.References).1 = _
          rw [h.addVisible_refs, a2])
    st ⟨rfl, rfl, rfl⟩

theorem restoreMetMaps_spec {PS : Type} {env : PhaseEnv PS} {aenv : AreaEnv PS}
    {senv : ShiftEnv PS} (h : ConditionLaws env aenv senv) (object : ObjectGuid)
    (l : List (Nat × VisibleMapIdRef)) (st : ConditionState PS)
    (hinfo : ∀ e ∈ l, senv.IsObjectMeetingNotGroupedConditions object e.1 = true →
      e.2.VisibleMapInfo.isSome = true) :
    ∃ res, l.foldlM (restoreMetMap senv object) st = .ok res ∧
      senv.PhaseRefs res.phaseShift = senv.PhaseRefs st.phaseShift ∧
      senv.PhaseRefs res.suppressedPhaseShift = senv.PhaseRefs st.suppressedPhaseShift ∧
      res.newSuppressions = st.newSuppressions :=
  foldlM_inv
    (fun res : ConditionState PS =>
      senv.PhaseRefs res.phaseShift = senv.PhaseRefs st.phaseShift ∧
      senv.PhaseRefs res.suppressedPhaseShift = senv.PhaseRefs st.suppressedPhaseShift ∧
      res.newSuppressions = st.newSuppressions)
    (restoreMetMap senv object) l
    (by
      intro a e he ⟨a1, a2, a3⟩
      unfold restoreMetMap
      by_cases hm : senv.IsObjectMeetingNotGroupedConditions object e.1 = true
      · obtain ⟨info, hi⟩ := Option.isSome_iff_exists.1 (hinfo e he hm)
        refine ⟨{ a with
            phaseShift := (addUiMapPhaseIds senv info.UiMapPhaseIDs
              ((senv.AddVisibleMapId a.phaseShift e.1 (some info) e.2.References).1,
                ((senv.AddVisibleMapId a.phaseShift e.1 (some info) e.2.References).2
                  || a.changed))).1
            changed := (addUiMapPhaseIds senv info.UiMapPhaseIDs
              ((senv.AddVisibleMapId a.phaseShift e.1 (some info) e.2.References).1,
                ((senv.AddVisibleMapId a.phaseShift e.1 (some info) e.2.References).2
                  || a.changed))).2
            suppressedPhaseShift := senv.VisibleMapIdsErase a.suppressedPhaseShift e.1 },
          ?_, ?_, ?_, a3⟩
        · simp only [hm, if_true, hi, deref, bind, Except.bind, pure, Except.pure]
        · show senv.PhaseRefs (addUiMapPhaseIds senv info.UiMapPhaseIDs
            ((senv.AddVisibleMapId a.phaseShift e.1 (some info) e.2.References).1,
              ((senv.AddVisibleMapId a.phaseShift e.1 (some info) e.2.References).2
                || a.changed))).1 = _
          rw [addUiMapPhaseIds_refs h, h.addVisible_refs, a1]
        · show senv.PhaseRefs (senv.VisibleMapIdsErase a.suppressedPhaseShift e.1) = _
          rw [h.eraseVisible_refs, a2]
      · refine ⟨a, ?_, a1, a2, a3⟩
        simp [hm, pure, Except.pure])
    st ⟨rfl, rfl, rfl⟩

theorem suppressFailedMaps_refs {PS : Type} {env : PhaseEnv PS} {aenv : AreaEnv PS}
    {senv : ShiftEnv PS} (h : ConditionLaws env aenv senv) (object : ObjectGuid)
    (l : List (Nat × VisibleMapIdRef)) (st res : ConditionState PS)
    (hres : l.foldlM (suppressFailedMap senv object) st = .ok res) :
    senv.PhaseRefs res.phaseShift = senv.PhaseRefs st.phaseShift ∧
    senv.PhaseRefs res.newSuppressions = senv.PhaseRefs st.newSuppressions ∧
    res.suppressedPhaseShift = st.suppressedPhaseShift :=
  foldlM_preserves
    (fun res : ConditionState PS =>
      senv.PhaseRefs res.phaseShift = senv.PhaseRefs st.phaseShift ∧
      senv.PhaseRefs res.newSuppressions = senv.PhaseRefs st.newSuppressions ∧
      res.suppressedPhaseShift = st.suppressedPhaseShift)
    (suppressFailedMap senv object) l
    (by
      intro a e a' ⟨a1, a2, a3⟩ hstep
      unfold suppressFailedMap at hstep
      by_cases hm : senv.IsObjectMeetingNotGroupedConditions object e.1 = true
      · simp only [hm, Bool.not_true, Bool.false_eq_true, if_false, pure, Except.pure,
          Except.ok.injEq] at hstep
        rw [← hstep]
        exact ⟨a1, a2, a3⟩
      · simp only [Bool.not_eq_true] at hm
        simp only [hm, Bool.not_false, if_true] at hstep
        obtain ⟨info, _, hstep⟩ := bind_ok_elim hstep
        simp only [pure, Except.pure, Except.ok.injEq] at hstep
        rw [← hstep]
        refine ⟨?_, ?_, a3⟩
        · show senv.PhaseRefs (senv.VisibleMapIdsErase
            (removeUiMapPhaseIds senv info.UiMapPhaseIDs (a.phaseShift, a.changed)).1 e.1) = _
          rw [h.eraseVisible_refs, removeUiMapPhaseIds_refs h, a1]
        · show senv.PhaseRefs (senv.AddVisibleMapId a.newSuppressions e.1
            e.2.VisibleMapInfo e.2.References).1 = _
          rw [h.addVisible_refs, a2])
    st res ⟨rfl, rfl, rfl⟩ hres

theorem restoreMetMaps_refs {PS : Type} {env : PhaseEnv PS} {aenv : AreaEnv PS}
    {senv : ShiftEnv PS} (h : ConditionLaws env aenv senv) (object : ObjectGuid)
    (l : List (Nat × VisibleMapIdRef)) (st res : ConditionState PS)
    (hres : l.foldlM (restoreMetMap senv object) st = .ok res) :
    senv.PhaseRefs res.phaseShift = senv.PhaseRefs st.phaseShift ∧
    senv.PhaseRefs res.suppressedPhaseShift = senv.PhaseRefs st.suppressedPhaseShift ∧
    res.newSuppressions = st.newSuppressions :=
  foldlM_preserves
    (fun res : ConditionState PS =>
      senv.PhaseRefs res.phaseShift = senv.PhaseRefs st.phaseShift ∧
      senv.PhaseRefs res.suppressedPhaseShift = senv.PhaseRefs st.suppressedPhaseShift ∧
      res.newSuppressions = st.newSuppressions)
    (restoreMetMap senv object) l
    (by
      intro a e a' ⟨a1, a2, a3⟩ hstep
      unfold restoreMetMap at hstep
      by_cases hm : senv.IsObjectMeetingNotGroupedConditions object e.1 = true
      · simp only [hm, if_true] at hstep
        obtain ⟨info, _, hstep⟩ := bind_ok_elim hstep
        simp only [pure, Except.pure, Except.ok.injEq] at hstep
        rw [← hstep]
        refine ⟨?_, ?_, a3⟩
        · show senv.PhaseRefs (addUiMapPhaseIds senv info.UiMapPhaseIDs
            ((senv.AddVisibleMapId a.phaseShift e.1 e.2.VisibleMapInfo e.2.References).1,
              ((senv.AddVisibleMapId a.phaseShift e.1 e.2.VisibleMapInfo e.2.References).2
                || a.changed))).1 = _
          rw [addUiMapPhaseIds_refs h, h.addVisible_refs, a1]
        · show senv.PhaseRefs (senv.VisibleMapIdsErase a.suppressedPhaseShift e.1) = _
          rw [h.eraseVisible_refs, a2]
      · simp only [hm, Bool.false_eq_true, if_false, pure, Except.pure,
          Except.ok.injEq] at hstep
        rw [← hstep]
        exact ⟨a1, a2, a3⟩)
    st res ⟨rfl, rfl, rfl⟩ hres

theorem readdAuraPhase_spec {PS : Type} {env : PhaseEnv PS} {aenv : AreaEnv PS}
    {senv : ShiftEnv PS} (h : ConditionLaws env aenv senv) (st : ConditionState PS) (p : Nat) :
    (readdAuraPhase env senv st p).suppressedPhaseShift = st.suppressedPhaseShift ∧
    (readdAuraPhase env senv st p).changed = st.changed ∧
    (∀ k ∈ refKeys senv (readdAuraPhase env senv st p).newSuppressions,
      k ∈ refKeys senv st.newSuppressions) ∧
    (∀ k ∈ refKeys senv (readdAuraPhase env senv st p).phaseShift,
      k ∈ refKeys senv st.phaseShift ∨ k.2 = none) ∧
    (∀ i, (i ∈ phaseIds senv (readdAuraPhase env senv st p).phaseShift ∨
        i ∈ phaseIds senv (readdAuraPhase env senv st p).newSuppressions)
      ↔ (i ∈ phaseIds senv st.phaseShift ∨ i ∈ phaseIds senv st.newSuppressions)) := by
  have hsub : ∀ i, i ∈ phaseIds senv (senv.RemovePhaseResult st.newSuppressions p).1 →
      i ∈ phaseIds senv st.newSuppressions := by
    intro i hi
    rw [mem_phaseIds_iff] at hi ⊢
    obtain ⟨k, hk, hki⟩ := hi
    exact ⟨k, h.remove_keys _ _ _ hk, hki⟩
  unfold readdAuraPhase
  by_cases hf : ((senv.RemovePhaseResult st.newSuppressions p).2.1 ||
      (senv.RemovePhaseResult st.newSuppressions p).2.2) = true
  · simp only [hf, if_true]
    refine ⟨trivial, trivial, fun k hk => h.remove_keys _ _ _ hk, ?_, ?_⟩
    · intro k hk
      rcases h.add_keys _ _ _ _ _ hk with hk | hk
      · right; rw [hk]
      · left; exact hk
    · intro i
      rw [h.add_ids]
      have hp := h.remove_found _ _ hf
      constructor
      · rintro ((hi | hi) | hi)
        · right; rw [hi]; exact hp
        · left; exact hi
        · right; exact hsub i hi
      · rintro (hi | hi)
        · left; right; exact hi
        · rcases h.remove_ids _ p i hi with hi | ⟨hi, _⟩
          · right; exact hi
          · left; left; exact hi
  · simp only [hf, Bool.false_eq_true, if_false]
    refine ⟨trivial, trivial, fun k hk => h.remove_keys _ _ _ hk, fun k hk => Or.inl hk, ?_⟩
    intro i
    constructor
    · rintro (hi | hi)
      · left; exact hi
      · right; exact hsub i hi
    · rintro (hi | hi)
      · left; exact hi
      · rcases h.remove_ids _ p i hi with hi | ⟨_, hi⟩
        · right; exact hi
        · exact absurd hi hf

theorem readdAuraPhases_spec {PS : Type} {env : PhaseEnv PS} {aenv : AreaEnv PS}
    {senv : ShiftEnv PS} (h : ConditionLaws env aenv senv) (l : List Nat)
    (st : ConditionState PS) :
    (readdAuraPhases env senv l st).suppressedPhaseShift = st.suppressedPhaseShift ∧
    (readdAuraPhases env senv l st).changed = st.changed ∧
    (∀ k ∈ refKeys senv (readdAuraPhases env senv l st).newSuppressions,
      k ∈ refKeys senv st.newSuppressions) ∧
    (∀ k ∈ refKeys senv (readdAuraPhases env senv l st).phaseShift,
      k ∈ refKeys senv st.phaseShift ∨ k.2 = none) ∧
    (∀ i, (i ∈ phaseIds senv (readdAuraPhases env senv l st).phaseShift ∨
        i ∈ phaseIds senv (readdAuraPhases env senv l st).newSuppressions)
      ↔ (i ∈ phaseIds senv st.phaseShift ∨ i ∈ phaseIds senv st.newSuppressions)) := by
  induction l generalizing st with
  | nil => exact ⟨rfl, rfl, fun k hk => hk, fun k hk => Or.inl hk, fun i => Iff.rfl⟩
  | cons p rest ih =>
    have e : readdAuraPhases env senv (p :: rest) st
        = readdAuraPhases env senv rest (readdAuraPhase env senv st p) := rfl
    rw [e]
    obtain ⟨s1, s2, s3, s4, s5⟩ := readdAuraPhase_spec h st p
    obtain ⟨i1, i2, i3, i4, i5⟩ := ih (readdAuraPhase env senv st p)
    refine ⟨i1.trans s1, i2.trans s2, fun k hk => s3 k (i3 k hk), ?_, fun i => (i5 i).trans (s5 i)⟩
    intro k hk
    rcases i4 k hk with hk | hk
    · exact s4 k hk
    · exact Or.inr hk

theorem readdAuraPhaseGroups_spec {PS : Type} {env : PhaseEnv PS} {aenv : AreaEnv PS}
    {senv : ShiftEnv PS} (h : ConditionLaws env aenv senv) (l : List Nat)
    (st : ConditionState PS) :
    (readdAuraPhaseGroups env senv l st).suppressedPhaseShift = st.suppressedPhaseShift ∧
    (readdAuraPhaseGroups env senv l st).changed = st.changed ∧
    (∀ k ∈ refKeys senv (readdAuraPhaseGroups env senv l st).newSuppressions,
      k ∈ refKeys senv st.newSuppressions) ∧
    (∀ k ∈ refKeys senv (readdAuraPhaseGroups env senv l st).phaseShift,
      k ∈ refKeys senv st.phaseShift ∨ k.2 = none) ∧
    (∀ i, (i ∈ phaseIds senv (readdAuraPhaseGroups env senv l st).phaseShift ∨
        i ∈ phaseIds senv (readdAuraPhaseGroups env senv l st).newSuppressions)
      ↔ (i ∈ phaseIds senv st.phaseShift ∨ i ∈ phaseIds senv st.newSuppressions)) := by
  induction l generalizing st with
  | nil => exact ⟨rfl, rfl, fun k hk => hk, fun k hk => Or.inl hk, fun i => Iff.rfl⟩
  | cons g rest ih =>
    cases hg : env.GetPhasesForGroup g with
    | none =>
      have e : readdAuraPhaseGroups env senv (g :: rest) st
          = readdAuraPhaseGroups env senv rest st := by
        conv_lhs => unfold readdAuraPhaseGroups
        simp only [List.foldl_cons, hg]
        rfl
      rw [e]
      exact ih st
    | some phases =>
      have e : readdAuraPhaseGroups env senv (g :: rest) st
          = readdAuraPhaseGroups env senv rest (readdAuraPhases env senv phases st) := by
        conv_lhs => unfold readdAuraPhaseGroups
        simp only [List.foldl_cons, hg]
        rfl
      rw [e]
      obtain ⟨s1, s2, s3, s4, s5⟩ := readdAuraPhases_spec h phases st
      obtain ⟨i1, i2, i3, i4, i5⟩ := ih (readdAuraPhases env senv phases st)
      refine ⟨i1.trans s1, i2.trans s2, fun k hk => s3 k (i3 k hk), ?_,
        fun i => (i5 i).trans (s5 i)⟩
      intro k hk
      rcases i4 k hk with hk | hk
      · exact s4 k hk
      · exact Or.inr hk

theorem moveNewSuppressions_spec {PS : Type} {env : PhaseEnv PS} {aenv : AreaEnv PS}
    {senv : ShiftEnv PS} (h : ConditionLaws env aenv senv) (st : ConditionState PS) :
    (∀ k ∈ refKeys senv (moveNewSuppressions senv st),
      k ∈ refKeys senv st.suppressedPhaseShift ∨ k ∈ refKeys senv st.newSuppressions) ∧
    (∀ i, i ∈ phaseIds senv (moveNewSuppressions senv st)
      ↔ (i ∈ phaseIds senv st.suppressedPhaseShift ∨ i ∈ phaseIds senv st.newSuppressions)) := by
  have hvis : ∀ (l : List (Nat × VisibleMapIdRef)) (sup : PS),
      senv.PhaseRefs (l.foldl (fun sup itr =>
        (senv.AddVisibleMapId sup itr.1 itr.2.VisibleMapInfo itr.2.References).1) sup)
      = senv.PhaseRefs sup := by
    intro l
    induction l with
    | nil => intro sup; rfl
    | cons e rest ih =>
      intro sup
      rw [List.foldl_cons, ih, h.addVisible_refs]
  have hph : ∀ (l : List PhaseRef) (sup : PS),
      (∀ k ∈ refKeys senv (l.foldl (fun sup itr =>
          (senv.AddPhaseRefs sup itr.Id itr.Flags itr.AreaConditions itr.References).1) sup),
        k ∈ refKeys senv sup ∨ k ∈ l.map PhaseRef.key) ∧
      (∀ i, i ∈ phaseIds senv (l.foldl (fun sup itr =>
          (senv.AddPhaseRefs sup itr.Id itr.Flags itr.AreaConditions itr.References).1) sup)
        ↔ (i ∈ phaseIds senv sup ∨ i ∈ l.map (fun r => r.Id))) := by
    intro l
    induction l with
    | nil => intro sup; exact ⟨fun k hk => Or.inl hk, fun i => by simp⟩
    | cons y rest ih =>
      intro sup
      rw [List.foldl_cons]
      obtain ⟨i1, i2⟩ := ih (senv.AddPhaseRefs sup y.Id y.Flags y.AreaConditions y.References).1
      constructor
      · intro k hk
        rcases i1 k hk with hk | hk
        · rcases h.addRefs_keys _ _ _ _ _ _ hk with hk | hk
          · right; rw [hk]; exact List.mem_cons_self _ _
          · left; exact hk
        · right; exact List.mem_cons_of_mem _ hk
      · intro i
        rw [i2 i, h.addRefs_ids]
        simp only [List.map_cons, List.mem_cons]
        tauto
  unfold moveNewSuppressions
  obtain ⟨p1, p2⟩ := hph (senv.PhaseRefs st.newSuppressions) st.suppressedPhaseShift
  constructor
  · intro k hk
    unfold refKeys at hk
    rw [hvis] at hk
    exact p1 k hk
  · intro i
    unfold phaseIds
    rw [hvis]
    exact p2 i

theorem refKeys_congr {PS : Type} (senv : ShiftEnv PS) (a b : PS)
    (h : senv.PhaseRefs a = senv.PhaseRefs b) : refKeys senv a = refKeys senv b := by
  unfold refKeys
  rw [h]

theorem phaseIds_congr {PS : Type} (senv : ShiftEnv PS) (a b : PS)
    (h : senv.PhaseRefs a = senv.PhaseRefs b) : phaseIds senv a = phaseIds senv b := by
  unfold phaseIds
  rw [h]

theorem conditionPass_eq {PS : Type} (env : PhaseEnv PS) (aenv : AreaEnv PS)
    (senv : ShiftEnv PS) (object : ObjectGuid) (o : PhaseObject (PhaseShifts PS))
    (st1 st2 st3 st4 st5 : ConditionState PS)
    (h1 : st1 = (senv.PhaseRefs o.phaseShift.active).foldl (suppressFailedPhase aenv senv object)
      { phaseShift := o.phaseShift.active, suppressedPhaseShift := o.phaseShift.suppressed,
        newSuppressions := senv.Empty, changed := false })
    (h2 : (senv.PhaseRefs st1.suppressedPhaseShift).foldlM (restoreMetPhase aenv senv object) st1
      = .ok st2)
    (h3 : (senv.VisibleMapIds st2.phaseShift).foldlM (suppressFailedMap senv object) st2
      = .ok st3)
    (h4 : (senv.VisibleMapIds st3.suppressedPhaseShift).foldlM (restoreMetMap senv object) st3
      = .ok st4)
    (h5 : st5 = (if o.IsUnit then
        readdAuraPhaseGroups env senv
          ((aenv.GetAuraEffectsByType object AuraType.SPELL_AURA_PHASE_GROUP).map
            uint32_of_int32)
          (readdAuraPhases env senv
            ((aenv.GetAuraEffectsByType object AuraType.SPELL_AURA_PHASE).map
              uint32_of_int32) st4)
      else st4)) :
    conditionPass env aenv senv object o
      = .ok { st5 with
          changed := st5.changed || !(senv.PhaseRefs st5.newSuppressions).isEmpty ||
            !(senv.VisibleMapIds st5.newSuppressions).isEmpty } := by
  subst h5
  unfold conditionPass
  simp only [← h1]
  simp only [h2, bind, Except.bind, h3, h4]
  rfl

theorem conditionPass_core {PS : Type} {env : PhaseEnv PS} {aenv : AreaEnv PS}
    {senv : ShiftEnv PS} (h : ConditionLaws env aenv senv) (object : ObjectGuid)
    (o : PhaseObject (PhaseShifts PS))
    (hwf : ∀ k ∈ refKeys senv o.phaseShift.suppressed, k.2.isSome = true)
    (st1 st2 st3 st4 st5 : ConditionState PS)
    (h1 : st1 = (senv.PhaseRefs o.phaseShift.active).foldl (suppressFailedPhase aenv senv object)
      { phaseShift := o.phaseShift.active, suppressedPhaseShift := o.phaseShift.suppressed,
        newSuppressions := senv.Empty, changed := false })
    (h2 : (senv.PhaseRefs st1.suppressedPhaseShift).foldlM (restoreMetPhase aenv senv object) st1
      = .ok st2)
    (h3 : (senv.VisibleMapIds st2.phaseShift).foldlM (suppressFailedMap senv object) st2
      = .ok st3)
    (h4 : (senv.VisibleMapIds st3.suppressedPhaseShift).foldlM (restoreMetMap senv object) st3
      = .ok st4)
    (h5 : st5 = (if o.IsUnit then
        readdAuraPhaseGroups env senv
          ((aenv.GetAuraEffectsByType object AuraType.SPELL_AURA_PHASE_GROUP).map
            uint32_of_int32)
          (readdAuraPhases env senv
            ((aenv.GetAuraEffectsByType object AuraType.SPELL_AURA_PHASE).map
              uint32_of_int32) st4)
      else st4)) :
    ActiveMeets aenv senv object st5.phaseShift ∧
    SuppressedFails aenv senv object (moveNewSuppressions senv st5) ∧
    (∀ i, (i ∈ phaseIds senv st5.phaseShift ∨ i ∈ phaseIds senv (moveNewSuppressions senv st5))
      ↔ (i ∈ phaseIds senv o.phaseShift.active ∨
          i ∈ phaseIds senv o.phaseShift.suppressed)) := by
  -- first loop
  obtain ⟨a1, _, a3, a4, a5, a6⟩ := suppressFailedPhases_spec h object
    (senv.PhaseRefs o.phaseShift.active)
    { phaseShift := o.phaseShift.active, suppressedPhaseShift := o.phaseShift.suppressed,
      newSuppressions := senv.Empty, changed := false }
  rw [← h1] at a1 a3 a4 a5 a6
  simp only at a1 a3 a4 a5 a6
  have hemptyK : refKeys senv senv.Empty = [] := by unfold refKeys; rw [h.empty]; rfl
  have hemptyI : phaseIds senv senv.Empty = [] := by unfold phaseIds; rw [h.empty]; rfl
  have m1 : ActiveMeets aenv senv object st1.phaseShift := by
    intro k hk c hc
    obtain ⟨k1, k2⟩ := a4 k hk
    unfold refKeys at k1
    obtain ⟨y, hy, hyk⟩ := List.mem_map.1 k1
    by_contra hm
    simp only [Bool.not_eq_true] at hm
    have hyc : y.AreaConditions = some c := by rw [← hc, ← hyk]; rfl
    exact k2 y hy c hyc hm (by rw [← hyk]; rfl)
  have f1 : SuppressedFails aenv senv object st1.newSuppressions := by
    intro k hk
    rcases a5 k hk with hk | ⟨y, _, c, hc, hm, hky⟩
    · rw [hemptyK] at hk; cases hk
    · exact ⟨c, by rw [hky]; exact hc, hm⟩
  have u1 : ∀ i, (i ∈ phaseIds senv st1.phaseShift ∨ i ∈ phaseIds senv st1.newSuppressions)
      ↔ i ∈ phaseIds senv o.phaseShift.active := by
    intro i
    rw [a6 (fun y hy => Or.inl (mem_phaseIds_of_mem senv _ y hy)) i, hemptyI]
    simp
  -- second loop
  have hwf1 : ∀ y ∈ senv.PhaseRefs st1.suppressedPhaseShift, y.AreaConditions.isSome = true := by
    intro y hy
    rw [a1] at hy
    exact hwf y.key (mem_refKeys_of_mem senv _ y hy)
  obtain ⟨st2', h2', b1, b2, b3, b4, b5, b6⟩ :=
    restoreMetPhases_spec h object (senv.PhaseRefs st1.suppressedPhaseShift) st1 hwf1
  have hst2 : st2' = st2 := by
    rw [h2] at h2'
    injection h2' with h2'
    exact h2'.symm
  subst hst2
  have m2 : ActiveMeets aenv senv object st2'.phaseShift := by
    intro k hk c hc
    rcases b5 k hk with hk | ⟨y, _, c', hc', hm', hky⟩
    · exact m1 k hk c hc
    · have : some c' = some c := by rw [← hc', ← hc, hky]; rfl
      injection this with this
      rw [← this]
      exact hm'
  have f2 : SuppressedFails aenv senv object st2'.suppressedPhaseShift := by
    intro k hk
    obtain ⟨k1, k2⟩ := b4 k hk
    have k1' := k1
    unfold refKeys at k1'
    obtain ⟨y, hy, hyk⟩ := List.mem_map.1 k1'
    obtain ⟨c, hc⟩ := Option.isSome_iff_exists.1 (hwf1 y hy)
    refine ⟨c, by rw [← hyk]; exact hc, ?_⟩
    by_contra hm
    simp only [Bool.not_eq_false] at hm
    exact k2 y hy c hc hm (by rw [← hyk]; rfl)
  have u2 := b6 (fun y hy => Or.inl (mem_phaseIds_of_mem senv _ y hy))
  -- third and fourth loop
  obtain ⟨c1, c2, c3⟩ := suppressFailedMaps_refs h object _ st2' st3 h3
  obtain ⟨d1, d2, d3⟩ := restoreMetMaps_refs h object _ st3 st4 h4
  -- the aura phases
  have e5 : st5.suppressedPhaseShift = st4.suppressedPhaseShift ∧
      (∀ k ∈ refKeys senv st5.newSuppressions, k ∈ refKeys senv st4.newSuppressions) ∧
      (∀ k ∈ refKeys senv st5.phaseShift, k ∈ refKeys senv st4.phaseShift ∨ k.2 = none) ∧
      (∀ i, (i ∈ phaseIds senv st5.phaseShift ∨ i ∈ phaseIds senv st5.newSuppressions)
        ↔ (i ∈ phaseIds senv st4.phaseShift ∨ i ∈ phaseIds senv st4.newSuppressions)) := by
    rw [h5]
    by_cases hu : o.IsUnit = true
    · rw [if_pos hu]
      obtain ⟨s1, _, s3, s4, s5⟩ := readdAuraPhases_spec h
        ((aenv.GetAuraEffectsByType object AuraType.SPELL_AURA_PHASE).map uint32_of_int32) st4
      obtain ⟨g1, _, g3, g4, g5⟩ := readdAuraPhaseGroups_spec h
        ((aenv.GetAuraEffectsByType object AuraType.SPELL_AURA_PHASE_GROUP).map
          uint32_of_int32)
        (readdAuraPhases env senv
          ((aenv.GetAuraEffectsByType object AuraType.SPELL_AURA_PHASE).map
            uint32_of_int32) st4)
      refine ⟨g1.trans s1, fun k hk => s3 k (g3 k hk), ?_, fun i => (g5 i).trans (s5 i)⟩
      intro k hk
      rcases g4 k hk with hk | hk
      · exact s4 k hk
      · exact Or.inr hk
    · rw [if_neg hu]
      exact ⟨rfl, fun k hk => hk, fun k hk => Or.inl hk, fun i => Iff.rfl⟩
  obtain ⟨e1, e2, e3, e4⟩ := e5
  -- transport along the loops over the visible maps
  have k4p : refKeys senv st4.phaseShift = refKeys senv st2'.phaseShift :=
    refKeys_congr senv _ _ (d1.trans c1)
  have k4n : refKeys senv st4.newSuppressions = refKeys senv st1.newSuppressions := by
    rw [d3]
    exact (refKeys_congr senv _ _ c2).trans (by rw [b1])
  have k4s : refKeys senv st4.suppressedPhaseShift = refKeys senv st2'.suppressedPhaseShift := by
    rw [refKeys_congr senv _ _ d2, c3]
  have i4p : phaseIds senv st4.phaseShift = phaseIds senv st2'.phaseShift :=
    phaseIds_congr senv _ _ (d1.trans c1)
  have i4n : phaseIds senv st4.newSuppressions = phaseIds senv st1.newSuppressions := by
    rw [d3]
    exact (phaseIds_congr senv _ _ c2).trans (by rw [b1])
  have i4s : phaseIds senv st4.suppressedPhaseShift = phaseIds senv st2'.suppressedPhaseShift := by
    rw [phaseIds_congr senv _ _ d2, c3]
  obtain ⟨mv1, mv2⟩ := moveNewSuppressions_spec h st5
  refine ⟨?_, ?_, ?_⟩
  · intro k hk c hc
    rcases e3 k hk with hk | hk
    · rw [k4p] at hk
      exact m2 k hk c hc
    · rw [hk] at hc
      cases hc
  · intro k hk
    rcases mv1 k hk with hk | hk
    · rw [e1, k4s] at hk
      exact f2 k hk
    · have := e2 k hk
      rw [k4n] at this
      exact f1 k this
  · intro i
    rw [mv2 i, e1, i4s]
    have hA := e4 i
    rw [i4p, i4n] at hA
    have hB := u2 i
    have hC := u1 i
    rw [a1] at hB
    constructor
    · rintro (hi | hi | hi)
      · rcases hA.1 (Or.inl hi) with hi | hi
        · rcases hB.1 (Or.inr hi) with hi | hi
          · right; exact hi
          · left; exact hC.1 (Or.inl hi)
        · left; exact hC.1 (Or.inr hi)
      · rcases hB.1 (Or.inl hi) with hi | hi
        · right; exact hi
        · left; exact hC.1 (Or.inl hi)
      · rcases hA.1 (Or.inr hi) with hi | hi
        · rcases hB.1 (Or.inr hi) with hi | hi
          · right; exact hi
          · left; exact hC.1 (Or.inl hi)
        · left; exact hC.1 (Or.inr hi)
    · rintro (hi | hi)
      · rcases hC.2 hi with hi | hi
        · rcases hB.2 (Or.inr hi) with hi | hi
          · right; left; exact hi
          · rcases hA.2 (Or.inl hi) with hi | hi
            · left; exact hi
            · right; right; exact hi
        · rcases hA.2 (Or.inr hi) with hi | hi
          · left; exact hi
          · right; right; exact hi
      · rcases hB.2 (Or.inl hi) with hi | hi
        · right; left; exact hi
        · rcases hA.2 (Or.inl hi) with hi | hi
          · left; exact hi
          · right; right; exact hi


theorem conditionPass_spec {PS : Type} {env : PhaseEnv PS} {aenv : AreaEnv PS}
    {senv : ShiftEnv PS} (h : ConditionLaws env aenv senv) (object : ObjectGuid)
    (o : PhaseObject (PhaseShifts PS))
    (hwf : ∀ k ∈ refKeys senv o.phaseShift.suppressed, k.2.isSome = true)
    (hinfo : MovedMapsHoldInfo senv object o.phaseShift) :
    ∃ st, conditionPass env aenv senv object o = .ok st ∧
      ActiveMeets aenv senv object st.phaseShift ∧
      SuppressedFails aenv senv object (moveNewSuppressions senv st) ∧
      (∀ i, (i ∈ phaseIds senv st.phaseShift ∨ i ∈ phaseIds senv (moveNewSuppressions senv st))
        ↔ (i ∈ phaseIds senv o.phaseShift.active ∨
            i ∈ phaseIds senv o.phaseShift.suppressed)) := by
  obtain ⟨st1, h1⟩ : ∃ st1, st1 = (senv.PhaseRefs o.phaseShift.active).foldl
      (suppressFailedPhase aenv senv object)
      { phaseShift := o.phaseShift.active, suppressedPhaseShift := o.phaseShift.suppressed,
        newSuppressions := senv.Empty, changed := false } := ⟨_, rfl⟩
  obtain ⟨a1, _, a3, _, _, _⟩ := suppressFailedPhases_spec h object
    (senv.PhaseRefs o.phaseShift.active)
    { phaseShift := o.phaseShift.active, suppressedPhaseShift := o.phaseShift.suppressed,
      newSuppressions := senv.Empty, changed := false }
  rw [← h1] at a1 a3
  simp only at a1 a3
  have hwf1 : ∀ y ∈ senv.PhaseRefs st1.suppressedPhaseShift, y.AreaConditions.isSome = true := by
    intro y hy
    rw [a1] at hy
    exact hwf y.key (mem_refKeys_of_mem senv _ y hy)
  obtain ⟨st2, h2, _, b2, b3, _, _, _⟩ :=
    restoreMetPhases_spec h object (senv.PhaseRefs st1.suppressedPhaseShift) st1 hwf1
  obtain ⟨st3, h3, _, _, c3⟩ := suppressFailedMaps_spec h object
    (senv.VisibleMapIds st2.phaseShift) st2 (by
      intro e he hc
      rw [b2, a3] at he
      exact hinfo.1 e he hc)
  obtain ⟨st4, h4, _, _, _⟩ := restoreMetMaps_spec h object
    (senv.VisibleMapIds st3.suppressedPhaseShift) st3 (by
      intro e he hc
      rw [c3, b3, a1] at he
      exact hinfo.2 e he hc)
  obtain ⟨st5, h5⟩ : ∃ st5, st5 = (if o.IsUnit then
      readdAuraPhaseGroups env senv
        ((aenv.GetAuraEffectsByType object AuraType.SPELL_AURA_PHASE_GROUP).map
          uint32_of_int32)
        (readdAuraPhases env senv
          ((aenv.GetAuraEffectsByType object AuraType.SPELL_AURA_PHASE).map
            uint32_of_int32) st4)
    else st4) := ⟨_, rfl⟩
  have heq := conditionPass_eq env aenv senv object o st1 st2 st3 st4 st5 h1 h2 h3 h4 h5
  exact ⟨_, heq, conditionPass_core h object o hwf st1 st2 st3 st4 st5 h1 h2 h3 h4 h5⟩

theorem conditionPass_sound {PS : Type} {env : PhaseEnv PS} {aenv : AreaEnv PS}
    {senv : ShiftEnv PS} (h : ConditionLaws env aenv senv) (object : ObjectGuid)
    (o : PhaseObject (PhaseShifts PS))
    (hwf : ∀ k ∈ refKeys senv o.phaseShift.suppressed, k.2.isSome = true)
    (st : ConditionState PS) (hst : conditionPass env aenv senv object o = .ok st) :
    SuppressedFails aenv senv object (moveNewSuppressions senv st) := by
  unfold conditionPass at hst
  obtain ⟨st2, h2, hst⟩ := bind_ok_elim hst
  obtain ⟨st3, h3, hst⟩ := bind_ok_elim hst
  obtain ⟨st4, h4, hst⟩ := bind_ok_elim hst
  simp only [pure, Except.pure, Except.ok.injEq] at hst
  have hc := (conditionPass_core h object o hwf _ st2 st3 st4 _ rfl h2 h3 h4 rfl).2.1
  rw [← hst]
  exact hc

theorem conditionPass_post {PS : Type} {env : PhaseEnv PS} {aenv : AreaEnv PS}
    {senv : ShiftEnv PS} (h : ConditionLaws env aenv senv) (object : ObjectGuid)
    (o : PhaseObject (PhaseShifts PS))
    (hwf : ∀ k ∈ refKeys senv o.phaseShift.suppressed, k.2.isSome = true)
    (st : ConditionState PS) (hst : conditionPass env aenv senv object o = .ok st) :
    ActiveMeets aenv senv object st.phaseShift ∧
    SuppressedFails aenv senv object (moveNewSuppressions senv st) ∧
    (∀ i, (i ∈ phaseIds senv st.phaseShift ∨ i ∈ phaseIds senv (moveNewSuppressions senv st))
      ↔ (i ∈ phaseIds senv o.phaseShift.active ∨
          i ∈ phaseIds senv o.phaseShift.suppressed)) := by
  unfold conditionPass at hst
  obtain ⟨st2, h2, hst⟩ := bind_ok_elim hst
  obtain ⟨st3, h3, hst⟩ := bind_ok_elim hst
  obtain ⟨st4, h4, hst⟩ := bind_ok_elim hst
  simp only [pure, Except.pure, Except.ok.injEq] at hst
  have hc := conditionPass_core h object o hwf _ st2 st3 st4 _ rfl h2 h3 h4 rfl
  rw [← hst]
  exact hc

theorem foldlM_nullDeref {α β : Type} (step : α → β → Except Fault α) (l : List β)
    (hstep : ∀ a b, b ∈ l → step a b = .error Fault.nullDeref ∨ ∃ a', step a b = .ok a')
    (hbad : ∃ b, b ∈ l ∧ ∀ a, step a b = .error Fault.nullDeref) (a : α) :
    l.foldlM step a = .error Fault.nullDeref := by
  induction l generalizing a with
  | nil =>
    obtain ⟨b, hb, _⟩ := hbad
    cases hb
  | cons b rest ih =>
    rw [List.foldlM_cons]
    rcases hstep a b (List.mem_cons_self _ _) with he | ⟨a', ha'⟩
    · simp only [he, bind, Except.bind]
    · simp only [ha', bind, Except.bind]
      obtain ⟨x, hx, hxbad⟩ := hbad
      rcases List.mem_cons.1 hx with hxb | hxr
      · rw [hxb] at hxbad
        rw [hxbad a] at ha'
        cases ha'
      · exact ih (fun a b hb => hstep a b (List.mem_cons_of_mem _ hb)) ⟨x, hxr, hxbad⟩ a'

theorem suppressFailedMap_cases {PS : Type} (senv : ShiftEnv PS) (object : ObjectGuid)
    (a : ConditionState PS) (e : Nat × VisibleMapIdRef) :
    (senv.IsObjectMeetingNotGroupedConditions object e.1 = false →
      e.2.VisibleMapInfo = none →
      suppressFailedMap senv object a e = .error Fault.nullDeref) ∧
    (suppressFailedMap senv object a e = .error Fault.nullDeref ∨
      ∃ a', suppressFailedMap senv object a e = .ok a') := by
  unfold suppressFailedMap
  by_cases hm : senv.IsObjectMeetingNotGroupedConditions object e.1 = true
  · refine ⟨fun hc => ?_, Or.inr ⟨a, ?_⟩⟩
    · rw [hm] at hc
      cases hc
    · simp [hm, pure, Except.pure]
  · simp only [Bool.not_eq_true] at hm
    cases hi : e.2.VisibleMapInfo with
    | none =>
      have he : (if (!senv.IsObjectMeetingNotGroupedConditions object e.1) = true then
          (do
            let info ← deref (none : Option TerrainSwapInfo)
            pure { a with
              newSuppressions :=
                (senv.AddVisibleMapId a.newSuppressions e.1 none e.2.References).1
              phaseShift := senv.VisibleMapIdsErase
                (removeUiMapPhaseIds senv info.UiMapPhaseIDs (a.phaseShift, a.changed)).1 e.1
              changed :=
                (removeUiMapPhaseIds senv info.UiMapPhaseIDs (a.phaseShift, a.changed)).2 })
          else pure a) = (.error Fault.nullDeref : Except Fault (ConditionState PS)) := by
        simp only [hm, Bool.not_false, if_true, deref, bind, Except.bind]
      exact ⟨fun _ _ => he, Or.inl he⟩
    | some info =>
      refine ⟨fun _ hn => Option.noConfusion hn, Or.inr ?_⟩
      simp only [hm, Bool.not_false, if_true, deref, bind, Except.bind, pure, Except.pure]
      exact ⟨_, rfl⟩

theorem restoreMetMap_cases {PS : Type} (senv : ShiftEnv PS) (object : ObjectGuid)
    (a : ConditionState PS) (e : Nat × VisibleMapIdRef) :
    (senv.IsObjectMeetingNotGroupedConditions object e.1 = true →
      e.2.VisibleMapInfo = none →
      restoreMetMap senv object a e = .error Fault.nullDeref) ∧
    (restoreMetMap senv object a e = .error Fault.nullDeref ∨
      ∃ a', restoreMetMap senv object a e = .ok a') := by
  unfold restoreMetMap
  by_cases hm : senv.IsObjectMeetingNotGroupedConditions object e.1 = true
  · cases hi : e.2.VisibleMapInfo with
    | none =>
      have he : (if senv.IsObjectMeetingNotGroupedConditions object e.1 = true then
          (do
            let info ← deref (none : Option TerrainSwapInfo)
            pure { a with
              phaseShift := (addUiMapPhaseIds senv info.UiMapPhaseIDs
                ((senv.AddVisibleMapId a.phaseShift e.1 none e.2.References).1,
                  ((senv.AddVisibleMapId a.phaseShift e.1 none e.2.References).2
                    || a.changed))).1
              changed := (addUiMapPhaseIds senv info.UiMapPhaseIDs
                ((senv.AddVisibleMapId a.phaseShift e.1 none e.2.References).1,
                  ((senv.AddVisibleMapId a.phaseShift e.1 none e.2.References).2
                    || a.changed))).2
              suppressedPhaseShift := senv.VisibleMapIdsErase a.suppressedPhaseShift e.1 })
          else pure a) = (.error Fault.nullDeref : Except Fault (ConditionState PS)) := by
        simp only [hm, if_true, deref, bind, Except.bind]
      exact ⟨fun _ _ => he, Or.inl he⟩
    | some info =>
      refine ⟨fun _ hn => Option.noConfusion hn, Or.inr ?_⟩
      simp only [hm, if_true, deref, bind, Except.bind, pure, Except.pure]
      exact ⟨_, rfl⟩
  · refine ⟨fun hc => absurd hc hm, Or.inr ⟨a, ?_⟩⟩
    simp [hm, pure, Except.pure]

theorem conditionPass_nullDeref {PS : Type} {env : PhaseEnv PS} {aenv : AreaEnv PS}
    {senv : ShiftEnv PS} (h : ConditionLaws env aenv senv) (object : ObjectGuid)
    (o : PhaseObject (PhaseShifts PS))
    (hwf : ∀ k ∈ refKeys senv o.phaseShift.suppressed, k.2.isSome = true)
    (hinfo : ¬ MovedMapsHoldInfo senv object o.phaseShift) :
    conditionPass env aenv senv object o = .error Fault.nullDeref := by
  obtain ⟨st1, h1⟩ : ∃ st1, st1 = (senv.PhaseRefs o.phaseShift.active).foldl
      (suppressFailedPhase aenv senv object)
      { phaseShift := o.phaseShift.active, suppressedPhaseShift := o.phaseShift.suppressed,
        newSuppressions := senv.Empty, changed := false } := ⟨_, rfl⟩
  obtain ⟨a1, _, a3, _, _, _⟩ := suppressFailedPhases_spec h object
    (senv.PhaseRefs o.phaseShift.active)
    { phaseShift := o.phaseShift.active, suppressedPhaseShift := o.phaseShift.suppressed,
      newSuppressions := senv.Empty, changed := false }
  rw [← h1] at a1 a3
  simp only at a1 a3
  have hwf1 : ∀ y ∈ senv.PhaseRefs st1.suppressedPhaseShift, y.AreaConditions.isSome = true := by
    intro y hy
    rw [a1] at hy
    exact hwf y.key (mem_refKeys_of_mem senv _ y hy)
  obtain ⟨st2, h2, _, b2, b3, _, _, _⟩ :=
    restoreMetPhases_spec h object (senv.PhaseRefs st1.suppressedPhaseShift) st1 hwf1
  by_cases hA : ∀ e ∈ senv.VisibleMapIds o.phaseShift.active,
      senv.IsObjectMeetingNotGroupedConditions object e.1 = false →
        e.2.VisibleMapInfo.isSome = true
  · obtain ⟨st3, h3, _, _, c3⟩ := suppressFailedMaps_spec h object
      (senv.VisibleMapIds st2.phaseShift) st2 (by
        intro e he hc
        rw [b2, a3] at he
        exact hA e he hc)
    have hS : ∃ e, e ∈ senv.VisibleMapIds o.phaseShift.suppressed ∧
        senv.IsObjectMeetingNotGroupedConditions object e.1 = true ∧
        e.2.VisibleMapInfo = none := by
      by_contra hcon
      apply hinfo
      refine ⟨hA, ?_⟩
      intro e he hc
      by_contra hn
      apply hcon
      refine ⟨e, he, hc, ?_⟩
      cases hv : e.2.VisibleMapInfo with
      | none => rfl
      | some x =>
        rw [hv] at hn
        exact absurd rfl hn
    obtain ⟨e, he, hc, hn⟩ := hS
    have h4 : (senv.VisibleMapIds st3.suppressedPhaseShift).foldlM
        (restoreMetMap senv object) st3 = .error Fault.nullDeref :=
      foldlM_nullDeref _ _ (fun a b _ => (restoreMetMap_cases senv object a b).2)
        ⟨e, by rw [c3, b3, a1]; exact he,
          fun a => (restoreMetMap_cases senv object a e).1 hc hn⟩ st3
    unfold conditionPass
    simp only [← h1]
    simp only [h2, h3, h4, bind, Except.bind]
  · have hB : ∃ e, e ∈ senv.VisibleMapIds o.phaseShift.active ∧
        senv.IsObjectMeetingNotGroupedConditions object e.1 = false ∧
        e.2.VisibleMapInfo = none := by
      by_contra hcon
      apply hA
      intro e he hc
      by_contra hn
      apply hcon
      refine ⟨e, he, hc, ?_⟩
      cases hv : e.2.VisibleMapInfo with
      | none => rfl
      | some x =>
        rw [hv] at hn
        exact absurd rfl hn
    obtain ⟨e, he, hc, hn⟩ := hB
    have h3 : (senv.VisibleMapIds st2.phaseShift).foldlM
        (suppressFailedMap senv object) st2 = .error Fault.nullDeref :=
      foldlM_nullDeref _ _ (fun a b _ => (suppressFailedMap_cases senv object a b).2)
        ⟨e, by rw [b2, a3]; exact he,
          fun a => (suppressFailedMap_cases senv object a e).1 hc hn⟩ st2
    unfold conditionPass
    simp only [← h1]
    simp only [h2, h3, bind, Except.bind]

theorem objects_setPhaseShift_cases {PS : Type} (w : PhaseWorld PS) (g g' : ObjectGuid)
    (ps : PS) (x : PhaseObject PS) (h : (w.setPhaseShift g ps).objects g' = some x) :
    x.phaseShift = ps ∨ w.objects g' = some x := by
  unfold PhaseWorld.setPhaseShift at h
  by_cases hg : g' = g
  · simp only [hg, if_true] at h
    cases hw : w.objects g with
    | none => rw [hw] at h; cases h
    | some y =>
      rw [hw] at h
      simp only [Option.map_some', Option.some.injEq] at h
      left
      rw [← h]
  · simp only [hg, if_false] at h
    exact Or.inr h

theorem inheritPhaseShift_preserves {PS : Type} (Q : PhaseShifts PS → Prop)
    (w w' : PhaseWorld (PhaseShifts PS)) (target source : ObjectGuid)
    (hQ : ∀ g x, w.objects g = some x → Q x.phaseShift)
    (h : PhasingHandler.InheritPhaseShift w target source = .ok w') :
    ∀ g x, w'.objects g = some x → Q x.phaseShift := by
  unfold PhasingHandler.InheritPhaseShift at h
  cases hs : w.objects source with
  | none =>
    simp only [PhaseWorld.get, hs, bind, Except.bind] at h
    cases h
  | some s =>
    cases ht : w.objects target with
    | none =>
      simp only [PhaseWorld.get, hs, ht, bind, Except.bind] at h
      cases h
    | some t =>
      simp only [PhaseWorld.get, hs, ht, bind, Except.bind, pure, Except.pure,
        Except.ok.injEq] at h
      intro g x hx
      rw [← h] at hx
      rcases objects_setPhaseShift_cases w target g _ x hx with hx | hx
      · rw [hx]
        exact hQ source s hs
      · exact hQ g x hx

theorem forAllControlled_preserves {PS : Type} (Inv : PhaseWorld PS → Prop)
    (func : PhaseWorld PS → ObjectGuid → Except Fault (PhaseWorld PS))
    (hfunc : ∀ w c w', Inv w → func w c = .ok w' → Inv w')
    (w w' : PhaseWorld PS) (unit : ObjectGuid) (hw : Inv w)
    (h : ForAllControlled w unit func = .ok w') : Inv w' := by
  unfold ForAllControlled at h
  obtain ⟨u, _, h⟩ := bind_ok_elim h
  obtain ⟨w1, h1, h2⟩ := bind_ok_elim h
  have i1 : Inv w1 := foldlM_preserves Inv _ u.m_Controlled (by
    intro a b a' ha hab
    obtain ⟨v, _, hab⟩ := bind_ok_elim hab
    by_cases hp : v.typeId = TypeID.TYPEID_PLAYER
    · simp only [hp, ne_eq, not_true_eq_false, if_false, pure, Except.pure,
        Except.ok.injEq] at hab
      rw [← hab]
      exact ha
    · simp only [hp, ne_eq, not_false_eq_true, if_true] at hab
      exact hfunc a b a' ha hab) w w1 hw h1
  exact foldlM_preserves Inv _ u.m_SummonSlot (by
    intro a b a' ha hab
    by_cases hz : b = 0
    · simp only [hz, ne_eq, not_true_eq_false, if_false, pure, Except.pure,
        Except.ok.injEq] at hab
      rw [← hab]
      exact ha
    · simp only [hz, ne_eq, not_false_eq_true, if_true] at hab
      cases hc : a.GetCreature b with
      | none =>
        simp only [hc, pure, Except.pure, Except.ok.injEq] at hab
        rw [← hab]
        exact ha
      | some v =>
        simp only [hc] at hab
        exact hfunc a b a' ha hab) w1 w' i1 h2

theorem updateVisibilityIfNeeded_objects_of_ok {PS : Type} (w w' : PhaseWorld PS)
    (object : ObjectGuid) (updateVisibility changed : Bool)
    (h : PhasingHandler.UpdateVisibilityIfNeeded w object updateVisibility changed = .ok w') :
    w'.objects = w.objects := by
  cases hg : w.get object with
  | error e =>
    unfold PhasingHandler.UpdateVisibilityIfNeeded at h
    obtain ⟨o, ho, _⟩ := bind_ok_elim h
    rw [hg] at ho
    cases ho
  | ok o =>
    obtain ⟨w'', h1, h2, _⟩ :=
      updateVisibilityIfNeeded_objects w object o updateVisibility changed hg
    rw [h] at h1
    injection h1 with h1
    rw [h1]
    exact h2

theorem applyShiftChange_preserves {PS : Type} (Q : PhaseShifts PS → Prop)
    (w w' : PhaseWorld (PhaseShifts PS)) (object : ObjectGuid)
    (o : PhaseObject (PhaseShifts PS)) (shifts : PhaseShifts PS) (changed : Bool)
    (hQ : ∀ g x, w.objects g = some x → Q x.phaseShift) (hs : Q shifts)
    (h : applyShiftChange w object o shifts changed = .ok w') :
    ∀ g x, w'.objects g = some x → Q x.phaseShift := by
  have h0 : ∀ g x, (w.setPhaseShift object shifts).objects g = some x → Q x.phaseShift := by
    intro g x hx
    rcases objects_setPhaseShift_cases w object g shifts x hx with hx | hx
    · rw [hx]; exact hs
    · exact hQ g x hx
  unfold applyShiftChange at h
  by_cases hu : o.IsUnit = true
  · simp only [hu, if_true] at h
    obtain ⟨w2, h2, h3⟩ := bind_ok_elim h
    have hw1 : ∀ g x, (if changed = true then
          (w.setPhaseShift object shifts).emit (PhaseEvent.OnPhaseChange object)
        else w.setPhaseShift object shifts).objects g = some x → Q x.phaseShift := by
      by_cases hc : changed = true
      · rw [if_pos hc]; exact h0
      · rw [if_neg hc]; exact h0
    have hw2 := forAllControlled_preserves
      (fun w : PhaseWorld (PhaseShifts PS) => ∀ g x, w.objects g = some x → Q x.phaseShift)
      _ (fun a c a' ha hac => inheritPhaseShift_preserves Q a a' c object ha hac)
      _ w2 object hw1 h2
    have hobj := updateVisibilityIfNeeded_objects_of_ok _ _ _ _ _ h3
    intro g x hx
    rw [hobj] at hx
    by_cases hc : changed = true
    · rw [if_pos hc] at hx
      exact hw2 g x hx
    · rw [if_neg hc] at hx
      exact hw2 g x hx
  · simp only [hu, Bool.false_eq_true, if_false] at h
    have hobj := updateVisibilityIfNeeded_objects_of_ok _ _ _ _ _ h
    intro g x hx
    rw [hobj] at hx
    exact h0 g x hx

theorem applyShiftChange_returns {PS : Type} (w : PhaseWorld (PhaseShifts PS))
    (object : ObjectGuid) (o : PhaseObject (PhaseShifts PS)) (shifts : PhaseShifts PS)
    (changed : Bool) (hobj : w.objects object = some o)
    (hctl : ∀ c ∈ o.m_Controlled, (w.objects c).isSome = true) :
    ∃ w' o', applyShiftChange w object o shifts changed = .ok w' ∧
      w'.objects object = some o' ∧ o'.phaseShift = shifts := by
  have ho0 : (w.setPhaseShift object shifts).objects object
      = some { o with phaseShift := shifts } := objects_setPhaseShift_self w object o _ hobj
  unfold applyShiftChange
  by_cases hu : o.IsUnit = true
  · simp only [hu, if_true]
    obtain ⟨w1, hw1⟩ : ∃ w1, w1 = (if changed = true then
        (w.setPhaseShift object shifts).emit (PhaseEvent.OnPhaseChange object)
      else w.setPhaseShift object shifts) := ⟨_, rfl⟩
    have hw1obj : w1.objects = (w.setPhaseShift object shifts).objects := by
      rw [hw1]
      by_cases hc : changed = true
      · rw [if_pos hc]; rfl
      · rw [if_neg hc]
    obtain ⟨w2, hfor, _, _, o2, ho2, hps2⟩ := forAllControlled_inherit w1 object
      { o with phaseShift := shifts } (by rw [hw1obj]; exact ho0)
      (by
        intro c hc
        rw [hw1obj]
        exact objects_setPhaseShift_isSome w object c _ (hctl c hc))
    obtain ⟨w3, hw3⟩ : ∃ w3, w3 = (if changed = true then
        w2.emit (PhaseEvent.RemoveNotOwnLimitedTargetAuras object true) else w2) := ⟨_, rfl⟩
    have hw3obj : w3.objects = w2.objects := by
      rw [hw3]
      by_cases hc : changed = true
      · rw [if_pos hc]; rfl
      · rw [if_neg hc]
    obtain ⟨w', hvis, hobj', _⟩ :=
      updateVisibilityIfNeeded_objects w3 object o2 true changed
        (get_of_objects w3 object o2 (by rw [hw3obj]; exact ho2))
    refine ⟨w', o2, ?_, by rw [hobj', hw3obj]; exact ho2, hps2⟩
    rw [← hw1, hfor]
    show PhasingHandler.UpdateVisibilityIfNeeded (if changed = true then
      w2.emit (PhaseEvent.RemoveNotOwnLimitedTargetAuras object true) else w2) object true
        changed = .ok w'
    rw [← hw3]
    exact hvis
  · simp only [hu, Bool.false_eq_true, if_false]
    obtain ⟨w', hvis, hobj', _⟩ :=
      updateVisibilityIfNeeded_objects (w.setPhaseShift object shifts) object
        { o with phaseShift := shifts } true changed
        (get_of_objects _ object _ ho0)
    exact ⟨w', _, hvis, by rw [hobj']; exact ho0, rfl⟩

theorem inheritPhaseShift_keeps_source {PS : Type} (w w' : PhaseWorld (PhaseShifts PS))
    (target source : ObjectGuid) (shifts : PhaseShifts PS)
    (hs : ∃ x, w.objects source = some x ∧ x.phaseShift = shifts)
    (h : PhasingHandler.InheritPhaseShift w target source = .ok w') :
    ∃ x, w'.objects source = some x ∧ x.phaseShift = shifts := by
  obtain ⟨x, hx, hxs⟩ := hs
  unfold PhasingHandler.InheritPhaseShift at h
  cases ht : w.objects target with
  | none =>
    simp only [PhaseWorld.get, hx, ht, bind, Except.bind] at h
    cases h
  | some t =>
    simp only [PhaseWorld.get, hx, ht, bind, Except.bind, pure, Except.pure,
      Except.ok.injEq] at h
    rw [← h]
    by_cases hst : source = target
    · refine ⟨{ t with phaseShift := x.phaseShift }, ?_, hxs⟩
      rw [hst]
      exact objects_setPhaseShift_self w target t _ ht
    · refine ⟨x, ?_, hxs⟩
      unfold PhaseWorld.setPhaseShift
      simp only [hst, if_false]
      exact hx

theorem applyShiftChange_object_of_ok {PS : Type} (w w' : PhaseWorld (PhaseShifts PS))
    (object : ObjectGuid) (o : PhaseObject (PhaseShifts PS)) (shifts : PhaseShifts PS)
    (changed : Bool) (hobj : w.objects object = some o)
    (h : applyShiftChange w object o shifts changed = .ok w') :
    ∃ o', w'.objects object = some o' ∧ o'.phaseShift = shifts := by
  have h0 : ∃ x, (w.setPhaseShift object shifts).objects object = some x ∧
      x.phaseShift = shifts :=
    ⟨{ o with phaseShift := shifts }, objects_setPhaseShift_self w object o _ hobj, rfl⟩
  unfold applyShiftChange at h
  by_cases hu : o.IsUnit = true
  · simp only [hu, if_true] at h
    obtain ⟨w2, h2, h3⟩ := bind_ok_elim h
    have hw1 : ∃ x, (if changed = true then
          (w.setPhaseShift object shifts).emit (PhaseEvent.OnPhaseChange object)
        else w.setPhaseShift object shifts).objects object = some x ∧
        x.phaseShift = shifts := by
      by_cases hc : changed = true
      · rw [if_pos hc]; exact h0
      · rw [if_neg hc]; exact h0
    have hw2 := forAllControlled_preserves
      (fun w : PhaseWorld (PhaseShifts PS) =>
        ∃ x, w.objects object = some x ∧ x.phaseShift = shifts)
      _ (fun a c a' ha hac => inheritPhaseShift_keeps_source a a' c object shifts ha hac)
      _ w2 object hw1 h2
    have hobj3 := updateVisibilityIfNeeded_objects_of_ok _ _ _ _ _ h3
    rw [hobj3]
    by_cases hc : changed = true
    · rw [if_pos hc]
      exact hw2
    · rw [if_neg hc]
      exact hw2
  · simp only [hu, Bool.false_eq_true, if_false] at h
    have hobj3 := updateVisibilityIfNeeded_objects_of_ok _ _ _ _ _ h
    rw [hobj3]
    exact h0

theorem addPhasesOfArea_suppressed {PS : Type} {env : PhaseEnv PS} {aenv : AreaEnv PS}
    {senv : ShiftEnv PS} (h : ConditionLaws env aenv senv) (object : ObjectGuid) (areaId : Nat)
    (l : List PhaseAreaInfo) (acc : PS × PS)
    (hacc : ∀ k ∈ refKeys senv acc.2, k.2.isSome = true) :
    ∀ k ∈ refKeys senv (addPhasesOfArea env aenv object areaId l acc).2, k.2.isSome = true := by
  induction l generalizing acc with
  | nil => exact hacc
  | cons p rest ih =>
    unfold addPhasesOfArea
    rw [List.foldl_cons]
    apply ih
    by_cases hx : areaId ∈ p.SubAreaExclusions
    · rw [if_pos hx]; exact hacc
    · rw [if_neg hx]
      by_cases hm : aenv.IsObjectMeetToConditions object p.Conditions = true
      · simp only [hm, if_true]; exact hacc
      · simp only [hm, Bool.false_eq_true, if_false]
        intro k hk
        rcases h.add_keys _ _ _ _ _ hk with hk | hk
        · rw [hk]; rfl
        · exact hacc k hk

theorem addAreaPhases_suppressed {PS : Type} {env : PhaseEnv PS} {aenv : AreaEnv PS}
    {senv : ShiftEnv PS} (h : ConditionLaws env aenv senv) (object : ObjectGuid) (areaId : Nat)
    (fuel : Nat) (areaEntry : Option AreaTableEntry) (acc r : PS × PS)
    (hacc : ∀ k ∈ refKeys senv acc.2, k.2.isSome = true)
    (hr : PhasingHandler.addAreaPhases env aenv object areaId fuel areaEntry acc = .ok r) :
    ∀ k ∈ refKeys senv r.2, k.2.isSome = true := by
  induction fuel generalizing areaEntry acc with
  | zero =>
    cases areaEntry with
    | none =>
      unfold PhasingHandler.addAreaPhases at hr
      simp only [pure, Except.pure, Except.ok.injEq] at hr
      rw [← hr]; exact hacc
    | some e =>
      unfold PhasingHandler.addAreaPhases at hr
      cases hr
  | succ n ih =>
    cases areaEntry with
    | none =>
      unfold PhasingHandler.addAreaPhases at hr
      simp only [pure, Except.pure, Except.ok.injEq] at hr
      rw [← hr]; exact hacc
    | some e =>
      unfold PhasingHandler.addAreaPhases at hr
      refine ih _ _ ?_ hr
      cases aenv.GetPhasesForArea e.ID with
      | none => exact hacc
      | some l => exact addPhasesOfArea_suppressed h object areaId l acc hacc

theorem onAreaChange_carries {PS : Type} {env : PhaseEnv PS} {aenv : AreaEnv PS}
    {senv : ShiftEnv PS} (h : ConditionLaws env aenv senv) (fuel : Nat)
    (w w' : PhaseWorld (PhaseShifts PS)) (object : ObjectGuid)
    (hw : SuppressedCarryConditions senv w)
    (hrun : PhasingHandler.OnAreaChange env aenv fuel w object = .ok w') :
    SuppressedCarryConditions senv w' := by
  unfold PhasingHandler.OnAreaChange at hrun
  obtain ⟨o, _, hrun⟩ := bind_ok_elim hrun
  obtain ⟨r, hr, hrun⟩ := bind_ok_elim hrun
  have hr2 : ∀ k ∈ refKeys senv r.2, k.2.isSome = true :=
    addAreaPhases_suppressed h object _ fuel _ _ r (by
      intro k hk
      unfold refKeys at hk
      rw [h.clearPhases] at hk
      cases hk) hr
  by_cases hu : o.IsUnit = true
  · simp only [hu, if_true] at hrun
    have happ : applyShiftChange w object o
        { active := (addPhaseGroupsKeeping env
            ((aenv.GetAuraEffectsByType object AuraType.SPELL_AURA_PHASE_GROUP).map
              uint32_of_int32)
            (addPhasesKeeping env
              ((aenv.GetAuraEffectsByType object AuraType.SPELL_AURA_PHASE).map
                uint32_of_int32)
              (r.1, decide (aenv.Phases r.1 ≠ aenv.Phases o.phaseShift.active)))).1,
          suppressed := r.2 }
        (addPhaseGroupsKeeping env
            ((aenv.GetAuraEffectsByType object AuraType.SPELL_AURA_PHASE_GROUP).map
              uint32_of_int32)
            (addPhasesKeeping env
              ((aenv.GetAuraEffectsByType object AuraType.SPELL_AURA_PHASE).map
                uint32_of_int32)
              (r.1, decide (aenv.Phases r.1 ≠ aenv.Phases o.phaseShift.active)))).2
        = .ok w' := by
      unfold applyShiftChange
      simp only [hu, if_true]
      exact hrun
    exact applyShiftChange_preserves
      (fun s => ∀ k ∈ refKeys senv s.suppressed, k.2.isSome = true)
      w w' object o _ _ hw hr2 happ
  · simp only [hu, Bool.false_eq_true, if_false] at hrun
    have happ : applyShiftChange w object o { active := r.1, suppressed := r.2 }
        (decide (aenv.Phases r.1 ≠ aenv.Phases o.phaseShift.active)) = .ok w' := by
      unfold applyShiftChange
      simp only [hu, Bool.false_eq_true, if_false]
      exact hrun
    exact applyShiftChange_preserves
      (fun s => ∀ k ∈ refKeys senv s.suppressed, k.2.isSome = true)
      w w' object o _ _ hw hr2 happ

theorem onConditionChange_carries {PS : Type} {env : PhaseEnv PS} {aenv : AreaEnv PS}
    {senv : ShiftEnv PS} (h : ConditionLaws env aenv senv)
    (w w' : PhaseWorld (PhaseShifts PS)) (object : ObjectGuid)
    (hw : SuppressedCarryConditions senv w)
    (hrun : PhasingHandler.OnConditionChange env aenv senv w object = .ok w') :
    SuppressedCarryConditions senv w' := by
  unfold PhasingHandler.OnConditionChange at hrun
  obtain ⟨o, ho, hrun⟩ := bind_ok_elim hrun
  obtain ⟨st, hst, hrun⟩ := bind_ok_elim hrun
  have hobj : w.objects object = some o := by
    unfold PhaseWorld.get at ho
    cases hx : w.objects object with
    | none => rw [hx] at ho; cases ho
    | some x =>
      rw [hx] at ho
      injection ho with ho
      rw [ho]
  have hfail := conditionPass_sound h object o (hw object o hobj) st hst
  exact applyShiftChange_preserves
    (fun s => ∀ k ∈ refKeys senv s.suppressed, k.2.isSome = true)
    w w' object o _ _ hw
    (by
      intro k hk
      obtain ⟨c, hc, _⟩ := hfail k hk
      rw [hc]; rfl) hrun

theorem resetPhaseShift_carries {PS : Type} {env : PhaseEnv PS} {aenv : AreaEnv PS}
    {senv : ShiftEnv PS} (h : ConditionLaws env aenv senv)
    (w w' : PhaseWorld (PhaseShifts PS)) (object : ObjectGuid)
    (hw : SuppressedCarryConditions senv w)
    (hrun : PhasingHandler.ResetPhaseShift senv w object = .ok w') :
    SuppressedCarryConditions senv w' := by
  unfold PhasingHandler.ResetPhaseShift at hrun
  obtain ⟨o, _, hrun⟩ := bind_ok_elim hrun
  simp only [pure, Except.pure, Except.ok.injEq] at hrun
  intro g x hx
  rw [← hrun] at hx
  rcases objects_setPhaseShift_cases w object g _ x hx with hx | hx
  · rw [hx]
    intro k hk
    unfold refKeys at hk
    rw [h.clear] at hk
    cases hk
  · exact hw g x hx

/-- The states produced by the four operations keep area conditions on every
suppressed phase. -/
theorem produced_carries {PS : Type} {env : PhaseEnv PS} {aenv : AreaEnv PS}
    {senv : ShiftEnv PS} (h : ConditionLaws env aenv senv) (w : PhaseWorld (PhaseShifts PS))
    (hw : Produced env aenv senv w) : SuppressedCarryConditions senv w := by
  induction hw with
  | start w h0 =>
    intro g o ho k hk
    unfold refKeys at hk
    rw [h0 g o ho] at hk
    cases hk
  | onAreaChange w w' fuel object _ hrun ih => exact onAreaChange_carries h fuel w w' object ih hrun
  | onConditionChange w w' object _ hrun ih => exact onConditionChange_carries h w w' object ih hrun
  | inheritPhaseShift w w' target source _ hrun ih =>
    exact inheritPhaseShift_preserves
      (fun s => ∀ k ∈ refKeys senv s.suppressed, k.2.isSome = true) w w' target source ih hrun
  | resetPhaseShift w w' object _ hrun ih => exact resetPhaseShift_carries h w w' object ih hrun

theorem bind_ne_assert {α β : Type} {x : Except Fault α} {f : α → Except Fault β}
    (hx : x ≠ .error Fault.assertFailed)
    (hf : ∀ a, x = .ok a → f a ≠ .error Fault.assertFailed) :
    (x >>= f) ≠ .error Fault.assertFailed := by
  cases x with
  | error e =>
    intro hb
    simp only [bind, Except.bind, Except.error.injEq] at hb
    exact hx (by rw [hb])
  | ok a => exact hf a rfl

theorem foldlM_ne_assert {α β : Type} (step : α → β → Except Fault α) (l : List β)
    (hstep : ∀ a b, b ∈ l → step a b ≠ .error Fault.assertFailed) (a : α) :
    l.foldlM step a ≠ .error Fault.assertFailed := by
  induction l generalizing a with
  | nil => intro hb; cases hb
  | cons b rest ih =>
    rw [List.foldlM_cons]
    exact bind_ne_assert (hstep a b (List.mem_cons_self _ _))
      (fun a1 _ => ih (fun a b hb => hstep a b (List.mem_cons_of_mem _ hb)) a1)

theorem get_ne_assert {PS : Type} (w : PhaseWorld PS) (g : ObjectGuid) :
    w.get g ≠ .error Fault.assertFailed := by
  unfold PhaseWorld.get
  cases w.objects g with
  | none => intro hb; cases hb
  | some o => intro hb; cases hb

theorem deref_ne_assert {α : Type} (p : Option α) : deref p ≠ .error Fault.assertFailed := by
  cases p with
  | none => intro hb; cases hb
  | some o => intro hb; cases hb

theorem inheritPhaseShift_ne_assert {PS : Type} (w : PhaseWorld (PhaseShifts PS))
    (target source : ObjectGuid) :
    PhasingHandler.InheritPhaseShift w target source ≠ .error Fault.assertFailed := by
  unfold PhasingHandler.InheritPhaseShift
  refine bind_ne_assert (get_ne_assert w source) (fun s _ => ?_)
  refine bind_ne_assert (get_ne_assert w target) (fun t _ => ?_)
  intro hb
  cases hb

theorem forAllControlled_ne_assert {PS : Type}
    (func : PhaseWorld PS → ObjectGuid → Except Fault (PhaseWorld PS))
    (hfunc : ∀ w c, func w c ≠ .error Fault.assertFailed)
    (w : PhaseWorld PS) (unit : ObjectGuid) :
    ForAllControlled w unit func ≠ .error Fault.assertFailed := by
  unfold ForAllControlled
  refine bind_ne_assert (get_ne_assert w unit) (fun u _ => ?_)
  refine bind_ne_assert (foldlM_ne_assert _ _ (fun a b _ => ?_) w) (fun w1 _ => ?_)
  · refine bind_ne_assert (get_ne_assert a b) (fun c _ => ?_)
    by_cases hp : c.typeId = TypeID.TYPEID_PLAYER
    · simp only [hp, ne_eq, not_true_eq_false, if_false]
      intro hb; cases hb
    · simp only [hp, ne_eq, not_false_eq_true, if_true]
      exact hfunc a b
  · refine foldlM_ne_assert _ _ (fun a b _ => ?_) w1
    by_cases hz : b = 0
    · simp only [hz, ne_eq, not_true_eq_false, if_false]
      intro hb; cases hb
    · simp only [hz, ne_eq, not_false_eq_true, if_true]
      cases a.GetCreature b with
      | none => intro hb; cases hb
      | some v => exact hfunc a b

theorem updateVisibilityIfNeeded_ne_assert {PS : Type} (w : PhaseWorld PS) (object : ObjectGuid)
    (updateVisibility changed : Bool) :
    PhasingHandler.UpdateVisibilityIfNeeded w object updateVisibility changed
      ≠ .error Fault.assertFailed := by
  cases hg : w.get object with
  | error e =>
    unfold PhasingHandler.UpdateVisibilityIfNeeded
    refine bind_ne_assert (get_ne_assert w object) (fun o ho => ?_)
    rw [hg] at ho
    cases ho
  | ok o =>
    obtain ⟨w', h1, _⟩ := updateVisibilityIfNeeded_objects w object o updateVisibility changed hg
    rw [h1]
    intro hb
    cases hb

theorem applyShiftChange_ne_assert {PS : Type} (w : PhaseWorld (PhaseShifts PS))
    (object : ObjectGuid) (o : PhaseObject (PhaseShifts PS)) (shifts : PhaseShifts PS)
    (changed : Bool) :
    applyShiftChange w object o shifts changed ≠ .error Fault.assertFailed := by
  unfold applyShiftChange
  by_cases hu : o.IsUnit = true
  · simp only [hu, if_true]
    exact bind_ne_assert
      (forAllControlled_ne_assert _ (fun a c => inheritPhaseShift_ne_assert a c object) _ _)
      (fun w2 _ => updateVisibilityIfNeeded_ne_assert _ _ _ _)
  · simp only [hu, Bool.false_eq_true, if_false]
    exact updateVisibilityIfNeeded_ne_assert _ _ _ _

theorem conditionPass_ne_assert {PS : Type} {env : PhaseEnv PS} {aenv : AreaEnv PS}
    {senv : ShiftEnv PS} (h : ConditionLaws env aenv senv) (object : ObjectGuid)
    (o : PhaseObject (PhaseShifts PS))
    (hwf : ∀ k ∈ refKeys senv o.phaseShift.suppressed, k.2.isSome = true) :
    conditionPass env aenv senv object o ≠ .error Fault.assertFailed := by
  obtain ⟨st1, h1⟩ : ∃ st1, st1 = (senv.PhaseRefs o.phaseShift.active).foldl
      (suppressFailedPhase aenv senv object)
      { phaseShift := o.phaseShift.active, suppressedPhaseShift := o.phaseShift.suppressed,
        newSuppressions := senv.Empty, changed := false } := ⟨_, rfl⟩
  obtain ⟨a1, _, _, _, _, _⟩ := suppressFailedPhases_spec h object
    (senv.PhaseRefs o.phaseShift.active)
    { phaseShift := o.phaseShift.active, suppressedPhaseShift := o.phaseShift.suppressed,
      newSuppressions := senv.Empty, changed := false }
  rw [← h1] at a1
  simp only at a1
  obtain ⟨st2, h2, _⟩ := restoreMetPhases_spec h object
    (senv.PhaseRefs st1.suppressedPhaseShift) st1
    (by
      intro y hy
      rw [a1] at hy
      exact hwf y.key (mem_refKeys_of_mem senv _ y hy))
  rw [h1] at h2
  unfold conditionPass
  refine bind_ne_assert (by rw [h2]; intro hb; cases hb) (fun st2' _ => ?_)
  refine bind_ne_assert (foldlM_ne_assert _ _ (fun a e _ => ?_) _) (fun st3 _ => ?_)
  · unfold suppressFailedMap
    by_cases hm : senv.IsObjectMeetingNotGroupedConditions object e.1 = true
    · simp only [hm, Bool.not_true, Bool.false_eq_true, if_false]
      intro hb; cases hb
    · simp only [Bool.not_eq_true] at hm
      simp only [hm, Bool.not_false, if_true]
      refine bind_ne_assert (deref_ne_assert _) (fun info _ => ?_)
      intro hb; cases hb
  · refine bind_ne_assert (foldlM_ne_assert _ _ (fun a e _ => ?_) _) (fun st4 _ => ?_)
    · unfold restoreMetMap
      by_cases hm : senv.IsObjectMeetingNotGroupedConditions object e.1 = true
      · simp only [hm, if_true]
        refine bind_ne_assert (deref_ne_assert _) (fun info _ => ?_)
        intro hb; cases hb
      · simp only [hm, Bool.false_eq_true, if_false]
        intro hb; cases hb
    · intro hb; cases hb

theorem onConditionChange_ne_assert {PS : Type} {env : PhaseEnv PS} {aenv : AreaEnv PS}
    {senv : ShiftEnv PS} (h : ConditionLaws env aenv senv)
    (w : PhaseWorld (PhaseShifts PS)) (hw : SuppressedCarryConditions senv w)
    (object : ObjectGuid) :
    PhasingHandler.OnConditionChange env aenv senv w object ≠ .error Fault.assertFailed := by
  unfold PhasingHandler.OnConditionChange
  refine bind_ne_assert (get_ne_assert w object) (fun o ho => ?_)
  have hobj : w.objects object = some o := by
    unfold PhaseWorld.get at ho
    cases hx : w.objects object with
    | none => rw [hx] at ho; cases ho
    | some x =>
      rw [hx] at ho
      injection ho with ho
      rw [ho]
  exact bind_ne_assert (conditionPass_ne_assert h object o (hw object o hobj))
    (fun st _ => applyShiftChange_ne_assert _ _ _ _ _)

/-- C23: with members of `PhaseShift` that behave as `ConditionLaws` says, in a state
produced by `OnAreaChange`, `OnConditionChange`, `InheritPhaseShift` and
`ResetPhaseShift`, every phase of every suppressed phase shift carries area
conditions, and `OnConditionChange` never fails its `ASSERT_NOTNULL`, on any object.
The condition check is a fixed function of the object and the conditions.  After
every call of `OnConditionChange` on an object of the map that returns, every phase
of the active phase shift that carries area conditions meets them, every phase of
the suppressed phase shift carries area conditions and does not meet them, the
identifiers held by the two phase shifts together are those held before, and the
state is again a produced one.  The call returns when the visible maps that it moves
hold their terrain swap info and the controlled units are objects of the map; when a
visible map that it moves holds a null `VisibleMapInfo`, the call follows the null
pointer instead. -/
theorem onConditionChange_repartitions {PS : Type} {env : PhaseEnv PS} {aenv : AreaEnv PS}
    {senv : ShiftEnv PS} (h : ConditionLaws env aenv senv) (w : PhaseWorld (PhaseShifts PS))
    (hprod : Produced env aenv senv w) (object : ObjectGuid)
    (o : PhaseObject (PhaseShifts PS)) (hobj : w.objects object = some o) :
    SuppressedCarryConditions senv w ∧
    (∀ g, PhasingHandler.OnConditionChange env aenv senv w g ≠ .error Fault.assertFailed) ∧
    (∀ w', PhasingHandler.OnConditionChange env aenv senv w object = .ok w' →
      ∃ o', w'.objects object = some o' ∧
        ActiveMeets aenv senv object o'.phaseShift.active ∧
        SuppressedFails aenv senv object o'.phaseShift.suppressed ∧
        (∀ i, (i ∈ phaseIds senv o'.phaseShift.active ∨
            i ∈ phaseIds senv o'.phaseShift.suppressed)
          ↔ (i ∈ phaseIds senv o.phaseShift.active ∨
              i ∈ phaseIds senv o.phaseShift.suppressed)) ∧
        Produced env aenv senv w') ∧
    (MovedMapsHoldInfo senv object o.phaseShift →
      (∀ c ∈ o.m_Controlled, (w.objects c).isSome = true) →
      ∃ w', PhasingHandler.OnConditionChange env aenv senv w object = .ok w') ∧
    (¬ MovedMapsHoldInfo senv object o.phaseShift →
      PhasingHandler.OnConditionChange env aenv senv w object = .error Fault.nullDeref) := by
  have hcarry := produced_carries h w hprod
  have hwf := hcarry object o hobj
  have hget := get_of_objects w object o hobj
  refine ⟨hcarry, onConditionChange_ne_assert h w hcarry, ?_, ?_, ?_⟩
  · intro w' hrun
    have hrun0 := hrun
    unfold PhasingHandler.OnConditionChange at hrun
    simp only [hget, bind, Except.bind] at hrun
    cases hst : conditionPass env aenv senv object o with
    | error e =>
      rw [hst] at hrun
      cases hrun
    | ok st =>
      rw [hst] at hrun
      obtain ⟨p1, p2, p3⟩ := conditionPass_post h object o hwf st hst
      obtain ⟨o', ho', hps⟩ := applyShiftChange_object_of_ok w w' object o _ _ hobj hrun
      refine ⟨o', ho', ?_, ?_, ?_, Produced.onConditionChange w w' object hprod hrun0⟩
      · rw [hps]; exact p1
      · rw [hps]; exact p2
      · rw [hps]; exact p3
  · intro hinfo hctl
    obtain ⟨st, hst, _⟩ := conditionPass_spec h object o hwf hinfo
    obtain ⟨w', _, hrun, _⟩ := applyShiftChange_returns w object o
      { active := st.phaseShift, suppressed := moveNewSuppressions senv st } st.changed hobj hctl
    refine ⟨w', ?_⟩
    unfold PhasingHandler.OnConditionChange
    simp only [hget, hst, bind, Except.bind]
    exact hrun
  · intro hinfo
    unfold PhasingHandler.OnConditionChange
    simp only [hget, conditionPass_nullDeref h object o hwf hinfo, bind, Except.bind]

/-! ## The visible maps of an unregistered terrain swap -/

/-- What `AddVisibleMapId` and `RemoveVisibleMapId` do with a visible map id for
which `GetTerrainSwapInfo` returns a null pointer: `terrainSwapInfo->UiMapPhaseIDs`
follows it. -/
theorem visibleMapId_unregistered {PS : Type} (senv : ShiftEnv PS) (fuel : Nat)
    (w : PhaseWorld PS) (object : ObjectGuid) (o : PhaseObject PS) (visibleMapId : Nat)
    (hobj : w.objects object = some o) (hnone : senv.GetTerrainSwapInfo visibleMapId = none) :
    PhasingHandler.AddVisibleMapId senv (fuel + 1) w object visibleMapId
      = .error Fault.nullDeref ∧
    PhasingHandler.RemoveVisibleMapId senv (fuel + 1) w object visibleMapId
      = .error Fault.nullDeref := by
  have hget := get_of_objects w object o hobj
  constructor
  · unfold PhasingHandler.AddVisibleMapId
    simp only [hget, hnone, deref, bind, Except.bind]
  · unfold PhasingHandler.RemoveVisibleMapId
    simp only [hget, hnone, deref, bind, Except.bind]

/-- C24, on the code: the game object `4` is an object of the map and no terrain
swap info is registered for the visible map id `999`; `AddVisibleMapId` and
`RemoveVisibleMapId` both follow the null pointer and do not complete.  For the
registered id `638` both complete. -/
theorem visibleMapId_null_terrainSwapInfo :
    exampleShiftEnv.GetTerrainSwapInfo 999 = none ∧
    (exampleVisibleWorld.objects 4).isSome = true ∧
    PhasingHandler.AddVisibleMapId exampleShiftEnv 3 exampleVisibleWorld 4 999
      = .error Fault.nullDeref ∧
    PhasingHandler.RemoveVisibleMapId exampleShiftEnv 3 exampleVisibleWorld 4 999
      = .error Fault.nullDeref ∧
    (∃ w', PhasingHandler.AddVisibleMapId exampleShiftEnv 3 exampleVisibleWorld 4 638
      = .ok w') ∧
    (∃ w', PhasingHandler.RemoveVisibleMapId exampleShiftEnv 3 exampleVisibleWorld 4 638
      = .ok w') :=
  ⟨rfl, rfl, rfl, rfl, ⟨_, rfl⟩, ⟨_, rfl⟩⟩

/-! ## The example phase shift obeys the laws -/

theorem example_map_modify_key (l : List PhaseRef) (id : Nat) (d : Int) :
    (l.map (fun r => if r.Id = id then { r with References := r.References + d } else r)).map
      PhaseRef.key = l.map PhaseRef.key := by
  rw [List.map_map]
  apply List.map_congr_left
  intro r _
  simp only [Function.comp]
  split_ifs <;> rfl

theorem example_addPhase_keys (ps : ExamplePhaseShift) (id : Nat) (f : PhaseFlags)
    (c : Option Nat) (n : Int) (k : Nat × Option Nat)
    (hk : k ∈ (ps.addPhase id f c n).1.Phases.map PhaseRef.key) :
    k = (id, c) ∨ k ∈ ps.Phases.map PhaseRef.key := by
  unfold ExamplePhaseShift.addPhase at hk
  by_cases hin : id ∈ ps.Phases.map (fun r => r.Id)
  · rw [if_pos hin] at hk
    simp only [List.map_map, List.mem_map, Function.comp] at hk
    obtain ⟨r, hr, hrk⟩ := hk
    by_cases hid : r.Id = id
    · rw [if_pos hid] at hrk
      by_cases hc : c.isSome = true
      · left
        rw [← hrk]
        simp [PhaseRef.key, hc, hid]
      · right
        rw [← hrk]
        simp only [PhaseRef.key, hc, Bool.false_eq_true, if_false]
        exact List.mem_map.2 ⟨r, hr, rfl⟩
    · rw [if_neg hid] at hrk
      right
      rw [← hrk]
      exact List.mem_map.2 ⟨r, hr, rfl⟩
  · rw [if_neg hin] at hk
    simp only [List.mem_map, List.mem_orderedInsert] at hk
    obtain ⟨r, hr, hrk⟩ := hk
    rcases hr with hr | hr
    · left
      rw [← hrk, hr]
      rfl
    · right
      rw [← hrk]
      exact List.mem_map.2 ⟨r, hr, rfl⟩

theorem example_addPhase_ids (ps : ExamplePhaseShift) (id : Nat) (f : PhaseFlags)
    (c : Option Nat) (n : Int) (i : Nat) :
    i ∈ (ps.addPhase id f c n).1.Phases.map (fun r => r.Id)
      ↔ i = id ∨ i ∈ ps.Phases.map (fun r => r.Id) := by
  unfold ExamplePhaseShift.addPhase
  by_cases hin : id ∈ ps.Phases.map (fun r => r.Id)
  · rw [if_pos hin]
    have hsame : (ps.Phases.map (fun r =>
        if r.Id = id then
          { r with References := r.References + n,
                   AreaConditions := if c.isSome then c else r.AreaConditions }
        else r)).map (fun r => r.Id) = ps.Phases.map (fun r => r.Id) := by
      rw [List.map_map]
      apply List.map_congr_left
      intro r _
      simp only [Function.comp]
      split_ifs <;> rfl
    simp only [hsame]
    constructor
    · intro hi; exact Or.inr hi
    · rintro (hi | hi)
      · rw [hi]; exact hin
      · exact hi
  · rw [if_neg hin]
    simp only [List.mem_map, List.mem_orderedInsert]
    constructor
    · rintro ⟨r, hr | hr, hri⟩
      · left; rw [← hri, hr]
      · right; exact ⟨r, hr, hri⟩
    · rintro (hi | ⟨r, hr, hri⟩)
      · exact ⟨_, Or.inl rfl, hi.symm⟩
      · exact ⟨r, Or.inr hr, hri⟩

theorem example_modify_ids (l : List PhaseRef) (id : Nat) (d : Int) :
    (l.map (fun r => if r.Id = id then { r with References := r.References + d } else r)).map
      (fun r => r.Id) = l.map (fun r => r.Id) := by
  rw [List.map_map]
  apply List.map_congr_left
  intro r _
  simp only [Function.comp]
  split_ifs <;> rfl

theorem example_erase_keys (l : List PhaseRef) (id : Nat) :
    (l.filter (fun r => r.Id ≠ id)).map PhaseRef.key
      = (l.map PhaseRef.key).filter (fun k => k.1 ≠ id) := by
  induction l with
  | nil => rfl
  | cons r rest ih =>
    by_cases hr : r.Id = id
    · simpa [List.filter_cons, hr, PhaseRef.key] using ih
    · simpa [List.filter_cons, hr, PhaseRef.key] using ih

theorem example_removePhase_keys (ps : ExamplePhaseShift) (id : Nat) (k : Nat × Option Nat)
    (hk : k ∈ (ps.removePhase id).1.Phases.map PhaseRef.key) :
    k ∈ ps.Phases.map PhaseRef.key := by
  unfold ExamplePhaseShift.removePhase at hk
  split_ifs at hk
  · simp only [ExamplePhaseShift.erasePhase, ExamplePhaseShift.modifyReferences] at hk
    rw [example_erase_keys, example_map_modify_key, List.mem_filter] at hk
    exact hk.1
  · simp only [ExamplePhaseShift.modifyReferences] at hk
    rw [example_map_modify_key] at hk
    exact hk
  · exact hk

theorem example_removePhase_ids (ps : ExamplePhaseShift) (id i : Nat)
    (hi : i ∈ ps.Phases.map (fun r => r.Id)) :
    i ∈ (ps.removePhase id).1.Phases.map (fun r => r.Id) ∨
      (i = id ∧ ((ps.removePhase id).2.1 || (ps.removePhase id).2.2) = true) := by
  unfold ExamplePhaseShift.removePhase
  split_ifs with h1 h2
  · by_cases hid : i = id
    · right
      exact ⟨hid, by simp⟩
    · left
      simp only [ExamplePhaseShift.erasePhase, ExamplePhaseShift.modifyReferences]
      simp only [List.mem_map, List.mem_filter] at hi ⊢
      obtain ⟨r, hr, hri⟩ := hi
      have hrid : r.Id ≠ id := by rw [hri]; exact hid
      refine ⟨r, ⟨⟨r, hr, by rw [if_neg hrid]⟩, by simpa using hrid⟩, hri⟩
  · left
    simp only [ExamplePhaseShift.modifyReferences]
    rw [example_modify_ids]
    exact hi
  · left
    exact hi

theorem example_removePhase_found (ps : ExamplePhaseShift) (id : Nat)
    (h : ((ps.removePhase id).2.1 || (ps.removePhase id).2.2) = true) :
    id ∈ ps.Phases.map (fun r => r.Id) := by
  unfold ExamplePhaseShift.removePhase at h
  split_ifs at h with h1 h2
  · exact h1
  · exact h1
  · simp at h

theorem example_addVisible_phases (ps : ExamplePhaseShift) (id : Nat)
    (info : Option TerrainSwapInfo) (n : Int) :
    (ps.addVisibleMapId id info n).1.Phases = ps.Phases := by
  unfold ExamplePhaseShift.addVisibleMapId
  split_ifs <;> rfl

theorem example_addPhase_visible (ps : ExamplePhaseShift) (id : Nat) (f : PhaseFlags)
    (c : Option Nat) (n : Int) :
    (ps.addPhase id f c n).1.VisibleMapIds = ps.VisibleMapIds := by
  unfold ExamplePhaseShift.addPhase
  split_ifs <;> rfl

theorem example_addPhase_isDb (ps : ExamplePhaseShift) (id : Nat) (f : PhaseFlags)
    (c : Option Nat) (n : Int) :
    (ps.addPhase id f c n).1.IsDbPhaseShift = ps.IsDbPhaseShift := by
  unfold ExamplePhaseShift.addPhase
  split_ifs <;> rfl

/-- The example phase shift obeys `ConditionLaws`. -/
theorem exampleConditionLaws :
    ConditionLaws exampleShiftPhaseEnv exampleShiftAreaEnv exampleShiftEnv where
  empty := rfl
  clear := fun _ => rfl
  clearPhases := fun _ => rfl
  erase := fun ps id => example_erase_keys ps.Phases id
  modify := fun ps id d => example_map_modify_key ps.Phases id d
  addRefs_keys := fun ps id f c n k hk => example_addPhase_keys ps id f c n k hk
  addRefs_ids := fun ps id f c n i => example_addPhase_ids ps id f c n i
  add_keys := fun ps id f c k hk => example_addPhase_keys ps id f c 1 k hk
  add_ids := fun ps id f c i => example_addPhase_ids ps id f c 1 i
  remove_keys := fun ps id k hk => example_removePhase_keys ps id k hk
  remove_ids := fun ps id i hi => example_removePhase_ids ps id i hi
  remove_found := fun ps id h => example_removePhase_found ps id h
  addVisible_refs := fun ps id info n => example_addVisible_phases ps id info n
  eraseVisible_refs := fun _ _ => rfl
  addUi_refs := fun ps id => by
    show (if id ∈ ps.UiMapPhaseIds then (ps, false)
      else ({ ps with UiMapPhaseIds := ps.UiMapPhaseIds.orderedInsert (fun a b => a ≤ b) id },
        true)).1.Phases = ps.Phases
    split_ifs <;> rfl
  removeUi_refs := fun _ _ => rfl
  erase_visible := fun _ _ => rfl
  modify_visible := fun _ _ _ => rfl
  addRefs_visible := fun ps id f c n => example_addPhase_visible ps id f c n

/-- The example phase shift obeys `DbShiftLaws`. -/
theorem exampleDbShiftLaws : DbShiftLaws exampleShiftPhaseEnv exampleShiftEnv where
  clearPhases := fun _ => rfl
  addPhase_ids := fun ps id f c i => example_addPhase_ids ps id f c 1 i
  hasPhase := fun ps id => by
    show decide (id ∈ ps.Phases.map (fun r => r.Id)) = true ↔ id ∈ ps.Phases.map (fun r => r.Id)
    simp
  setIsDb_refs := fun _ _ => rfl
  setFlags_refs := fun _ _ => rfl
  flags_setFlags := fun _ _ => rfl
  isDb_setIsDb := fun _ _ => rfl
  isDb_addPhase := fun ps id f c => example_addPhase_isDb ps id f c 1
  isDb_setFlags := fun _ _ => rfl

/-- Witness for C22: an inverse database row for the phase group `1`, which holds
`DEFAULT_PHASE`. -/
theorem initDbPhaseShift_spec_witness :
    (∀ i, i ∈ phaseIds exampleShiftEnv
        (PhasingHandler.InitDbPhaseShift exampleShiftPhaseEnv exampleShiftEnv
          ExamplePhaseShift.empty 2 0 1)
      ↔ i ∈ dbPhases exampleShiftPhaseEnv 0 1) ∧
    exampleShiftEnv.IsDbPhaseShift
      (PhasingHandler.InitDbPhaseShift exampleShiftPhaseEnv exampleShiftEnv
        ExamplePhaseShift.empty 2 0 1) = true ∧
    exampleShiftEnv.Flags
        (PhasingHandler.InitDbPhaseShift exampleShiftPhaseEnv exampleShiftEnv
          ExamplePhaseShift.empty 2 0 1)
      = { AlwaysVisible := decide (2 &&& exampleShiftEnv.PHASE_USE_FLAGS_ALWAYS_VISIBLE ≠ 0)
          Inverse := decide (2 &&& exampleShiftEnv.PHASE_USE_FLAGS_INVERSE ≠ 0)
          InverseUnphased :=
            decide (2 &&& exampleShiftEnv.PHASE_USE_FLAGS_INVERSE ≠ 0) &&
            decide (dbPhases exampleShiftPhaseEnv 0 1 = [] ∨
              exampleShiftEnv.DEFAULT_PHASE ∈ dbPhases exampleShiftPhaseEnv 0 1)
          Unphased :=
            decide (2 &&& exampleShiftEnv.PHASE_USE_FLAGS_ALWAYS_VISIBLE ≠ 0) ||
            (!decide (2 &&& exampleShiftEnv.PHASE_USE_FLAGS_INVERSE ≠ 0) &&
              decide (dbPhases exampleShiftPhaseEnv 0 1 = [] ∨
                exampleShiftEnv.DEFAULT_PHASE ∈ dbPhases exampleShiftPhaseEnv 0 1)) } ∧
    ((exampleShiftEnv.Flags (PhasingHandler.InitDbPhaseShift exampleShiftPhaseEnv
        exampleShiftEnv ExamplePhaseShift.empty 2 0 1)).InverseUnphased = true →
      (exampleShiftEnv.Flags (PhasingHandler.InitDbPhaseShift exampleShiftPhaseEnv
        exampleShiftEnv ExamplePhaseShift.empty 2 0 1)).Inverse = true) :=
  initDbPhaseShift_spec exampleShiftPhaseEnv exampleShiftEnv exampleDbShiftLaws
    ExamplePhaseShift.empty 2 0 1

theorem exampleConditionWorld_produced :
    Produced exampleShiftPhaseEnv exampleShiftAreaEnv exampleShiftEnv exampleConditionWorld :=
  Produced.start exampleConditionWorld (by
    intro g o ho
    unfold exampleConditionWorld at ho
    by_cases hg : g = 1
    · simp only [hg, if_true, Option.some.injEq] at ho
      rw [← ho]
      rfl
    · simp only [hg, if_false] at ho
      cases ho)

/-- A produced state in which `OnConditionChange` does not return: the visible map
`640` of the creature `1` fails its terrain swap conditions and holds a null
`VisibleMapInfo`, which the loop over `phaseShift.VisibleMapIds` follows. -/
theorem onConditionChange_null_moved_map :
    Produced exampleShiftPhaseEnv exampleShiftAreaEnv exampleShiftEnv exampleSwapWorld ∧
    ¬ MovedMapsHoldInfo exampleShiftEnv 1 exampleSwapUnit.phaseShift ∧
    PhasingHandler.OnConditionChange exampleShiftPhaseEnv exampleShiftAreaEnv exampleShiftEnv
      exampleSwapWorld 1 = .error Fault.nullDeref := by
  refine ⟨Produced.start exampleSwapWorld ?_, ?_, rfl⟩
  · intro g o ho
    unfold exampleSwapWorld at ho
    by_cases hg : g = 1
    · simp only [hg, if_true, Option.some.injEq] at ho
      rw [← ho]
      rfl
    · simp only [hg, if_false] at ho
      cases ho
  · intro hinfo
    have := hinfo.1 (640, { References := 1, VisibleMapInfo := none })
      (List.mem_singleton.2 rfl) rfl
    cases this

/-- Witness for C23: the creature `1` of the example, whose phase `170` has
conditions that are not met; its visible map `641`, whose terrain swap conditions are
met, holds no terrain swap info. -/
theorem onConditionChange_repartitions_witness :
    SuppressedCarryConditions exampleShiftEnv exampleConditionWorld ∧
    (∀ g, PhasingHandler.OnConditionChange exampleShiftPhaseEnv exampleShiftAreaEnv
        exampleShiftEnv exampleConditionWorld g ≠ .error Fault.assertFailed) ∧
    ∃ w' o', PhasingHandler.OnConditionChange exampleShiftPhaseEnv exampleShiftAreaEnv
          exampleShiftEnv exampleConditionWorld 1 = .ok w' ∧
      w'.objects 1 = some o' ∧
      ActiveMeets exampleShiftAreaEnv exampleShiftEnv 1 o'.phaseShift.active ∧
      SuppressedFails exampleShiftAreaEnv exampleShiftEnv 1 o'.phaseShift.suppressed ∧
      (∀ i, (i ∈ phaseIds exampleShiftEnv o'.phaseShift.active ∨
          i ∈ phaseIds exampleShiftEnv o'.phaseShift.suppressed)
        ↔ (i ∈ phaseIds exampleShiftEnv exampleConditionUnit.phaseShift.active ∨
            i ∈ phaseIds exampleShiftEnv exampleConditionUnit.phaseShift.suppressed)) ∧
      Produced exampleShiftPhaseEnv exampleShiftAreaEnv exampleShiftEnv w' := by
  have t := onConditionChange_repartitions exampleConditionLaws exampleConditionWorld
    exampleConditionWorld_produced 1 exampleConditionUnit rfl
  obtain ⟨w', hw'⟩ := t.2.2.2.1
    (by
      constructor
      · intro e he hc
        simp only [exampleShiftEnv, exampleConditionUnit, List.mem_cons, List.mem_singleton,
          List.not_mem_nil, or_false] at he
        rcases he with he | he
        · rw [he]
          rfl
        · rw [he] at hc
          simp [exampleShiftEnv] at hc
      · intro e he
        cases he)
    (by intro c hc; cases hc)
  obtain ⟨o', ho'⟩ := t.2.2.1 w' hw'
  exact ⟨t.1, t.2.1, w', o', hw', ho'⟩

end TrinityCore
